import Mathlib

/-!
# ttcr: fast-marching traveltimes on unstructured meshes

A shallow embedding of `Grid2Dui.h` (local eikonal solver on triangles, point
and cell queries, slowness setter, obtuse-angle pass) and `Grid3Ducfm.h`
(fast-marching engine on tetrahedra and its `raytrace` overloads), with the
properties of the specification proved over it.

Conventions of the embedding.

* The scalar type `T1` is an arbitrary linear ordered field `α` (exact
  arithmetic; rounding is outside the model).  The one place where the source
  evaluates `0/0` is guarded explicitly: the quotient is a NaN there, and every
  comparison with a NaN is false.
* `sin`, `asin` and `pi` are arguments of the solver; statements about angles
  instantiate them with `Real.sin`, `Real.arcsin` and `Real.pi`.
* A node pointer is the index of the node in the `nodes` vector.
* An index outside its vector is undefined behaviour in the source; the
  embedding reports it as `Outcome.undefined`.
-/

namespace ttcr

/-- How a call ends: normal return with the final state, an exception that
leaves the state reached so far, `abort()`, or undefined behaviour. -/
inductive Outcome (σ : Type) where
  | ok (s : σ)
  | thrown (s : σ)
  | aborted
  | undefined

/-- The state a caller can observe after the call, if there is one. -/
def Outcome.state? {σ : Type} : Outcome σ → Option σ
  | .ok s => some s
  | .thrown s => some s
  | .aborted => none
  | .undefined => none

/-- The state after a normal return, if the call returned normally. -/
def Outcome.ok? {σ : Type} : Outcome σ → Option σ
  | .ok s => some s
  | .thrown _ => none
  | .aborted => none
  | .undefined => none

/-- Sequencing of two steps on the same state type: the second runs only after
a normal return of the first. -/
def Outcome.andThen {σ : Type} (r : Outcome σ) (f : σ → Outcome σ) : Outcome σ :=
  match r with
  | .ok s => f s
  | .thrown s => .thrown s
  | .aborted => .aborted
  | .undefined => .undefined

/-! ## Two-dimensional mesh (`Grid2Dui`) -/

/-- A C array of three elements, `x[3]`. -/
structure Arr3 (β : Type) where
  e0 : β
  e1 : β
  e2 : β

/-- Element access `x[k]` for `k < 3`. -/
def Arr3.get {β : Type} (v : Arr3 β) : Nat → β
  | 0 => v.e0
  | 1 => v.e1
  | _ => v.e2

/-- Triangle record `triangleElemAngle`: node indices `i[3]`, edge lengths
`l[3]` and interior angles `a[3]`. -/
structure triangleElemAngle (α : Type) where
  i : Arr3 Nat
  l : Arr3 α
  a : Arr3 α

/-- Registry record `virtualNode`: the two supporting nodes with the cached
angles `a[3]` and edges `e[3]` of the unfolded triangle. -/
structure virtualNode (α : Type) where
  node1 : Nat
  node2 : Nat
  a : Arr3 α
  e : Arr3 α

/-- Mesh node as used by `Grid2Dui` through the `NODE` template argument:
coordinates, grid index, slowness, per-thread traveltimes `tt[thread]`, and the
list of owning triangles. -/
structure Node (α : Type) where
  x : α
  y : α
  z : α
  gridIndex : Nat
  slowness : α
  tt : Nat → α
  owners : List Nat
  primary : Bool

/-- The data members of `Grid2Dui`. The registry `std::map<T2, virtualNode>` is
an association list in which the first entry of a key is the one in force. -/
structure Grid2Dui (α : Type) where
  nodes : List (Node α)
  neighbors : List (List Nat)
  triangles : List (triangleElemAngle α)
  virtualNodes : List (Nat × virtualNode α)

section Solver2D

variable {α : Type} [LinearOrderedField α]

/-- Read `nodes[n].getTT(threadNo)`. -/
def Grid2Dui.getTT (g : Grid2Dui α) (n threadNo : Nat) : Option α :=
  match g.nodes[n]? with
  | some nd => some (nd.tt threadNo)
  | none => none

/-- Write `nodes[n].setTT(t, threadNo)`. -/
def Grid2Dui.setTT (g : Grid2Dui α) (n threadNo : Nat) (t : α) : Grid2Dui α :=
  match g.nodes[n]? with
  | some nd =>
      { g with nodes := g.nodes.set n { nd with tt := Function.update nd.tt threadNo t } }
  | none => g

/-- Result of resolving the support of an update. -/
inductive Lookup (β : Type) where
  | found (x : β)
  | outOfRange
  | undefined

/-- The supporting vertices A, B of an update of C and the quantities
`a, b, c, alpha, beta` chosen by `localSolver`. -/
structure Support (α : Type) where
  vertexA : Nat
  vertexB : Nat
  a : α
  b : α
  c : α
  alpha : α
  beta : α

/-- The search `for ( i0=0; i0<3; ++i0 ) if ( gridIndex == i[i0] ) break;`.
`none` stands for `i0 == 3`: no vertex of the triangle is the node. -/
def findI0 (gridIndex : Nat) (tri : triangleElemAngle α) : Option Nat :=
  if gridIndex = tri.i.get 0 then some 0
  else if gridIndex = tri.i.get 1 then some 1
  else if gridIndex = tri.i.get 2 then some 2
  else none

/-- Lines 736-769 of `localSolver`: choice of the support of the update of
the node with grid index `gridIndexC` in triangle `triangleNo`. -/
def support (pi : α) (g : Grid2Dui α) (gridIndexC triangleNo : Nat) : Lookup (Support α) :=
  match g.triangles[triangleNo]? with
  | none => .undefined
  | some tri =>
    match findI0 gridIndexC tri with
    | none => .undefined
    | some i0 =>
      if tri.a.get i0 > pi / 2 ∧ g.virtualNodes.isEmpty = false then
        match g.virtualNodes.lookup triangleNo with
        | none => .outOfRange
        | some vn =>
          .found { vertexA := vn.node1, vertexB := vn.node2,
                   c := vn.e.get 0, a := vn.e.get 1, b := vn.e.get 2,
                   alpha := vn.a.get 2, beta := vn.a.get 1 }
      else
        let i1 := (i0 + 1) % 3
        let i2 := (i0 + 2) % 3
        .found { vertexA := tri.i.get i1, vertexB := tri.i.get i2,
                 c := tri.l.get i0, a := tri.l.get i1, b := tri.l.get i2,
                 alpha := tri.a.get i2, beta := tri.a.get i1 }

/-- The edge-limited value of lines 787-789 and 794-796. -/
def edgeLimited (sp : Support α) (tA tB sC : α) : α :=
  let t := tA + sp.b * sC
  if t < tB + sp.a * sC then t else tB + sp.a * sC

/-- The acceptance test of line 776-777 on `theta`. -/
def coneTest (pi : α) (sp : Support α) (theta : α) : Prop :=
  let pi2 := pi / 2
  ((if 0 > sp.alpha - pi2 then 0 else sp.alpha - pi2) ≤ theta ∧ theta ≤ pi2 - sp.beta) ∨
  (sp.alpha - pi2 ≤ theta ∧ theta ≤ (if 0 < pi2 - sp.beta then 0 else pi2 - sp.beta))

instance (pi : α) (sp : Support α) (theta : α) : Decidable (coneTest pi sp theta) := by
  unfold coneTest
  infer_instance

/-- The wavefront value of lines 778-782. -/
def wavefront (sin : α → α) (sp : Support α) (theta tA tB sC : α) : α :=
  let h := sp.a * sin (sp.alpha - theta)
  let H := sp.b * sin (sp.beta + theta)
  (1 / 2) * (h * sC + tB) + (1 / 2) * (H * sC + tA)

/-- The candidate time `t` of one owning triangle (lines 771-799), from the
traveltimes `tA`, `tB` of the supporting vertices and the slowness `sC` at C.
When `c * sC` is zero the quotient under `asin` is `0/0`, a NaN, and the
acceptance test fails. -/
def candidate (sin asin : α → α) (pi : α) (sp : Support α) (tA tB sC : α) : α :=
  if |tB - tA| ≤ sp.c * sC then
    if sp.c * sC = 0 then edgeLimited sp tA tB sC
    else
      let theta := asin (|tB - tA| / (sp.c * sC))
      if coneTest pi sp theta then wavefront sin sp theta tA tB sC
      else edgeLimited sp tA tB sC
  else edgeLimited sp tA tB sC

/-- One iteration of the loop over the owners of C in `localSolver`. -/
def localSolverStep (sin asin : α → α) (pi : α) (vertexC threadNo : Nat)
    (g : Grid2Dui α) (triangleNo : Nat) : Outcome (Grid2Dui α) :=
  match g.nodes[vertexC]? with
  | none => .undefined
  | some nodeC =>
    match support pi g nodeC.gridIndex triangleNo with
    | .undefined => .undefined
    | .outOfRange => .thrown g
    | .found sp =>
      match g.getTT sp.vertexA threadNo, g.getTT sp.vertexB threadNo with
      | some tA, some tB =>
        let t := candidate sin asin pi sp tA tB nodeC.slowness
        if t < nodeC.tt threadNo then .ok (g.setTT vertexC threadNo t) else .ok g
      | _, _ => .undefined

/-- The loop `for ( no=0; no<owners.size(); ++no )` of `localSolver`. -/
def localSolverLoop (sin asin : α → α) (pi : α) (vertexC threadNo : Nat) :
    List Nat → Grid2Dui α → Outcome (Grid2Dui α)
  | [], g => .ok g
  | triangleNo :: rest, g =>
    (localSolverStep sin asin pi vertexC threadNo g triangleNo).andThen
      (localSolverLoop sin asin pi vertexC threadNo rest)

/-- `Grid2Dui::localSolver(vertexC, threadNo)`. -/
def localSolver (sin asin : α → α) (pi : α) (g : Grid2Dui α) (vertexC threadNo : Nat) :
    Outcome (Grid2Dui α) :=
  match g.nodes[vertexC]? with
  | none => .undefined
  | some nodeC => localSolverLoop sin asin pi vertexC threadNo nodeC.owners g

end Solver2D

/-! ## Three-dimensional fast marching (`Grid3Ducfm`) -/

/-- Point record `sxyz`. -/
structure sxyz (α : Type) where
  x : α
  y : α
  z : α
  deriving DecidableEq

/-- The mesh seen by `Grid3Ducfm`. The connectivity tables are those filled by
`buildGridNodes` and `buildGridNeighbors`. The members inherited from
`Grid3Duc` and `Node3Dc`, and the heap algorithms of the standard library used
by `std::priority_queue`, are not part of `Grid3Ducfm.h`: they are fields of
the record, so that every statement holds whatever they compute. -/
structure Grid3Ducfm (α : Type) where
  /-- Number of cells: `neighbors.size()`, `slowness.size()`. -/
  nCells : Nat
  /-- Owner list `nodes[n].getOwners()`. -/
  owners : Nat → List Nat
  /-- Node list `neighbors[cellNo]`. -/
  neighbors : Nat → List Nat
  /-- Cell slowness `slowness[cellNo]`. -/
  slowness : Nat → α
  /-- Static member `source_radius`. -/
  source_radius : α
  /-- Value stored by `Node3Dc::reinit`. -/
  ttReinit : α
  /-- Comparison `nodes[nn] == pt`. -/
  nodeEq : Nat → sxyz α → Bool
  /-- Result of `getCellNo(pt)`. -/
  getCellNo : sxyz α → Nat
  /-- Result of `computeDt(nodes[n1], nodes[n2], cellNo)`. -/
  computeDt : Nat → Nat → Nat → α
  /-- Result of `computeDt(nodes[n], pt, cellNo)`. -/
  computeDtPt : Nat → sxyz α → Nat → α
  /-- Result of `nodes[n1].getDistance(nodes[n2])`. -/
  getDistance : Nat → Nat → α
  /-- Result of `nodes[n].getDistance(pt)`. -/
  getDistancePt : Nat → sxyz α → α
  /-- Traveltime that `localUpdate3D(&nodes[n], threadNo)` leaves in node `n`,
  from the traveltimes of the thread. -/
  localUpdate3D : List α → Nat → α
  /-- Result of `getTraveltime(pt, nodes, threadNo)`, from the traveltimes of
  the thread. -/
  getTraveltime : sxyz α → List α → α
  /-- Whether `checkPts(pts)` throws. -/
  checkPts : List (sxyz α) → Bool
  /-- Algorithm `std::push_heap` on the whole container. -/
  push_heap : (Nat → Nat → Bool) → List Nat → List Nat
  /-- Algorithm `std::pop_heap` on the whole container. -/
  pop_heap : (Nat → Nat → Bool) → List Nat → List Nat

/-- The heap algorithms work in place on a range: they keep its length. -/
def Grid3Ducfm.HeapInPlace {α : Type} (g : Grid3Ducfm α) : Prop :=
  ∀ (cmp : Nat → Nat → Bool) (c : List Nat),
    (g.push_heap cmp c).length = c.length ∧ (g.pop_heap cmp c).length = c.length

/-- State of one fast-marching run on a thread: the traveltimes `tt` of the
thread, one entry per node, the container of the narrow band, and the two
flag vectors. `popped` and `updated` are ghost logs: the nodes popped with
their traveltime at that moment, and the targets of the local update with
the value of their frozen flag at the call. -/
structure FMState (α : Type) where
  tt : List α
  narrow_band : List Nat
  inBand : Nat → Bool
  frozen : Nat → Bool
  popped : List (Nat × α)
  updated : List (Nat × Bool)

/-- Run a loop body over a list, stopping at the first abnormal outcome. -/
def Outcome.forEach {σ β : Type} (f : β → σ → Outcome σ) : List β → σ → Outcome σ
  | [], s => .ok s
  | x :: xs, s => (f x s).andThen (Outcome.forEach f xs)

section FastMarching

variable {α : Type} [LinearOrderedField α]

/-- Modelled from the spec: the comparator `CompareNodePtr` of the narrow band,
declared outside `Grid3Ducfm.h`; the band is "a min-priority queue keyed by T",
so a node is ordered below another when its traveltime is greater. -/
def CompareNodePtr (tt : List α) (n1 n2 : Nat) : Bool :=
  match tt[n1]?, tt[n2]? with
  | some t1, some t2 => decide (t1 > t2)
  | _, _ => false

/-- The call `narrow_band.push( &(nodes[n]) )`: `push_back` then `push_heap`. -/
def FMState.push (g : Grid3Ducfm α) (s : FMState α) (n : Nat) : FMState α :=
  { s with narrow_band := g.push_heap (CompareNodePtr s.tt) (s.narrow_band ++ [n]) }

/-- The statements `inBand[n] = true; frozen[n] = true;` of `initBand`. -/
def FMState.markSeed (s : FMState α) (n : Nat) : FMState α :=
  { s with inBand := Function.update s.inBand n true,
           frozen := Function.update s.frozen n true }

/-- Lines 383-386, 400-405 and 465-468: store the time `t` at node `n`, push the node and
set its two flags. -/
def seedNode (g : Grid3Ducfm α) (s : FMState α) (n : Nat) (t : α) : FMState α :=
  (({ s with tt := s.tt.set n t } : FMState α).push g n).markSeed n

/-- The statement `inNarrowBand[n] = true;` of `propagate`. -/
def FMState.markBand (s : FMState α) (n : Nat) : FMState α :=
  { s with inBand := Function.update s.inBand n true }

/-- The relaxation of lines 399-407, 429-438 and 481-490 for node `no` and
candidate time `t`; the second component counts `nodes_added`. -/
def relaxSeed (g : Grid3Ducfm α) (t : α) (no : Nat) (st : FMState α × Nat) :
    Outcome (FMState α × Nat) :=
  match st.1.tt[no]? with
  | none => .undefined
  | some told =>
    if t < told then
      if st.1.inBand no = false then
        .ok (seedNode g st.1 no t, st.2 + 1)
      else .ok ({ st.1 with tt := st.1.tt.set no t }, st.2)
    else .ok st

/-- Lines 394-408: the neighbours of the source node `nn` in one owning cell. -/
def seedCellNeighbors (g : Grid3Ducfm α) (nn : Nat) (t0n : α) (cellNo : Nat)
    (st : FMState α × Nat) : Outcome (FMState α × Nat) :=
  if cellNo < g.nCells then
    Outcome.forEach
      (fun neibNo st =>
        if neibNo = nn then .ok st
        else relaxSeed g (t0n + g.computeDt nn neibNo cellNo) neibNo st)
      (g.neighbors cellNo) st
  else .undefined

/-- Lines 422-426: the average slowness of the cells touching node `nn`;
`none` when an owner is not a cell. -/
def sourceSlowness (g : Grid3Ducfm α) (nn : Nat) : Option α :=
  if ∀ c ∈ g.owners nn, c < g.nCells then
    some (((g.owners nn).map g.slowness).sum / ((g.owners nn).length : α))
  else none

/-- Lines 414-440: one node `no` of the scan around a source on node `nn`.
With no owner the average slowness is `0/0`, a NaN, and nothing is stored. -/
def seedRadiusNode (g : Grid3Ducfm α) (nn : Nat) (t0n : α) (no : Nat)
    (st : FMState α × Nat) : Outcome (FMState α × Nat) :=
  if no = nn then .ok st
  else if g.getDistance nn no ≤ g.source_radius then
    match sourceSlowness g nn with
    | none => .undefined
    | some slown =>
      if (g.owners nn).length = 0 then .ok st
      else relaxSeed g (t0n + g.getDistance nn no * slown) no st
  else .ok st

/-- Lines 441-446: `abort()` when no node was added. -/
def checkAdded (r : Outcome (FMState α × Nat)) : Outcome (FMState α) :=
  match r with
  | .ok st => if st.2 = 0 then .aborted else .ok st.1
  | .thrown st => .thrown st.1
  | .aborted => .aborted
  | .undefined => .undefined

/-- Projection of an outcome on the state, forgetting the counter. -/
def dropCount (r : Outcome (FMState α × Nat)) : Outcome (FMState α) :=
  match r with
  | .ok st => .ok st.1
  | .thrown st => .thrown st.1
  | .aborted => .aborted
  | .undefined => .undefined

/-- Lines 382-450: source `n` of `numTx` sources found on node `nn`. -/
def seedOnNode (g : Grid3Ducfm α) (numTx : Nat) (nn : Nat) (t0n : Option α)
    (s : FMState α) : Outcome (FMState α) :=
  match t0n with
  | none => .undefined
  | some t =>
    if numTx = 1 then
      if g.source_radius = 0 then
        dropCount (Outcome.forEach (seedCellNeighbors g nn t) (g.owners nn)
          (seedNode g s nn t, 0))
      else
        checkAdded (Outcome.forEach (seedRadiusNode g nn t) (List.range s.tt.length)
          (seedNode g s nn t, 0))
    else .ok (seedNode g s nn t)

/-- Lines 459-469: one node of the cell holding a source that is on no node. -/
def seedCellNode (g : Grid3Ducfm α) (p : sxyz α) (t0n : Option α) (cellNo : Nat)
    (neibNo : Nat) (s : FMState α) : Outcome (FMState α) :=
  match t0n with
  | none => .undefined
  | some t =>
    if s.tt.length ≤ neibNo then .undefined
    else .ok (seedNode g s neibNo (t + g.computeDtPt neibNo p cellNo))

/-- Lines 474-492: one node `no` of the scan around a source that is on no
node. -/
def seedRadiusPoint (g : Grid3Ducfm α) (p : sxyz α) (t0n : Option α) (cellNo : Nat)
    (no : Nat) (st : FMState α × Nat) : Outcome (FMState α × Nat) :=
  if g.getDistancePt no p ≤ g.source_radius then
    if cellNo < g.nCells then
      match t0n with
      | none => .undefined
      | some t => relaxSeed g (t + g.getDistancePt no p * g.slowness cellNo) no st
    else .undefined
  else .ok st

/-- Lines 453-500: source `n` of `numTx` sources found on no node. -/
def seedInCell (g : Grid3Ducfm α) (numTx : Nat) (p : sxyz α) (t0n : Option α)
    (s : FMState α) : Outcome (FMState α) :=
  if g.source_radius = 0 then
    if g.getCellNo p < g.nCells then
      Outcome.forEach (seedCellNode g p t0n (g.getCellNo p)) (g.neighbors (g.getCellNo p)) s
    else .undefined
  else if numTx = 1 then
    checkAdded (Outcome.forEach (seedRadiusPoint g p t0n (g.getCellNo p))
      (List.range s.tt.length) (s, 0))
  else .ok s

/-- The search of lines 380-381 for the first node equal to the point. -/
def findNode (g : Grid3Ducfm α) (numNodes : Nat) (p : sxyz α) : Option Nat :=
  (List.range numNodes).find? (fun nn => g.nodeEq nn p)

/-- One iteration of the loop over the sources in `initBand`. -/
def initSource (g : Grid3Ducfm α) (numTx : Nat) (p : sxyz α) (t0n : Option α)
    (s : FMState α) : Outcome (FMState α) :=
  match findNode g s.tt.length p with
  | some nn => seedOnNode g numTx nn t0n s
  | none => seedInCell g numTx p t0n s

/-- The loop `for ( n=0; n<Tx.size(); ++n )` of `initBand`, from source `n` on;
`rest` holds `Tx[n], Tx[n+1], ...`. -/
def initBandLoop (g : Grid3Ducfm α) (numTx : Nat) (t0 : List α) :
    Nat → List (sxyz α) → FMState α → Outcome (FMState α)
  | _, [], s => .ok s
  | n, p :: rest, s =>
    (initSource g numTx p t0[n]? s).andThen (initBandLoop g numTx t0 (n + 1) rest)

/-- `Grid3Ducfm::initBand`. -/
def initBand (g : Grid3Ducfm α) (Tx : List (sxyz α)) (t0 : List α) (s : FMState α) :
    Outcome (FMState α) :=
  initBandLoop g Tx.length t0 0 Tx s

/-- Lines 524-535: one neighbour `neibNo` of the node `source` just popped. -/
def updateNeighbor (g : Grid3Ducfm α) (source neibNo : Nat) (s : FMState α) :
    Outcome (FMState α) :=
  if neibNo = source then .ok s
  else if s.tt.length ≤ neibNo then .undefined
  else if s.frozen neibNo = true then .ok s
  else if s.inBand neibNo = false then
    .ok ((({ s with tt := s.tt.set neibNo (g.localUpdate3D s.tt neibNo),
                    updated := s.updated ++ [(neibNo, s.frozen neibNo)] } : FMState α).push g
          neibNo).markBand neibNo)
  else
    .ok { s with tt := s.tt.set neibNo (g.localUpdate3D s.tt neibNo),
                 updated := s.updated ++ [(neibNo, s.frozen neibNo)] }

/-- Lines 521-536: one owning cell of the node just popped. -/
def updateCell (g : Grid3Ducfm α) (source cellNo : Nat) (s : FMState α) :
    Outcome (FMState α) :=
  if cellNo < g.nCells then Outcome.forEach (updateNeighbor g source) (g.neighbors cellNo) s
  else .undefined

/-- Lines 514-517: `top()`, `pop()` and the two flag updates. `top()` is the
front of the container; `pop()` is `pop_heap` followed by `pop_back`. -/
def popSource (g : Grid3Ducfm α) (s : FMState α) (source : Nat) (tsrc : α) : FMState α :=
  { s with narrow_band := (g.pop_heap (CompareNodePtr s.tt) s.narrow_band).dropLast,
           inBand := Function.update s.inBand source false,
           frozen := Function.update s.frozen source true,
           popped := s.popped ++ [(source, tsrc)] }

/-- One iteration of the `while` loop of `propagate` (the band is not empty). -/
def propagateStep (g : Grid3Ducfm α) (s : FMState α) : Outcome (FMState α) :=
  match s.narrow_band with
  | [] => .ok s
  | source :: _ =>
    match s.tt[source]? with
    | none => .undefined
    | some tsrc =>
      Outcome.forEach (updateCell g source) (g.owners source) (popSource g s source tsrc)

/-- `Grid3Ducfm::propagate`, with a bound on the number of iterations of the
`while` loop; `none` when the bound is reached with a non-empty band. -/
def propagate (g : Grid3Ducfm α) : Nat → FMState α → Option (Outcome (FMState α))
  | 0, s => if s.narrow_band.isEmpty then some (.ok s) else none
  | fuel + 1, s =>
    if s.narrow_band.isEmpty then some (.ok s)
    else
      match propagateStep g s with
      | .ok s1 => propagate g fuel s1
      | .thrown s1 => some (.thrown s1)
      | .aborted => some .aborted
      | .undefined => some .undefined

/-- Number of nodes that are neither frozen nor in the band. -/
def FMState.farCount (s : FMState α) : Nat :=
  ((List.range s.tt.length).filter (fun n => !s.frozen n && !s.inBand n)).length

/-- A number of iterations that `propagate` never exceeds: the size of the
band plus the number of nodes that may still enter it. -/
def FMState.bound (s : FMState α) : Nat :=
  s.narrow_band.length + s.farCount

/-- Result of a `raytrace` call: the per-thread traveltime arrays of the nodes
and the output argument `traveltimes`. -/
structure RayState (α β : Type) where
  nodes : List (Nat → α)
  traveltimes : β

/-- Image of an outcome under a function of the state. -/
def Outcome.map {σ τ : Type} (f : σ → τ) : Outcome σ → Outcome τ
  | .ok s => .ok (f s)
  | .thrown s => .thrown (f s)
  | .aborted => .aborted
  | .undefined => .undefined

/-- The loop `for n: nodes[n].reinit( threadNo )`. -/
def reinit (g : Grid3Ducfm α) (nodes : List (Nat → α)) (threadNo : Nat) : List (Nat → α) :=
  nodes.map (fun tt => Function.update tt threadNo g.ttReinit)

/-- The traveltimes of thread `threadNo`, node by node. -/
def threadTT (nodes : List (Nat → α)) (threadNo : Nat) : List α :=
  nodes.map (fun tt => tt threadNo)

/-- The nodes with the traveltimes of thread `threadNo` replaced by `tt`. -/
def storeTT (nodes : List (Nat → α)) (threadNo : Nat) (tt : List α) : List (Nat → α) :=
  List.zipWith (fun a v => Function.update a threadNo v) nodes tt

/-- The state built by `raytrace` before `initBand`: empty band, flag vectors
all false, traveltimes of the thread of the call. -/
def freshState (nodes : List (Nat → α)) (threadNo : Nat) : FMState α :=
  { tt := threadTT nodes threadNo, narrow_band := [], inBand := fun _ => false,
    frozen := fun _ => false, popped := [], updated := [] }

/-- Lines 180-193, common to the overloads of `raytrace`: reinitialisation,
`initBand` and `propagate`. -/
def march (g : Grid3Ducfm α) (Tx : List (sxyz α)) (t0 : List α) (nodes : List (Nat → α))
    (threadNo : Nat) : Outcome (FMState α) :=
  (initBand g Tx t0 (freshState (reinit g nodes threadNo) threadNo)).andThen
    (fun s =>
      match propagate g s.bound s with
      | some r => r
      | none => .undefined)

/-- The call `v.resize(n)` of a vector. -/
def resize {β : Type} (v : List β) (n : Nat) (fill : β) : List β :=
  (v ++ List.replicate n fill).take n

/-- Lines 195-197: `if ( v.size() != n ) v.resize( n );`. -/
def fitSize {β : Type} (v : List β) (n : Nat) (fill : β) : List β :=
  if v.length ≠ n then resize v n fill else v

/-- The loop `for n: traveltimes[n] = getTraveltime(Rx[n], nodes, threadNo)`,
from receiver `n` on. -/
def fillTraveltimes (g : Grid3Ducfm α) (tt : List α) :
    Nat → List (sxyz α) → List α → List α
  | _, [], out => out
  | n, rx :: rest, out => fillTraveltimes g tt (n + 1) rest (out.set n (g.getTraveltime rx tt))

/-- `Grid3Ducfm::raytrace(Tx, t0, Rx, traveltimes, threadNo)`, single list of
receivers. -/
def raytrace (g : Grid3Ducfm α) (Tx : List (sxyz α)) (t0 : List α) (Rx : List (sxyz α))
    (traveltimes : List α) (nodes : List (Nat → α)) (threadNo : Nat) :
    Outcome (RayState α (List α)) :=
  if g.checkPts Tx = true ∨ g.checkPts Rx = true then
    .thrown { nodes := nodes, traveltimes := traveltimes }
  else
    match march g Tx t0 nodes threadNo with
    | .ok s =>
      .ok { nodes := storeTT nodes threadNo s.tt,
            traveltimes := fillTraveltimes g s.tt 0 Rx (fitSize traveltimes Rx.length 0) }
    | .thrown s => .thrown { nodes := storeTT nodes threadNo s.tt, traveltimes := traveltimes }
    | .aborted => .aborted
    | .undefined => .undefined

/-- The loop over the receiver lists of lines 239-243, from list `nr` on. An
entry of `traveltimes` is a pointer to a vector; `none` is the null pointer. -/
def fillLists (g : Grid3Ducfm α) (tt : List α) :
    Nat → List (List (sxyz α)) → List (Option (List α)) → Option (List (Option (List α)))
  | _, [], out => some out
  | nr, rx :: rest, out =>
    match out[nr]? with
    | some (some v) =>
      fillLists g tt (nr + 1) rest
        (out.set nr (some (fillTraveltimes g tt 0 rx (resize v rx.length 0))))
    | _ => none

/-- `Grid3Ducfm::raytrace(Tx, t0, Rx, traveltimes, threadNo)`, several lists of
receivers. -/
def raytraceLists (g : Grid3Ducfm α) (Tx : List (sxyz α)) (t0 : List α)
    (Rx : List (List (sxyz α))) (traveltimes : List (Option (List α)))
    (nodes : List (Nat → α)) (threadNo : Nat) :
    Outcome (RayState α (List (Option (List α)))) :=
  if g.checkPts Tx = true ∨ (∃ rx ∈ Rx, g.checkPts rx = true) then
    .thrown { nodes := nodes, traveltimes := traveltimes }
  else
    match march g Tx t0 nodes threadNo with
    | .ok s =>
      match fillLists g s.tt 0 Rx (fitSize traveltimes Rx.length none) with
      | some res => .ok { nodes := storeTT nodes threadNo s.tt, traveltimes := res }
      | none => .undefined
    | .thrown s => .thrown { nodes := storeTT nodes threadNo s.tt, traveltimes := traveltimes }
    | .aborted => .aborted
    | .undefined => .undefined

end FastMarching

/-! ## A binary heap for the narrow band

The heap algorithms as the usual implementations of the standard library
write them (sift-up for `push_heap`; for `pop_heap`, the hole is moved down to
a leaf and the last element is sifted up from there). -/

/-- Sift `value` up from `hole` towards the root. -/
def siftUp (comp : Nat → Nat → Bool) (value : Nat) : Nat → Nat → List Nat → List Nat
  | 0, hole, c => c.set hole value
  | fuel + 1, hole, c =>
    let parent := (hole - 1) / 2
    if 0 < hole ∧ comp (c.getD parent 0) value = true then
      siftUp comp value fuel parent (c.set hole (c.getD parent 0))
    else c.set hole value

/-- Binary-heap `push_heap`: the last element of the container is inserted in
the heap formed by the others. -/
def siftPushHeap (comp : Nat → Nat → Bool) (c : List Nat) : List Nat :=
  match c.getLast? with
  | none => c
  | some value => siftUp comp value c.length (c.length - 1) c

/-- Move the hole down to a leaf of the heap of length `len`, promoting at each
level the child that the comparator puts on top. -/
def siftDown (comp : Nat → Nat → Bool) (len : Nat) : Nat → Nat → List Nat → Nat × List Nat
  | 0, hole, c => (hole, c)
  | fuel + 1, hole, c =>
    if hole < (len - 1) / 2 then
      let right := 2 * (hole + 1)
      let child := if comp (c.getD right 0) (c.getD (right - 1) 0) = true then right - 1 else right
      siftDown comp len fuel child (c.set hole (c.getD child 0))
    else (hole, c)

/-- Re-insert `value` in a heap of length `len` whose root is a hole. -/
def adjustHeap (comp : Nat → Nat → Bool) (len : Nat) (value : Nat) (c : List Nat) : List Nat :=
  let r := siftDown comp len len 0 c
  let r2 : Nat × List Nat :=
    if len % 2 = 0 ∧ r.1 = (len - 2) / 2 then
      (2 * (r.1 + 1) - 1, r.2.set r.1 (r.2.getD (2 * (r.1 + 1) - 1) 0))
    else r
  siftUp comp value len r2.1 r2.2

/-- Binary-heap `pop_heap`: the top goes to the last position and the others
form a heap again. -/
def siftPopHeap (comp : Nat → Nat → Bool) (c : List Nat) : List Nat :=
  if 1 < c.length then
    adjustHeap comp (c.length - 1) (c.getD (c.length - 1) 0) (c.set (c.length - 1) (c.getD 0 0))
  else c

/-! ## Predicates and example meshes used by the statements -/

/-- The quantities of a support are those of a genuine triangle ABC: `a`, `b`,
`c` are positive lengths obeying the triangle inequalities (the distances
|BC|, |AC|, |AB| between three points), and `alpha`, `beta` are the interior
angles at B and at A given by the law of cosines, the formula by which the
source computes angles from edge lengths. This is what `localSolver` reads from
an element whose `l[k]` is the length of the edge opposite vertex `k` and whose
`a[k]` is the interior angle at vertex `k`: `alpha` is `a[i2]`, the angle at B,
and `beta` is `a[i1]`, the angle at A. -/
def TriangleConsistent (sp : Support ℝ) : Prop :=
  0 < sp.a ∧ 0 < sp.b ∧ 0 < sp.c ∧
  sp.a ≤ sp.b + sp.c ∧ sp.b ≤ sp.a + sp.c ∧ sp.c ≤ sp.a + sp.b ∧
  sp.alpha = Real.arccos ((sp.c * sp.c + sp.a * sp.a - sp.b * sp.b) / (2 * sp.a * sp.c)) ∧
  sp.beta = Real.arccos ((sp.b * sp.b + sp.c * sp.c - sp.a * sp.a) / (2 * sp.b * sp.c))

/-- A mesh of one triangle with nodes (0,0), (4,0), (4,3), unit slowness, the
interior angles `a0 a1 a2` and the traveltimes `t0 t1 t2` at the nodes. -/
def oneTriangle {α : Type} [LinearOrderedField α] (a0 a1 a2 t0 t1 t2 : α) : Grid2Dui α :=
  { nodes :=
      [ { x := 0, y := 0, z := 0, gridIndex := 0, slowness := 1, tt := fun _ => t0,
          owners := [0], primary := true },
        { x := 4, y := 0, z := 0, gridIndex := 1, slowness := 1, tt := fun _ => t1,
          owners := [0], primary := true },
        { x := 4, y := 0, z := 3, gridIndex := 2, slowness := 1, tt := fun _ => t2,
          owners := [0], primary := true } ]
    neighbors := [[0, 1, 2]]
    triangles := [ { i := ⟨0, 1, 2⟩, l := ⟨3, 5, 4⟩, a := ⟨a0, a1, a2⟩ } ]
    virtualNodes := [] }

/-- Coordinates of the four nodes of the example tetrahedron. -/
def tetNode : Nat → sxyz ℚ
  | 0 => ⟨-12, -4, -3⟩
  | 1 => ⟨12, 4, -3⟩
  | 2 => ⟨-12, 4, 6⟩
  | _ => ⟨12, -4, 6⟩

/-- A point strictly inside the example tetrahedron, at distances 13, 13, 14,
14 from its nodes. -/
def srcA : sxyz ℚ := ⟨0, 0, 0⟩

/-- A second point strictly inside the example tetrahedron, at distances 14,
14, 13, 13 from its nodes. -/
def srcB : sxyz ℚ := ⟨0, 0, 3⟩

/-- Euclidean distance from node `n` of the example tetrahedron to `srcA` or to
`srcB`; 0 for any other point. -/
def tetDistance (n : Nat) (p : sxyz ℚ) : ℚ :=
  if p = srcA then (if n < 2 then 13 else 14)
  else if p = srcB then (if n < 2 then 14 else 13)
  else 0

/-- A mesh of one tetrahedron with the nodes `tetNode 0 .. tetNode 3`, unit
slowness, source radius 0 and the binary heap. Distances between two nodes
are rounded to integers; the local update leaves the traveltime of its target
as it is. -/
def tetMesh : Grid3Ducfm ℚ :=
  { nCells := 1
    owners := fun n => if n < 4 then [0] else []
    neighbors := fun c => if c = 0 then [0, 1, 2, 3] else []
    slowness := fun _ => 1
    source_radius := 0
    ttReinit := 1000
    nodeEq := fun n p => decide (n < 4 ∧ p = tetNode n)
    getCellNo := fun _ => 0
    computeDt := fun n1 n2 _ =>
      if n1 = n2 then 0 else if n1 + n2 = 3 then 26 else if (n1 + n2) % 2 = 0 then 12 else 25
    computeDtPt := fun n p _ => 1 * tetDistance n p
    getDistance := fun n1 n2 =>
      if n1 = n2 then 0 else if n1 + n2 = 3 then 26 else if (n1 + n2) % 2 = 0 then 12 else 25
    getDistancePt := tetDistance
    localUpdate3D := fun tt n => tt.getD n 0
    getTraveltime := fun p tt => (tt.getD 0 0) + tetDistance 0 p
    checkPts := fun _ => false
    push_heap := siftPushHeap
    pop_heap := siftPopHeap }

/-- Traveltimes of four nodes with one thread, all zero. -/
def fourNodes : List (Nat → ℚ) := [fun _ => 0, fun _ => 0, fun _ => 0, fun _ => 0]

/-- Relation between a state of `propagate` and a later one: the number of
nodes is the same, frozen nodes stay frozen with the same traveltime, every
node popped in between is frozen and still has the traveltime logged at its
pop, and every local update in between was called on a node that was not
frozen. -/
structure Advances {α : Type} (s s1 : FMState α) : Prop where
  len : s1.tt.length = s.tt.length
  frozen_keep : ∀ n, s.frozen n = true → s1.frozen n = true
  tt_keep : ∀ n, s.frozen n = true → s1.tt[n]? = s.tt[n]?
  popped_ext : ∃ l, s1.popped = s.popped ++ l ∧
    ∀ e ∈ l, s1.frozen e.1 = true ∧ s1.tt[e.1]? = some e.2
  updated_ext : ∃ l, s1.updated = s.updated ++ l ∧ ∀ e ∈ l, e.2 = false

/-- Relation between a state of `initBand` and a later one when only nodes in
`W` may have been written: the number of nodes is the same, and a node outside
`W` keeps its traveltime and, if set, its frozen flag. -/
def Touches {α : Type} (W : Nat → Prop) (s s1 : FMState α) : Prop :=
  s1.tt.length = s.tt.length ∧
  ∀ v, ¬ W v → s1.tt[v]? = s.tt[v]? ∧ (s.frozen v = true → s1.frozen v = true)

/-! ## Mesh queries of `Grid2Dui`

Loop counters of the index type `T2` that run over a whole vector are natural
numbers, except in `getCellNo`, whose result is compared with `(T2)(-1)`: there
`T2` has `w` bits. A quotient by zero is infinite or a NaN in the source; where
a test reads such a value, the embedding guards the test explicitly. -/

/-- Point record `sxz`. -/
structure sxz (α : Type) where
  x : α
  z : α
  deriving DecidableEq

section Queries2D

variable {α : Type} [LinearOrderedField α]

/-- Modelled from the spec: `det` on two `sxz` vectors, the determinant `det2`
of the geometry kernel, declared outside `Grid2Dui.h`. -/
def det (v1 v2 : sxz α) : α :=
  v1.x * v2.z - v1.z * v2.x

/-- Modelled from the spec: the difference of two `sxyz` vectors (operator
`-=`), declared outside `Grid2Dui.h`. -/
def sxyz.sub (a p : sxyz α) : sxyz α :=
  ⟨a.x - p.x, a.y - p.y, a.z - p.z⟩

/-- Modelled from the spec: `cross` on two `sxyz` vectors, declared outside
`Grid2Dui.h`. -/
def cross (a b : sxyz α) : sxyz α :=
  ⟨a.y * b.z - a.z * b.y, a.z * b.x - a.x * b.z, a.x * b.y - a.y * b.x⟩

/-- Modelled from the spec: `dot` on two `sxyz` vectors, declared outside
`Grid2Dui.h`. -/
def dot (a b : sxyz α) : α :=
  a.x * b.x + a.y * b.y + a.z * b.z

/-- The corners `nodes[ triangles[nt].i[k] ]`, `k = 0, 1, 2`, of triangle `nt`;
`none` when an index is outside its vector. -/
def Grid2Dui.corners (g : Grid2Dui α) (nt : Nat) : Option (Node α × Node α × Node α) :=
  match g.triangles[nt]? with
  | none => none
  | some tri =>
    match g.nodes[tri.i.get 0]?, g.nodes[tri.i.get 1]?, g.nodes[tri.i.get 2]? with
    | some n0, some n1, some n2 => some (n0, n1, n2)
    | _, _, _ => none

/-- Line 398: `v0`, the first corner. -/
def cornerV0 (n0 : Node α) : sxz α :=
  ⟨n0.x, n0.z⟩

/-- Lines 400-403: `v1` and `v2`, a corner relative to the first one. -/
def cornerRel (n0 nk : Node α) : sxz α :=
  ⟨nk.x - (cornerV0 n0).x, nk.z - (cornerV0 n0).z⟩

/-- Line 406: the coefficient `a`. -/
def baryA (v : sxz α) (n0 n1 n2 : Node α) : α :=
  (det v (cornerRel n0 n2) - det (cornerV0 n0) (cornerRel n0 n2)) *
    (1 / det (cornerRel n0 n1) (cornerRel n0 n2))

/-- Line 407: the coefficient `b`. -/
def baryB (v : sxz α) (n0 n1 n2 : Node α) : α :=
  -(det v (cornerRel n0 n1) - det (cornerV0 n0) (cornerRel n0 n1)) *
    (1 / det (cornerRel n0 n1) (cornerRel n0 n2))

/-- Lines 405-408 on the three corners. When the determinant is zero `invDenom`
is infinite, `a` and `b` are infinite or NaN, and the conjunction of line 408 is
false whatever their signs. -/
def insideCorners (v : sxz α) (n0 n1 n2 : Node α) : Bool :=
  if det (cornerRel n0 n1) (cornerRel n0 n2) = 0 then false
  else
    decide (baryA v n0 n1 n2 ≥ 0) && decide (baryB v n0 n1 n2 ≥ 0) &&
      decide (baryA v n0 n1 n2 + baryB v n0 n1 n2 < 1)

/-- `Grid2Dui::insideTriangle(const sxz<T1>& v, const T2 nt)`. -/
def insideTriangle (g : Grid2Dui α) (v : sxz α) (nt : Nat) : Option Bool :=
  match g.corners nt with
  | none => none
  | some c => some (insideCorners v c.1 c.2.1 c.2.2)

/-- A corner as an `sxyz` point. -/
def cornerXYZ (n : Node α) : sxyz α :=
  ⟨n.x, n.y, n.z⟩

/-- Lines 426-437 on the three corners. -/
def insideCorners_sxyz (p : sxyz α) (n0 n1 n2 : Node α) : Bool :=
  if dot (cross ((cornerXYZ n1).sub p) ((cornerXYZ n2).sub p))
      (cross ((cornerXYZ n2).sub p) ((cornerXYZ n0).sub p)) < 0 then false
  else if dot (cross ((cornerXYZ n1).sub p) ((cornerXYZ n2).sub p))
      (cross ((cornerXYZ n0).sub p) ((cornerXYZ n1).sub p)) < 0 then false
  else true

/-- `Grid2Dui::insideTriangle(const sxyz<T1>& p, const T2 nt)`. -/
def insideTriangle_sxyz (g : Grid2Dui α) (p : sxyz α) (nt : Nat) : Option Bool :=
  match g.corners nt with
  | none => none
  | some c => some (insideCorners_sxyz p c.1 c.2.1 c.2.2)

/-- What `Grid2Dui` takes from its template arguments `NODE` and `S` and from
`Interpolator`, all declared outside `Grid2Dui.h`, with the overload of
`insideTriangle` that the point type `S` selects. -/
structure PointOps (α S : Type) where
  /-- Comparison `node == pt`. -/
  nodeEq : Node α → S → Bool
  /-- Result of `node.getDistance( pt )`. -/
  getDistance : Node α → S → α
  /-- Result of `Interpolator<T1>::inverseDistance( pt, interpNodes )`. -/
  inverseDistance : S → List (Node α) → α
  /-- The overload `insideTriangle(const S&, const T2)`. -/
  insideTriangle : Grid2Dui α → S → Nat → Option Bool

/-- The point type `sxz`. -/
def sxzOps (nodeEq : Node α → sxz α → Bool) (getDistance : Node α → sxz α → α)
    (inverseDistance : sxz α → List (Node α) → α) : PointOps α (sxz α) :=
  ⟨nodeEq, getDistance, inverseDistance, insideTriangle⟩

/-- The point type `sxyz`. -/
def sxyzOps (nodeEq : Node α → sxyz α → Bool) (getDistance : Node α → sxyz α → α)
    (inverseDistance : sxyz α → List (Node α) → α) : PointOps α (sxyz α) :=
  ⟨nodeEq, getDistance, inverseDistance, insideTriangle_sxyz⟩

variable {S : Type}

/-- The loop of lines 348-352 and 376-380 over the triangles, which does not
stop at the first hit; `none` when a triangle refers to a missing node. -/
def scanTriangles (inside : Nat → Option Bool) : List Nat → Bool → Option Bool
  | [], found => some found
  | nt :: rest, found =>
    match inside nt with
    | none => none
    | some b => scanTriangles inside rest (if b = true then true else found)

/-- Lines 339-353 and 367-381: the value of `found` for one point. -/
def pointFound (ops : PointOps α S) (g : Grid2Dui α) (pt : S) : Option Bool :=
  if g.nodes.any (fun nd => ops.nodeEq nd pt) = true then some true
  else scanTriangles (ops.insideTriangle g pt) (List.range g.triangles.length) false

/-- `Grid2Dui::checkPts`, either overload: the returned status. -/
def checkPts (ops : PointOps α S) (g : Grid2Dui α) : List S → Option Int
  | [] => some 0
  | pt :: rest =>
    match pointFound ops g pt with
    | none => none
    | some false => some 1
    | some true => checkPts ops g rest

/-- The value of `-1` converted to the unsigned index type `T2` of `w` bits. -/
def noCell (w : Nat) : Nat :=
  ((-1 : Int) % 2 ^ w).toNat

/-- The loop of `getCellNo` from counter `n` on, for at most `fuel` iterations;
the counter has type `T2` and wraps at `2 ^ w`. `none` when a triangle refers
to a missing node or the iterations are used up. -/
def getCellNoLoop (w : Nat) (inside : Nat → Option Bool) (size : Nat) : Nat → Nat → Option Nat
  | 0, _ => none
  | fuel + 1, n =>
    if n < size then
      match inside n with
      | none => none
      | some true => some n
      | some false => getCellNoLoop w inside size fuel ((n + 1) % 2 ^ w)
    else some (noCell w)

/-- `Grid2Dui::getCellNo(pt)`. The loop either returns within
`triangles.size() + 1` iterations or never: a counter that has wrapped without
a hit repeats the same tests. -/
def getCellNo (w : Nat) (ops : PointOps α S) (g : Grid2Dui α) (pt : S) : Option Nat :=
  getCellNoLoop w (ops.insideTriangle g pt) g.triangles.length (g.triangles.length + 1) 0

/-- Lines 294-305: the primary nodes among `neighbors[cellNo]`. -/
def interpNodes (g : Grid2Dui α) : List Nat → Option (List (Node α))
  | [] => some []
  | n :: rest =>
    match g.nodes[n]?, interpNodes g rest with
    | some nd, some l => some (if nd.primary = true then nd :: l else l)
    | _, _ => none

/-- `Grid2Dui::computeSlowness(pt)`. The index type is at least as wide as
`int`, so that `cellNo == -1` compares with `noCell w`. -/
def computeSlowness (w : Nat) (ops : PointOps α S) (g : Grid2Dui α) (pt : S) : Option α :=
  match getCellNo w ops g pt with
  | none => none
  | some cellNo =>
    if cellNo = noCell w then some (-1)
    else
      match g.neighbors[cellNo]? with
      | none => none
      | some nb =>
        match interpNodes g nb with
        | none => none
        | some l => some (ops.inverseDistance pt l)

/-- `Grid2Dui::computeDt(source, node, slo)` with a point for `node`. -/
def computeDt (ops : PointOps α S) (source : Node α) (pt : S) (slo : α) : α :=
  (slo + source.slowness) / 2 * ops.getDistance source pt

/-- Lines 235-241: the loop over `neighbors[cellNo][k]`, `k ≥ 1`. -/
def getTraveltimeLoop (ops : PointOps α S) (Rx : S) (slo : α) (nodes : List (Node α))
    (threadNo : Nat) : List Nat → α → Option α
  | [], traveltime => some traveltime
  | neibNo :: rest, traveltime =>
    match nodes[neibNo]? with
    | none => none
    | some nd =>
      getTraveltimeLoop ops Rx slo nodes threadNo rest
        (if traveltime > nd.tt threadNo + computeDt ops nd Rx slo then
          nd.tt threadNo + computeDt ops nd Rx slo
        else traveltime)

/-- Lines 228-242: `Rx` is on no node. -/
def getTraveltimeInCell (w : Nat) (ops : PointOps α S) (g : Grid2Dui α) (Rx : S)
    (nodes : List (Node α)) (threadNo : Nat) : Option α :=
  match computeSlowness w ops g Rx, getCellNo w ops g Rx with
  | some slo, some cellNo =>
    match g.neighbors[cellNo]? with
    | some (neibNo :: rest) =>
      match nodes[neibNo]? with
      | none => none
      | some nd =>
        getTraveltimeLoop ops Rx slo nodes threadNo rest
          (nd.tt threadNo + computeDt ops nd Rx slo)
    | _ => none
  | _, _ => none

/-- `Grid2Dui::getTraveltime(Rx, nodes, threadNo)`. -/
def getTraveltime (w : Nat) (ops : PointOps α S) (g : Grid2Dui α) (Rx : S)
    (nodes : List (Node α)) (threadNo : Nat) : Option α :=
  match nodes.find? (fun nd => ops.nodeEq nd Rx) with
  | some nd => some (nd.tt threadNo)
  | none => getTraveltimeInCell w ops g Rx nodes threadNo

/-- The loop `for n: nodes[n].setNodeSlowness( s[n] )` of lines 81-83. -/
def setSlownessLoop (s : List α) : List Nat → List (Node α) → List (Node α)
  | [], nodes => nodes
  | n :: rest, nodes =>
    match nodes[n]?, s[n]? with
    | some nd, some v => setSlownessLoop s rest (nodes.set n { nd with slowness := v })
    | _, _ => setSlownessLoop s rest nodes

/-- `Grid2Dui::setSlowness(const std::vector<T1>& s)`: the returned status and
the mesh after the call. -/
def setSlowness (g : Grid2Dui α) (s : List α) : Int × Grid2Dui α :=
  if g.nodes.length ≠ s.length then (1, g)
  else (0, { g with nodes := setSlownessLoop s (List.range g.nodes.length) g.nodes })

/-- Lines 641-651: the first owner of `i1`, in the order of its owner list,
that is also an owner of `i2`; `none` stands for `found == false`. -/
def commonOwner (owners1 owners2 : List Nat) : Option Nat :=
  owners1.find? (fun t => owners2.contains t)

/-- Lines 657-661: the node `i3` taken from the opposite triangle. -/
def oppositeNode (tri : triangleElemAngle α) (i1 i2 : Nat) : Nat :=
  if tri.i.get 0 = i1 ∨ tri.i.get 0 = i2 then tri.i.get 1
  else if tri.i.get 0 = i1 ∨ tri.i.get 0 = i2 then tri.i.get 2
  else tri.i.get 0

/-- Lines 708-714: the record built from the edges `a`, `b`, `c` and the angle
`a0`. Where the source divides by zero and stores a NaN, the record holds the
value of `acos` at the quotient of the field. -/
def mkVirtualNode (acos : α → α) (node1 node2 : Nat) (a b c a0 : α) : virtualNode α :=
  { node1 := node1, node2 := node2,
    a := ⟨a0, acos ((c * c + a * a - b * b) / (2 * a * c)),
          acos ((a * a + b * b - c * c) / (2 * a * b))⟩,
    e := ⟨a, b, c⟩ }

/-- The angle at node 0 of lines 679 and 701. -/
def angle0 (acos : α → α) (a b c : α) : α :=
  acos ((b * b + c * c - a * a) / (2 * b * c))

/-- Lines 663-714: the virtual node of a triangle with nodes `i0` (obtuse),
`i1`, `i2` and opposite node `i3`. The test `a0 > pi2` fails when `a0` is the
`acos` of a quotient by zero. -/
def unfoldTriangle (acos : α → α) (pi : α) (dist : Node α → Node α → α)
    (i1 i2 i3 : Nat) (n0 n1 n2 n3 : Node α) : virtualNode α :=
  if 2 * dist n0 n3 * dist n0 n1 ≠ 0 ∧
      angle0 acos (dist n1 n3) (dist n0 n3) (dist n0 n1) > pi / 2 then
    mkVirtualNode acos i3 i2 (dist n2 n3) (dist n0 n2) (dist n0 n3)
      (angle0 acos (dist n2 n3) (dist n0 n2) (dist n0 n3))
  else
    mkVirtualNode acos i1 i3 (dist n1 n3) (dist n0 n3) (dist n0 n1)
      (angle0 acos (dist n1 n3) (dist n0 n3) (dist n0 n1))

/-- The call `virtualNodes.insert( pair(ntri, vn) )`: an entry whose key is
already in the map is not replaced. -/
def insertVirtualNode (g : Grid2Dui α) (ntri : Nat) (vn : virtualNode α) : Grid2Dui α :=
  { g with virtualNodes := g.virtualNodes ++ [(ntri, vn)] }

/-- Lines 635-716: vertex `n` of triangle `ntri`, whose angle is obtuse. -/
def correctVertex (acos : α → α) (pi : α) (dist : Node α → Node α → α)
    (tri : triangleElemAngle α) (ntri n : Nat) (g : Grid2Dui α) : Outcome (Grid2Dui α) :=
  match g.nodes[tri.i.get ((n + 1) % 3)]?, g.nodes[tri.i.get ((n + 2) % 3)]? with
  | some n1, some n2 =>
    match commonOwner n1.owners n2.owners with
    | none => .ok g
    | some oppositeTriangle =>
      match g.triangles[oppositeTriangle]? with
      | none => .undefined
      | some otri =>
        match g.nodes[tri.i.get n]?,
            g.nodes[oppositeNode otri (tri.i.get ((n + 1) % 3)) (tri.i.get ((n + 2) % 3))]? with
        | some n0, some n3 =>
          .ok (insertVirtualNode g ntri
            (unfoldTriangle acos pi dist (tri.i.get ((n + 1) % 3)) (tri.i.get ((n + 2) % 3))
              (oppositeNode otri (tri.i.get ((n + 1) % 3)) (tri.i.get ((n + 2) % 3)))
              n0 n1 n2 n3))
        | _, _ => .undefined
  | _, _ => .undefined

/-- Lines 630-719: one vertex `n` of triangle `ntri`. -/
def processVertex (acos : α → α) (pi : α) (dist : Node α → Node α → α)
    (ntri n : Nat) (g : Grid2Dui α) : Outcome (Grid2Dui α) :=
  match g.triangles[ntri]? with
  | none => .undefined
  | some tri =>
    if tri.a.get n > pi / 2 then correctVertex acos pi dist tri ntri n g
    else .ok g

/-- `Grid2Dui::processObtuse()`. The distance between two nodes
(`NODE::getDistance`) is declared outside `Grid2Dui.h`. -/
def processObtuse (acos : α → α) (pi : α) (dist : Node α → Node α → α) (g : Grid2Dui α) :
    Outcome (Grid2Dui α) :=
  Outcome.forEach
    (fun ntri g1 => Outcome.forEach (processVertex acos pi dist ntri) [0, 1, 2] g1)
    (List.range g.triangles.length) g

end Queries2D

/-- Every node index stored in a triangle is an index of the `nodes` vector. -/
def Grid2Dui.IndicesValid {α : Type} (g : Grid2Dui α) : Prop :=
  ∀ tri ∈ g.triangles,
    tri.i.get 0 < g.nodes.length ∧ tri.i.get 1 < g.nodes.length ∧ tri.i.get 2 < g.nodes.length

/-- A primary node at `(x, z)` with slowness 1, traveltime `t` on every thread
and owner triangle 0. -/
def nodeAt {α : Type} [LinearOrderedField α] (gridIndex : Nat) (x z t : α) : Node α :=
  { x := x, y := 0, z := z, gridIndex := gridIndex, slowness := 1, tt := fun _ => t,
    owners := [0], primary := true }

/-- A mesh of one triangle with nodes (0,0), (2,0), (0,2). -/
def rightTriangle : Grid2Dui ℚ :=
  { nodes := [nodeAt 0 0 0 0, nodeAt 1 2 0 0, nodeAt 2 0 2 0]
    neighbors := [[0, 1, 2]]
    triangles := [ { i := ⟨0, 1, 2⟩, l := ⟨0, 2, 2⟩, a := ⟨0, 0, 0⟩ } ]
    virtualNodes := [] }

/-- Point operations on `rightTriangle`: a node equals a point when the
coordinates are the same; distances and interpolation are not used. -/
def plainOps : PointOps ℚ (sxz ℚ) :=
  sxzOps (fun nd p => decide (nd.x = p.x ∧ nd.z = p.z)) (fun _ _ => 0) (fun _ _ => 0)

/-- A mesh of one triangle with primary nodes (0,0), (21,0), (0,16) and a
secondary node at (6,0), on the edge between the first two; the traveltimes at
the four nodes are 6, 15, 18 and 0. Edge lengths and angles, which the queries
do not read, are left at 0. -/
def edgeNodeMesh : Grid2Dui ℚ :=
  { nodes := [nodeAt 0 0 0 6, nodeAt 1 21 0 15, nodeAt 2 0 16 18,
      { x := 6, y := 0, z := 0, gridIndex := 3, slowness := 1, tt := fun _ => 0,
        owners := [0], primary := false }]
    neighbors := [[0, 1, 2, 3]]
    triangles := [ { i := ⟨0, 1, 2⟩, l := ⟨0, 0, 0⟩, a := ⟨0, 0, 0⟩ } ]
    virtualNodes := [] }

/-- A receiver strictly inside the triangle of `edgeNodeMesh`. -/
def receiver : sxz ℚ := ⟨6, 8⟩

/-- Euclidean distance from a node of `edgeNodeMesh` to `receiver`: 10, 17, 10
and 8; 0 for any other point. -/
def receiverDistance (nd : Node ℚ) (p : sxz ℚ) : ℚ :=
  if p = receiver then
    (if nd.gridIndex = 1 then 17 else if nd.gridIndex = 3 then 8 else 10)
  else 0

/-- Modelled from the spec: inverse-distance interpolation of the slowness,
`Σ wᵢ sᵢ / Σ wᵢ` with `wᵢ = 1 / ‖p − pᵢ‖`, declared outside `Grid2Dui.h`. -/
def inverseDistance {α S : Type} [LinearOrderedField α] (dist : Node α → S → α) (p : S)
    (nodes : List (Node α)) : α :=
  (nodes.map (fun nd => 1 / dist nd p * nd.slowness)).sum /
    (nodes.map (fun nd => 1 / dist nd p)).sum

/-- Point operations on `edgeNodeMesh`. -/
def receiverOps : PointOps ℚ (sxz ℚ) :=
  sxzOps (fun nd p => decide (nd.x = p.x ∧ nd.z = p.z)) receiverDistance
    (inverseDistance receiverDistance)

/-- The mesh of the scenario `Obtuse triangle`: one triangle with nodes (0,0),
(10,0), (5,1/10), every node owned by triangle 0, with the stored edge lengths
`l0 l1 l2` and the stored angles `a0 a1 a2`. -/
def obtuseTriangle {α : Type} [LinearOrderedField α] (l0 l1 l2 a0 a1 a2 : α) : Grid2Dui α :=
  { nodes := [nodeAt 0 0 0 0, nodeAt 1 10 0 0, nodeAt 2 5 (1 / 10) 0]
    neighbors := [[0, 1, 2]]
    triangles := [ { i := ⟨0, 1, 2⟩, l := ⟨l0, l1, l2⟩, a := ⟨a0, a1, a2⟩ } ]
    virtualNodes := [] }

/-! ## Ray paths and source radius of `Grid3Ducfm` -/

/-- The member `rp_ho` of `Grid3Ducfm` and the two ray tracers inherited from
`Grid3Duc`, declared outside `Grid3Ducfm.h`: the polyline that
`getRaypath(Tx, Rx, r_data, threadNo)` leaves in its argument `r_data`, from the
traveltimes of the thread and the content of `r_data` on entry. -/
structure RayTracer (α : Type) where
  rp_ho : Bool
  getRaypath : List (sxyz α) → sxyz α → List α → List (sxyz α) → List (sxyz α)
  getRaypath_ho : List (sxyz α) → sxyz α → List α → List (sxyz α) → List (sxyz α)

section RayPaths

variable {α : Type} [LinearOrderedField α]

/-- The tracer selected by `if ( rp_ho )`. -/
def RayTracer.trace (rt : RayTracer α) (Tx : List (sxyz α)) (rx : sxyz α) (tt : List α)
    (path : List (sxyz α)) : List (sxyz α) :=
  if rt.rp_ho = true then rt.getRaypath_ho Tx rx tt path else rt.getRaypath Tx rx tt path

/-- Lines 283-285 and 349-351: `for ni: r_data[ni].resize( 0 )`. -/
def clearPaths (r_data : List (List (sxyz α))) : List (List (sxyz α)) :=
  r_data.map (fun v => resize v 0 ⟨0, 0, 0⟩)

/-- Lines 287-297 and 353-363: the loop over the receivers, from receiver `n`
on, that stores a traveltime and a ray path for each; `none` when an index is
outside its vector. -/
def fillPaths (g : Grid3Ducfm α) (rt : RayTracer α) (Tx : List (sxyz α)) (tt : List α) :
    Nat → List (sxyz α) → List α × List (List (sxyz α)) →
      Option (List α × List (List (sxyz α)))
  | _, [], out => some out
  | n, rx :: rest, out =>
    match out.2[n]? with
    | none => none
    | some path =>
      if n < out.1.length then
        fillPaths g rt Tx tt (n + 1) rest
          (out.1.set n (g.getTraveltime rx tt), out.2.set n (rt.trace Tx rx tt path))
      else none

/-- `Grid3Ducfm::raytrace(Tx, t0, Rx, traveltimes, r_data, threadNo)`, single
list of receivers, with ray paths. -/
def raytracePaths (g : Grid3Ducfm α) (rt : RayTracer α) (Tx : List (sxyz α)) (t0 : List α)
    (Rx : List (sxyz α)) (traveltimes : List α) (r_data : List (List (sxyz α)))
    (nodes : List (Nat → α)) (threadNo : Nat) :
    Outcome (RayState α (List α × List (List (sxyz α)))) :=
  if g.checkPts Tx = true ∨ g.checkPts Rx = true then
    .thrown { nodes := nodes, traveltimes := (traveltimes, r_data) }
  else
    match march g Tx t0 nodes threadNo with
    | .ok s =>
      match fillPaths g rt Tx s.tt 0 Rx
          (fitSize traveltimes Rx.length 0, clearPaths (fitSize r_data Rx.length [])) with
      | some out => .ok { nodes := storeTT nodes threadNo s.tt, traveltimes := out }
      | none => .undefined
    | .thrown s =>
      .thrown { nodes := storeTT nodes threadNo s.tt, traveltimes := (traveltimes, r_data) }
    | .aborted => .aborted
    | .undefined => .undefined

/-- The loop over the receiver lists of lines 346-364, from list `nr` on. An
entry of `traveltimes` or of `r_data` is a pointer to a vector; `none` is the
null pointer. -/
def fillListsPaths (g : Grid3Ducfm α) (rt : RayTracer α) (Tx : List (sxyz α)) (tt : List α) :
    Nat → List (List (sxyz α)) →
      List (Option (List α)) × List (Option (List (List (sxyz α)))) →
      Option (List (Option (List α)) × List (Option (List (List (sxyz α)))))
  | _, [], out => some out
  | nr, rx :: rest, out =>
    match out.1[nr]?, out.2[nr]? with
    | some (some v), some (some d) =>
      match fillPaths g rt Tx tt 0 rx
          (resize v rx.length 0, clearPaths (resize d rx.length [])) with
      | some res =>
        fillListsPaths g rt Tx tt (nr + 1) rest
          (out.1.set nr (some res.1), out.2.set nr (some res.2))
      | none => none
    | _, _ => none

/-- `Grid3Ducfm::raytrace(Tx, t0, Rx, traveltimes, r_data, threadNo)`, several
lists of receivers, with ray paths. -/
def raytraceListsPaths (g : Grid3Ducfm α) (rt : RayTracer α) (Tx : List (sxyz α))
    (t0 : List α) (Rx : List (List (sxyz α))) (traveltimes : List (Option (List α)))
    (r_data : List (Option (List (List (sxyz α))))) (nodes : List (Nat → α)) (threadNo : Nat) :
    Outcome (RayState α
      (List (Option (List α)) × List (Option (List (List (sxyz α)))))) :=
  if g.checkPts Tx = true ∨ (∃ rx ∈ Rx, g.checkPts rx = true) then
    .thrown { nodes := nodes, traveltimes := (traveltimes, r_data) }
  else
    match march g Tx t0 nodes threadNo with
    | .ok s =>
      match fillListsPaths g rt Tx s.tt 0 Rx
          (fitSize traveltimes Rx.length none, fitSize r_data Rx.length none) with
      | some res => .ok { nodes := storeTT nodes threadNo s.tt, traveltimes := res }
      | none => .undefined
    | .thrown s =>
      .thrown { nodes := storeTT nodes threadNo s.tt, traveltimes := (traveltimes, r_data) }
    | .aborted => .aborted
    | .undefined => .undefined

/-- The algorithm `std::push_heap` rearranges its range: the result is a
permutation of the container. -/
def Grid3Ducfm.PushPermutes (g : Grid3Ducfm α) : Prop :=
  ∀ (cmp : Nat → Nat → Bool) (c : List Nat), (g.push_heap cmp c).Perm c

/-- The distance `d` that the scan of `initBand` for a source radius computes
for node `no` (lines 418 and 476): from the node on which the source `p` was
found, or from `p` itself when it is on no node. -/
def radiusDistance (g : Grid3Ducfm α) (numNodes : Nat) (p : sxyz α) (no : Nat) : α :=
  match findNode g numNodes p with
  | some nn => g.getDistance nn no
  | none => g.getDistancePt no p

/-- The slowness by which the scan multiplies the distance (lines 422-427 and
479): the mean slowness of the cells that own the source node, or the slowness
of the cell of the source when it is on no node. -/
def radiusSlowness (g : Grid3Ducfm α) (numNodes : Nat) (p : sxyz α) : α :=
  match findNode g numNodes p with
  | some nn => ((g.owners nn).map g.slowness).sum / ((g.owners nn).length : α)
  | none => g.slowness (g.getCellNo p)

/-- Node `no` is a node of the mesh, other than the node on which the source
`p` was found, within the source radius of the source. -/
def InRadius (g : Grid3Ducfm α) (numNodes : Nat) (p : sxyz α) (no : Nat) : Prop :=
  no < numNodes ∧ findNode g numNodes p ≠ some no ∧
    radiusDistance g numNodes p no ≤ g.source_radius

/-- The mesh around the source `p` is sound: the node on which it was found
has owners, all of them cells of the mesh; or, when it is on no node, the cell
returned for it is a cell of the mesh. -/
def SourceInMesh (g : Grid3Ducfm α) (numNodes : Nat) (p : sxyz α) : Prop :=
  match findNode g numNodes p with
  | some nn => g.owners nn ≠ [] ∧ ∀ c ∈ g.owners nn, c < g.nCells
  | none => g.getCellNo p < g.nCells

/-- The mesh `tetMesh` with source radius 13. -/
def radiusMesh : Grid3Ducfm ℚ :=
  { tetMesh with source_radius := 13 }

end RayPaths

/-- The mesh `tetMesh` with a point check that raises its error for every list
holding the point (100, 0, 0), which is outside the tetrahedron. -/
def checkedMesh : Grid3Ducfm ℚ :=
  { tetMesh with checkPts := fun pts => decide ((⟨100, 0, 0⟩ : sxyz ℚ) ∈ pts) }

/-- A ray tracer that returns the receiver alone. -/
def receiverOnly : RayTracer ℚ :=
  { rp_ho := false, getRaypath := fun _ rx _ _ => [rx], getRaypath_ho := fun _ rx _ _ => [rx] }

/-! ## Ray tracing in `Grid2Dui`: the cell across an edge -/

/-- The value `std::numeric_limits<T2>::max()` of the index type `T2`, an
unsigned integer of `w` bits. -/
def maxT2 (w : Nat) : Nat :=
  2 ^ w - 1

/-- Lines 1244-1251 and 1268-1275: the vector `cells`, the owners of node `i0`,
in the order of its owner list, that are owners of node `i1` too; `none` when a
node index is outside `nodes`. -/
def cells {α : Type} (g : Grid2Dui α) (i0 i1 : Nat) : Option (List Nat) :=
  match g.nodes[i0]? with
  | none => none
  | some n0 =>
    if n0.owners.isEmpty = true then some []
    else
      match g.nodes[i1]? with
      | none => none
      | some n1 => some (n0.owners.filter (fun nc0 => n1.owners.contains nc0))

/-- Lines 1256-1262: the loop over the owners of `nodeNo`, with `c0 = cells[0]`
and `c1 = cells[1]`. -/
def findNextCell1Loop (w c0 c1 : Nat) : List Nat → Nat
  | [] => maxT2 w
  | nc0 :: rest =>
    if nc0 = c0 then c1
    else if nc0 = c1 then c0
    else findNextCell1Loop w c0 c1 rest

/-- `Grid2Dui::findNextCell1(i0, i1, nodeNo)`; `none` when an index is outside
its vector, which includes reading `cells[0]` of an empty `cells`. -/
def findNextCell1 {α : Type} (w : Nat) (g : Grid2Dui α) (i0 i1 nodeNo : Nat) : Option Nat :=
  match cells g i0 i1 with
  | none => none
  | some [c] => some c
  | some q =>
    match g.nodes[nodeNo]? with
    | none => none
    | some nd =>
      if nd.owners.isEmpty = true then some (maxT2 w)
      else
        match q with
        | c0 :: c1 :: _ => some (findNextCell1Loop w c0 c1 nd.owners)
        | _ => none

/-- `Grid2Dui::findNextCell2(i0, i1, cellNo)`; `none` when an index is outside
its vector, which includes reading `cells[0]` of an empty `cells`. -/
def findNextCell2 {α : Type} (w : Nat) (g : Grid2Dui α) (i0 i1 cellNo : Nat) : Option Nat :=
  match cells g i0 i1 with
  | none => none
  | some [c] => some c
  | some (c0 :: c1 :: _) =>
    some (if cellNo = c0 then c1 else if cellNo = c1 then c0 else maxT2 w)
  | some [] => none

/-- A mesh of two triangles on either side of the edge between nodes 0 and 1:
triangle 0 has the nodes 0 at (0,0), 1 at (10,0) and 3 at (5,`z3`), triangle 1
the nodes 0, 1 and 2 at (5,1/10). The stored angles are `b0 b1 b2` and
`a0 a1 a2`; the stored edge lengths, which the obtuse-angle pass does not read,
are left at 0. -/
def edgeNeighbours {α : Type} [LinearOrderedField α] (z3 b0 b1 b2 a0 a1 a2 : α) : Grid2Dui α :=
  { nodes := [ { nodeAt 0 0 0 0 with owners := [0, 1] }, { nodeAt 1 10 0 0 with owners := [0, 1] },
      { nodeAt 2 5 (1 / 10) 0 with owners := [1] }, { nodeAt 3 5 z3 0 with owners := [0] } ]
    neighbors := [[0, 1, 3], [0, 1, 2]]
    triangles := [ { i := ⟨0, 1, 3⟩, l := ⟨0, 0, 0⟩, a := ⟨b0, b1, b2⟩ },
      { i := ⟨0, 1, 2⟩, l := ⟨0, 0, 0⟩, a := ⟨a0, a1, a2⟩ } ]
    virtualNodes := [] }

/-- In the plane of `x` and `z`: the angle at `n0` between the directions to
`n1` and to `n2` is obtuse, and `n3` lies strictly on the other side of the
line through `n1` and `n2` from `n0`. -/
def UnfoldsAcross {α : Type} [LinearOrderedField α] (n0 n1 n2 n3 : Node α) : Prop :=
  (n1.x - n0.x) * (n2.x - n0.x) + (n1.z - n0.z) * (n2.z - n0.z) < 0 ∧
  ((n2.x - n1.x) * (n0.z - n1.z) - (n2.z - n1.z) * (n0.x - n1.x)) *
    ((n2.x - n1.x) * (n3.z - n1.z) - (n2.z - n1.z) * (n3.x - n1.x)) < 0

/-- The entry `e` of the registry is the one that `processObtuse` builds on the
mesh `g` for a triangle with an obtuse angle at its node `n0`, followed in the
triangle by the nodes `n1` and `n2`, with the node `n3` taken from a triangle
of the mesh. -/
def Unfolded {α : Type} [LinearOrderedField α] (acos : α → α) (pi : α)
    (dist : Node α → Node α → α) (g : Grid2Dui α) (e : Nat × virtualNode α)
    (n0 n1 n2 n3 : Node α) : Prop :=
  ∃ tri n otri, g.triangles[e.1]? = some tri ∧ n < 3 ∧ tri.a.get n > pi / 2 ∧
    otri ∈ g.triangles ∧
    g.nodes[tri.i.get n]? = some n0 ∧ g.nodes[tri.i.get ((n + 1) % 3)]? = some n1 ∧
    g.nodes[tri.i.get ((n + 2) % 3)]? = some n2 ∧
    g.nodes[oppositeNode otri (tri.i.get ((n + 1) % 3)) (tri.i.get ((n + 2) % 3))]? = some n3 ∧
    e.2 = unfoldTriangle acos pi dist (tri.i.get ((n + 1) % 3)) (tri.i.get ((n + 2) % 3))
      (oppositeNode otri (tri.i.get ((n + 1) % 3)) (tri.i.get ((n + 2) % 3))) n0 n1 n2 n3

/-- The pass so far has left nodes and triangles of the mesh `g` as they were
and has appended to the registry entries built by `unfoldTriangle`. -/
def ObtusePassInv {α : Type} [LinearOrderedField α] (acos : α → α) (pi : α)
    (dist : Node α → Node α → α) (g s : Grid2Dui α) : Prop :=
  s.nodes = g.nodes ∧ s.triangles = g.triangles ∧
    ∃ added, s.virtualNodes = g.virtualNodes ++ added ∧
      ∀ e ∈ added, ∃ n0 n1 n2 n3, Unfolded acos pi dist g e n0 n1 n2 n3

/-- A mesh of two triangles on either side of the edge between node 0 at
(-10,0,0) and node 1 at (10,0,0): triangle 0 has the nodes 3, 0, 1 and triangle
1 the nodes 2, 0, 1, with node 2 at (0,0,1) and node 3 at (0,`y3`,`z3`). The
stored angles are `b0 b1 b2` and `a0 a1 a2`; the stored edge lengths, which the
obtuse-angle pass does not read, are left at 0. -/
def unfoldMesh {α : Type} [LinearOrderedField α] (y3 z3 b0 b1 b2 a0 a1 a2 : α) : Grid2Dui α :=
  { nodes := [ { nodeAt 0 (-10) 0 0 with owners := [0, 1] },
      { nodeAt 1 10 0 0 with owners := [0, 1] }, { nodeAt 2 0 1 0 with owners := [1] },
      { nodeAt 3 0 z3 0 with y := y3, owners := [0] } ]
    neighbors := [[3, 0, 1], [2, 0, 1]]
    triangles := [ { i := ⟨3, 0, 1⟩, l := ⟨0, 0, 0⟩, a := ⟨b0, b1, b2⟩ },
      { i := ⟨2, 0, 1⟩, l := ⟨0, 0, 0⟩, a := ⟨a0, a1, a2⟩ } ]
    virtualNodes := [] }

/-! ## Projection of points on the mesh (`projectPts`) -/

section Projection

variable {α : Type} [LinearOrderedField α]

/-- Modelled from the spec: the sum of two `sxyz` vectors (operator `+`),
declared outside `Grid2Dui.h`. -/
def sxyz.add (a b : sxyz α) : sxyz α :=
  ⟨a.x + b.x, a.y + b.y, a.z + b.z⟩

/-- Modelled from the spec: the product of a scalar and an `sxyz` vector
(operator `*`), declared outside `Grid2Dui.h`. -/
def sxyz.smul (k : α) (a : sxyz α) : sxyz α :=
  ⟨k * a.x, k * a.y, k * a.z⟩

/-- Modelled from the spec: `norm2` on an `sxyz` vector, the squared norm by
which the cross-product method of Heidrich divides, declared outside
`Grid2Dui.h`. -/
def norm2 (a : sxyz α) : α :=
  a.x * a.x + a.y * a.y + a.z * a.z

/-- Lines 516-517: the centroid of a triangle with the corners `c`. -/
def centroidOf (c : Node α × Node α × Node α) : sxyz α :=
  sxyz.smul (1 / 3) (((cornerXYZ c.1).add (cornerXYZ c.2.1)).add (cornerXYZ c.2.2))

/-- Lines 514-521: the vector `centroid`, for the triangles listed; `none` when
a triangle refers to a missing node. -/
def centroidLoop (g : Grid2Dui α) : List Nat → Option (List (sxyz α))
  | [] => some []
  | n :: rest =>
    match g.corners n, centroidLoop g rest with
    | some c, some l => some (centroidOf c :: l)
    | _, _ => none

/-- Lines 526-532: the loop over `centroid[nn]`, from index `nn` on, that keeps
the first centroid at the least distance. -/
def closestLoop (dist : sxyz α → sxyz α → α) (pt : sxyz α) :
    List (sxyz α) → Nat → α → Nat → Nat
  | [], _, _, iMinDist => iMinDist
  | ctr :: rest, nn, minDist, iMinDist =>
    if dist pt ctr < minDist then closestLoop dist pt rest (nn + 1) (dist pt ctr) nn
    else closestLoop dist pt rest (nn + 1) minDist iMinDist

/-- Lines 524-532: the index `iMinDist` of the closest centroid; `none` when
there is no triangle, and `centroid[0]` is read outside the vector. -/
def closestCentroid (dist : sxyz α → sxyz α → α) (pt : sxyz α) : List (sxyz α) → Option Nat
  | [] => none
  | c0 :: rest => some (closestLoop dist pt rest 1 (dist pt c0) 0)

/-- Line 543: the coefficient `gamma`. -/
def projGamma (pt p1 p2 p3 : sxyz α) : α :=
  dot (cross (p2.sub p1) (pt.sub p1)) (cross (p2.sub p1) (p3.sub p1)) /
    norm2 (cross (p2.sub p1) (p3.sub p1))

/-- Line 544: the coefficient `beta`. -/
def projBeta (pt p1 p2 p3 : sxyz α) : α :=
  dot (cross (pt.sub p1) (p3.sub p1)) (cross (p2.sub p1) (p3.sub p1)) /
    norm2 (cross (p2.sub p1) (p3.sub p1))

/-- Line 545: the coefficient `alpha`. -/
def projAlpha (pt p1 p2 p3 : sxyz α) : α :=
  1 - projGamma pt p1 p2 p3 - projBeta pt p1 p2 p3

/-- Lines 534-547: the point stored for `pt` from the corners `p1`, `p2`, `p3`
of the closest triangle. -/
def projectOnTriangle (pt p1 p2 p3 : sxyz α) : sxyz α :=
  ((sxyz.smul (projAlpha pt p1 p2 p3) p1).add (sxyz.smul (projBeta pt p1 p2 p3) p2)).add
    (sxyz.smul (projGamma pt p1 p2 p3) p3)

/-- Lines 523-547: one iteration of the loop over the points. -/
def projectPt (dist : sxyz α → sxyz α → α) (g : Grid2Dui α) (centroid : List (sxyz α))
    (pt : sxyz α) : Option (sxyz α) :=
  match closestCentroid dist pt centroid with
  | none => none
  | some iMinDist =>
    match g.corners iMinDist with
    | none => none
    | some c => some (projectOnTriangle pt (cornerXYZ c.1) (cornerXYZ c.2.1) (cornerXYZ c.2.2))

/-- The loop of lines 522-548 over the points. -/
def projectPtsLoop (dist : sxyz α → sxyz α → α) (g : Grid2Dui α) (centroid : List (sxyz α)) :
    List (sxyz α) → Option (List (sxyz α))
  | [] => some []
  | pt :: rest =>
    match projectPt dist g centroid pt, projectPtsLoop dist g centroid rest with
    | some p, some l => some (p :: l)
    | _, _ => none

/-- `Grid2Dui::projectPts(pts)` for the point type `sxyz`: the returned status
and the content of `pts` after the call; `none` when an index is outside its
vector. The distance between two points (`sxyz::getDistance`) is declared
outside `Grid2Dui.h`. -/
def projectPts (dist : sxyz α → sxyz α → α) (g : Grid2Dui α) (pts : List (sxyz α)) :
    Option (Int × List (sxyz α)) :=
  match centroidLoop g (List.range g.triangles.length) with
  | none => none
  | some centroid =>
    match projectPtsLoop dist g centroid pts with
    | none => none
    | some out => some (0, out)

/-- The centroid with index `i` is the closest one to `pt`, and the first one
at that distance. -/
def NearestCentroid (dist : sxyz α → sxyz α → α) (pt : sxyz α) (centroid : List (sxyz α))
    (i : Nat) : Prop :=
  ∃ ci, centroid[i]? = some ci ∧
    (∀ (j : Nat) (cj : sxyz α), centroid[j]? = some cj → dist pt ci ≤ dist pt cj) ∧
    (∀ (j : Nat) (cj : sxyz α), j < i → centroid[j]? = some cj → dist pt ci < dist pt cj)

end Projection

/-- A surface mesh of one triangle with the corners (0,0,0), (4,0,0), (0,4,0),
whose centroid is (4/3,4/3,0). -/
def flatTriangle : Grid2Dui ℚ :=
  { nodes := [nodeAt 0 0 0 0, nodeAt 1 4 0 0, { nodeAt 2 0 0 0 with y := 4 }]
    neighbors := [[0, 1, 2]]
    triangles := [ { i := ⟨0, 1, 2⟩, l := ⟨0, 0, 0⟩, a := ⟨0, 0, 0⟩ } ]
    virtualNodes := [] }

/-! ## Seeding of the band around a source node -/

/-- Relation between a state of the seeding loop of `initBand` and a later one
when, in between, the nodes were offered the candidate times `C` (`C u τ`: the
time `τ` was offered to node `u`): the number of nodes is the same, the band
keeps its members, flags that are set stay set, and every node holds the least
of its previous traveltime and the times offered to it; a node whose traveltime
went down is in the band, and it is frozen and a member of the band container
if it was not in the band before. -/
def Relaxes {α : Type} [LinearOrderedField α] (C : Nat → α → Prop) (s s1 : FMState α) : Prop :=
  s1.tt.length = s.tt.length ∧ (∀ m ∈ s.narrow_band, m ∈ s1.narrow_band) ∧
  ∀ (u : Nat) (told : α), s.tt[u]? = some told →
    ∃ tnew, s1.tt[u]? = some tnew ∧ tnew ≤ told ∧
      (∀ τ, C u τ → tnew ≤ τ) ∧ (tnew = told ∨ C u tnew) ∧
      (s.inBand u = true → s1.inBand u = true) ∧ (s.frozen u = true → s1.frozen u = true) ∧
      (tnew = told → s1.inBand u = s.inBand u ∧ s1.frozen u = s.frozen u) ∧
      (tnew < told → s1.inBand u = true ∧
        (s.inBand u = false → s1.frozen u = true ∧ u ∈ s1.narrow_band))

/-! ## Ray tracing in `Grid2Dui`: `getRaypath_ho`

The tracer works on points `sxz`. The slope of a line is `INFINITY` in the
source when the line is vertical: a slope is an `Option`, with `none` for
`INFINITY`. A coordinate computed from an infinite slope or from a quotient by
zero is not finite; the in-cell step rejects such a point by its tests, and the
embedding has no value for a current point that is not finite: a call that
would store one is reported as `Outcome.undefined`. -/

/-- What `getRaypath_ho` and `Grad2D_ho::ls_grad` take from outside `Grid2Dui.h`
and `Grad.h`. -/
structure TraceOps (α : Type) where
  /-- Comparison `Rx == Tx[ns]` of two points. -/
  ptEq : sxz α → sxz α → Bool
  /-- The vector after `normalize()`. -/
  normalize : sxz α → sxz α
  /-- Result of `cross(v1, v2)` on two `sxz` vectors. -/
  cross : sxz α → sxz α → α
  /-- Result of `p.getDistance( q )` on two points. -/
  getDistance : sxz α → sxz α → α
  /-- The function `acos`. -/
  acos : α → α
  /-- The function `sqrt`. -/
  sqrt : α → α
  /-- The constant `small`. -/
  small : α
  /-- Result of `A.jacobiSvd(...).solve(b)`, from the rows of `A` and from `b`. -/
  solve : List (List α) → List α → List α
  /-- Whether `NDEBUG` is defined, which removes the `assert`. -/
  ndebug : Bool

/-- Local variables of `getRaypath_ho` that live across the iterations of its
loop, with the argument `r_data`. `cellNo`, `nodeNo` and `edgeNodes` are
declared without a value: `none` until the first assignment. -/
structure TraceState (α : Type) where
  r_data : List (sxz α)
  curr_pt : sxz α
  onNode : Bool
  nodeNo : Option Nat
  cellNo : Option Nat
  onEdge : Bool
  edgeNodes : Option (Nat × Nat)
  reachedTx : Bool

/-- Where a source point was found before the loop: on node `txNode[nt]`, or
else in cell `txCell[nt]`. -/
inductive TxPlace where
  | onNode (txNode : Nat)
  | inCell (txCell : Nat)

section RayTracing

variable {α : Type} [LinearOrderedField α]

/-- Modelled from the spec: `dot` on two `sxz` vectors, declared outside
`Grid2Dui.h`. -/
def sxz.dot (a b : sxz α) : α :=
  a.x * b.x + a.z * b.z

/-- The function `boost::math::sign`: -1, 0 or 1. -/
def sign (x : α) : Int :=
  if x = 0 then 0 else if x < 0 then -1 else 1

/-- Lines 1296-1298: the three nodes of cell `nc` inserted in the set. -/
def insertCellNodes (g : Grid2Dui α) (nc : Nat) (nnodes : List Nat) : Option (List Nat) :=
  match g.neighbors[nc]? with
  | some (a :: b :: c :: _) =>
    if a < g.nodes.length ∧ b < g.nodes.length ∧ c < g.nodes.length then
      some (List.insert c (List.insert b (List.insert a nnodes)))
    else none
  | _ => none

/-- Lines 1295-1299: the loop over the owners of a node of the cell. -/
def insertOwnersNodes (g : Grid2Dui α) : List Nat → List Nat → Option (List Nat)
  | [], nnodes => some nnodes
  | nc :: rest, nnodes =>
    match insertCellNodes g nc nnodes with
    | none => none
    | some l => insertOwnersNodes g rest l

/-- Lines 1292-1299: node `nodeNo` of the cell and the nodes of its owners. -/
def insertStar (g : Grid2Dui α) (nodeNo : Nat) (nnodes : List Nat) : Option (List Nat) :=
  match g.nodes[nodeNo]? with
  | none => none
  | some nd => insertOwnersNodes g nd.owners (List.insert nodeNo nnodes)

/-- `Grid2Dui::getNeighborNodes(cellNo, nnodes)`: the set after the call, a
list of node indices without repetition; `none` when an index is outside its
vector. -/
def getNeighborNodes (g : Grid2Dui α) (cellNo : Nat) (nnodes : List Nat) : Option (List Nat) :=
  match g.neighbors[cellNo]? with
  | some (n0 :: n1 :: n2 :: _) =>
    match insertStar g n0 nnodes with
    | none => none
    | some l0 =>
      match insertStar g n1 l0 with
      | none => none
      | some l1 => insertStar g n2 l1
  | _ => none

/-- The nodes of a set of node pointers in the order of the set, which is the
order of the nodes in the vector `nodes`. -/
def setNodes (g : Grid2Dui α) (nnodes : List Nat) : List (Node α) :=
  (List.range g.nodes.length).filterMap (fun n => if n ∈ nnodes then g.nodes[n]? else none)

/-- Lines 151-158 of `Grad.h`: the centroid `cent`. -/
def gradCentroid (nodes : List (Node α)) : sxz α :=
  ⟨(nodes.map (fun n => n.x)).sum * (1 / (nodes.length : α)),
    (nodes.map (fun n => n.z)).sum * (1 / (nodes.length : α))⟩

/-- Line 164 of `Grad.h`: the weight `w` of a node. -/
def gradWeight (ops : TraceOps α) (cent : sxz α) (n : Node α) : α :=
  1 / ops.sqrt ((n.x - cent.x) * (n.x - cent.x) + (n.z - cent.z) * (n.z - cent.z))

/-- Lines 160-169 of `Grad.h`: the weighted mean `t` of the traveltimes. -/
def gradMeanTime (ops : TraceOps α) (nodes : List (Node α)) (nt : Nat) : α :=
  (nodes.map (fun n => gradWeight ops (gradCentroid nodes) n * n.tt nt)).sum /
    (nodes.map (fun n => gradWeight ops (gradCentroid nodes) n)).sum

/-- Lines 175-187 of `Grad.h`: the rows of the matrix `A`. -/
def gradRows (nodes : List (Node α)) : List (List α) :=
  nodes.map (fun n =>
    [n.x - (gradCentroid nodes).x, n.z - (gradCentroid nodes).z,
      (n.x - (gradCentroid nodes).x) * (n.x - (gradCentroid nodes).x),
      (n.z - (gradCentroid nodes).z) * (n.z - (gradCentroid nodes).z),
      (n.x - (gradCentroid nodes).x) * (n.z - (gradCentroid nodes).z)])

/-- Lines 175-187 of `Grad.h`: the right-hand side `b`. -/
def gradRhs (ops : TraceOps α) (nodes : List (Node α)) (nt : Nat) : List α :=
  nodes.map (fun n => gradMeanTime ops nodes nt - n.tt nt)

/-- `Grad2D_ho::ls_grad(nodes, nt)`: the assertion on the number of nodes, then
the first two components of the least-squares solution. -/
def ls_grad (ops : TraceOps α) (nodes : List (Node α)) (nt : Nat) : Outcome (sxz α) :=
  if nodes.length < 5 ∧ ops.ndebug = false then .aborted
  else
    .ok ⟨(ops.solve (gradRows nodes) (gradRhs ops nodes nt)).getD 0 0,
      (ops.solve (gradRows nodes) (gradRhs ops nodes nt)).getD 1 0⟩

/-- Lines 876-879 and 1002-1005: the gradient from the neighbourhood of a
cell. -/
def cellGradient (ops : TraceOps α) (g : Grid2Dui α) (cellNo threadNo : Nat) :
    Outcome (sxz α) :=
  match getNeighborNodes g cellNo [] with
  | none => .undefined
  | some nnodes => ls_grad ops (setNodes g nnodes) threadNo

/-- The line through `curr_pt` along the gradient: slope `m2` and intercept
`b2`. -/
def gradLine (gv curr_pt : sxz α) : Option α × α :=
  if gv.x = 0 then (none, curr_pt.x)
  else (some (gv.z / gv.x), curr_pt.z - gv.z / gv.x * curr_pt.x)

/-- The slope `m1` of the segment from `curr_pt` to a node. -/
def slopeTo (nd : Node α) (curr_pt : sxz α) : Option α :=
  if nd.x - curr_pt.x = 0 then none else some ((nd.z - curr_pt.z) / (nd.x - curr_pt.x))

/-- The line through two nodes: slope `m1` and intercept `b1`. -/
def edgeLine (n0 n1 : Node α) : Option α × α :=
  if n1.x - n0.x = 0 then (none, n1.x)
  else (some ((n1.z - n0.z) / (n1.x - n0.x)), n1.z - (n1.z - n0.z) / (n1.x - n0.x) * n1.x)

/-- The point `pt_i` where an edge line `(m1, b1)` meets the gradient line
`(m2, b2)`; `none` when a coordinate is not finite: both slopes infinite, or
finite and equal. -/
def intersect (l1 l2 : Option α × α) : Option (sxz α) :=
  match l1.1, l2.1 with
  | none, none => none
  | none, some m2 => some ⟨l1.2, m2 * l1.2 + l2.2⟩
  | some m1, none => some ⟨l2.2, m1 * l2.2 + l1.2⟩
  | some m1, some m2 =>
    if m1 - m2 = 0 then none
    else some ⟨(l2.2 - l1.2) / (m1 - m2), m2 * ((l2.2 - l1.2) / (m1 - m2)) + l2.2⟩

/-- `Grid2Dui::findIntersection(i0, i1, g, curr_pt)`: the new `curr_pt` and the
returned flag; `none` when an index is outside `nodes` or the new point is not
finite. -/
def findIntersection (g : Grid2Dui α) (i0 i1 : Nat) (gv curr_pt : sxz α) :
    Option (sxz α × Bool) :=
  match g.nodes[i0]? with
  | none => none
  | some n0 =>
    if slopeTo n0 curr_pt = (gradLine gv curr_pt).1 then some (⟨n0.x, n0.z⟩, true)
    else
      match g.nodes[i1]? with
      | none => none
      | some n1 =>
        if slopeTo n1 curr_pt = (gradLine gv curr_pt).1 then some (⟨n1.x, n1.z⟩, true)
        else
          match intersect (edgeLine n0 n1) (gradLine gv curr_pt) with
          | none => none
          | some pt_i => some (pt_i, false)

/-- The call `r_data.push_back( p )`. -/
def TraceState.push (s : TraceState α) (p : sxz α) : TraceState α :=
  { s with r_data := s.r_data ++ [p] }

/-- The statements `r_data.resize(1); r_data[0] = Rx; reachedTx = true;`. -/
def TraceState.fail (s : TraceState α) (Rx : sxz α) : TraceState α :=
  { s with r_data := (resize s.r_data 1 ⟨0, 0⟩).set 0 Rx, reachedTx := true }

/-- The assignment `curr_pt = p`. -/
def TraceState.setPt (s : TraceState α) (p : sxz α) : TraceState α :=
  { s with curr_pt := p }

/-- The statements `onEdge = true; edgeNodes = nb; cellNo = next;`. -/
def TraceState.enterEdge (s : TraceState α) (nb : Nat × Nat) (next : Nat) : TraceState α :=
  { s with onEdge := true, edgeNodes := some nb, cellNo := some next }

/-- Lines 866-873 and 937-944: the two nodes `nb` of cell `nc` other than
`nodeNo`, in increasing order; `none` when the cell is not in `neighbors` or
does not have exactly two such nodes, and `nb` is written or read outside its
two elements. -/
def otherNodes (g : Grid2Dui α) (nc nodeNo : Nat) : Option (Nat × Nat) :=
  match g.neighbors[nc]? with
  | none => none
  | some l =>
    match l.filter (fun nn => decide (nn ≠ nodeNo)) with
    | [a, b] => some (if a > b then (b, a) else (a, b))
    | _ => none

/-- Lines 881-884 and 946-949: the vector from node `nodeNo` to node `k`. -/
def edgeVector (g : Grid2Dui α) (k nodeNo : Nat) : Option (sxz α) :=
  match g.nodes[k]?, g.nodes[nodeNo]? with
  | some a, some b => some ⟨a.x - b.x, a.z - b.z⟩
  | _, _ => none

/-- Lines 887-901 and 952-964: whether the gradient `gn`, already normalised,
passes the two tests against the edge vectors `v1` and `v2`. -/
def admits (ops : TraceOps α) (gn v1 v2 : sxz α) : Bool :=
  if ops.acos (sxz.dot (ops.normalize v1) gn) >
      ops.acos (sxz.dot (ops.normalize v1) (ops.normalize v2)) then false
  else if sign (ops.cross (ops.normalize v1) gn) ≠
      sign (ops.cross (ops.normalize v1) (ops.normalize v2)) then false
  else true

/-- Lines 903-923 and 966-989: the gradient `gn` crosses the cell with the
other nodes `nb`. -/
def crossCell (w : Nat) (g : Grid2Dui α) (Rx : sxz α) (nb : Nat × Nat) (gn : sxz α)
    (nodeNo : Nat) (s : TraceState α) : Outcome (TraceState α) :=
  match findIntersection g nb.1 nb.2 gn s.curr_pt with
  | none => .undefined
  | some r =>
    if r.2 = true then .ok ((s.setPt r.1).push r.1)
    else
      match findNextCell1 w g nb.1 nb.2 nodeNo with
      | none => .undefined
      | some cellNo =>
        if cellNo = maxT2 w then
          .ok ((((s.setPt r.1).push r.1).enterEdge nb cellNo).fail Rx)
        else .ok (((s.setPt r.1).push r.1).enterEdge nb cellNo)

/-- Lines 865-924: the loop over the owners of the node, each with the gradient
of its own neighbourhood. The result is the state with, when no owner admits
its gradient, the vector `grads`. -/
def firstPass (ops : TraceOps α) (w : Nat) (g : Grid2Dui α) (Rx : sxz α)
    (threadNo nodeNo : Nat) :
    List Nat → List (sxz α) → TraceState α → Outcome (TraceState α × Option (List (sxz α)))
  | [], grads, s => .ok (s, some grads)
  | nc :: rest, grads, s =>
    match otherNodes g nc nodeNo with
    | none => .undefined
    | some nb =>
      match cellGradient ops g nc threadNo with
      | .ok gv =>
        match edgeVector g nb.1 nodeNo, edgeVector g nb.2 nodeNo with
        | some v1, some v2 =>
          if admits ops (ops.normalize gv) v1 v2 = true then
            (crossCell w g Rx nb (ops.normalize gv) nodeNo s).map (fun s1 => (s1, none))
          else firstPass ops w g Rx threadNo nodeNo rest (grads ++ [ops.normalize gv]) s
        | _, _ => .undefined
      | .aborted => .aborted
      | .thrown _ => .undefined
      | .undefined => .undefined

/-- Lines 928-935: the average of the gradients collected. -/
def averageGradient (grads : List (sxz α)) : sxz α :=
  ⟨(grads.map (fun v => v.x)).sum / (grads.length : α),
    (grads.map (fun v => v.z)).sum / (grads.length : α)⟩

/-- Lines 938-990: the loop over the owners of the node with the averaged
gradient `gv`, normalised again at each iteration. The flag of the result is
`foundIntersection`. -/
def secondPass (ops : TraceOps α) (w : Nat) (g : Grid2Dui α) (Rx : sxz α) (nodeNo : Nat) :
    List Nat → sxz α → TraceState α → Outcome (TraceState α × Bool)
  | [], _, s => .ok (s, false)
  | nc :: rest, gv, s =>
    match otherNodes g nc nodeNo with
    | none => .undefined
    | some nb =>
      match edgeVector g nb.1 nodeNo, edgeVector g nb.2 nodeNo with
      | some v1, some v2 =>
        if admits ops (ops.normalize gv) v1 v2 = true then
          (crossCell w g Rx nb (ops.normalize gv) nodeNo s).map (fun s1 => (s1, true))
        else secondPass ops w g Rx nodeNo rest (ops.normalize gv) s
      | _, _ => .undefined

/-- Lines 860-998: the step of the loop when the current point is on a node. -/
def stepOnNode (ops : TraceOps α) (w : Nat) (g : Grid2Dui α) (Rx : sxz α) (threadNo : Nat)
    (s : TraceState α) : Outcome (TraceState α) :=
  match s.nodeNo with
  | none => .undefined
  | some nodeNo =>
    match g.nodes[nodeNo]? with
    | none => .undefined
    | some nd =>
      match firstPass ops w g Rx threadNo nodeNo nd.owners [] s with
      | .ok (s1, none) => .ok s1
      | .ok (s1, some grads) =>
        match secondPass ops w g Rx nodeNo nd.owners (averageGradient grads) s1 with
        | .ok (s2, true) => .ok s2
        | .ok (s2, false) => .ok (s2.fail Rx)
        | .aborted => .aborted
        | .thrown _ => .undefined
        | .undefined => .undefined
      | .aborted => .aborted
      | .thrown _ => .undefined
      | .undefined => .undefined

/-- Lines 1010-1016: the three edges `ind` of the cell, each with its nodes in
increasing order. -/
def cellEdges (g : Grid2Dui α) (cellNo : Nat) : Option (List (Nat × Nat)) :=
  match g.neighbors[cellNo]? with
  | some (a :: b :: c :: _) =>
    some [if a > b then (b, a) else (a, b), if a > c then (c, a) else (a, c),
      if b > c then (c, b) else (b, c)]
  | _ => none

/-- The statements `curr_pt.x = nd.getX(); curr_pt.z = nd.getZ();` and
`r_data.push_back( curr_pt );`. -/
def TraceState.moveTo (s : TraceState α) (nd : Node α) : TraceState α :=
  (s.setPt ⟨nd.x, nd.z⟩).push ⟨nd.x, nd.z⟩

/-- Lines 1084-1088: the test that `pt_i` is within the bounding box of the
edge. -/
def inEdgeBox (pt_i : sxz α) (n0 n1 : Node α) : Bool :=
  decide (((pt_i.x ≤ n1.x ∧ pt_i.x ≥ n0.x) ∨ (pt_i.x ≥ n1.x ∧ pt_i.x ≤ n0.x)) ∧
    ((pt_i.z ≤ n0.z ∧ pt_i.z ≥ n1.z) ∨ (pt_i.z ≥ n0.z ∧ pt_i.z ≤ n1.z)))

/-- Lines 1089-1106: the gradient leaves the cell `cellNo` at `pt_i`, on the
edge `ind`. -/
def leaveCell (w : Nat) (g : Grid2Dui α) (Rx : sxz α) (cellNo : Nat) (ind : Nat × Nat)
    (pt_i : sxz α) (s : TraceState α) : Outcome (TraceState α) :=
  match findNextCell2 w g ind.1 ind.2 cellNo with
  | none => .undefined
  | some next =>
    if next = maxT2 w then .ok ((((s.push pt_i).setPt pt_i).enterEdge ind next).fail Rx)
    else .ok (((s.push pt_i).setPt pt_i).enterEdge ind next)

/-- Lines 1047-1066: the segment is the edge on which the current point lies.
The test `fabs(m1-m2)<small` fails when a slope is infinite. -/
def alongEdge (ops : TraceOps α) (gv : sxz α) (n0 n1 : Node α) (s : TraceState α) :
    Option (TraceState α) :=
  match (edgeLine n0 n1).1, (gradLine gv s.curr_pt).1 with
  | some m1, some m2 =>
    if |m1 - m2| < ops.small then
      if sign (n1.x - n0.x) = sign gv.x then some (s.moveTo n1) else some (s.moveTo n0)
    else none
  | _, _ => none

/-- Lines 1020-1109: the loop over the segments `ind` of the cell `cellNo`. The
flag of the result is `foundIntersection`. A point `pt_i` that is not finite
fails every test on it. -/
def trySegments (ops : TraceOps α) (w : Nat) (g : Grid2Dui α) (Rx gv : sxz α) (cellNo : Nat) :
    List (Nat × Nat) → TraceState α → Outcome (TraceState α × Bool)
  | [], s => .ok (s, false)
  | ind :: rest, s =>
    match g.nodes[ind.1]?, g.nodes[ind.2]? with
    | some n0, some n1 =>
      if s.onEdge = true then
        match s.edgeNodes with
        | none => .undefined
        | some e =>
          if ind = e then
            match alongEdge ops gv n0 n1 s with
            | some s1 => .ok (s1, true)
            | none => trySegments ops w g Rx gv cellNo rest s
          else
            match intersect (edgeLine n0 n1) (gradLine gv s.curr_pt) with
            | none => trySegments ops w g Rx gv cellNo rest s
            | some pt_i =>
              if sxz.dot ⟨pt_i.x - s.curr_pt.x, pt_i.z - s.curr_pt.z⟩ gv ≤ 0 then
                trySegments ops w g Rx gv cellNo rest s
              else if inEdgeBox pt_i n0 n1 = true then
                (leaveCell w g Rx cellNo ind pt_i s).map (fun s1 => (s1, true))
              else trySegments ops w g Rx gv cellNo rest s
      else
        match intersect (edgeLine n0 n1) (gradLine gv s.curr_pt) with
        | none => trySegments ops w g Rx gv cellNo rest s
        | some pt_i =>
          if sxz.dot ⟨pt_i.x - s.curr_pt.x, pt_i.z - s.curr_pt.z⟩ gv ≤ 0 then
            trySegments ops w g Rx gv cellNo rest s
          else if inEdgeBox pt_i n0 n1 = true then
            (leaveCell w g Rx cellNo ind pt_i s).map (fun s1 => (s1, true))
          else trySegments ops w g Rx gv cellNo rest s
    | _, _ => .undefined

/-- Lines 1110-1127: no segment was accepted; the current point moves to an end
of the edge `edgeNodes`. -/
def fallbackNode (g : Grid2Dui α) (gv : sxz α) (s : TraceState α) : Outcome (TraceState α) :=
  match s.edgeNodes with
  | none => .undefined
  | some e =>
    match g.nodes[e.1]?, g.nodes[e.2]? with
    | some n0, some n1 =>
      if sxz.dot ⟨n1.x - n0.x, n1.z - n0.z⟩ gv > 0 then .ok (s.moveTo n1) else .ok (s.moveTo n0)
    | _, _ => .undefined

/-- Lines 1000-1128: the step of the loop when the current point is on no
node. -/
def stepInCell (ops : TraceOps α) (w : Nat) (g : Grid2Dui α) (Rx : sxz α) (threadNo : Nat)
    (s : TraceState α) : Outcome (TraceState α) :=
  match s.cellNo with
  | none => .undefined
  | some cellNo =>
    match cellGradient ops g cellNo threadNo with
    | .ok gv =>
      match cellEdges g cellNo with
      | none => .undefined
      | some edges =>
        match trySegments ops w g Rx (ops.normalize gv) cellNo edges s with
        | .ok (s1, true) => .ok s1
        | .ok (s1, false) => fallbackNode g (ops.normalize gv) s1
        | .aborted => .aborted
        | .thrown _ => .undefined
        | .undefined => .undefined
    | .aborted => .aborted
    | .thrown _ => .undefined
    | .undefined => .undefined

/-- Lines 1130-1139: the search for a node at the current point. -/
def locate (pops : PointOps α (sxz α)) (g : Grid2Dui α) (s : TraceState α) : TraceState α :=
  match g.nodes.findIdx? (fun nd => pops.nodeEq nd s.curr_pt) with
  | some nn => { s with nodeNo := some nn, onNode := true, onEdge := false }
  | none => { s with onNode := false }

/-- Lines 1149-1165: the loop over the sources when the current point is on no
node: a source in the current cell ends the path. -/
def closeInCell (g : Grid2Dui α) : List (sxz α × TxPlace) → TraceState α →
    Outcome (TraceState α)
  | [], s => .ok s
  | (tx, .onNode txNode) :: rest, s =>
    match g.nodes[txNode]? with
    | none => .undefined
    | some nd =>
      if nd.owners.isEmpty = true then
        if s.reachedTx = true then .ok s else closeInCell g rest s
      else
        match s.cellNo with
        | none => .undefined
        | some cellNo =>
          if cellNo ∈ nd.owners then .ok { s.push tx with reachedTx := true }
          else if s.reachedTx = true then .ok s
          else closeInCell g rest s
  | (tx, .inCell txCell) :: rest, s =>
    match s.cellNo with
    | none => .undefined
    | some cellNo =>
      if cellNo = txCell then .ok { s.push tx with reachedTx := true }
      else if s.reachedTx = true then .ok s
      else closeInCell g rest s

/-- Lines 1130-1167: the end of an iteration of the loop. -/
def afterStep (pops : PointOps α (sxz α)) (ops : TraceOps α) (g : Grid2Dui α)
    (places : List (sxz α × TxPlace)) (s : TraceState α) : Outcome (TraceState α) :=
  if (locate pops g s).onNode = true then
    if places.any (fun tp => decide (ops.getDistance (locate pops g s).curr_pt tp.1 < ops.small))
        = true then
      .ok { locate pops g s with reachedTx := true }
    else .ok (locate pops g s)
  else closeInCell g places (locate pops g s)

/-- One iteration of the loop `while ( reachedTx == false )`. -/
def traceStep (pops : PointOps α (sxz α)) (ops : TraceOps α) (w : Nat) (g : Grid2Dui α)
    (places : List (sxz α × TxPlace)) (Rx : sxz α) (threadNo : Nat) (s : TraceState α) :
    Outcome (TraceState α) :=
  (if s.onNode = true then stepOnNode ops w g Rx threadNo s
    else stepInCell ops w g Rx threadNo s).andThen (afterStep pops ops g places)

/-- The loop `while ( reachedTx == false )`, for at most `fuel` tests of its
condition; `none` when they are used up. -/
def traceLoop (pops : PointOps α (sxz α)) (ops : TraceOps α) (w : Nat) (g : Grid2Dui α)
    (places : List (sxz α × TxPlace)) (Rx : sxz α) (threadNo : Nat) :
    Nat → TraceState α → Option (Outcome (List (sxz α)))
  | 0, _ => none
  | fuel + 1, s =>
    if s.reachedTx = true then some (.ok s.r_data)
    else
      match traceStep pops ops w g places Rx threadNo s with
      | .ok s1 => traceLoop pops ops w g places Rx threadNo fuel s1
      | .thrown s1 => some (.thrown s1.r_data)
      | .aborted => some .aborted
      | .undefined => some .undefined

/-- Lines 819-835: where each source is: on the first node equal to it, or in
the cell that `getCellNo` returns; `none` when `getCellNo` does not return. -/
def txPlaces (pops : PointOps α (sxz α)) (w : Nat) (g : Grid2Dui α) :
    List (sxz α) → Option (List (sxz α × TxPlace))
  | [] => some []
  | tx :: rest =>
    match g.nodes.findIdx? (fun nd => pops.nodeEq nd tx) with
    | some nn =>
      match txPlaces pops w g rest with
      | none => none
      | some l => some ((tx, .onNode nn) :: l)
    | none =>
      match getCellNo w pops g tx, txPlaces pops w g rest with
      | some c, some l => some ((tx, .inCell c) :: l)
      | _, _ => none

/-- Lines 836-856: the state at the entry of the loop; `none` when `getCellNo`
does not return. -/
def traceStart (pops : PointOps α (sxz α)) (w : Nat) (g : Grid2Dui α) (Rx : sxz α)
    (r_data : List (sxz α)) : Option (TraceState α) :=
  match g.nodes.findIdx? (fun nd => pops.nodeEq nd Rx) with
  | some nn =>
    some { r_data := r_data ++ [Rx], curr_pt := Rx, onNode := true, nodeNo := some nn,
           cellNo := none, onEdge := false, edgeNodes := none, reachedTx := false }
  | none =>
    match getCellNo w pops g Rx with
    | none => none
    | some c =>
      some { r_data := r_data ++ [Rx], curr_pt := Rx, onNode := false, nodeNo := none,
             cellNo := some c, onEdge := false, edgeNodes := none, reachedTx := false }

/-- `Grid2Dui::getRaypath_ho(Tx, Rx, r_data, threadNo)`: the content of `r_data`
after the call, for at most `fuel` tests of the condition of the loop; `none`
when they are used up. A call in which `getCellNo` does not return is reported
as `Outcome.undefined`. -/
def getRaypath_ho (pops : PointOps α (sxz α)) (ops : TraceOps α) (w : Nat) (g : Grid2Dui α)
    (Tx : List (sxz α)) (Rx : sxz α) (r_data : List (sxz α)) (threadNo fuel : Nat) :
    Option (Outcome (List (sxz α))) :=
  if Tx.any (fun tx => ops.ptEq Rx tx) = true then some (.ok (r_data ++ [Rx]))
  else
    match txPlaces pops w g Tx, traceStart pops w g Rx r_data with
    | some places, some s => traceLoop pops ops w g places Rx threadNo fuel s
    | _, _ => some .undefined

/-- The path `r_data` starts at the point `Rx`. -/
def StartsAt (Rx : sxz α) (r_data : List (sxz α)) : Prop :=
  ∃ t, r_data = Rx :: t

end RayTracing

/-- Operations for a run of the tracer over the rationals, with `NDEBUG`
defined: points are compared by their coordinates, vectors are left as they are
by `normalize`, `acos` is replaced by the decreasing function `1 - x`, the
distance by the sum of the absolute differences, and the least-squares solver
returns the gradient (-1,-1) whatever the mesh. -/
def plainTrace : TraceOps ℚ :=
  { ptEq := fun p q => decide (p = q), normalize := fun v => v,
    cross := fun a b => a.z * b.x - a.x * b.z,
    getDistance := fun p q => |p.x - q.x| + |p.z - q.z|, acos := fun x => 1 - x,
    sqrt := fun x => x, small := 1 / 1000, solve := fun _ _ => [-1, -1, 0, 0, 0],
    ndebug := true }

/-! ## Frame of the local solver -/

/-- The grid `g1` is the grid `g` up to the traveltime of node `vertexC` for
thread `threadNo`: same cells, triangles and registry, same number of nodes,
and every node keeps its coordinates, grid index, slowness, owners, kind and
its traveltimes, except for the traveltime of `vertexC` for `threadNo`. -/
def Grid2Dui.SameButTT {α : Type} (g g1 : Grid2Dui α) (vertexC threadNo : Nat) : Prop :=
  g1.neighbors = g.neighbors ∧ g1.triangles = g.triangles ∧
  g1.virtualNodes = g.virtualNodes ∧ g1.nodes.length = g.nodes.length ∧
  ∀ (n : Nat) (nd : Node α), g.nodes[n]? = some nd →
    ∃ nd1, g1.nodes[n]? = some nd1 ∧ nd1.x = nd.x ∧ nd1.y = nd.y ∧ nd1.z = nd.z ∧
      nd1.gridIndex = nd.gridIndex ∧ nd1.slowness = nd.slowness ∧ nd1.owners = nd.owners ∧
      nd1.primary = nd.primary ∧
      ∀ th, (n ≠ vertexC ∨ th ≠ threadNo) → nd1.tt th = nd.tt th

/-! ## Gradient recovery (`Grad.h`)

The linear-algebra routines of Eigen are not part of `Grad.h`: the solver
`A.jacobiSvd(...).solve(b)` and the inverse `A.inverse()` are arguments of the
functions below, and the statements assume of them, at the system of the call,
what they compute in exact arithmetic. -/

section Gradients

variable {α : Type} [LinearOrderedField α]

/-- Lines 73-82 of `Grad.h`: the three branches of `Grad2D::grad` on the
differences `dx1 dz1 dt1 dx2 dz2 dt2`. `none` stands for a component that is
not finite, the quotient by a zero `dz1` or `dx2` in the first two branches; in
the third branch `dx1` and `dz2` are not zero. -/
def Grad2D.gradOf (dx1 dz1 dt1 dx2 dz2 dt2 : α) : Option (sxz α) :=
  if dx1 = 0 then
    if dz1 = 0 ∨ dx2 = 0 then none
    else some ⟨(dt2 - dz2 * (dt1 / dz1)) / dx2, dt1 / dz1⟩
  else if dz2 = 0 then
    if dx2 = 0 ∨ dz1 = 0 then none
    else some ⟨dt2 / dx2, (dt1 - dx1 * (dt2 / dx2)) / dz1⟩
  else
    some ⟨(dt1 - dz1 * ((dx1 * dt2 - dx2 * dt1) / (dx1 * dz2))) / dx1,
      (dx1 * dt2 - dx2 * dt1) / (dx1 * dz2)⟩

/-- `Grad2D<T>::grad(n0, n1, n2, nt)`. -/
def Grad2D.grad (n0 n1 n2 : Node α) (nt : Nat) : Option (sxz α) :=
  Grad2D.gradOf (n1.x - n0.x) (n1.z - n0.z) (n0.tt nt - n1.tt nt)
    (n2.x - n0.x) (n2.z - n0.z) (n0.tt nt - n2.tt nt)

/-- Lines 91-92: the centroid `cent` of the triangle. -/
def Grad2D.cent (n0 n1 n2 : Node α) : sxz α :=
  ⟨(n0.x + n1.x + n2.x) / 3, (n0.z + n1.z + n2.z) / 3⟩

/-- The distance under `1./sqrt(...)` of lines 95-101, from node `n` to
`cent`. -/
def Grad2D.dist (sqrt : α → α) (cent : sxz α) (n : Node α) : α :=
  sqrt ((n.x - cent.x) * (n.x - cent.x) + (n.z - cent.z) * (n.z - cent.z))

/-- Lines 95-105: the inverse-distance weighted time `t` at the centroid.
`none` stands for a value that is not finite: a node at distance zero, or a
zero sum of the weights. -/
def Grad2D.centTime (sqrt : α → α) (n0 n1 n2 : Node α) (nt : Nat) : Option α :=
  if Grad2D.dist sqrt (Grad2D.cent n0 n1 n2) n0 = 0 ∨
      Grad2D.dist sqrt (Grad2D.cent n0 n1 n2) n1 = 0 ∨
      Grad2D.dist sqrt (Grad2D.cent n0 n1 n2) n2 = 0 ∨
      1 / Grad2D.dist sqrt (Grad2D.cent n0 n1 n2) n0 +
        1 / Grad2D.dist sqrt (Grad2D.cent n0 n1 n2) n1 +
        1 / Grad2D.dist sqrt (Grad2D.cent n0 n1 n2) n2 = 0 then none
  else
    some ((1 / Grad2D.dist sqrt (Grad2D.cent n0 n1 n2) n0 * n0.tt nt +
        1 / Grad2D.dist sqrt (Grad2D.cent n0 n1 n2) n1 * n1.tt nt +
        1 / Grad2D.dist sqrt (Grad2D.cent n0 n1 n2) n2 * n2.tt nt) /
      (1 / Grad2D.dist sqrt (Grad2D.cent n0 n1 n2) n0 +
        1 / Grad2D.dist sqrt (Grad2D.cent n0 n1 n2) n1 +
        1 / Grad2D.dist sqrt (Grad2D.cent n0 n1 n2) n2))

/-- Lines 107-117: the matrix `A` of `Grad2D::ls_grad`, of type
`Eigen::Matrix<T, 3, 2>`. -/
def Grad2D.lsA (n0 n1 n2 : Node α) : Matrix (Fin 3) (Fin 2) α :=
  !![n0.x - (Grad2D.cent n0 n1 n2).x, n0.z - (Grad2D.cent n0 n1 n2).z;
     n1.x - (Grad2D.cent n0 n1 n2).x, n1.z - (Grad2D.cent n0 n1 n2).z;
     n2.x - (Grad2D.cent n0 n1 n2).x, n2.z - (Grad2D.cent n0 n1 n2).z]

/-- Lines 109-117: the right-hand side `b` of `Grad2D::ls_grad` for the time
`t` at the centroid. -/
def Grad2D.lsB (t : α) (n0 n1 n2 : Node α) (nt : Nat) : Fin 3 → α :=
  ![t - n0.tt nt, t - n1.tt nt, t - n2.tt nt]

/-- `Grad2D<T>::ls_grad(n0, n1, n2, nt)`; `solve A b` is the result of
`A.jacobiSvd(ComputeFullU | ComputeFullV).solve(b)`. -/
def Grad2D.ls_grad (sqrt : α → α)
    (solve : Matrix (Fin 3) (Fin 2) α → (Fin 3 → α) → (Fin 2 → α))
    (n0 n1 n2 : Node α) (nt : Nat) : Option (sxz α) :=
  match Grad2D.centTime sqrt n0 n1 n2 nt with
  | none => none
  | some t =>
    some ⟨solve (Grad2D.lsA n0 n1 n2) (Grad2D.lsB t n0 n1 n2 nt) 0,
      solve (Grad2D.lsA n0 n1 n2) (Grad2D.lsB t n0 n1 n2 nt) 1⟩

/-- The sum of the squares of the components of `A x - b`. -/
def residual {m n : Type} [Fintype m] [Fintype n] (A : Matrix m n α) (x : n → α)
    (b : m → α) : α :=
  ∑ i, (A.mulVec x i - b i) ^ 2

/-- What `A.jacobiSvd(...).solve(b)` returns in exact arithmetic: `x` is a
least-squares solution of the system `A x = b`. -/
def LeastSquares {m n : Type} [Fintype m] [Fintype n] (A : Matrix m n α) (b : m → α)
    (x : n → α) : Prop :=
  ∀ y, residual A x b ≤ residual A y b

/-- What `A.inverse()` returns in exact arithmetic at the matrix `A`: when `A`
has an inverse, that inverse. -/
def InverseAt {n : Type} [Fintype n] [DecidableEq n] (inverse : Matrix n n α → Matrix n n α)
    (A : Matrix n n α) : Prop :=
  ∀ B, A * B = 1 → inverse A = B

/-- Lines 289-307: the matrix `A` of `Grad3D::ABM_grad`. -/
def Grad3D.ABM_A (n0 n1 n2 n3 : Node α) : Matrix (Fin 3) (Fin 3) α :=
  !![n1.x - n0.x, n1.y - n0.y, n1.z - n0.z;
     n2.x - n0.x, n2.y - n0.y, n2.z - n0.z;
     n3.x - n0.x, n3.y - n0.y, n3.z - n0.z]

/-- Lines 296-308: the right-hand side `b` of `Grad3D::ABM_grad`. -/
def Grad3D.ABM_b (n0 n1 n2 n3 : Node α) (nt : Nat) : Fin 3 → α :=
  ![n0.tt nt - n1.tt nt, n0.tt nt - n2.tt nt, n0.tt nt - n3.tt nt]

/-- `Grad3D<T,NODE>::ABM_grad(n0, n1, n2, n3, nt)`: `x = A.inverse()*b`. -/
def Grad3D.ABM_grad (inverse : Matrix (Fin 3) (Fin 3) α → Matrix (Fin 3) (Fin 3) α)
    (n0 n1 n2 n3 : Node α) (nt : Nat) : sxyz α :=
  ⟨(inverse (Grad3D.ABM_A n0 n1 n2 n3)).mulVec (Grad3D.ABM_b n0 n1 n2 n3 nt) 0,
    (inverse (Grad3D.ABM_A n0 n1 n2 n3)).mulVec (Grad3D.ABM_b n0 n1 n2 n3 nt) 1,
    (inverse (Grad3D.ABM_A n0 n1 n2 n3)).mulVec (Grad3D.ABM_b n0 n1 n2 n3 nt) 2⟩

/-- Lines 334-356: the matrix `A` of the four-node `Grad3D::ls_grad`. -/
def Grad3D.lsA (n0 n1 n2 n3 : Node α) : Matrix (Fin 4) (Fin 4) α :=
  !![n0.x, n0.y, n0.z, 1;
     n1.x, n1.y, n1.z, 1;
     n2.x, n2.y, n2.z, 1;
     n3.x, n3.y, n3.z, 1]

/-- Lines 338-356: the right-hand side `b` of the four-node `Grad3D::ls_grad`. -/
def Grad3D.lsB (n0 n1 n2 n3 : Node α) (nt : Nat) : Fin 4 → α :=
  ![n0.tt nt, n1.tt nt, n2.tt nt, n3.tt nt]

/-- `Grad3D<T,NODE>::ls_grad(n0, n1, n2, n3, nt)`: `x = A.inverse()*b` and the
gradient `(-x[0], -x[1], -x[2])`. -/
def Grad3D.ls_grad (inverse : Matrix (Fin 4) (Fin 4) α → Matrix (Fin 4) (Fin 4) α)
    (n0 n1 n2 n3 : Node α) (nt : Nat) : sxyz α :=
  ⟨-((inverse (Grad3D.lsA n0 n1 n2 n3)).mulVec (Grad3D.lsB n0 n1 n2 n3 nt) 0),
    -((inverse (Grad3D.lsA n0 n1 n2 n3)).mulVec (Grad3D.lsB n0 n1 n2 n3 nt) 1),
    -((inverse (Grad3D.lsA n0 n1 n2 n3)).mulVec (Grad3D.lsB n0 n1 n2 n3 nt) 2)⟩

/-- Six times the signed volume of the tetrahedron `n0 n1 n2 n3`: the triple
product of its edges at `n0`. -/
def tetVolume6 (n0 n1 n2 n3 : Node α) : α :=
  (n1.x - n0.x) * ((n2.y - n0.y) * (n3.z - n0.z) - (n2.z - n0.z) * (n3.y - n0.y)) -
  (n1.y - n0.y) * ((n2.x - n0.x) * (n3.z - n0.z) - (n2.z - n0.z) * (n3.x - n0.x)) +
  (n1.z - n0.z) * ((n2.x - n0.x) * (n3.y - n0.y) - (n2.y - n0.y) * (n3.x - n0.x))

/-- The distance `d[nn]` of lines 453-455 and 771-773, from node `n` to the
anchor `nod`. -/
def anchorDist (sqrt : α → α) (nod : sxyz α) (n : Node α) : α :=
  sqrt ((n.x - nod.x) * (n.x - nod.x) + (n.y - nod.y) * (n.y - nod.y) +
    (n.z - nod.z) * (n.z - nod.z))

/-- The first loop of `ls_grad(nodes, nt, nod)`, lines 452-464 and 770-782, on
the variables `t`, `den` and `remove`: a node at distance zero is counted in
`remove` and skipped. -/
def anchorLoop (sqrt : α → α) (nt : Nat) (nod : sxyz α) :
    List (Node α) → α × α × Nat → α × α × Nat
  | [], st => st
  | n :: rest, st =>
    if anchorDist sqrt nod n = 0 then
      anchorLoop sqrt nt nod rest (st.1, st.2.1, st.2.2 + 1)
    else
      anchorLoop sqrt nt nod rest
        (st.1 + 1 / anchorDist sqrt nod n * n.tt nt, st.2.1 + 1 / anchorDist sqrt nod n, st.2.2)

/-- The time `t` after `t /= den` (lines 465 and 783); `none` stands for the
quotient by a zero `den`, which is not finite. -/
def anchorTime (sqrt : α → α) (nodes : List (Node α)) (nt : Nat) (nod : sxyz α) : Option α :=
  if (anchorLoop sqrt nt nod nodes (0, 0, 0)).2.1 = 0 then none
  else some ((anchorLoop sqrt nt nod nodes (0, 0, 0)).1 /
    (anchorLoop sqrt nt nod nodes (0, 0, 0)).2.1)

/-- Lines 471-485: the rows of `A` in `Grad3D::ls_grad(nodes, nt, nod)`, one
for each node at non-zero distance. -/
def Grad3D.anchorRows (sqrt : α → α) (nodes : List (Node α)) (nod : sxyz α) : List (List α) :=
  (nodes.filter (fun n => decide (anchorDist sqrt nod n ≠ 0))).map
    (fun n => [n.x - nod.x, n.y - nod.y, n.z - nod.z])

/-- Lines 789-813: the rows of `A` in `Grad3D_ho::ls_grad(nodes, nt, nod)`. -/
def Grad3D_ho.anchorRows (sqrt : α → α) (nodes : List (Node α)) (nod : sxyz α) :
    List (List α) :=
  (nodes.filter (fun n => decide (anchorDist sqrt nod n ≠ 0))).map
    (fun n => [n.x - nod.x, n.y - nod.y, n.z - nod.z,
      1 / 2 * (n.x - nod.x) * (n.x - nod.x), 1 / 2 * (n.y - nod.y) * (n.y - nod.y),
      1 / 2 * (n.z - nod.z) * (n.z - nod.z), (n.x - nod.x) * (n.y - nod.y),
      (n.x - nod.x) * (n.z - nod.z), (n.y - nod.y) * (n.z - nod.z)])

/-- Lines 483 and 812: the right-hand side `b`, `t - getTT(nt)` for each node
at non-zero distance. -/
def anchorRhs (sqrt : α → α) (t : α) (nodes : List (Node α)) (nt : Nat) (nod : sxyz α) :
    List α :=
  (nodes.filter (fun n => decide (anchorDist sqrt nod n ≠ 0))).map (fun n => t - n.tt nt)

/-- `Grad3D<T,NODE>::ls_grad(nodes, nt, nod)`: the assertion on the number of
nodes (removed when `ndebug`), the time at the anchor, and the solution of the
system by `solve`, the result of `A.jacobiSvd(...).solve(b)`. A time that is not
finite leaves no value to return. -/
def Grad3D.ls_grad_nod (sqrt : α → α) (solve : List (List α) → List α → List α)
    (ndebug : Bool) (nodes : List (Node α)) (nt : Nat) (nod : sxyz α) : Outcome (sxyz α) :=
  if nodes.length < 4 ∧ ndebug = false then .aborted
  else
    match anchorTime sqrt nodes nt nod with
    | none => .undefined
    | some t =>
      .ok ⟨(solve (Grad3D.anchorRows sqrt nodes nod) (anchorRhs sqrt t nodes nt nod)).getD 0 0,
        (solve (Grad3D.anchorRows sqrt nodes nod) (anchorRhs sqrt t nodes nt nod)).getD 1 0,
        (solve (Grad3D.anchorRows sqrt nodes nod) (anchorRhs sqrt t nodes nt nod)).getD 2 0⟩

/-- `Grad3D_ho<T,NODE>::ls_grad(nodes, nt, nod)`. -/
def Grad3D_ho.ls_grad_nod (sqrt : α → α) (solve : List (List α) → List α → List α)
    (ndebug : Bool) (nodes : List (Node α)) (nt : Nat) (nod : sxyz α) : Outcome (sxyz α) :=
  if nodes.length < 9 ∧ ndebug = false then .aborted
  else
    match anchorTime sqrt nodes nt nod with
    | none => .undefined
    | some t =>
      .ok ⟨(solve (Grad3D_ho.anchorRows sqrt nodes nod) (anchorRhs sqrt t nodes nt nod)).getD 0 0,
        (solve (Grad3D_ho.anchorRows sqrt nodes nod) (anchorRhs sqrt t nodes nt nod)).getD 1 0,
        (solve (Grad3D_ho.anchorRows sqrt nodes nod) (anchorRhs sqrt t nodes nt nod)).getD 2 0⟩

/-- Modelled from the spec: the inverse-distance interpolation
`Σ wᵢ Tᵢ / Σ wᵢ` with `wᵢ = 1 / dᵢ` of the traveltimes of thread `nt` over a
list of nodes, `d` being the distance of a node to the point. -/
def inverseDistanceTime (d : Node α → α) (nodes : List (Node α)) (nt : Nat) : α :=
  (nodes.map (fun n => 1 / d n * n.tt nt)).sum / (nodes.map (fun n => 1 / d n)).sum

end Gradients

/-- A node of a three-dimensional mesh at `(x, y, z)` with traveltime `t` on
every thread. -/
def nodeAt3 {α : Type} [LinearOrderedField α] (x y z t : α) : Node α :=
  { x := x, y := y, z := z, gridIndex := 0, slowness := 1, tt := fun _ => t,
    owners := [], primary := true }

/-- Four nodes around the anchor (0,0,0): one on the anchor with traveltime 5
and three at distance 1 with traveltime 1. -/
def anchorNodes : List (Node ℚ) :=
  [nodeAt3 0 0 0 5, nodeAt3 1 0 0 1, nodeAt3 0 1 0 1, nodeAt3 0 0 1 1]

/-- The operations `plainTrace` with the assertions compiled in. -/
def debugTrace : TraceOps ℚ :=
  { plainTrace with ndebug := false }

/-! ## The local solver of `Grid2Dui` -/

section Solver2DLemmas

variable {α : Type} [LinearOrderedField α]

omit [LinearOrderedField α] in
theorem Grid2Dui.getTT_of_node {g : Grid2Dui α} {n threadNo : Nat} {nd : Node α}
    (h : g.nodes[n]? = some nd) : g.getTT n threadNo = some (nd.tt threadNo) := by
  simp [Grid2Dui.getTT, h]

omit [LinearOrderedField α] in
theorem Grid2Dui.getTT_setTT_self {g : Grid2Dui α} {n threadNo : Nat} {nd : Node α} (t : α)
    (h : g.nodes[n]? = some nd) : (g.setTT n threadNo t).getTT n threadNo = some t := by
  have hlt : n < g.nodes.length := by
    rcases List.getElem?_eq_some_iff.1 h with ⟨hn, _⟩
    exact hn
  simp [Grid2Dui.getTT, Grid2Dui.setTT, h, List.getElem?_set, hlt]

/-- What one iteration of the loop can do to the grid: nothing, or store at C a
time strictly below the one C had. -/
theorem localSolverStep_state (sin asin : α → α) (pi : α) (vertexC threadNo : Nat)
    (g g1 : Grid2Dui α) (triangleNo : Nat)
    (h : (localSolverStep sin asin pi vertexC threadNo g triangleNo).state? = some g1) :
    g1 = g ∨ ∃ nodeC t, g.nodes[vertexC]? = some nodeC ∧ t < nodeC.tt threadNo ∧
      g1 = g.setTT vertexC threadNo t := by
  unfold localSolverStep at h
  split at h
  · simp [Outcome.state?] at h
  · rename_i nodeC hC
    split at h
    · simp [Outcome.state?] at h
    · simp [Outcome.state?] at h
      exact Or.inl h.symm
    · split at h
      · dsimp only at h
        split_ifs at h with hlt
        · simp [Outcome.state?] at h
          exact Or.inr ⟨nodeC, _, hC, hlt, h.symm⟩
        · simp [Outcome.state?] at h
          exact Or.inl h.symm
      · simp [Outcome.state?] at h

theorem localSolverStep_tt_le (sin asin : α → α) (pi : α) (vertexC threadNo : Nat)
    (g g1 : Grid2Dui α) (triangleNo : Nat) (t0 : α)
    (h : (localSolverStep sin asin pi vertexC threadNo g triangleNo).state? = some g1)
    (h0 : g.getTT vertexC threadNo = some t0) :
    ∃ t1, g1.getTT vertexC threadNo = some t1 ∧ t1 ≤ t0 := by
  rcases localSolverStep_state sin asin pi vertexC threadNo g g1 triangleNo h with
    rfl | ⟨nodeC, t, hC, hlt, rfl⟩
  · exact ⟨t0, h0, le_refl _⟩
  · refine ⟨t, Grid2Dui.getTT_setTT_self t hC, ?_⟩
    rw [Grid2Dui.getTT_of_node hC] at h0
    cases h0
    exact le_of_lt hlt

theorem localSolverLoop_tt_le (sin asin : α → α) (pi : α) (vertexC threadNo : Nat)
    (owners : List Nat) : ∀ (g g1 : Grid2Dui α) (t0 : α),
    (localSolverLoop sin asin pi vertexC threadNo owners g).state? = some g1 →
    g.getTT vertexC threadNo = some t0 →
    ∃ t1, g1.getTT vertexC threadNo = some t1 ∧ t1 ≤ t0 := by
  induction owners with
  | nil =>
    intro g g1 t0 h h0
    simp [localSolverLoop, Outcome.state?] at h
    subst h
    exact ⟨t0, h0, le_refl _⟩
  | cons triangleNo rest ih =>
    intro g g1 t0 h h0
    simp only [localSolverLoop] at h
    cases hstep : localSolverStep sin asin pi vertexC threadNo g triangleNo with
    | ok g2 =>
      rw [hstep] at h
      simp only [Outcome.andThen] at h
      obtain ⟨t2, h2, hle2⟩ := localSolverStep_tt_le sin asin pi vertexC threadNo g g2
        triangleNo t0 (by rw [hstep]; rfl) h0
      obtain ⟨t1, h1, hle1⟩ := ih g2 g1 t2 h h2
      exact ⟨t1, h1, le_trans hle1 hle2⟩
    | thrown g2 =>
      rw [hstep] at h
      simp only [Outcome.andThen, Outcome.state?] at h
      cases h
      exact localSolverStep_tt_le sin asin pi vertexC threadNo g g1 triangleNo t0
        (by rw [hstep]; rfl) h0
    | aborted =>
      rw [hstep] at h
      simp [Outcome.andThen, Outcome.state?] at h
    | undefined =>
      rw [hstep] at h
      simp [Outcome.andThen, Outcome.state?] at h

/-- C1. One call of `localSolver(C, threadNo)` that returns or throws leaves the
traveltime of C at most what it was; and an iteration of its loop changes the
grid only by storing at C a candidate strictly below the current traveltime
of C. -/
theorem localSolver_never_increases (sin asin : α → α) (pi : α) (g g1 : Grid2Dui α)
    (vertexC threadNo : Nat)
    (h : (localSolver sin asin pi g vertexC threadNo).state? = some g1) :
    (∃ t0 t1, g.getTT vertexC threadNo = some t0 ∧ g1.getTT vertexC threadNo = some t1 ∧
      t1 ≤ t0) ∧
    (∀ (g2 g3 : Grid2Dui α) (triangleNo : Nat),
      (localSolverStep sin asin pi vertexC threadNo g2 triangleNo).state? = some g3 →
      g3 = g2 ∨ ∃ nodeC t, g2.nodes[vertexC]? = some nodeC ∧ t < nodeC.tt threadNo ∧
        g3 = g2.setTT vertexC threadNo t) := by
  refine ⟨?_, fun g2 g3 triangleNo h23 =>
    localSolverStep_state sin asin pi vertexC threadNo g2 g3 triangleNo h23⟩
  unfold localSolver at h
  split at h
  · simp [Outcome.state?] at h
  · rename_i nodeC hC
    obtain ⟨t1, h1, hle⟩ := localSolverLoop_tt_le sin asin pi vertexC threadNo nodeC.owners
      g g1 (nodeC.tt threadNo) h (Grid2Dui.getTT_of_node hC)
    exact ⟨nodeC.tt threadNo, t1, Grid2Dui.getTT_of_node hC, h1, hle⟩

end Solver2DLemmas

section Causality

theorem edgeLimited_eq_min {α : Type} [LinearOrderedField α] (sp : Support α) (tA tB sC : α) :
    edgeLimited sp tA tB sC = min (tA + sp.b * sC) (tB + sp.a * sC) := by
  unfold edgeLimited
  dsimp only
  split_ifs with h
  · exact (min_eq_left (le_of_lt h)).symm
  · exact (min_eq_right (not_lt.1 h)).symm

theorem edgeLimited_ge {α : Type} [LinearOrderedField α] (sp : Support α) (tA tB sC : α)
    (ha : 0 ≤ sp.a) (hb : 0 ≤ sp.b) (hs : 0 ≤ sC) :
    min tA tB ≤ edgeLimited sp tA tB sC := by
  rw [edgeLimited_eq_min]
  have h1 : 0 ≤ sp.b * sC := mul_nonneg hb hs
  have h2 : 0 ≤ sp.a * sC := mul_nonneg ha hs
  exact le_min (le_trans (min_le_left _ _) (by linarith)) (le_trans (min_le_right _ _) (by linarith))

/-- In a consistent triangle the cosine argument of each angle lies in [-1, 1],
the projections of the two sides on AB add up to `c`, and the heights of C
over AB computed from either side agree. -/
theorem TriangleConsistent.laws {sp : Support ℝ} (h : TriangleConsistent sp) :
    sp.a * Real.cos sp.alpha + sp.b * Real.cos sp.beta = sp.c ∧
    sp.a * Real.sin sp.alpha = sp.b * Real.sin sp.beta ∧ 0 ≤ sp.beta := by
  obtain ⟨ha, hb, hc, h1, h2, h3, hα, hβ⟩ := h
  set x := (sp.c * sp.c + sp.a * sp.a - sp.b * sp.b) / (2 * sp.a * sp.c) with hx
  set y := (sp.b * sp.b + sp.c * sp.c - sp.a * sp.a) / (2 * sp.b * sp.c) with hy
  have hac : 0 < 2 * sp.a * sp.c := by positivity
  have hbc : 0 < 2 * sp.b * sp.c := by positivity
  have hx1 : x ≤ 1 := by
    rw [hx, div_le_one hac]
    nlinarith [mul_nonneg (sub_nonneg.2 h2) (sub_nonneg.2 h3),
      mul_nonneg (sub_nonneg.2 h1) (sub_nonneg.2 h2)]
  have hx2 : -1 ≤ x := by
    rw [hx, le_div_iff₀ hac]
    nlinarith [mul_nonneg (sub_nonneg.2 h2) (add_nonneg (add_nonneg ha.le hb.le) hc.le)]
  have hy1 : y ≤ 1 := by
    rw [hy, div_le_one hbc]
    nlinarith [mul_nonneg (sub_nonneg.2 h1) (sub_nonneg.2 h3),
      mul_nonneg (sub_nonneg.2 h1) (sub_nonneg.2 h2)]
  have hy2 : -1 ≤ y := by
    rw [hy, le_div_iff₀ hbc]
    nlinarith [mul_nonneg (sub_nonneg.2 h1) (add_nonneg (add_nonneg ha.le hb.le) hc.le)]
  have hcα : Real.cos sp.alpha = x := by rw [hα]; exact Real.cos_arccos hx2 hx1
  have hcβ : Real.cos sp.beta = y := by rw [hβ]; exact Real.cos_arccos hy2 hy1
  have hsα : Real.sin sp.alpha = √(1 - x ^ 2) := by rw [hα]; exact Real.sin_arccos x
  have hsβ : Real.sin sp.beta = √(1 - y ^ 2) := by rw [hβ]; exact Real.sin_arccos y
  refine ⟨?_, ?_, ?_⟩
  · rw [hcα, hcβ, hx, hy]
    field_simp
    ring
  · rw [hsα, hsβ]
    have e1 : sp.a * √(1 - x ^ 2) = √(sp.a ^ 2 * (1 - x ^ 2)) := by
      rw [Real.sqrt_mul (sq_nonneg _), Real.sqrt_sq ha.le]
    have e2 : sp.b * √(1 - y ^ 2) = √(sp.b ^ 2 * (1 - y ^ 2)) := by
      rw [Real.sqrt_mul (sq_nonneg _), Real.sqrt_sq hb.le]
    rw [e1, e2]
    congr 1
    rw [hx, hy]
    field_simp
    ring
  · rw [hβ]
    exact Real.arccos_nonneg _

theorem coneTest_upper {pi : ℝ} {sp : Support ℝ} {theta : ℝ} (h : coneTest pi sp theta) :
    theta ≤ pi / 2 - sp.beta := by
  unfold coneTest at h
  dsimp only at h
  rcases h with ⟨_, h⟩ | ⟨_, h⟩
  · exact h
  · split_ifs at h with h0
    · linarith
    · exact h

theorem wavefront_ge (sp : Support ℝ) (tA tB sC : ℝ) (hsp : TriangleConsistent sp)
    (hs : 0 ≤ sC) (hle : |tB - tA| ≤ sp.c * sC) (hne : sp.c * sC ≠ 0)
    (hcone : coneTest Real.pi sp (Real.arcsin (|tB - tA| / (sp.c * sC)))) :
    min tA tB ≤
      wavefront Real.sin sp (Real.arcsin (|tB - tA| / (sp.c * sC))) tA tB sC := by
  obtain ⟨hproj, hsin, hβ⟩ := hsp.laws
  have hb : 0 < sp.b := hsp.2.1
  have hpos : 0 < sp.c * sC := lt_of_le_of_ne (le_trans (abs_nonneg _) hle) (Ne.symm hne)
  set r := |tB - tA| / (sp.c * sC) with hr
  set theta := Real.arcsin r with hθ
  have hr0 : 0 ≤ r := div_nonneg (abs_nonneg _) hpos.le
  have hr1 : r ≤ 1 := by rw [hr, div_le_one hpos]; exact hle
  have hsinθ : Real.sin theta = r := Real.sin_arcsin (by linarith) hr1
  have hθ0 : 0 ≤ theta := Real.arcsin_nonneg.2 hr0
  have hup := coneTest_upper hcone
  have hH : 0 ≤ Real.sin (sp.beta + theta) :=
    Real.sin_nonneg_of_nonneg_of_le_pi (by linarith) (by linarith [Real.pi_pos])
  have hid : sp.b * Real.sin (sp.beta + theta) - sp.a * Real.sin (sp.alpha - theta) =
      sp.c * Real.sin theta := by
    rw [Real.sin_add, Real.sin_sub, ← hproj]
    linear_combination (-Real.cos theta) * hsin
  have habs : sp.c * sC * Real.sin theta = |tB - tA| := by
    rw [hsinθ, hr]
    field_simp
  have hmin : min tA tB = (tA + tB - |tB - tA|) / 2 := by
    rcases le_total tA tB with h | h
    · rw [min_eq_left h, abs_of_nonneg (sub_nonneg.2 h)]; ring
    · rw [min_eq_right h, abs_of_nonpos (sub_nonpos.2 h)]; ring
  unfold wavefront
  dsimp only
  have key : 1 / 2 * (sp.a * Real.sin (sp.alpha - theta) * sC + tB) +
      1 / 2 * (sp.b * Real.sin (sp.beta + theta) * sC + tA) =
      sp.b * Real.sin (sp.beta + theta) * sC + (tA + tB - |tB - tA|) / 2 := by
    rw [← habs]
    linear_combination (-(1 / 2) * sC) * hid
  rw [key, hmin]
  have : 0 ≤ sp.b * Real.sin (sp.beta + theta) * sC :=
    mul_nonneg (mul_nonneg hb.le hH) hs
  linarith

theorem candidate_ge (sp : Support ℝ) (tA tB sC : ℝ) (hsp : TriangleConsistent sp)
    (hs : 0 ≤ sC) :
    min tA tB ≤ candidate Real.sin Real.arcsin Real.pi sp tA tB sC := by
  have hE := edgeLimited_ge sp tA tB sC hsp.1.le hsp.2.1.le hs
  unfold candidate
  dsimp only
  split_ifs with h1 h2 h3
  · exact hE
  · exact wavefront_ge sp tA tB sC hsp hs h1 h2 h3
  · exact hE
  · exact hE

end Causality

section SetTT

variable {α : Type} [LinearOrderedField α]

omit [LinearOrderedField α] in
theorem Grid2Dui.setTT_node_self {g : Grid2Dui α} {n : Nat} {nd : Node α} (threadNo : Nat)
    (t : α) (h : g.nodes[n]? = some nd) :
    (g.setTT n threadNo t).nodes[n]? =
      some { nd with tt := Function.update nd.tt threadNo t } := by
  have hlt : n < g.nodes.length := (List.getElem?_eq_some_iff.1 h).1
  simp [Grid2Dui.setTT, h, List.getElem?_set, hlt]

omit [LinearOrderedField α] in
theorem Grid2Dui.getTT_setTT {g : Grid2Dui α} {n threadNo : Nat} {nd : Node α} (t : α) (k : Nat)
    (h : g.nodes[n]? = some nd) :
    (g.setTT n threadNo t).getTT k threadNo = if k = n then some t else g.getTT k threadNo := by
  have hlt : n < g.nodes.length := (List.getElem?_eq_some_iff.1 h).1
  by_cases hk : k = n
  · subst hk
    simp [Grid2Dui.getTT, Grid2Dui.setTT, h, List.getElem?_set, hlt]
  · have hk2 : ¬ n = k := fun e => hk e.symm
    simp [Grid2Dui.getTT, Grid2Dui.setTT, h, List.getElem?_set, hk, hk2]

omit [LinearOrderedField α] in
theorem Grid2Dui.setTT_setTT {g : Grid2Dui α} {n threadNo : Nat} {nd : Node α} (t u : α)
    (h : g.nodes[n]? = some nd) :
    (g.setTT n threadNo t).setTT n threadNo u = g.setTT n threadNo u := by
  have h2 := Grid2Dui.setTT_node_self threadNo t h
  unfold Grid2Dui.setTT at h2 ⊢
  simp only [h] at h2 ⊢
  simp only [h2]
  simp [List.set_set]

omit [LinearOrderedField α] in
theorem Grid2Dui.setTT_self {g : Grid2Dui α} {n : Nat} {nd : Node α} (threadNo : Nat)
    (h : g.nodes[n]? = some nd) : g.setTT n threadNo (nd.tt threadNo) = g := by
  have hlt : n < g.nodes.length := (List.getElem?_eq_some_iff.1 h).1
  have hnd : g.nodes[n] = nd := (List.getElem?_eq_some_iff.1 h).2
  unfold Grid2Dui.setTT
  simp only [h, Function.update_eq_self]
  cases g with
  | mk nodes neighbors triangles virtualNodes =>
    simp only [Grid2Dui.mk.injEq, and_true]
    simp only at hnd hlt
    apply List.ext_getElem?
    intro i
    rw [List.getElem?_set]
    split_ifs with h1
    · subst h1
      simp [h]
    · rfl

theorem support_setTT (pi : α) (g : Grid2Dui α) (n threadNo : Nat) (t : α)
    (gridIndexC triangleNo : Nat) :
    support pi (g.setTT n threadNo t) gridIndexC triangleNo =
      support pi g gridIndexC triangleNo := by
  unfold Grid2Dui.setTT
  split <;> rfl

/-- The iteration of the loop when the support is resolved and both supporting
vertices exist: the candidate is stored when it is strictly below T(C). -/
theorem localSolverStep_found (sin asin : α → α) (pi : α) {vertexC threadNo : Nat}
    {g : Grid2Dui α} {triangleNo : Nat} {nodeC : Node α} {sp : Support α} {tA tB : α}
    (hC : g.nodes[vertexC]? = some nodeC)
    (hsp : support pi g nodeC.gridIndex triangleNo = .found sp)
    (hA : g.getTT sp.vertexA threadNo = some tA)
    (hB : g.getTT sp.vertexB threadNo = some tB) :
    ∃ g1, localSolverStep sin asin pi vertexC threadNo g triangleNo = .ok g1 ∧
      g1.getTT vertexC threadNo =
        some (min (nodeC.tt threadNo) (candidate sin asin pi sp tA tB nodeC.slowness)) := by
  unfold localSolverStep
  simp only [hC, hsp, hA, hB]
  split_ifs with hlt
  · exact ⟨_, rfl, by rw [Grid2Dui.getTT_setTT_self _ hC, min_eq_right (le_of_lt hlt)]⟩
  · exact ⟨_, rfl, by rw [Grid2Dui.getTT_of_node hC, min_eq_left (not_lt.1 hlt)]⟩

end SetTT

theorem localSolverLoop_causal (g : Grid2Dui ℝ) (vertexC threadNo : Nat) (nodeC : Node ℝ)
    (m : ℝ) (hC : g.nodes[vertexC]? = some nodeC) (hs : 0 ≤ nodeC.slowness)
    (owners : List Nat)
    (hsup : ∀ triangleNo ∈ owners, ∀ sp,
      support Real.pi g nodeC.gridIndex triangleNo = .found sp →
      TriangleConsistent sp ∧ (∀ tA, g.getTT sp.vertexA threadNo = some tA → m ≤ tA) ∧
        (∀ tB, g.getTT sp.vertexB threadNo = some tB → m ≤ tB)) :
    ∀ v, m ≤ v → ∀ g1,
      (localSolverLoop Real.sin Real.arcsin Real.pi vertexC threadNo owners
        (g.setTT vertexC threadNo v)).state? = some g1 →
      ∃ w, m ≤ w ∧ g1 = g.setTT vertexC threadNo w := by
  induction owners with
  | nil =>
    intro v hv g1 h
    simp [localSolverLoop, Outcome.state?] at h
    exact ⟨v, hv, h.symm⟩
  | cons triangleNo rest ih =>
    intro v hv g1 h
    have ih2 := ih (fun t ht => hsup t (List.mem_cons_of_mem _ ht))
    have hCv := Grid2Dui.setTT_node_self threadNo v hC
    simp only [localSolverLoop] at h
    cases hsp : support Real.pi g nodeC.gridIndex triangleNo with
    | undefined =>
      simp [localSolverStep, hCv, support_setTT, hsp, Outcome.andThen, Outcome.state?] at h
    | outOfRange =>
      simp [localSolverStep, hCv, support_setTT, hsp, Outcome.andThen, Outcome.state?] at h
      exact ⟨v, hv, h.symm⟩
    | found sp =>
      obtain ⟨hcons, hmA, hmB⟩ := hsup triangleNo (List.mem_cons_self _ _) sp hsp
      cases hA : (g.setTT vertexC threadNo v).getTT sp.vertexA threadNo with
      | none =>
        simp [localSolverStep, hCv, support_setTT, hsp, hA, Outcome.andThen, Outcome.state?] at h
      | some tA =>
        cases hB : (g.setTT vertexC threadNo v).getTT sp.vertexB threadNo with
        | none =>
          simp [localSolverStep, hCv, support_setTT, hsp, hA, hB, Outcome.andThen,
            Outcome.state?] at h
        | some tB =>
          have hmA2 : m ≤ tA := by
            rw [Grid2Dui.getTT_setTT v _ hC] at hA
            split_ifs at hA with hk
            · cases hA; exact hv
            · exact hmA tA hA
          have hmB2 : m ≤ tB := by
            rw [Grid2Dui.getTT_setTT v _ hC] at hB
            split_ifs at hB with hk
            · cases hB; exact hv
            · exact hmB tB hB
          have hcand := candidate_ge sp tA tB nodeC.slowness hcons hs
          have hmc : m ≤ candidate Real.sin Real.arcsin Real.pi sp tA tB nodeC.slowness :=
            le_trans (le_min hmA2 hmB2) hcand
          simp only [localSolverStep, hCv, support_setTT, hsp, hA, hB] at h
          split_ifs at h with hlt
          · simp only [Outcome.andThen, Grid2Dui.setTT_setTT _ _ hC] at h
            exact ih2 _ hmc g1 h
          · simp only [Outcome.andThen] at h
            exact ih2 v hv g1 h

theorem oneTriangle_edge_run (a0 a1 a2 : ℝ) :
    localSolver Real.sin Real.arcsin Real.pi (oneTriangle a0 a1 a2 0 10 100) 2 0 =
      .ok ((oneTriangle a0 a1 a2 0 10 100).setTT 2 0 5) := by
  simp [localSolver, localSolverLoop, localSolverStep, support, findI0, candidate, edgeLimited,
    oneTriangle, Arr3.get, Outcome.andThen, Grid2Dui.getTT]
  norm_num

/-- C2. Local causality of `localSolver` over the reals. For a support that is
a genuine triangle and a non-negative slowness at C the candidate time, in the
wavefront branch and in the edge-limited branch alike, is no less than
min(T(A), T(B)). Hence, when every owning triangle of C resolves to such a
support, any `m` that bounds from below the previous T(C) and the traveltimes
of all supporting vertices also bounds T(C) after the call. -/
theorem localSolver_causal (g g1 : Grid2Dui ℝ) (vertexC threadNo : Nat) (nodeC : Node ℝ)
    (m : ℝ) (hC : g.nodes[vertexC]? = some nodeC) (hs : 0 ≤ nodeC.slowness)
    (hsup : ∀ triangleNo ∈ nodeC.owners, ∀ sp,
      support Real.pi g nodeC.gridIndex triangleNo = .found sp →
      TriangleConsistent sp ∧ (∀ tA, g.getTT sp.vertexA threadNo = some tA → m ≤ tA) ∧
        (∀ tB, g.getTT sp.vertexB threadNo = some tB → m ≤ tB))
    (hm : m ≤ nodeC.tt threadNo)
    (hrun : (localSolver Real.sin Real.arcsin Real.pi g vertexC threadNo).state? = some g1) :
    (∀ (sp : Support ℝ) (tA tB sC : ℝ), TriangleConsistent sp → 0 ≤ sC →
      min tA tB ≤ candidate Real.sin Real.arcsin Real.pi sp tA tB sC) ∧
    ∃ t1, g1.getTT vertexC threadNo = some t1 ∧ m ≤ t1 := by
  refine ⟨fun sp tA tB sC h1 h2 => candidate_ge sp tA tB sC h1 h2, ?_⟩
  unfold localSolver at hrun
  simp only [hC] at hrun
  rw [← Grid2Dui.setTT_self threadNo hC] at hrun
  obtain ⟨w, hw, rfl⟩ := localSolverLoop_causal g vertexC threadNo nodeC m hC hs nodeC.owners
    hsup (nodeC.tt threadNo) hm g1 hrun
  exact ⟨w, Grid2Dui.getTT_setTT_self w hC, hw⟩

/-- C3. Wavefront update. For an owning triangle with support `sp` and
traveltimes `tA`, `tB` at its supporting vertices: when |T(B)-T(A)| <= c*s_C,
theta = asin(|T(B)-T(A)|/(c*s_C)) is defined (c*s_C is not zero) and
max(0, alpha-pi/2) <= theta <= pi/2-beta, the candidate is
t = 1/2*(a*sin(alpha-theta)*s_C + T(B)) + 1/2*(b*sin(beta+theta)*s_C + T(A)),
and the iteration leaves T(C) = min(previous T(C), t). -/
theorem localSolver_wavefront_update {α : Type} [LinearOrderedField α] (sin asin : α → α)
    (pi : α) (g : Grid2Dui α) (vertexC threadNo triangleNo : Nat) (nodeC : Node α)
    (sp : Support α) (tA tB : α)
    (hC : g.nodes[vertexC]? = some nodeC)
    (hsp : support pi g nodeC.gridIndex triangleNo = .found sp)
    (hA : g.getTT sp.vertexA threadNo = some tA)
    (hB : g.getTT sp.vertexB threadNo = some tB)
    (hle : |tB - tA| ≤ sp.c * nodeC.slowness)
    (hdef : sp.c * nodeC.slowness ≠ 0)
    (hlo : max 0 (sp.alpha - pi / 2) ≤ asin (|tB - tA| / (sp.c * nodeC.slowness)))
    (hhi : asin (|tB - tA| / (sp.c * nodeC.slowness)) ≤ pi / 2 - sp.beta) :
    candidate sin asin pi sp tA tB nodeC.slowness =
      1 / 2 * (sp.a * sin (sp.alpha - asin (|tB - tA| / (sp.c * nodeC.slowness))) *
        nodeC.slowness + tB) +
      1 / 2 * (sp.b * sin (sp.beta + asin (|tB - tA| / (sp.c * nodeC.slowness))) *
        nodeC.slowness + tA) ∧
    ∃ g1, localSolverStep sin asin pi vertexC threadNo g triangleNo = .ok g1 ∧
      g1.getTT vertexC threadNo =
        some (min (nodeC.tt threadNo)
          (1 / 2 * (sp.a * sin (sp.alpha - asin (|tB - tA| / (sp.c * nodeC.slowness))) *
            nodeC.slowness + tB) +
          1 / 2 * (sp.b * sin (sp.beta + asin (|tB - tA| / (sp.c * nodeC.slowness))) *
            nodeC.slowness + tA))) := by
  have hcand : candidate sin asin pi sp tA tB nodeC.slowness =
      1 / 2 * (sp.a * sin (sp.alpha - asin (|tB - tA| / (sp.c * nodeC.slowness))) *
        nodeC.slowness + tB) +
      1 / 2 * (sp.b * sin (sp.beta + asin (|tB - tA| / (sp.c * nodeC.slowness))) *
        nodeC.slowness + tA) := by
    have hcone : coneTest pi sp (asin (|tB - tA| / (sp.c * nodeC.slowness))) := by
      unfold coneTest
      dsimp only
      left
      refine ⟨?_, hhi⟩
      split_ifs with h0
      · exact le_trans (le_max_left _ _) hlo
      · exact le_trans (le_max_right _ _) hlo
    unfold candidate
    dsimp only
    rw [if_pos hle, if_neg hdef, if_pos hcone]
    rfl
  refine ⟨hcand, ?_⟩
  obtain ⟨g1, h1, h2⟩ := localSolverStep_found sin asin pi hC hsp hA hB
  exact ⟨g1, h1, by rw [h2, hcand]⟩

/-- C4. Edge-limited update over the reals. For an owning triangle with support
`sp`: when |T(B)-T(A)| > c*s_C, or theta = arcsin(|T(B)-T(A)|/(c*s_C)) lies
outside [max(0, alpha-pi/2), pi/2-beta], the candidate is
t = min(T(A) + b*s_C, T(B) + a*s_C) and the iteration leaves
T(C) = min(previous T(C), t). -/
theorem localSolver_edge_limited_update (g : Grid2Dui ℝ) (vertexC threadNo triangleNo : Nat)
    (nodeC : Node ℝ) (sp : Support ℝ) (tA tB : ℝ)
    (hC : g.nodes[vertexC]? = some nodeC)
    (hsp : support Real.pi g nodeC.gridIndex triangleNo = .found sp)
    (hA : g.getTT sp.vertexA threadNo = some tA)
    (hB : g.getTT sp.vertexB threadNo = some tB)
    (hout : sp.c * nodeC.slowness < |tB - tA| ∨
      ¬ (max 0 (sp.alpha - Real.pi / 2) ≤ Real.arcsin (|tB - tA| / (sp.c * nodeC.slowness)) ∧
         Real.arcsin (|tB - tA| / (sp.c * nodeC.slowness)) ≤ Real.pi / 2 - sp.beta)) :
    candidate Real.sin Real.arcsin Real.pi sp tA tB nodeC.slowness =
      min (tA + sp.b * nodeC.slowness) (tB + sp.a * nodeC.slowness) ∧
    ∃ g1, localSolverStep Real.sin Real.arcsin Real.pi vertexC threadNo g triangleNo = .ok g1 ∧
      g1.getTT vertexC threadNo =
        some (min (nodeC.tt threadNo)
          (min (tA + sp.b * nodeC.slowness) (tB + sp.a * nodeC.slowness))) := by
  have hcand : candidate Real.sin Real.arcsin Real.pi sp tA tB nodeC.slowness =
      min (tA + sp.b * nodeC.slowness) (tB + sp.a * nodeC.slowness) := by
    rw [← edgeLimited_eq_min]
    unfold candidate
    dsimp only
    split_ifs with h1 h2 h3
    · rfl
    · exfalso
      rcases hout with h | h
      · exact absurd h1 (not_le.2 h)
      · apply h
        have hpos : 0 ≤ sp.c * nodeC.slowness := le_trans (abs_nonneg _) h1
        have hθ : 0 ≤ Real.arcsin (|tB - tA| / (sp.c * nodeC.slowness)) :=
          Real.arcsin_nonneg.2 (div_nonneg (abs_nonneg _) hpos)
        refine ⟨?_, coneTest_upper h3⟩
        unfold coneTest at h3
        dsimp only at h3
        rcases h3 with ⟨h4, _⟩ | ⟨h4, h5⟩
        · split_ifs at h4 with h0
          · exact max_le h4 (by linarith)
          · exact max_le hθ h4
        · exact max_le hθ h4
    · rfl
    · rfl
  refine ⟨hcand, ?_⟩
  obtain ⟨g1, h1, h2⟩ := localSolverStep_found Real.sin Real.arcsin Real.pi hC hsp hA hB
  exact ⟨g1, h1, by rw [h2, hcand]⟩

/-- The support of node 2 in the one-triangle mesh: A is node 0, B is node 1. -/
theorem oneTriangle_support (pi a0 a1 a2 t0 t1 t2 : ℝ) :
    support pi (oneTriangle a0 a1 a2 t0 t1 t2) 2 0 =
      .found { vertexA := 0, vertexB := 1, a := 3, b := 5, c := 4, alpha := a1, beta := a0 } := by
  simp [support, findI0, oneTriangle, Arr3.get]

theorem localSolver_never_increases_witness :
    (localSolver Real.sin Real.arcsin Real.pi
      (oneTriangle (Real.arccos (4 / 5)) (Real.arccos 0) (Real.arccos (3 / 5)) 0 10 100)
      2 0).state? =
      some ((oneTriangle (Real.arccos (4 / 5)) (Real.arccos 0) (Real.arccos (3 / 5))
        0 10 100).setTT 2 0 5) ∧
    ∃ t0 t1,
      (oneTriangle (Real.arccos (4 / 5)) (Real.arccos 0) (Real.arccos (3 / 5))
        0 10 100).getTT 2 0 = some t0 ∧
      ((oneTriangle (Real.arccos (4 / 5)) (Real.arccos 0) (Real.arccos (3 / 5))
        0 10 100).setTT 2 0 5).getTT 2 0 = some t1 ∧ t1 ≤ t0 :=
  ⟨by rw [oneTriangle_edge_run]; rfl,
   (localSolver_never_increases Real.sin Real.arcsin Real.pi _ _ 2 0
      (by rw [oneTriangle_edge_run]; rfl)).1⟩

theorem localSolver_causal_witness :
    ∃ t1, ((oneTriangle (Real.arccos (4 / 5)) (Real.arccos 0) (Real.arccos (3 / 5))
        0 10 100).setTT 2 0 5).getTT 2 0 = some t1 ∧ (0 : ℝ) ≤ t1 :=
  (localSolver_causal
    (oneTriangle (Real.arccos (4 / 5)) (Real.arccos 0) (Real.arccos (3 / 5)) 0 10 100)
    _ 2 0
    { x := 4, y := 0, z := 3, gridIndex := 2, slowness := 1, tt := fun _ => 100,
      owners := [0], primary := true }
    0 (by simp [oneTriangle]) (by norm_num)
    (by
      intro triangleNo htri sp hsp
      simp only [List.mem_singleton] at htri
      subst htri
      rw [oneTriangle_support] at hsp
      cases hsp
      refine ⟨?_, ?_, ?_⟩
      · unfold TriangleConsistent
        norm_num
      · intro tA hA
        simp [Grid2Dui.getTT, oneTriangle] at hA
        rw [← hA]
      · intro tB hB
        simp [Grid2Dui.getTT, oneTriangle] at hB
        rw [← hB]
        norm_num)
    (by norm_num)
    (by rw [oneTriangle_edge_run]; rfl)).2

theorem localSolver_wavefront_update_witness :
    ∃ g1, localSolverStep Real.sin Real.arcsin Real.pi 2 0
        (oneTriangle (Real.arccos (4 / 5)) (Real.arccos 0) (Real.arccos (3 / 5)) 0 0 100) 0 =
        .ok g1 ∧
      g1.getTT 2 0 =
        some (min (100 : ℝ)
          (1 / 2 * (3 * Real.sin (Real.arccos 0 - Real.arcsin (|(0 : ℝ) - 0| / (4 * 1))) * 1 + 0) +
           1 / 2 * (5 * Real.sin (Real.arccos (4 / 5) + Real.arcsin (|(0 : ℝ) - 0| / (4 * 1))) * 1
             + 0))) :=
  (localSolver_wavefront_update Real.sin Real.arcsin Real.pi
    (oneTriangle (Real.arccos (4 / 5)) (Real.arccos 0) (Real.arccos (3 / 5)) 0 0 100)
    2 0 0
    { x := 4, y := 0, z := 3, gridIndex := 2, slowness := 1, tt := fun _ => 100,
      owners := [0], primary := true }
    { vertexA := 0, vertexB := 1, a := 3, b := 5, c := 4, alpha := Real.arccos 0,
      beta := Real.arccos (4 / 5) }
    0 0 (by simp [oneTriangle]) (oneTriangle_support _ _ _ _ _ _ _)
    (by simp [Grid2Dui.getTT, oneTriangle]) (by simp [Grid2Dui.getTT, oneTriangle])
    (by norm_num) (by norm_num)
    (by simp [Real.arccos_zero])
    (by
      simp only [sub_self, abs_zero, zero_div, Real.arcsin_zero]
      have h : Real.arccos (4 / 5) ≤ Real.pi / 2 := Real.arccos_le_pi_div_two.2 (by norm_num)
      linarith)).2

theorem localSolver_edge_limited_update_witness :
    ∃ g1, localSolverStep Real.sin Real.arcsin Real.pi 2 0
        (oneTriangle (Real.arccos (4 / 5)) (Real.arccos 0) (Real.arccos (3 / 5)) 0 10 100) 0 =
        .ok g1 ∧
      g1.getTT 2 0 = some (min (100 : ℝ) (min (0 + 5 * 1) (10 + 3 * 1))) :=
  (localSolver_edge_limited_update
    (oneTriangle (Real.arccos (4 / 5)) (Real.arccos 0) (Real.arccos (3 / 5)) 0 10 100)
    2 0 0
    { x := 4, y := 0, z := 3, gridIndex := 2, slowness := 1, tt := fun _ => 100,
      owners := [0], primary := true }
    { vertexA := 0, vertexB := 1, a := 3, b := 5, c := 4, alpha := Real.arccos 0,
      beta := Real.arccos (4 / 5) }
    0 10 (by simp [oneTriangle]) (oneTriangle_support _ _ _ _ _ _ _)
    (by simp [Grid2Dui.getTT, oneTriangle]) (by simp [Grid2Dui.getTT, oneTriangle])
    (Or.inl (by norm_num))).2

/-! ## The fast-marching engine of `Grid3Ducfm` -/

section ForEach

theorem Outcome.forEach_ok_induction {σ β : Type} (P : σ → Prop) (f : β → σ → Outcome σ)
    (xs : List β) (hf : ∀ x ∈ xs, ∀ s s1, P s → f x s = .ok s1 → P s1) :
    ∀ s s1, P s → Outcome.forEach f xs s = .ok s1 → P s1 := by
  induction xs with
  | nil =>
    intro s s1 hP h
    simp only [Outcome.forEach, Outcome.ok.injEq] at h
    exact h ▸ hP
  | cons x rest ih =>
    intro s s1 hP h
    simp only [Outcome.forEach] at h
    cases hx : f x s with
    | ok s2 =>
      rw [hx] at h
      exact ih (fun y hy => hf y (List.mem_cons_of_mem _ hy)) s2 s1
        (hf x (List.mem_cons_self _ _) s s2 hP hx) h
    | thrown s2 => rw [hx] at h; simp [Outcome.andThen] at h
    | aborted => rw [hx] at h; simp [Outcome.andThen] at h
    | undefined => rw [hx] at h; simp [Outcome.andThen] at h

end ForEach

section Propagate

variable {α : Type} [LinearOrderedField α]

omit [LinearOrderedField α] in
theorem advances_refl (s : FMState α) : Advances s s :=
  { len := rfl
    frozen_keep := fun _ h => h
    tt_keep := fun _ _ => rfl
    popped_ext := ⟨[], by simp⟩
    updated_ext := ⟨[], by simp⟩ }

omit [LinearOrderedField α] in
theorem advances_trans {s s1 s2 : FMState α} (h1 : Advances s s1) (h2 : Advances s1 s2) :
    Advances s s2 := by
  obtain ⟨l1, hl1, hp1⟩ := h1.popped_ext
  obtain ⟨l2, hl2, hp2⟩ := h2.popped_ext
  obtain ⟨u1, hu1, hq1⟩ := h1.updated_ext
  obtain ⟨u2, hu2, hq2⟩ := h2.updated_ext
  refine
    { len := h2.len.trans h1.len
      frozen_keep := fun n h => h2.frozen_keep n (h1.frozen_keep n h)
      tt_keep := fun n h => (h2.tt_keep n (h1.frozen_keep n h)).trans (h1.tt_keep n h)
      popped_ext := ⟨l1 ++ l2, by rw [hl2, hl1, List.append_assoc], ?_⟩
      updated_ext := ⟨u1 ++ u2, by rw [hu2, hu1, List.append_assoc], ?_⟩ }
  · intro e he
    rcases List.mem_append.1 he with h | h
    · obtain ⟨hf, ht⟩ := hp1 e h
      exact ⟨h2.frozen_keep _ hf, (h2.tt_keep _ hf).trans ht⟩
    · exact hp2 e h
  · intro e he
    rcases List.mem_append.1 he with h | h
    · exact hq1 e h
    · exact hq2 e h

theorem updateNeighbor_advances (g : Grid3Ducfm α) (source neibNo : Nat) (s s1 : FMState α)
    (h : updateNeighbor g source neibNo s = .ok s1) : Advances s s1 := by
  unfold updateNeighbor at h
  split_ifs at h with h1 h2 h3 h4
  · cases h; exact advances_refl s
  · cases h; exact advances_refl s
  · cases h
    refine
      { len := by simp [FMState.push, FMState.markBand]
        frozen_keep := fun n hn => by simpa [FMState.push, FMState.markBand] using hn
        tt_keep := fun n hn => ?_
        popped_ext := ⟨[], by simp [FMState.push, FMState.markBand]⟩
        updated_ext := ⟨[(neibNo, s.frozen neibNo)], by simp [FMState.push, FMState.markBand], ?_⟩ }
    · have hne : neibNo ≠ n := fun e => h3 (e ▸ hn)
      simp [FMState.push, FMState.markBand, List.getElem?_set, hne]
    · intro e he
      simp only [List.mem_singleton] at he
      subst he
      simpa using h3
  · cases h
    refine
      { len := by simp
        frozen_keep := fun n hn => hn
        tt_keep := fun n hn => ?_
        popped_ext := ⟨[], by simp⟩
        updated_ext := ⟨[(neibNo, s.frozen neibNo)], by simp, ?_⟩ }
    · have hne : neibNo ≠ n := fun e => h3 (e ▸ hn)
      simp [List.getElem?_set, hne]
    · intro e he
      simp only [List.mem_singleton] at he
      subst he
      simpa using h3

theorem updateCell_advances (g : Grid3Ducfm α) (source cellNo : Nat) (s s1 : FMState α)
    (h : updateCell g source cellNo s = .ok s1) : Advances s s1 := by
  unfold updateCell at h
  split_ifs at h
  exact Outcome.forEach_ok_induction (Advances s) (updateNeighbor g source) _
    (fun x _ s2 s3 h2 h3 => advances_trans h2 (updateNeighbor_advances g source x s2 s3 h3))
    s s1 (advances_refl s) h

theorem popSource_advances (g : Grid3Ducfm α) (s : FMState α) (source : Nat) (tsrc : α)
    (ht : s.tt[source]? = some tsrc) : Advances s (popSource g s source tsrc) :=
  { len := rfl
    frozen_keep := fun n hn => by
      by_cases e : n = source
      · subst e; simp [popSource]
      · simp [popSource, Function.update_noteq e, hn]
    tt_keep := fun _ _ => rfl
    popped_ext := ⟨[(source, tsrc)], rfl, by
      intro e he
      simp only [List.mem_singleton] at he
      subst he
      exact ⟨by simp [popSource], ht⟩⟩
    updated_ext := ⟨[], by simp [popSource]⟩ }

theorem propagateStep_advances (g : Grid3Ducfm α) (s s1 : FMState α)
    (h : propagateStep g s = .ok s1) : Advances s s1 := by
  unfold propagateStep at h
  split at h
  · cases h; exact advances_refl s
  · rename_i source rest hband
    split at h
    · cases h
    · rename_i tsrc ht
      exact Outcome.forEach_ok_induction (Advances s) (updateCell g source) _
        (fun x _ s2 s3 h2 h3 => advances_trans h2 (updateCell_advances g source x s2 s3 h3))
        _ s1 (popSource_advances g s source tsrc ht) h

theorem propagate_advances (g : Grid3Ducfm α) (fuel : Nat) :
    ∀ (s s1 : FMState α), propagate g fuel s = some (.ok s1) → Advances s s1 := by
  induction fuel with
  | zero =>
    intro s s1 h
    simp only [propagate] at h
    split_ifs at h
    cases h
    exact advances_refl s
  | succ fuel ih =>
    intro s s1 h
    simp only [propagate] at h
    split_ifs at h
    · cases h; exact advances_refl s
    · cases hstep : propagateStep g s with
      | ok s2 =>
        rw [hstep] at h
        exact advances_trans (propagateStep_advances g s s2 hstep) (ih s2 s1 h)
      | thrown s2 => rw [hstep] at h; simp at h
      | aborted => rw [hstep] at h; simp at h
      | undefined => rw [hstep] at h; simp at h

end Propagate

section Termination

theorem filter_range_mono (p q : Nat → Bool) (h : ∀ m, q m = true → p m = true) (N : Nat) :
    ((List.range N).filter q).length ≤ ((List.range N).filter p).length := by
  induction N with
  | zero => simp
  | succ N ih =>
    rw [List.range_succ, List.filter_append, List.filter_append, List.length_append,
      List.length_append]
    have h2 : ([N].filter q).length ≤ ([N].filter p).length := by
      by_cases hq : q N = true
      · simp [List.filter, hq, h N hq]
      · simp [List.filter, hq]
    omega

theorem filter_range_flip (p q : Nat → Bool) (n : Nat) (hp : p n = true) (hq : q n = false)
    (hsame : ∀ m, m ≠ n → q m = p m) :
    ∀ N, n < N → ((List.range N).filter q).length + 1 = ((List.range N).filter p).length := by
  intro N
  induction N with
  | zero => intro h; omega
  | succ N ih =>
    intro hn
    rw [List.range_succ, List.filter_append, List.filter_append, List.length_append,
      List.length_append]
    by_cases hN : n = N
    · subst hN
      have e : (List.range n).filter q = (List.range n).filter p := by
        apply List.filter_congr
        intro m hm
        exact hsame m (by have := List.mem_range.1 hm; omega)
      rw [e]
      simp [List.filter, hp, hq]
    · have h1 := ih (by omega)
      have e : [N].filter q = [N].filter p := by
        apply List.filter_congr
        intro m hm
        simp only [List.mem_singleton] at hm
        exact hsame m (by omega)
      rw [e]
      omega

variable {α : Type} [LinearOrderedField α]

theorem updateNeighbor_bound (g : Grid3Ducfm α) (hg : g.HeapInPlace) (source neibNo : Nat)
    (s s1 : FMState α) (h : updateNeighbor g source neibNo s = .ok s1) :
    s1.bound ≤ s.bound := by
  unfold updateNeighbor at h
  split_ifs at h with h1 h2 h3 h4
  · cases h; exact le_refl _
  · cases h; exact le_refl _
  · cases h
    have hlen : neibNo < s.tt.length := not_le.1 h2
    have hfr : s.frozen neibNo = false := by simpa using h3
    have hflip := filter_range_flip (fun n => !s.frozen n && !s.inBand n)
      (fun n => !s.frozen n && !(Function.update s.inBand neibNo true) n) neibNo
      (by simp [hfr, h4]) (by simp)
      (fun m hm => by simp [Function.update_noteq hm]) s.tt.length hlen
    simp only [FMState.bound, FMState.farCount, FMState.push, FMState.markBand, List.length_set,
      (hg _ _).1, List.length_append, List.length_singleton]
    omega
  · cases h
    simp [FMState.bound, FMState.farCount]

theorem updateCell_bound (g : Grid3Ducfm α) (hg : g.HeapInPlace) (source cellNo : Nat)
    (s s1 : FMState α) (h : updateCell g source cellNo s = .ok s1) : s1.bound ≤ s.bound := by
  unfold updateCell at h
  split_ifs at h
  exact Outcome.forEach_ok_induction (fun t => t.bound ≤ s.bound) (updateNeighbor g source) _
    (fun x _ s2 s3 h2 h3 => le_trans (updateNeighbor_bound g hg source x s2 s3 h3) h2)
    s s1 (le_refl _) h

theorem popSource_bound (g : Grid3Ducfm α) (hg : g.HeapInPlace) (s : FMState α)
    (source : Nat) (tsrc : α) (hne : s.narrow_band ≠ []) :
    (popSource g s source tsrc).bound + 1 ≤ s.bound := by
  have hpos : 0 < s.narrow_band.length := List.length_pos.2 hne
  have hmono := filter_range_mono (fun n => !s.frozen n && !s.inBand n)
    (fun n => !(Function.update s.frozen source true) n &&
      !(Function.update s.inBand source false) n)
    (fun m hm => by
      by_cases e : m = source
      · subst e; simp at hm
      · simpa [Function.update_noteq e] using hm) s.tt.length
  simp only [FMState.bound, FMState.farCount, popSource, List.length_dropLast, (hg _ _).2]
  omega

theorem propagateStep_bound (g : Grid3Ducfm α) (hg : g.HeapInPlace) (s s1 : FMState α)
    (hne : s.narrow_band ≠ []) (h : propagateStep g s = .ok s1) : s1.bound + 1 ≤ s.bound := by
  unfold propagateStep at h
  split at h
  · rename_i hband; exact absurd hband hne
  · rename_i source rest hband
    split at h
    · cases h
    · rename_i tsrc ht
      have h1 := Outcome.forEach_ok_induction
        (fun t => t.bound ≤ (popSource g s source tsrc).bound) (updateCell g source) _
        (fun x _ s2 s3 h2 h3 => le_trans (updateCell_bound g hg source x s2 s3 h3) h2)
        _ s1 (le_refl _) h
      have h2 := popSource_bound g hg s source tsrc hne
      omega

end Termination

section SiftHeap

theorem siftUp_length (comp : Nat → Nat → Bool) (value : Nat) (fuel : Nat) :
    ∀ (hole : Nat) (c : List Nat), (siftUp comp value fuel hole c).length = c.length := by
  induction fuel with
  | zero => intro hole c; simp [siftUp]
  | succ fuel ih =>
    intro hole c
    simp only [siftUp]
    split_ifs
    · rw [ih]; simp
    · simp

theorem siftDown_length (comp : Nat → Nat → Bool) (len : Nat) (fuel : Nat) :
    ∀ (hole : Nat) (c : List Nat), (siftDown comp len fuel hole c).2.length = c.length := by
  induction fuel with
  | zero => intro hole c; simp [siftDown]
  | succ fuel ih =>
    intro hole c
    simp only [siftDown]
    split_ifs
    · rw [ih]; simp
    · rw [ih]; simp
    · rfl

theorem siftPushHeap_length (comp : Nat → Nat → Bool) (c : List Nat) :
    (siftPushHeap comp c).length = c.length := by
  unfold siftPushHeap
  split
  · rfl
  · exact siftUp_length _ _ _ _ _

theorem siftPopHeap_length (comp : Nat → Nat → Bool) (c : List Nat) :
    (siftPopHeap comp c).length = c.length := by
  unfold siftPopHeap adjustHeap
  split_ifs
  · rw [siftUp_length]
    split_ifs
    · simp [siftDown_length]
    · simp [siftDown_length]
  · rfl

theorem tetMesh_heapInPlace : tetMesh.HeapInPlace :=
  fun cmp c => ⟨siftPushHeap_length cmp c, siftPopHeap_length cmp c⟩

end SiftHeap

section Seeding

variable {α : Type} [LinearOrderedField α]

omit [LinearOrderedField α] in
theorem touches_refl (W : Nat → Prop) (s : FMState α) : Touches W s s :=
  ⟨rfl, fun _ _ => ⟨rfl, fun h => h⟩⟩

omit [LinearOrderedField α] in
theorem touches_trans {W : Nat → Prop} {s s1 s2 : FMState α} (h1 : Touches W s s1)
    (h2 : Touches W s1 s2) : Touches W s s2 :=
  ⟨h2.1.trans h1.1, fun v hv =>
    ⟨((h2.2 v hv).1).trans (h1.2 v hv).1, fun h => (h2.2 v hv).2 ((h1.2 v hv).2 h)⟩⟩

omit [LinearOrderedField α] in
theorem touches_mono {W V : Nat → Prop} {s s1 : FMState α} (h : Touches W s s1)
    (hWV : ∀ v, W v → V v) : Touches V s s1 :=
  ⟨h.1, fun v hv => h.2 v (fun hw => hv (hWV v hw))⟩

/-- Storing a traveltime at node `n`, pushing it and marking it as a seed
touches node `n` only, and leaves it frozen with that traveltime. -/
theorem seedNode_touches (g : Grid3Ducfm α) (s : FMState α) (n : Nat) (t : α) :
    Touches (fun v => v = n) s (seedNode g s n t) := by
  refine ⟨by simp [seedNode, FMState.markSeed, FMState.push], fun v hv => ⟨?_, fun h => ?_⟩⟩
  · have hne : n ≠ v := fun e => hv e.symm
    simp [seedNode, FMState.markSeed, FMState.push, List.getElem?_set, hne]
  · simp [seedNode, FMState.markSeed, FMState.push, Function.update_noteq hv, h]

theorem seedNode_self (g : Grid3Ducfm α) (s : FMState α) (n : Nat) (t : α)
    (hn : n < s.tt.length) :
    (seedNode g s n t).tt[n]? = some t ∧ (seedNode g s n t).frozen n = true := by
  simp [seedNode, FMState.markSeed, FMState.push, List.getElem?_set, hn]

theorem relaxSeed_touches (g : Grid3Ducfm α) (t : α) (no : Nat) (st st1 : FMState α × Nat)
    (h : relaxSeed g t no st = .ok st1) : Touches (fun v => v = no) st.1 st1.1 := by
  unfold relaxSeed at h
  split at h
  · cases h
  · split_ifs at h with h1 h2
    · cases h
      exact seedNode_touches g st.1 no t
    · cases h
      refine ⟨by simp, fun v hv => ⟨?_, fun h => h⟩⟩
      have hne : no ≠ v := fun e => hv e.symm
      simp [List.getElem?_set, hne]
    · cases h
      exact touches_refl _ _

theorem seedCellNeighbors_touches (g : Grid3Ducfm α) (nn : Nat) (t0n : α) (cellNo : Nat)
    (st st1 : FMState α × Nat) (h : seedCellNeighbors g nn t0n cellNo st = .ok st1) :
    Touches (fun v => v ≠ nn) st.1 st1.1 := by
  unfold seedCellNeighbors at h
  split_ifs at h
  refine Outcome.forEach_ok_induction (fun u => Touches (fun v => v ≠ nn) st.1 u.1) _ _ ?_
    st st1 (touches_refl _ _) h
  intro neibNo _ u u1 hu hstep
  split_ifs at hstep with hnn
  · cases hstep; exact hu
  · exact touches_trans hu (touches_mono (relaxSeed_touches g _ neibNo u u1 hstep)
      (fun v hv => by rw [hv]; exact hnn))

theorem seedRadiusNode_touches (g : Grid3Ducfm α) (nn : Nat) (t0n : α) (no : Nat)
    (st st1 : FMState α × Nat) (h : seedRadiusNode g nn t0n no st = .ok st1) :
    Touches (fun v => v ≠ nn) st.1 st1.1 := by
  unfold seedRadiusNode at h
  split_ifs at h with h1 h2 h3
  · cases h; exact touches_refl _ _
  · split at h
    · cases h
    · cases h; exact touches_refl _ _
  · split at h
    · cases h
    · exact touches_mono (relaxSeed_touches g _ no st st1 h) (fun v hv => by rw [hv]; exact h1)
  · cases h; exact touches_refl _ _

/-- A source found on node `nn`: the node ends with the time of the source and
frozen; with several sources no other node is touched. -/
theorem seedOnNode_spec (g : Grid3Ducfm α) (numTx nn : Nat) (t : α) (s s1 : FMState α)
    (hnn : nn < s.tt.length) (h : seedOnNode g numTx nn (some t) s = .ok s1) :
    s1.tt.length = s.tt.length ∧ s1.tt[nn]? = some t ∧ s1.frozen nn = true ∧
    (numTx ≠ 1 → Touches (fun v => v = nn) s s1) := by
  unfold seedOnNode at h
  have hseed := seedNode_touches g s nn t
  obtain ⟨h0tt, h0fr⟩ := seedNode_self g s nn t hnn
  simp only at h
  split_ifs at h with h1 h2
  · cases hr : Outcome.forEach (seedCellNeighbors g nn t) (g.owners nn) (seedNode g s nn t, 0) with
    | ok st =>
      rw [hr] at h
      simp only [dropCount, Outcome.ok.injEq] at h
      subst h
      have hT := Outcome.forEach_ok_induction
        (fun u : FMState α × Nat => Touches (fun v => v ≠ nn) (seedNode g s nn t) u.1)
        (seedCellNeighbors g nn t) _
        (fun x _ u u1 hu hx => touches_trans hu (seedCellNeighbors_touches g nn t x u u1 hx))
        _ st (touches_refl _ _) hr
      have hk := hT.2 nn (fun hne => hne rfl)
      exact ⟨hT.1.trans hseed.1, hk.1.trans h0tt, hk.2 h0fr, fun hne => absurd h1 hne⟩
    | thrown st => rw [hr] at h; simp [dropCount] at h
    | aborted => rw [hr] at h; simp [dropCount] at h
    | undefined => rw [hr] at h; simp [dropCount] at h
  · cases hr : Outcome.forEach (seedRadiusNode g nn t) (List.range s.tt.length)
        (seedNode g s nn t, 0) with
    | ok st =>
      rw [hr] at h
      simp only [checkAdded] at h
      split_ifs at h
      cases h
      have hT := Outcome.forEach_ok_induction
        (fun u : FMState α × Nat => Touches (fun v => v ≠ nn) (seedNode g s nn t) u.1)
        (seedRadiusNode g nn t) _
        (fun x _ u u1 hu hx => touches_trans hu (seedRadiusNode_touches g nn t x u u1 hx))
        _ st (touches_refl _ _) hr
      have hk := hT.2 nn (fun hne => hne rfl)
      exact ⟨hT.1.trans hseed.1, hk.1.trans h0tt, hk.2 h0fr, fun hne => absurd h1 hne⟩
    | thrown st => rw [hr] at h; simp [checkAdded] at h
    | aborted => rw [hr] at h; simp [checkAdded] at h
    | undefined => rw [hr] at h; simp [checkAdded] at h
  · cases h
    exact ⟨hseed.1, h0tt, h0fr, fun _ => hseed⟩

theorem seedCellNode_touches (g : Grid3Ducfm α) (p : sxyz α) (t0n : Option α)
    (cellNo neibNo : Nat) (s s1 : FMState α) (h : seedCellNode g p t0n cellNo neibNo s = .ok s1) :
    Touches (fun v => v = neibNo) s s1 := by
  unfold seedCellNode at h
  split at h
  · cases h
  · split_ifs at h
    cases h
    exact seedNode_touches g s neibNo _

theorem seedRadiusPoint_len (g : Grid3Ducfm α) (p : sxyz α) (t0n : Option α) (cellNo no : Nat)
    (st st1 : FMState α × Nat) (h : seedRadiusPoint g p t0n cellNo no st = .ok st1) :
    st1.1.tt.length = st.1.tt.length := by
  unfold seedRadiusPoint at h
  split_ifs at h
  · split at h
    · cases h
    · exact (relaxSeed_touches g _ no st st1 h).1
  · cases h; rfl

/-- A source found on no node: the number of nodes is kept; with source radius
0 only the nodes of its cell are touched, and with a non-zero radius and
several sources nothing is. -/
theorem seedInCell_spec (g : Grid3Ducfm α) (numTx : Nat) (p : sxyz α) (t0n : Option α)
    (s s1 : FMState α) (h : seedInCell g numTx p t0n s = .ok s1) :
    s1.tt.length = s.tt.length ∧
    (numTx ≠ 1 → Touches (fun v => g.source_radius = 0 ∧ v ∈ g.neighbors (g.getCellNo p)) s s1) := by
  unfold seedInCell at h
  split_ifs at h with h1 h2 h3
  · have hT := Outcome.forEach_ok_induction
      (fun u : FMState α =>
        Touches (fun v => g.source_radius = 0 ∧ v ∈ g.neighbors (g.getCellNo p)) s u)
      (seedCellNode g p t0n (g.getCellNo p)) (g.neighbors (g.getCellNo p))
      (fun x hx u u1 hu hstep =>
        touches_trans hu (touches_mono (seedCellNode_touches g p t0n _ x u u1 hstep)
          (fun v hv => ⟨h1, by rw [hv]; exact hx⟩)))
      s s1 (touches_refl _ _) h
    exact ⟨hT.1, fun _ => hT⟩
  · cases hr : Outcome.forEach (seedRadiusPoint g p t0n (g.getCellNo p))
        (List.range s.tt.length) (s, 0) with
    | ok st =>
      rw [hr] at h
      simp only [checkAdded] at h
      split_ifs at h
      cases h
      have hlen := Outcome.forEach_ok_induction
        (fun u : FMState α × Nat => u.1.tt.length = s.tt.length)
        (seedRadiusPoint g p t0n (g.getCellNo p)) _
        (fun x _ u u1 hu hx => (seedRadiusPoint_len g p t0n _ x u u1 hx).trans hu)
        _ st rfl hr
      exact ⟨hlen, fun hne => absurd h3 hne⟩
    | thrown st => rw [hr] at h; simp [checkAdded] at h
    | aborted => rw [hr] at h; simp [checkAdded] at h
    | undefined => rw [hr] at h; simp [checkAdded] at h
  · cases h
    exact ⟨rfl, fun _ => touches_refl _ _⟩

end Seeding

section InitBand

variable {α : Type} [LinearOrderedField α]

omit [LinearOrderedField α] in
theorem findNode_lt (g : Grid3Ducfm α) (N : Nat) (p : sxyz α) (nn : Nat)
    (h : findNode g N p = some nn) : nn < N :=
  List.mem_range.1 (List.mem_of_find?_eq_some h)

theorem initSource_len (g : Grid3Ducfm α) (numTx : Nat) (p : sxyz α) (t0n : Option α)
    (s s1 : FMState α) (h : initSource g numTx p t0n s = .ok s1) :
    s1.tt.length = s.tt.length := by
  unfold initSource at h
  split at h
  · rename_i nn hnn
    cases t0n with
    | none => simp [seedOnNode] at h
    | some t => exact (seedOnNode_spec g numTx nn t s s1 (findNode_lt g _ p nn hnn) h).1
  · exact (seedInCell_spec g numTx p t0n s s1 h).1

theorem initSource_hit (g : Grid3Ducfm α) (numTx : Nat) (p : sxyz α) (t : α)
    (s s1 : FMState α) (v : Nat) (hv : findNode g s.tt.length p = some v)
    (h : initSource g numTx p (some t) s = .ok s1) :
    s1.tt[v]? = some t ∧ s1.frozen v = true := by
  unfold initSource at h
  rw [hv] at h
  have := seedOnNode_spec g numTx v t s s1 (findNode_lt g _ p v hv) h
  exact ⟨this.2.1, this.2.2.1⟩

theorem initSource_keep (g : Grid3Ducfm α) (numTx : Nat) (q : sxyz α) (t0m : Option α)
    (s s1 : FMState α) (v : Nat) (hnum : numTx ≠ 1)
    (hnot : findNode g s.tt.length q ≠ some v)
    (hcell : findNode g s.tt.length q = none → g.source_radius = 0 →
      v ∉ g.neighbors (g.getCellNo q))
    (h : initSource g numTx q t0m s = .ok s1) :
    s1.tt[v]? = s.tt[v]? ∧ (s.frozen v = true → s1.frozen v = true) := by
  unfold initSource at h
  split at h
  · rename_i nn hnn
    cases t0m with
    | none => simp [seedOnNode] at h
    | some t =>
      have hT := (seedOnNode_spec g numTx nn t s s1 (findNode_lt g _ q nn hnn) h).2.2.2 hnum
      exact hT.2 v (fun e => hnot (by rw [hnn, e]))
  · rename_i hnone
    have hT := (seedInCell_spec g numTx q t0m s s1 h).2 hnum
    exact hT.2 v (fun hw => hcell hnone hw.1 hw.2)

theorem initBandLoop_len (g : Grid3Ducfm α) (numTx : Nat) (t0 : List α) :
    ∀ (rest : List (sxyz α)) (k : Nat) (s s1 : FMState α),
      initBandLoop g numTx t0 k rest s = .ok s1 → s1.tt.length = s.tt.length := by
  intro rest
  induction rest with
  | nil => intro k s s1 h; simp only [initBandLoop, Outcome.ok.injEq] at h; rw [h]
  | cons p rest ih =>
    intro k s s1 h
    simp only [initBandLoop] at h
    cases hs : initSource g numTx p t0[k]? s with
    | ok s2 =>
      rw [hs] at h
      exact (ih (k + 1) s2 s1 h).trans (initSource_len g numTx p _ s s2 hs)
    | thrown s2 => rw [hs] at h; simp [Outcome.andThen] at h
    | aborted => rw [hs] at h; simp [Outcome.andThen] at h
    | undefined => rw [hs] at h; simp [Outcome.andThen] at h

/-- Sources that are not found on node `v` and whose cell, when they are on no
node and the radius is 0, does not contain `v`, leave `v` as it is. -/
theorem initBandLoop_keeps (g : Grid3Ducfm α) (numTx : Nat) (t0 : List α) (v N : Nat) :
    ∀ (rest : List (sxyz α)) (k : Nat) (s s1 : FMState α),
      initBandLoop g numTx t0 k rest s = .ok s1 → s.tt.length = N →
      (rest ≠ [] → numTx ≠ 1) →
      (∀ q ∈ rest, findNode g N q ≠ some v ∧
        (findNode g N q = none → g.source_radius = 0 → v ∉ g.neighbors (g.getCellNo q))) →
      s1.tt[v]? = s.tt[v]? ∧ (s.frozen v = true → s1.frozen v = true) := by
  intro rest
  induction rest with
  | nil =>
    intro k s s1 h _ _ _
    simp only [initBandLoop, Outcome.ok.injEq] at h
    subst h
    exact ⟨rfl, fun h => h⟩
  | cons p rest ih =>
    intro k s s1 h hN hnum hcond
    simp only [initBandLoop] at h
    cases hs : initSource g numTx p t0[k]? s with
    | ok s2 =>
      rw [hs] at h
      have hnum1 : numTx ≠ 1 := hnum (List.cons_ne_nil _ _)
      obtain ⟨hc1, hc2⟩ := hcond p (List.mem_cons_self _ _)
      have hk := initSource_keep g numTx p _ s s2 v hnum1 (by rw [hN]; exact hc1)
        (by rw [hN]; exact hc2) hs
      have hlen := initSource_len g numTx p _ s s2 hs
      have hr := ih (k + 1) s2 s1 h (hlen.trans hN) (fun _ => hnum1)
        (fun q hq => hcond q (List.mem_cons_of_mem _ hq))
      exact ⟨hr.1.trans hk.1, fun hf => hr.2 (hk.2 hf)⟩
    | thrown s2 => rw [hs] at h; simp [Outcome.andThen] at h
    | aborted => rw [hs] at h; simp [Outcome.andThen] at h
    | undefined => rw [hs] at h; simp [Outcome.andThen] at h

theorem initBandLoop_hit (g : Grid3Ducfm α) (numTx : Nat) (t0 : List α) (v N : Nat) (t : α)
    (p : sxyz α) (hv : findNode g N p = some v) :
    ∀ (rest : List (sxyz α)) (k : Nat) (s s1 : FMState α) (j : Nat),
      initBandLoop g numTx t0 k rest s = .ok s1 → s.tt.length = N →
      k + rest.length = numTx → rest[j]? = some p → t0[k + j]? = some t →
      (∀ i q, j < i → rest[i]? = some q → findNode g N q ≠ some v ∧
        (findNode g N q = none → g.source_radius = 0 → v ∉ g.neighbors (g.getCellNo q))) →
      s1.tt[v]? = some t ∧ s1.frozen v = true := by
  intro rest
  induction rest with
  | nil => intro k s s1 j _ _ _ hj; simp at hj
  | cons p0 rest ih =>
    intro k s s1 j h hN hnum hj ht hlater
    simp only [initBandLoop] at h
    cases hs : initSource g numTx p0 t0[k]? s with
    | ok s2 =>
      rw [hs] at h
      have hlen := initSource_len g numTx p0 _ s s2 hs
      cases j with
      | zero =>
        simp only [List.getElem?_cons_zero, Option.some.injEq] at hj
        subst hj
        simp only [Nat.add_zero] at ht
        rw [ht] at hs
        obtain ⟨h1, h2⟩ := initSource_hit g numTx p0 t s s2 v (by rw [hN]; exact hv) hs
        have hk := initBandLoop_keeps g numTx t0 v N rest (k + 1) s2 s1 h (hlen.trans hN)
          (fun hne => by
            have : 0 < rest.length := List.length_pos.2 hne
            simp only [List.length_cons] at hnum
            omega)
          (fun q hq => by
            obtain ⟨i, hi, hqi⟩ := List.getElem_of_mem hq
            exact hlater (i + 1) q (Nat.succ_pos _)
              (by simp [List.getElem?_eq_getElem hi, hqi]))
        exact ⟨hk.1.trans h1, hk.2 h2⟩
      | succ j =>
        simp only [List.getElem?_cons_succ] at hj
        exact ih (k + 1) s2 s1 j h (hlen.trans hN)
          (by simp only [List.length_cons] at hnum; omega) hj
          (by rw [← ht]; congr 1; omega)
          (fun i q hi hq => hlater (i + 1) q (by omega) (by simpa using hq))
    | thrown s2 => rw [hs] at h; simp [Outcome.andThen] at h
    | aborted => rw [hs] at h; simp [Outcome.andThen] at h
    | undefined => rw [hs] at h; simp [Outcome.andThen] at h

end InitBand

section March

variable {α : Type} [LinearOrderedField α]

omit [LinearOrderedField α] in
theorem Outcome.ok_of_map_ok? {σ β : Type} {r : Outcome σ} {f : σ → β} {b : β}
    (h : r.ok?.map f = some b) : ∃ s, r = .ok s ∧ f s = b := by
  cases r with
  | ok s => exact ⟨s, rfl, by simpa [Outcome.ok?] using h⟩
  | thrown s => simp [Outcome.ok?] at h
  | aborted => simp [Outcome.ok?] at h
  | undefined => simp [Outcome.ok?] at h

/-- A normal return of the common part of `raytrace` is a normal return of
`initBand` followed by a normal return of `propagate`. -/
theorem march_ok (g : Grid3Ducfm α) (Tx : List (sxyz α)) (t0 : List α)
    (nodes : List (Nat → α)) (threadNo : Nat) (s2 : FMState α)
    (h : march g Tx t0 nodes threadNo = .ok s2) :
    ∃ s1, initBand g Tx t0 (freshState (reinit g nodes threadNo) threadNo) = .ok s1 ∧
      propagate g s1.bound s1 = some (.ok s2) := by
  unfold march at h
  cases hi : initBand g Tx t0 (freshState (reinit g nodes threadNo) threadNo) with
  | ok s1 =>
    rw [hi] at h
    simp only [Outcome.andThen] at h
    refine ⟨s1, rfl, ?_⟩
    cases hp : propagate g s1.bound s1 with
    | none => rw [hp] at h; cases h
    | some r => rw [hp] at h; simp only at h; rw [h]
  | thrown s1 => rw [hi] at h; simp [Outcome.andThen] at h
  | aborted => rw [hi] at h; simp [Outcome.andThen] at h
  | undefined => rw [hi] at h; simp [Outcome.andThen] at h

omit [LinearOrderedField α] in
theorem threadTT_reinit (g : Grid3Ducfm α) (nodes : List (Nat → α)) (threadNo : Nat) :
    threadTT (reinit g nodes threadNo) threadNo = List.replicate nodes.length g.ttReinit := by
  unfold threadTT reinit
  rw [List.map_map]
  induction nodes with
  | nil => rfl
  | cons a l ih => simp [List.replicate_succ, ih]

omit [LinearOrderedField α] in
theorem freshState_reinit_congr (g : Grid3Ducfm α) (nodes1 nodes2 : List (Nat → α))
    (threadNo : Nat) (h : nodes1.length = nodes2.length) :
    freshState (reinit g nodes1 threadNo) threadNo =
      freshState (reinit g nodes2 threadNo) threadNo := by
  unfold freshState
  rw [threadTT_reinit, threadTT_reinit, h]

theorem march_congr (g : Grid3Ducfm α) (Tx : List (sxyz α)) (t0 : List α)
    (nodes1 nodes2 : List (Nat → α)) (threadNo : Nat) (h : nodes1.length = nodes2.length) :
    march g Tx t0 nodes1 threadNo = march g Tx t0 nodes2 threadNo := by
  unfold march
  rw [freshState_reinit_congr g nodes1 nodes2 threadNo h]

theorem march_len (g : Grid3Ducfm α) (Tx : List (sxyz α)) (t0 : List α)
    (nodes : List (Nat → α)) (threadNo : Nat) (s2 : FMState α)
    (h : march g Tx t0 nodes threadNo = .ok s2) : s2.tt.length = nodes.length := by
  obtain ⟨s1, hi, hp⟩ := march_ok g Tx t0 nodes threadNo s2 h
  have h1 := initBandLoop_len g Tx.length t0 Tx 0 _ s1 hi
  have h2 := (propagate_advances g _ s1 s2 hp).len
  rw [h2, h1]
  simp [freshState, threadTT, reinit]

omit [LinearOrderedField α] in
theorem resize_length {β : Type} (v : List β) (n : Nat) (fill : β) :
    (resize v n fill).length = n := by
  simp [resize]

omit [LinearOrderedField α] in
theorem take_set_self {β : Type} (l : List β) (n : Nat) (a : β) :
    (l.set n a).take n = l.take n := by
  apply List.ext_getElem?
  intro i
  rw [List.getElem?_take, List.getElem?_take]
  split_ifs with h
  · rw [List.getElem?_set]
    have hne : ¬ n = i := by omega
    simp [hne]
  · rfl

omit [LinearOrderedField α] in
theorem fillTraveltimes_eq (g : Grid3Ducfm α) (tt : List α) :
    ∀ (rest : List (sxyz α)) (n : Nat) (out : List α), out.length = n + rest.length →
      fillTraveltimes g tt n rest out =
        out.take n ++ rest.map (fun rx => g.getTraveltime rx tt) := by
  intro rest
  induction rest with
  | nil =>
    intro n out h
    simp only [fillTraveltimes, List.map_nil, List.append_nil]
    rw [List.take_of_length_le (by simp at h; omega)]
  | cons rx rest ih =>
    intro n out h
    simp only [List.length_cons] at h
    simp only [fillTraveltimes]
    rw [ih (n + 1) _ (by simp; omega), List.take_succ, take_set_self]
    have hn : n < out.length := by omega
    simp [List.getElem?_set, hn]

omit [LinearOrderedField α] in
theorem fitSize_length {β : Type} (v : List β) (n : Nat) (fill : β) :
    (fitSize v n fill).length = n := by
  unfold fitSize
  split_ifs with h
  · exact resize_length _ _ _
  · simpa using h

omit [LinearOrderedField α] in
theorem fitSize_getElem? {β : Type} (v : List β) (n : Nat) (fill : β) (k : Nat) (hk : k < n)
    (hn : n ≤ v.length) : (fitSize v n fill)[k]? = v[k]? := by
  unfold fitSize
  split_ifs with h
  · unfold resize
    rw [List.getElem?_take, if_pos hk, List.getElem?_append_left (by omega)]
  · rfl

/-- The traveltimes returned for a list of receivers do not depend on the
content of the output vector on entry. -/
theorem fillTraveltimes_out (g : Grid3Ducfm α) (tt : List α) (Rx : List (sxyz α))
    (traveltimes : List α) :
    fillTraveltimes g tt 0 Rx (fitSize traveltimes Rx.length 0) =
      Rx.map (fun rx => g.getTraveltime rx tt) := by
  rw [fillTraveltimes_eq _ _ _ _ _ (by simp [fitSize_length])]
  simp

theorem fillLists_eq (g : Grid3Ducfm α) (tt : List α) :
    ∀ (rest : List (List (sxyz α))) (nr : Nat) (out : List (Option (List α))),
      out.length = nr + rest.length →
      (∀ i, nr ≤ i → i < out.length → ∃ v, out[i]? = some (some v)) →
      fillLists g tt nr rest out =
        some (out.take nr ++
          rest.map (fun rx => some (rx.map (fun r => g.getTraveltime r tt)))) := by
  intro rest
  induction rest with
  | nil =>
    intro nr out h _
    simp only [fillLists, List.map_nil, List.append_nil]
    rw [List.take_of_length_le (by simp at h; omega)]
  | cons rx rest ih =>
    intro nr out h hslots
    simp only [List.length_cons] at h
    have hn : nr < out.length := by omega
    obtain ⟨v, hv⟩ := hslots nr (le_refl _) hn
    simp only [fillLists, hv]
    rw [ih (nr + 1) _ (by simp; omega)]
    · rw [List.take_succ, take_set_self]
      have e : fillTraveltimes g tt 0 rx (resize v rx.length 0) =
          rx.map (fun r => g.getTraveltime r tt) := by
        rw [fillTraveltimes_eq _ _ _ _ _ (by simp [resize_length])]
        simp
      simp [List.getElem?_set, hn, e]
    · intro i hi hlt
      simp only [List.length_set] at hlt
      obtain ⟨w, hw⟩ := hslots i (by omega) hlt
      refine ⟨w, ?_⟩
      rw [List.getElem?_set]
      have hne : ¬ nr = i := by omega
      simp [hne, hw]

end March

section Examples

/-- The distances of the example are Euclidean. -/
theorem tetDistance_sq (n : Nat) (hn : n < 4) :
    tetDistance n srcA ^ 2 = ((tetNode n).x - srcA.x) ^ 2 + ((tetNode n).y - srcA.y) ^ 2 +
      ((tetNode n).z - srcA.z) ^ 2 ∧
    tetDistance n srcB ^ 2 = ((tetNode n).x - srcB.x) ^ 2 + ((tetNode n).y - srcB.y) ^ 2 +
      ((tetNode n).z - srcB.z) ^ 2 := by
  interval_cases n <;> norm_num [tetDistance, tetNode, srcA, srcB]

/-- Both sources of the example are strictly inside the tetrahedron: they are
convex combinations of its nodes with positive weights. -/
theorem sources_inside :
    (srcA.x = 1 / 3 * (tetNode 0).x + 1 / 3 * (tetNode 1).x + 1 / 6 * (tetNode 2).x +
        1 / 6 * (tetNode 3).x ∧
      srcA.y = 1 / 3 * (tetNode 0).y + 1 / 3 * (tetNode 1).y + 1 / 6 * (tetNode 2).y +
        1 / 6 * (tetNode 3).y ∧
      srcA.z = 1 / 3 * (tetNode 0).z + 1 / 3 * (tetNode 1).z + 1 / 6 * (tetNode 2).z +
        1 / 6 * (tetNode 3).z) ∧
    (srcB.x = 1 / 6 * (tetNode 0).x + 1 / 6 * (tetNode 1).x + 1 / 3 * (tetNode 2).x +
        1 / 3 * (tetNode 3).x ∧
      srcB.y = 1 / 6 * (tetNode 0).y + 1 / 6 * (tetNode 1).y + 1 / 3 * (tetNode 2).y +
        1 / 3 * (tetNode 3).y ∧
      srcB.z = 1 / 6 * (tetNode 0).z + 1 / 6 * (tetNode 1).z + 1 / 3 * (tetNode 2).z +
        1 / 3 * (tetNode 3).z) := by
  norm_num [tetNode, srcA, srcB]

set_option maxRecDepth 100000 in
set_option maxHeartbeats 4000000 in
/-- One source on node 0 with time 1: the run returns and node 0 keeps time 1. -/
theorem tetMesh_run_single :
    (march tetMesh [tetNode 0] [1] fourNodes 0).ok?.map (fun s => (s.tt, s.popped)) =
      some ([1, 26, 13, 27], [(0, 1), (2, 13), (1, 26), (3, 27)]) := by
  norm_num [march, initBand, initBandLoop, initSource, findNode, tetMesh, tetNode, fourNodes,
    freshState, threadTT, seedOnNode, seedNode, seedCellNeighbors, relaxSeed, dropCount,
    Outcome.andThen, FMState.push, FMState.markSeed, FMState.markBand, List.range,
    List.range.loop, Outcome.ok?, siftPushHeap, siftUp, CompareNodePtr, reinit, propagate,
    propagateStep, FMState.bound, FMState.farCount, popSource, updateCell, updateNeighbor,
    Outcome.forEach, siftPopHeap, adjustHeap, siftDown, Function.update]

set_option maxRecDepth 100000 in
set_option maxHeartbeats 4000000 in
/-- The same source given twice, with times 1 and 2: node 0 ends with time 2. -/
theorem tetMesh_run_twice :
    (march tetMesh [tetNode 0, tetNode 0] [1, 2] fourNodes 0).ok?.map (fun s => s.tt) =
      some [2, 1000, 1000, 1000] := by
  norm_num [march, initBand, initBandLoop, initSource, findNode, tetMesh, tetNode, fourNodes,
    freshState, threadTT, seedOnNode, seedNode, seedCellNeighbors, relaxSeed, dropCount,
    Outcome.andThen, FMState.push, FMState.markSeed, FMState.markBand, List.range,
    List.range.loop, Outcome.ok?, siftPushHeap, siftUp, CompareNodePtr, reinit, propagate,
    propagateStep, FMState.bound, FMState.farCount, popSource, updateCell, updateNeighbor,
    Outcome.forEach, siftPopHeap, adjustHeap, siftDown, Function.update]

set_option maxRecDepth 100000 in
set_option maxHeartbeats 4000000 in
/-- Two sources inside the cell, both with time 0: the traveltimes read at the
pops. -/
theorem tetMesh_run_two_sources :
    (march tetMesh [srcA, srcB] [0, 0] fourNodes 0).ok?.map
        (fun s => s.popped.map Prod.snd) =
      some [14, 13, 13, 13, 14, 13, 14, 14] := by
  norm_num [march, initBand, initBandLoop, initSource, findNode, tetMesh, tetNode, fourNodes,
    srcA, srcB, tetDistance, seedInCell, seedCellNode,
    freshState, threadTT, seedOnNode, seedNode, seedCellNeighbors, relaxSeed, dropCount,
    Outcome.andThen, FMState.push, FMState.markSeed, FMState.markBand, List.range,
    List.range.loop, Outcome.ok?, siftPushHeap, siftUp, CompareNodePtr, reinit, propagate,
    propagateStep, FMState.bound, FMState.farCount, popSource, updateCell, updateNeighbor,
    Outcome.forEach, siftPopHeap, adjustHeap, siftDown, Function.update]

set_option maxRecDepth 100000 in
set_option maxHeartbeats 4000000 in
/-- The seeding of the example tetrahedron from one source on node 0 with time
1: the four nodes are in the band. -/
theorem tetMesh_seed_single :
    (initBand tetMesh [tetNode 0] [1] (freshState (reinit tetMesh fourNodes 0) 0)).ok?.map
        (fun s => (s.narrow_band.length, s.tt)) = some (4, [1, 26, 13, 27]) := by
  norm_num [initBand, initBandLoop, initSource, findNode, tetMesh, tetNode, fourNodes,
    freshState, threadTT, seedOnNode, seedNode, seedCellNeighbors, relaxSeed, dropCount,
    Outcome.andThen, FMState.push, FMState.markSeed, FMState.markBand, List.range,
    List.range.loop, Outcome.ok?, siftPushHeap, siftUp, CompareNodePtr, reinit,
    Outcome.forEach, Function.update]

end Examples

section Claims3D

variable {α : Type} [LinearOrderedField α]

/-- The time of a source on a node is the last one written there. If `Tx[n]`
is found on node `v` by the node search of `initBand`, no later source is found
on `v`, and no later source that is on no node lies, with source radius 0, in a
cell whose node list contains `v`, then after `initBand` followed by
`propagate` the traveltime stored at `v` is `t0[n]`. -/
theorem source_fidelity (g : Grid3Ducfm α) (Tx : List (sxyz α)) (t0 : List α)
    (s0 s1 s2 : FMState α) (fuel n v : Nat) (p : sxyz α) (t : α)
    (hinit : initBand g Tx t0 s0 = .ok s1)
    (hprop : propagate g fuel s1 = some (.ok s2))
    (hp : Tx[n]? = some p) (ht : t0[n]? = some t)
    (hv : findNode g s0.tt.length p = some v)
    (hlater : ∀ m q, n < m → Tx[m]? = some q →
      findNode g s0.tt.length q ≠ some v ∧
      (findNode g s0.tt.length q = none → g.source_radius = 0 →
        v ∉ g.neighbors (g.getCellNo q))) :
    s2.tt[v]? = some t := by
  obtain ⟨h1, h2⟩ := initBandLoop_hit g Tx.length t0 v s0.tt.length t p hv Tx 0 s0 s1 n hinit rfl
    (by simp) hp (by simpa using ht) hlater
  rw [(propagate_advances g fuel s1 s2 hprop).tt_keep v h2]
  exact h1

/-- C7. In `propagate` a frozen flag is never cleared, the local update is
never called on a node whose frozen flag is set, and every node popped during
the run has, when `propagate` returns, the traveltime it had when it was
popped. -/
theorem propagate_frozen_final (g : Grid3Ducfm α) (fuel : Nat) (s s1 : FMState α)
    (h : propagate g fuel s = some (.ok s1)) :
    (∀ n, s.frozen n = true → s1.frozen n = true) ∧
    (∃ calls, s1.updated = s.updated ++ calls ∧ ∀ e ∈ calls, e.2 = false) ∧
    (∃ pops, s1.popped = s.popped ++ pops ∧ ∀ e ∈ pops, s1.tt[e.1]? = some e.2) := by
  have hA := propagate_advances g fuel s s1 h
  obtain ⟨l, hl, hp⟩ := hA.popped_ext
  exact ⟨hA.frozen_keep, hA.updated_ext, l, hl, fun e he => (hp e he).2⟩

/-- C8. `propagate` terminates: from every state, with heap algorithms that
work in place, a number of iterations equal to the size of the band plus the
number of nodes that are neither frozen nor in the band suffices; `propagate`
then returns, and on normal return the band is empty. -/
theorem propagate_terminates (g : Grid3Ducfm α) (hg : g.HeapInPlace) (s : FMState α)
    (fuel : Nat) (hfuel : s.bound ≤ fuel) :
    ∃ r, propagate g fuel s = some r ∧ ∀ s1, r = .ok s1 → s1.narrow_band = [] := by
  induction fuel generalizing s with
  | zero =>
    have hb : s.narrow_band = [] := by
      have : s.narrow_band.length = 0 := by
        simp only [FMState.bound] at hfuel
        omega
      exact List.length_eq_zero.1 this
    refine ⟨.ok s, by simp [propagate, hb], ?_⟩
    intro s1 h1
    cases h1
    exact hb
  | succ fuel ih =>
    by_cases hb : s.narrow_band = []
    · refine ⟨.ok s, by simp [propagate, hb], ?_⟩
      intro s1 h1
      cases h1
      exact hb
    · have hemp : s.narrow_band.isEmpty = false := by
        cases hnb : s.narrow_band with
        | nil => exact absurd hnb hb
        | cons a l => rfl
      cases hstep : propagateStep g s with
      | ok s2 =>
        have := propagateStep_bound g hg s s2 hb hstep
        obtain ⟨r, hr, hr2⟩ := ih s2 (by omega)
        exact ⟨r, by simp [propagate, hemp, hstep, hr], hr2⟩
      | thrown s2 => exact ⟨.thrown s2, by simp [propagate, hemp, hstep], by intro s1 h1; cases h1⟩
      | aborted => exact ⟨.aborted, by simp [propagate, hemp, hstep], by intro s1 h1; cases h1⟩
      | undefined =>
        exact ⟨.undefined, by simp [propagate, hemp, hstep], by intro s1 h1; cases h1⟩

/-- C9. Idempotent reinit. The outcome of `raytrace` and the traveltimes it
returns are the same from any two node states of the mesh, whatever traveltimes
earlier calls left in them; and a second call with the same inputs, on the
nodes and output vector left by the first, returns the same traveltimes. -/
theorem raytrace_reinit_idempotent (g : Grid3Ducfm α) (Tx : List (sxyz α)) (t0 : List α)
    (Rx : List (sxyz α)) (traveltimes : List α) (nodes1 nodes2 : List (Nat → α))
    (threadNo : Nat) (hlen : nodes1.length = nodes2.length) :
    (raytrace g Tx t0 Rx traveltimes nodes1 threadNo).map (fun r => r.traveltimes) =
      (raytrace g Tx t0 Rx traveltimes nodes2 threadNo).map (fun r => r.traveltimes) ∧
    ∀ r1, raytrace g Tx t0 Rx traveltimes nodes1 threadNo = .ok r1 →
      ∃ r2, raytrace g Tx t0 Rx r1.traveltimes r1.nodes threadNo = .ok r2 ∧
        r2.traveltimes = r1.traveltimes := by
  constructor
  · unfold raytrace
    rw [march_congr g Tx t0 nodes1 nodes2 threadNo hlen]
    split_ifs
    · rfl
    · cases march g Tx t0 nodes2 threadNo <;> rfl
  · intro r1 h1
    unfold raytrace at h1 ⊢
    split_ifs at h1 with hc
    rw [if_neg hc]
    cases hm : march g Tx t0 nodes1 threadNo with
    | ok s =>
      rw [hm] at h1
      simp only [Outcome.ok.injEq] at h1
      subst h1
      have hl : (storeTT nodes1 threadNo s.tt).length = nodes1.length := by
        simp [storeTT, march_len g Tx t0 nodes1 threadNo s hm]
      rw [march_congr g Tx t0 _ nodes1 threadNo hl, hm]
      refine ⟨_, rfl, ?_⟩
      simp only
      rw [fillTraveltimes_out, fillTraveltimes_out]
    | thrown s => rw [hm] at h1; cases h1
    | aborted => rw [hm] at h1; cases h1
    | undefined => rw [hm] at h1; cases h1

/-- C10. For receiver lists accepted by the point check and an output vector
whose first `Rx.size()` entries point to vectors, the overload of `raytrace`
for several lists returns normally exactly when the overload for one list,
called with the same `Tx`, `t0` and the list `Rx[i]` alone, does, and it then
stores in `traveltimes[i]` the vector that call returns. -/
theorem raytraceLists_eq_raytrace (g : Grid3Ducfm α) (Tx : List (sxyz α)) (t0 : List α)
    (Rx : List (List (sxyz α))) (traveltimes : List (Option (List α)))
    (nodes : List (Nat → α)) (threadNo : Nat) (i : Nat) (rx : List (sxyz α))
    (single : List α)
    (hTx : g.checkPts Tx = false) (hRx : ∀ r ∈ Rx, g.checkPts r = false)
    (hslots : ∀ k, k < Rx.length → ∃ v, traveltimes[k]? = some (some v))
    (hi : Rx[i]? = some rx) :
    (raytraceLists g Tx t0 Rx traveltimes nodes threadNo).ok?.map
        (fun r => r.traveltimes[i]?) =
      (raytrace g Tx t0 rx single nodes threadNo).ok?.map
        (fun r => some (some r.traveltimes)) := by
  have hilt : i < Rx.length := (List.getElem?_eq_some_iff.1 hi).1
  have hrx : g.checkPts rx = false := hRx rx (List.getElem?_mem hi)
  have hno : ¬ (g.checkPts Tx = true ∨ ∃ r ∈ Rx, g.checkPts r = true) := by
    rintro (h | ⟨r, hr, h⟩)
    · rw [hTx] at h; cases h
    · rw [hRx r hr] at h; cases h
  have hno1 : ¬ (g.checkPts Tx = true ∨ g.checkPts rx = true) := by
    rintro (h | h)
    · rw [hTx] at h; cases h
    · rw [hrx] at h; cases h
  unfold raytraceLists raytrace
  rw [if_neg hno, if_neg hno1]
  cases hm : march g Tx t0 nodes threadNo with
  | ok s =>
    simp only
    rw [fillTraveltimes_out]
    have hge : Rx.length ≤ traveltimes.length := by
      by_contra hlt
      obtain ⟨v, hv⟩ := hslots traveltimes.length (by omega)
      simp at hv
    rw [fillLists_eq g s.tt Rx 0 _ (by simp [fitSize_length])
      (fun k _ hk => by
        rw [fitSize_length] at hk
        rw [fitSize_getElem? _ _ _ k hk hge]
        exact hslots k hk)]
    simp [Outcome.ok?, hi]
  | thrown s => rfl
  | aborted => rfl
  | undefined => rfl

end Claims3D

section Witnesses3D

/-- One source on node 0 with time 1: node 0 ends with time 1. -/
theorem source_fidelity_single_source :
    ∃ s2, march tetMesh [tetNode 0] [1] fourNodes 0 = .ok s2 ∧ s2.tt[0]? = some 1 := by
  have hrun := tetMesh_run_single
  obtain ⟨s2, h2, -⟩ := Outcome.ok_of_map_ok? hrun
  obtain ⟨s1, hi, hp⟩ := march_ok tetMesh _ _ _ _ s2 h2
  exact ⟨s2, h2, source_fidelity tetMesh [tetNode 0] [1] _ s1 s2 _ 0 0 (tetNode 0) 1 hi hp rfl rfl
    (by simp [findNode, tetMesh, freshState, threadTT, reinit, fourNodes, List.range,
      List.range.loop])
    (by
      intro m q hm hq
      have : ([tetNode 0] : List (sxyz ℚ))[m]? = none := by
        apply List.getElem?_eq_none
        simp only [List.length_singleton]
        omega
      rw [this] at hq
      cases hq)⟩

/-- With the source on node 0 given twice, with times 1 and 2, `initBand` and
`propagate` return and node 0 ends with the time 2 of the second entry, not
with `t0[0] = 1`. -/
theorem source_fidelity_same_node_twice :
    ∃ s1 s2, initBand tetMesh [tetNode 0, tetNode 0] [1, 2]
        (freshState (reinit tetMesh fourNodes 0) 0) = .ok s1 ∧
      propagate tetMesh s1.bound s1 = some (.ok s2) ∧
      findNode tetMesh 4 (tetNode 0) = some 0 ∧ ([1, 2] : List ℚ)[0]? = some 1 ∧
      s2.tt[0]? = some 2 ∧ s2.tt[0]? ≠ some 1 := by
  have hrun := tetMesh_run_twice
  obtain ⟨s2, h2, htt⟩ := Outcome.ok_of_map_ok? hrun
  obtain ⟨s1, hi, hp⟩ := march_ok tetMesh _ _ _ _ s2 h2
  refine ⟨s1, s2, hi, hp, ?_, rfl, ?_, ?_⟩
  · simp [findNode, tetMesh, List.range, List.range.loop]
  · rw [htt]
    rfl
  · rw [htt]
    norm_num

theorem propagate_frozen_final_witness :
    ∃ s1 s2, initBand tetMesh [tetNode 0] [1] (freshState (reinit tetMesh fourNodes 0) 0) =
        .ok s1 ∧
      propagate tetMesh s1.bound s1 = some (.ok s2) ∧
      (∀ n, s1.frozen n = true → s2.frozen n = true) ∧
      (∃ calls, s2.updated = s1.updated ++ calls ∧ ∀ e ∈ calls, e.2 = false) ∧
      (∃ pops, s2.popped = s1.popped ++ pops ∧ ∀ e ∈ pops, s2.tt[e.1]? = some e.2) := by
  have hrun := tetMesh_run_single
  obtain ⟨s2, h2, -⟩ := Outcome.ok_of_map_ok? hrun
  obtain ⟨s1, hi, hp⟩ := march_ok tetMesh _ _ _ _ s2 h2
  exact ⟨s1, s2, hi, hp, propagate_frozen_final tetMesh _ s1 s2 hp⟩

theorem propagate_terminates_witness :
    (∃ r, propagate tetMesh
        (FMState.bound (freshState (reinit tetMesh fourNodes 0) 0))
        (freshState (reinit tetMesh fourNodes 0) 0) = some r ∧
      ∀ s1, r = .ok s1 → s1.narrow_band = []) ∧
    ∃ s1, initBand tetMesh [tetNode 0] [1] (freshState (reinit tetMesh fourNodes 0) 0) =
        .ok s1 ∧
      s1.narrow_band.length = 4 ∧
      ∃ r, propagate tetMesh s1.bound s1 = some r ∧ ∀ s2, r = .ok s2 → s2.narrow_band = [] := by
  refine ⟨propagate_terminates tetMesh tetMesh_heapInPlace _ _ (le_refl _), ?_⟩
  obtain ⟨s1, hs1, hband⟩ := Outcome.ok_of_map_ok? tetMesh_seed_single
  simp only [Prod.mk.injEq] at hband
  exact ⟨s1, hs1, hband.1, propagate_terminates tetMesh tetMesh_heapInPlace s1 _ (le_refl _)⟩

theorem raytrace_reinit_idempotent_witness :
    (raytrace tetMesh [srcA] [0] [srcB] [] fourNodes 0).map (fun r => r.traveltimes) =
      (raytrace tetMesh [srcA] [0] [srcB] []
        [fun _ => 7, fun _ => 8, fun _ => 9, fun _ => 10] 0).map (fun r => r.traveltimes) :=
  (raytrace_reinit_idempotent tetMesh [srcA] [0] [srcB] [] fourNodes
    [fun _ => 7, fun _ => 8, fun _ => 9, fun _ => 10] 0 rfl).1

theorem raytraceLists_eq_raytrace_witness :
    (raytraceLists tetMesh [srcA] [0] [[srcB], [srcA, srcB]] [some [], some [5]]
        fourNodes 0).ok?.map (fun r => r.traveltimes[1]?) =
      (raytrace tetMesh [srcA] [0] [srcA, srcB] [] fourNodes 0).ok?.map
        (fun r => some (some r.traveltimes)) :=
  raytraceLists_eq_raytrace tetMesh [srcA] [0] [[srcB], [srcA, srcB]] [some [], some [5]]
    fourNodes 0 1 [srcA, srcB] [] rfl (fun _ _ => rfl)
    (by
      intro k hk
      simp only [List.length_cons, List.length_singleton, List.length_nil] at hk
      interval_cases k
      · exact ⟨[], rfl⟩
      · exact ⟨[5], rfl⟩)
    rfl

/-- C6, at the failing input. Two sources strictly inside the one cell of the
mesh, both with time 0 and source radius 0: the run returns, and the traveltimes
of the nodes read at their pops are 14, 13, 13, 13, 14, 13, 14, 14, which is not
a nondecreasing sequence. -/
theorem propagate_pops_two_sources :
    ∃ s, march tetMesh [srcA, srcB] [0, 0] fourNodes 0 = .ok s ∧
      s.popped.map Prod.snd = [14, 13, 13, 13, 14, 13, 14, 14] ∧
      ¬ (s.popped.map Prod.snd).Sorted (fun a b => a ≤ b) := by
  have hrun := tetMesh_run_two_sources
  obtain ⟨s, h2, hpop⟩ := Outcome.ok_of_map_ok? hrun
  refine ⟨s, h2, hpop, ?_⟩
  rw [hpop]
  norm_num [List.Sorted]

end Witnesses3D

/-! ## Properties of the mesh queries of `Grid2Dui` -/

section Queries2DLemmas

variable {α : Type} [LinearOrderedField α] {S : Type}

omit [LinearOrderedField α] in
theorem Grid2Dui.corners_isSome (g : Grid2Dui α) (hg : g.IndicesValid) (nt : Nat)
    (hnt : nt < g.triangles.length) : ∃ c, g.corners nt = some c := by
  unfold Grid2Dui.corners
  rw [List.getElem?_eq_getElem hnt]
  obtain ⟨h0, h1, h2⟩ := hg _ (List.getElem_mem hnt)
  simp only [List.getElem?_eq_getElem h0, List.getElem?_eq_getElem h1,
    List.getElem?_eq_getElem h2]
  exact ⟨_, rfl⟩

theorem insideTriangle_isSome (g : Grid2Dui α) (hg : g.IndicesValid) (v : sxz α) (nt : Nat)
    (hnt : nt < g.triangles.length) : ∃ b, insideTriangle g v nt = some b := by
  obtain ⟨c, hc⟩ := g.corners_isSome hg nt hnt
  exact ⟨insideCorners v c.1 c.2.1 c.2.2, by simp only [insideTriangle, hc]⟩

theorem insideTriangle_sxyz_isSome (g : Grid2Dui α) (hg : g.IndicesValid) (p : sxyz α)
    (nt : Nat) (hnt : nt < g.triangles.length) : ∃ b, insideTriangle_sxyz g p nt = some b := by
  obtain ⟨c, hc⟩ := g.corners_isSome hg nt hnt
  exact ⟨insideCorners_sxyz p c.1 c.2.1 c.2.2, by simp only [insideTriangle_sxyz, hc]⟩

/-- The scan of the triangles returns whether a hit was known before or one of
the triangles scanned contains the point. -/
theorem scanTriangles_eq (inside : Nat → Option Bool) :
    ∀ (l : List Nat) (found : Bool), (∀ nt ∈ l, ∃ b, inside nt = some b) →
      scanTriangles inside l found =
        some (found || l.any (fun nt => decide (inside nt = some true))) := by
  intro l
  induction l with
  | nil => intro found _; simp [scanTriangles]
  | cons nt rest ih =>
    intro found h
    obtain ⟨b, hb⟩ := h nt (List.mem_cons_self _ _)
    simp only [scanTriangles, hb]
    rw [ih _ (fun k hk => h k (List.mem_cons_of_mem _ hk))]
    cases b <;> cases found <;> simp [hb]

end Queries2DLemmas

section Queries2DClaims

variable {α : Type} [LinearOrderedField α] {S : Type}

omit [LinearOrderedField α] in
/-- The value of `found` for one point: true exactly when the point is equal to
a node or some triangle contains it. -/
theorem pointFound_spec (ops : PointOps α S) (g : Grid2Dui α) (pt : S)
    (h : ∀ nt < g.triangles.length, ∃ b, ops.insideTriangle g pt nt = some b) :
    ∃ b, pointFound ops g pt = some b ∧
      (b = true ↔ ((∃ nd ∈ g.nodes, ops.nodeEq nd pt = true) ∨
        ∃ nt < g.triangles.length, ops.insideTriangle g pt nt = some true)) := by
  unfold pointFound
  split_ifs with hn
  · refine ⟨true, rfl, ?_⟩
    simp only [true_iff]
    left
    simpa using hn
  · rw [scanTriangles_eq _ _ _ (fun nt hnt => h nt (List.mem_range.1 hnt))]
    refine ⟨_, rfl, ?_⟩
    have hn2 : ¬ ∃ nd ∈ g.nodes, ops.nodeEq nd pt = true := by simpa using hn
    simp only [Bool.false_or, List.any_eq_true, List.mem_range, decide_eq_true_eq, hn2,
      false_or]

omit [LinearOrderedField α] in
/-- The status returned by `checkPts`: 0 when every point is equal to a node or
in a triangle, 1 otherwise. -/
theorem checkPts_spec (ops : PointOps α S) (g : Grid2Dui α) (pts : List S)
    (h : ∀ pt ∈ pts, ∀ nt < g.triangles.length, ∃ b, ops.insideTriangle g pt nt = some b) :
    (checkPts ops g pts = some 0 ∧
      ∀ pt ∈ pts, (∃ nd ∈ g.nodes, ops.nodeEq nd pt = true) ∨
        ∃ nt < g.triangles.length, ops.insideTriangle g pt nt = some true) ∨
    (checkPts ops g pts = some 1 ∧
      ¬ ∀ pt ∈ pts, (∃ nd ∈ g.nodes, ops.nodeEq nd pt = true) ∨
        ∃ nt < g.triangles.length, ops.insideTriangle g pt nt = some true) := by
  induction pts with
  | nil => left; exact ⟨rfl, fun pt hpt => by cases hpt⟩
  | cons pt rest ih =>
    obtain ⟨b, hb, hiff⟩ := pointFound_spec ops g pt (h pt (List.mem_cons_self _ _))
    simp only [checkPts, hb]
    cases b with
    | false =>
      right
      refine ⟨rfl, fun hall => ?_⟩
      have := hiff.2 (hall pt (List.mem_cons_self _ _))
      cases this
    | true =>
      rcases ih (fun q hq => h q (List.mem_cons_of_mem _ hq)) with ⟨h0, hall⟩ | ⟨h1, hnot⟩
      · left
        refine ⟨h0, ?_⟩
        intro q hq
        rcases List.mem_cons.1 hq with rfl | hq
        · exact hiff.1 rfl
        · exact hall q hq
      · right
        exact ⟨h1, fun hall => hnot (fun q hq => hall q (List.mem_cons_of_mem _ hq))⟩

/-- C13. On a mesh whose triangles refer to existing nodes, `checkPts` returns
0 when every point of the list is equal to a node or satisfies `insideTriangle`
for some triangle, and returns 1 otherwise; this holds for the overload on
`sxz` points and for the overload on `sxyz` points. -/
theorem checkPts_status (g : Grid2Dui α) (hg : g.IndicesValid)
    (eq2 : Node α → sxz α → Bool) (dist2 : Node α → sxz α → α)
    (interp2 : sxz α → List (Node α) → α)
    (eq3 : Node α → sxyz α → Bool) (dist3 : Node α → sxyz α → α)
    (interp3 : sxyz α → List (Node α) → α)
    (pts2 : List (sxz α)) (pts3 : List (sxyz α)) :
    ((checkPts (sxzOps eq2 dist2 interp2) g pts2 = some 0 ∧
        ∀ pt ∈ pts2, (∃ nd ∈ g.nodes, eq2 nd pt = true) ∨
          ∃ nt < g.triangles.length, insideTriangle g pt nt = some true) ∨
      (checkPts (sxzOps eq2 dist2 interp2) g pts2 = some 1 ∧
        ¬ ∀ pt ∈ pts2, (∃ nd ∈ g.nodes, eq2 nd pt = true) ∨
          ∃ nt < g.triangles.length, insideTriangle g pt nt = some true)) ∧
    ((checkPts (sxyzOps eq3 dist3 interp3) g pts3 = some 0 ∧
        ∀ pt ∈ pts3, (∃ nd ∈ g.nodes, eq3 nd pt = true) ∨
          ∃ nt < g.triangles.length, insideTriangle_sxyz g pt nt = some true) ∨
      (checkPts (sxyzOps eq3 dist3 interp3) g pts3 = some 1 ∧
        ¬ ∀ pt ∈ pts3, (∃ nd ∈ g.nodes, eq3 nd pt = true) ∨
          ∃ nt < g.triangles.length, insideTriangle_sxyz g pt nt = some true)) :=
  ⟨checkPts_spec (sxzOps eq2 dist2 interp2) g pts2
      (fun pt _ nt hnt => insideTriangle_isSome g hg pt nt hnt),
    checkPts_spec (sxyzOps eq3 dist3 interp3) g pts3
      (fun pt _ nt hnt => insideTriangle_sxyz_isSome g hg pt nt hnt)⟩

omit [LinearOrderedField α] in
/-- The loop of `setSlowness` over a list of valid indices: the number of nodes
is kept, a node whose index is in the list gets the slowness of the vector, and
every other node keeps its slowness. -/
theorem setSlownessLoop_spec (s : List α) :
    ∀ (l : List Nat) (nodes : List (Node α)), nodes.length = s.length →
      (setSlownessLoop s l nodes).length = nodes.length ∧
      ∀ n, ((setSlownessLoop s l nodes)[n]?).map (fun nd => nd.slowness) =
        if n ∈ l ∧ n < nodes.length then s[n]? else (nodes[n]?).map (fun nd => nd.slowness) := by
  intro l
  induction l with
  | nil => intro nodes _; simp [setSlownessLoop]
  | cons k rest ih =>
    intro nodes hlen
    simp only [setSlownessLoop]
    by_cases hk : k < nodes.length
    · have hks : k < s.length := hlen ▸ hk
      rw [List.getElem?_eq_getElem hk, List.getElem?_eq_getElem hks]
      simp only
      obtain ⟨h1, h2⟩ := ih (nodes.set k { nodes[k] with slowness := s[k] })
        (by simp [hlen])
      refine ⟨by simpa using h1, fun n => ?_⟩
      rw [h2 n]
      simp only [List.length_set, List.mem_cons]
      by_cases hn : n ∈ rest ∧ n < nodes.length
      · rw [if_pos hn, if_pos ⟨Or.inr hn.1, hn.2⟩]
      · rw [if_neg hn]
        by_cases hnk : n = k
        · subst hnk
          rw [if_pos ⟨Or.inl rfl, hk⟩]
          simp [List.getElem?_set, hk, List.getElem?_eq_getElem hks]
        · have hnot : ¬ ((n = k ∨ n ∈ rest) ∧ n < nodes.length) := by
            rintro ⟨h | h, hlt⟩
            · exact hnk h
            · exact hn ⟨h, hlt⟩
          rw [if_neg hnot, List.getElem?_set]
          have hne : ¬ k = n := fun e => hnk e.symm
          simp [hne]
    · have hnone : nodes[k]? = none := List.getElem?_eq_none (by omega)
      rw [hnone]
      simp only
      obtain ⟨h1, h2⟩ := ih nodes hlen
      refine ⟨h1, fun n => ?_⟩
      rw [h2 n]
      simp only [List.mem_cons]
      by_cases hn : n ∈ rest ∧ n < nodes.length
      · rw [if_pos hn, if_pos ⟨Or.inr hn.1, hn.2⟩]
      · rw [if_neg hn]
        have hnot : ¬ ((n = k ∨ n ∈ rest) ∧ n < nodes.length) := by
          rintro ⟨h | h, hlt⟩
          · exact hk (h ▸ hlt)
          · exact hn ⟨h, hlt⟩
        rw [if_neg hnot]

omit [LinearOrderedField α] in
/-- C14. `setSlowness` with a vector: when the size of the vector differs from
the number of nodes the status is 1 and the mesh is unchanged; otherwise the
status is 0, the number of nodes is kept and the slowness of node `n` is `s[n]`
for every `n`. -/
theorem setSlowness_vector (g : Grid2Dui α) (s : List α) :
    (g.nodes.length ≠ s.length → setSlowness g s = (1, g)) ∧
    (g.nodes.length = s.length →
      (setSlowness g s).1 = 0 ∧ (setSlowness g s).2.nodes.length = g.nodes.length ∧
      ∀ n < g.nodes.length,
        ((setSlowness g s).2.nodes[n]?).map (fun nd => nd.slowness) = s[n]? ∧
        s[n]? ≠ none) := by
  constructor
  · intro h
    simp [setSlowness, h]
  · intro h
    obtain ⟨h1, h2⟩ := setSlownessLoop_spec s (List.range g.nodes.length) g.nodes h
    have hne : ¬ g.nodes.length ≠ s.length := fun hn => hn h
    simp only [setSlowness, if_neg hne]
    refine ⟨trivial, h1, fun n hn => ⟨?_, ?_⟩⟩
    · rw [h2 n, if_pos ⟨List.mem_range.2 hn, hn⟩]
    · rw [List.getElem?_eq_getElem (h ▸ hn)]
      simp

end Queries2DClaims

section CellSearch

variable {α : Type} [LinearOrderedField α] {S : Type}

/-- The sentinel is the largest value of the index type. -/
theorem noCell_eq (w : Nat) : noCell w = 2 ^ w - 1 := by
  unfold noCell
  have hpos : (0 : Int) < 2 ^ w := by positivity
  have h1 : (-1 : Int) % 2 ^ w = 2 ^ w - 1 := by
    have h2 : (-1 : Int) % 2 ^ w = (-1 + 1 * 2 ^ w) % 2 ^ w := by
      rw [Int.add_mul_emod_self]
    rw [h2, show (-1 + 1 * 2 ^ w : Int) = 2 ^ w - 1 by ring]
    apply Int.emod_eq_of_lt <;> omega
  rw [h1]
  have h3 : ((2 : Int) ^ w - 1) = (((2 ^ w - 1 : Nat)) : Int) := by
    have : 1 ≤ 2 ^ w := Nat.one_le_two_pow
    push_cast [Nat.cast_sub this]
    ring
  rw [h3, Int.toNat_ofNat]

/-- The loop of `getCellNo` from counter `n` on, in a mesh with fewer than
`2 ^ w` triangles: it returns the first triangle from `n` on that contains the
point, or the sentinel when there is none. -/
theorem getCellNoLoop_spec (w : Nat) (inside : Nat → Option Bool) (size : Nat)
    (hsize : size < 2 ^ w) (hin : ∀ nt < size, ∃ b, inside nt = some b) :
    ∀ (fuel n : Nat), n ≤ size → size - n < fuel →
      ∃ r, getCellNoLoop w inside size fuel n = some r ∧
        ((r = noCell w ∧ ∀ nt, n ≤ nt → nt < size → inside nt ≠ some true) ∨
          (n ≤ r ∧ r < size ∧ inside r = some true ∧
            ∀ m, n ≤ m → m < r → inside m ≠ some true)) := by
  intro fuel
  induction fuel with
  | zero => intro n _ h; omega
  | succ fuel ih =>
    intro n hn hfuel
    simp only [getCellNoLoop]
    by_cases hlt : n < size
    · rw [if_pos hlt]
      obtain ⟨b, hb⟩ := hin n hlt
      rw [hb]
      cases b with
      | true =>
        exact ⟨n, rfl, Or.inr ⟨le_refl _, hlt, hb, fun m h1 h2 => by omega⟩⟩
      | false =>
        have hmod : (n + 1) % 2 ^ w = n + 1 := Nat.mod_eq_of_lt (by omega)
        simp only [hmod]
        obtain ⟨r, hr, hcase⟩ := ih (n + 1) (by omega) (by omega)
        refine ⟨r, hr, ?_⟩
        have hnot : inside n ≠ some true := by rw [hb]; simp
        rcases hcase with ⟨h1, h2⟩ | ⟨h1, h2, h3, h4⟩
        · left
          refine ⟨h1, fun nt h5 h6 => ?_⟩
          by_cases e : nt = n
          · rw [e]; exact hnot
          · exact h2 nt (by omega) h6
        · right
          refine ⟨by omega, h2, h3, fun m h5 h6 => ?_⟩
          by_cases e : m = n
          · rw [e]; exact hnot
          · exact h4 m (by omega) h6
    · rw [if_neg hlt]
      exact ⟨noCell w, rfl, Or.inl ⟨rfl, fun nt h1 h2 => by omega⟩⟩

omit [LinearOrderedField α] in
/-- The result of `getCellNo` for either point type. -/
theorem getCellNo_spec (w : Nat) (ops : PointOps α S) (g : Grid2Dui α) (pt : S)
    (hsize : g.triangles.length < 2 ^ w)
    (hin : ∀ nt < g.triangles.length, ∃ b, ops.insideTriangle g pt nt = some b) :
    ∃ r, getCellNo w ops g pt = some r ∧
      (r = noCell w ↔ ∀ nt < g.triangles.length, ops.insideTriangle g pt nt ≠ some true) ∧
      (r ≠ noCell w → r < g.triangles.length ∧ ops.insideTriangle g pt r = some true ∧
        ∀ m < r, ops.insideTriangle g pt m ≠ some true) := by
  obtain ⟨r, hr, hcase⟩ := getCellNoLoop_spec w (ops.insideTriangle g pt) g.triangles.length
    hsize hin (g.triangles.length + 1) 0 (Nat.zero_le _) (by omega)
  refine ⟨r, hr, ?_⟩
  have hsent := noCell_eq w
  rcases hcase with ⟨h1, h2⟩ | ⟨-, h2, h3, h4⟩
  · refine ⟨⟨fun _ nt hnt => h2 nt (Nat.zero_le _) hnt, fun _ => h1⟩, fun hne => absurd h1 hne⟩
  · have hne : r ≠ noCell w := by omega
    refine ⟨⟨fun e => absurd e hne, fun hall => absurd h3 (hall r h2)⟩, fun _ => ?_⟩
    exact ⟨h2, h3, fun m hm => h4 m (Nat.zero_le _) hm⟩

/-- C16. In a mesh with fewer than `2 ^ w` triangles, all referring to existing
nodes, `getCellNo(pt)` returns; the value returned is the sentinel `(T2)(-1)`,
which is `2 ^ w - 1`, exactly when no triangle satisfies `insideTriangle(pt, .)`,
and otherwise it is the smallest index of a triangle that does. This holds for
`sxz` points and for `sxyz` points. -/
theorem getCellNo_first_or_sentinel (w : Nat) (g : Grid2Dui α) (hg : g.IndicesValid)
    (hsize : g.triangles.length < 2 ^ w)
    (eq2 : Node α → sxz α → Bool) (dist2 : Node α → sxz α → α)
    (interp2 : sxz α → List (Node α) → α)
    (eq3 : Node α → sxyz α → Bool) (dist3 : Node α → sxyz α → α)
    (interp3 : sxyz α → List (Node α) → α) (pt2 : sxz α) (pt3 : sxyz α) :
    noCell w = 2 ^ w - 1 ∧
    (∃ r, getCellNo w (sxzOps eq2 dist2 interp2) g pt2 = some r ∧
      (r = noCell w ↔ ∀ nt < g.triangles.length, insideTriangle g pt2 nt ≠ some true) ∧
      (r ≠ noCell w → r < g.triangles.length ∧ insideTriangle g pt2 r = some true ∧
        ∀ m < r, insideTriangle g pt2 m ≠ some true)) ∧
    (∃ r, getCellNo w (sxyzOps eq3 dist3 interp3) g pt3 = some r ∧
      (r = noCell w ↔ ∀ nt < g.triangles.length, insideTriangle_sxyz g pt3 nt ≠ some true) ∧
      (r ≠ noCell w → r < g.triangles.length ∧ insideTriangle_sxyz g pt3 r = some true ∧
        ∀ m < r, insideTriangle_sxyz g pt3 m ≠ some true)) :=
  ⟨noCell_eq w,
    getCellNo_spec w (sxzOps eq2 dist2 interp2) g pt2 hsize
      (fun nt hnt => insideTriangle_isSome g hg pt2 nt hnt),
    getCellNo_spec w (sxyzOps eq3 dist3 interp3) g pt3 hsize
      (fun nt hnt => insideTriangle_sxyz_isSome g hg pt3 nt hnt)⟩

end CellSearch

section Examples2D

theorem rightTriangle_valid : rightTriangle.IndicesValid := by
  intro tri htri
  simp only [rightTriangle, List.mem_singleton] at htri
  subst htri
  simp [rightTriangle, Arr3.get]

/-- C15, at the failing input. In the triangle with nodes (0,0), (2,0), (0,2)
the point (1,1) is the midpoint of the edge from node 1 to node 2 and the point
(2,0) is node 1 itself; `insideTriangle` returns false for both, while it
returns true for the midpoints (1,0) and (0,1) of the two other edges. -/
theorem insideTriangle_edge_opposite_first :
    (⟨1, 1⟩ : sxz ℚ) = ⟨(2 + 0) / 2, (0 + 2) / 2⟩ ∧
    insideTriangle rightTriangle ⟨1, 1⟩ 0 = some false ∧
    insideTriangle rightTriangle ⟨2, 0⟩ 0 = some false ∧
    insideTriangle rightTriangle ⟨1, 0⟩ 0 = some true ∧
    insideTriangle rightTriangle ⟨0, 1⟩ 0 = some true := by
  refine ⟨by norm_num, ?_, ?_, ?_, ?_⟩ <;>
  norm_num [insideTriangle, Grid2Dui.corners, rightTriangle, nodeAt, Arr3.get, insideCorners,
    baryA, baryB, det, cornerRel, cornerV0]

end Examples2D

section HalfOpenTriangle

variable {α : Type} [LinearOrderedField α]

/-- The coefficients `a` and `b` of `insideTriangle` are the coordinates of the
point in the frame of the first corner and the two edges that leave it. -/
theorem bary_of_combination (n0 n1 n2 : Node α) (a b : α) (v : sxz α)
    (hdet : det (cornerRel n0 n1) (cornerRel n0 n2) ≠ 0)
    (hx : v.x = n0.x + a * (n1.x - n0.x) + b * (n2.x - n0.x))
    (hz : v.z = n0.z + a * (n1.z - n0.z) + b * (n2.z - n0.z)) :
    baryA v n0 n1 n2 = a ∧ baryB v n0 n1 n2 = b := by
  unfold baryA baryB
  constructor
  · rw [mul_one_div, div_eq_iff hdet]
    simp only [det, cornerRel, cornerV0, hx, hz]
    ring
  · rw [mul_one_div, div_eq_iff hdet]
    simp only [det, cornerRel, cornerV0, hx, hz]
    ring

/-- What `insideTriangle` computes on a triangle that is not degenerate: the
point is `v0 + a (v1 - v0) + b (v2 - v0)` with `a ≥ 0`, `b ≥ 0` and `a + b < 1`,
the closed triangle without the edge opposite the first corner. -/
theorem insideCorners_iff (n0 n1 n2 : Node α) (v : sxz α)
    (hdet : det (cornerRel n0 n1) (cornerRel n0 n2) ≠ 0) :
    insideCorners v n0 n1 n2 = true ↔
      ∃ a b, 0 ≤ a ∧ 0 ≤ b ∧ a + b < 1 ∧
        v.x = n0.x + a * (n1.x - n0.x) + b * (n2.x - n0.x) ∧
        v.z = n0.z + a * (n1.z - n0.z) + b * (n2.z - n0.z) := by
  have hx : v.x = n0.x + baryA v n0 n1 n2 * (n1.x - n0.x) +
      baryB v n0 n1 n2 * (n2.x - n0.x) := by
    unfold baryA baryB
    simp only [det, cornerRel, cornerV0] at hdet ⊢
    field_simp
    ring
  have hz : v.z = n0.z + baryA v n0 n1 n2 * (n1.z - n0.z) +
      baryB v n0 n1 n2 * (n2.z - n0.z) := by
    unfold baryA baryB
    simp only [det, cornerRel, cornerV0] at hdet ⊢
    field_simp
    ring
  simp only [insideCorners, if_neg hdet, Bool.and_eq_true, decide_eq_true_eq, ge_iff_le]
  constructor
  · rintro ⟨⟨h1, h2⟩, h3⟩
    exact ⟨_, _, h1, h2, h3, hx, hz⟩
  · rintro ⟨a, b, h1, h2, h3, ex, ez⟩
    obtain ⟨ea, eb⟩ := bary_of_combination n0 n1 n2 a b v hdet ex ez
    rw [ea, eb]
    exact ⟨⟨h1, h2⟩, h3⟩

/-- Every point of the edge from the second to the third corner of a triangle
that is not degenerate, the two corners included, is rejected. -/
theorem insideCorners_opposite_edge (n0 n1 n2 : Node α) (s : α)
    (hdet : det (cornerRel n0 n1) (cornerRel n0 n2) ≠ 0) :
    insideCorners ⟨n1.x + s * (n2.x - n1.x), n1.z + s * (n2.z - n1.z)⟩ n0 n1 n2 = false := by
  obtain ⟨ea, eb⟩ := bary_of_combination n0 n1 n2 (1 - s) s
    ⟨n1.x + s * (n2.x - n1.x), n1.z + s * (n2.z - n1.z)⟩ hdet (by simp only; ring)
    (by simp only; ring)
  simp only [insideCorners, if_neg hdet, ea, eb]
  simp

omit [LinearOrderedField α] in
/-- Two nodes that have an owner in common always yield an opposite triangle:
the search of `processObtuse` does not exclude the triangle it starts from. -/
theorem commonOwner_of_mem (owners1 owners2 : List Nat) (t : Nat) (h1 : t ∈ owners1)
    (h2 : t ∈ owners2) : ∃ opp, commonOwner owners1 owners2 = some opp := by
  unfold commonOwner
  cases hf : owners1.find? (fun t => owners2.contains t) with
  | some opp => exact ⟨opp, rfl⟩
  | none =>
    rw [List.find?_eq_none] at hf
    have := hf t h1
    simp [h2] at this

end HalfOpenTriangle

section NeverSkipped

variable {α : Type} [LinearOrderedField α]

/-- The correction of an obtuse vertex of triangle `ntri` is never skipped when
the two other nodes of the triangle list `ntri` among their owners: the call
either stores an entry for `ntri` or runs into an index outside its vector. -/
theorem correctVertex_never_skips (acos : α → α) (pi : α) (dist : Node α → Node α → α)
    (g : Grid2Dui α) (tri : triangleElemAngle α) (ntri n : Nat) (n1 n2 : Node α)
    (h1 : g.nodes[tri.i.get ((n + 1) % 3)]? = some n1)
    (h2 : g.nodes[tri.i.get ((n + 2) % 3)]? = some n2)
    (ho1 : ntri ∈ n1.owners) (ho2 : ntri ∈ n2.owners) :
    correctVertex acos pi dist tri ntri n g = .undefined ∨
      ∃ vn, correctVertex acos pi dist tri ntri n g = .ok (insertVirtualNode g ntri vn) := by
  obtain ⟨opp, hopp⟩ := commonOwner_of_mem n1.owners n2.owners ntri ho1 ho2
  simp only [correctVertex, h1, h2, hopp]
  cases ht : g.triangles[opp]? with
  | none => exact Or.inl rfl
  | some otri =>
    simp only
    cases h0 : g.nodes[tri.i.get n]? with
    | none => exact Or.inl rfl
    | some n0 =>
      cases h3 : g.nodes[oppositeNode otri (tri.i.get ((n + 1) % 3))
          (tri.i.get ((n + 2) % 3))]? with
      | none => exact Or.inl rfl
      | some n3 => exact Or.inr ⟨_, rfl⟩

end NeverSkipped

section Traveltime2D

variable {α : Type} [LinearOrderedField α] {S : Type}

/-- The loop of `getTraveltime` over nodes of the cell: it returns the smallest
of the starting value and the arrival times through the nodes. -/
theorem getTraveltimeLoop_spec (ops : PointOps α S) (Rx : S) (slo : α) (nodes : List (Node α))
    (threadNo : Nat) :
    ∀ (l : List Nat) (t0 : α), (∀ n ∈ l, n < nodes.length) →
      ∃ t, getTraveltimeLoop ops Rx slo nodes threadNo l t0 = some t ∧ t ≤ t0 ∧
        (∀ n ∈ l, ∀ nd, nodes[n]? = some nd →
          t ≤ nd.tt threadNo + computeDt ops nd Rx slo) ∧
        (t = t0 ∨ ∃ n ∈ l, ∃ nd, nodes[n]? = some nd ∧
          t = nd.tt threadNo + computeDt ops nd Rx slo) := by
  intro l
  induction l with
  | nil =>
    intro t0 _
    exact ⟨t0, rfl, le_refl _, fun n hn _ _ => absurd hn (List.not_mem_nil _), Or.inl rfl⟩
  | cons k rest ih =>
    intro t0 hl
    have hk : k < nodes.length := hl k (List.mem_cons_self _ _)
    simp only [getTraveltimeLoop, List.getElem?_eq_getElem hk]
    obtain ⟨t, ht, hle, hall, hex⟩ := ih
      (if t0 > nodes[k].tt threadNo + computeDt ops nodes[k] Rx slo then
        nodes[k].tt threadNo + computeDt ops nodes[k] Rx slo else t0)
      (fun n hn => hl n (List.mem_cons_of_mem _ hn))
    refine ⟨t, ht, ?_, ?_, ?_⟩
    · split_ifs at hle with h
      · exact le_trans hle (le_of_lt h)
      · exact hle
    · intro n hn nd hnd
      rcases List.mem_cons.1 hn with rfl | hn
      · rw [List.getElem?_eq_getElem hk] at hnd
        cases hnd
        split_ifs at hle with h
        · exact hle
        · exact le_trans hle (not_lt.1 h)
      · exact hall n hn nd hnd
    · rcases hex with h | ⟨n, hn, nd, hnd, h⟩
      · split_ifs at h with hgt
        · exact Or.inr ⟨k, List.mem_cons_self _ _, nodes[k], List.getElem?_eq_getElem hk, h⟩
        · exact Or.inl h
      · exact Or.inr ⟨n, List.mem_cons_of_mem _ hn, nd, hnd, h⟩

/-- C17 (amended). `getTraveltime(Rx, nodes, threadNo)` returns the traveltime
of the first node equal to `Rx` when there is one. Otherwise, for `Rx` in cell
`c` (the cell found by `getCellNo`), it returns the minimum, over all the nodes
listed in `neighbors[c]`, primary or not, of `T(v) + sbar * |Rx - v|`, where
`sbar` is the mean of the slowness of `v` and of the slowness interpolated at
`Rx` from the primary nodes of the cell. -/
theorem getTraveltime_min_over_cell_nodes (w : Nat) (ops : PointOps α S) (g : Grid2Dui α)
    (Rx : S) (nodes : List (Node α)) (threadNo : Nat) :
    (∀ nd, nodes.find? (fun nd => ops.nodeEq nd Rx) = some nd →
      getTraveltime w ops g Rx nodes threadNo = some (nd.tt threadNo)) ∧
    (∀ (c : Nat) (nb : List Nat) (prim : List (Node α)),
      (∀ nd ∈ nodes, ops.nodeEq nd Rx = false) →
      getCellNo w ops g Rx = some c → c ≠ noCell w →
      g.neighbors[c]? = some nb → nb ≠ [] → (∀ n ∈ nb, n < nodes.length) →
      interpNodes g nb = some prim →
      ∃ t, getTraveltime w ops g Rx nodes threadNo = some t ∧
        (∀ n ∈ nb, ∀ nd, nodes[n]? = some nd →
          t ≤ nd.tt threadNo + (ops.inverseDistance Rx prim + nd.slowness) / 2 *
            ops.getDistance nd Rx) ∧
        (∃ n ∈ nb, ∃ nd, nodes[n]? = some nd ∧
          t = nd.tt threadNo + (ops.inverseDistance Rx prim + nd.slowness) / 2 *
            ops.getDistance nd Rx)) := by
  constructor
  · intro nd hnd
    simp only [getTraveltime, hnd]
  · intro c nb prim hno hc hcne hnb hne hvalid hprim
    have hfind : nodes.find? (fun nd => ops.nodeEq nd Rx) = none := by
      rw [List.find?_eq_none]
      intro nd hnd
      simp [hno nd hnd]
    have hslo : computeSlowness w ops g Rx = some (ops.inverseDistance Rx prim) := by
      simp only [computeSlowness, hc, if_neg hcne, hnb, hprim]
    cases nb with
    | nil => exact absurd rfl hne
    | cons k rest =>
      have hk : k < nodes.length := hvalid k (List.mem_cons_self _ _)
      obtain ⟨t, ht, hle, hall, hex⟩ := getTraveltimeLoop_spec ops Rx
        (ops.inverseDistance Rx prim) nodes threadNo rest
        (nodes[k].tt threadNo + computeDt ops nodes[k] Rx (ops.inverseDistance Rx prim))
        (fun n hn => hvalid n (List.mem_cons_of_mem _ hn))
      refine ⟨t, ?_, ?_, ?_⟩
      · simp only [getTraveltime, hfind, getTraveltimeInCell, hslo, hc, hnb,
          List.getElem?_eq_getElem hk]
        exact ht
      · intro n hn nd hnd
        rcases List.mem_cons.1 hn with rfl | hn
        · rw [List.getElem?_eq_getElem hk] at hnd
          cases hnd
          exact hle
        · exact hall n hn nd hnd
      · rcases hex with h | ⟨n, hn, nd, hnd, h⟩
        · exact ⟨k, List.mem_cons_self _ _, nodes[k], List.getElem?_eq_getElem hk, h⟩
        · exact ⟨n, List.mem_cons_of_mem _ hn, nd, hnd, h⟩

end Traveltime2D

section Traveltime2DExamples

/-- The distances of the example are Euclidean. -/
theorem receiverDistance_sq :
    ∀ nd ∈ edgeNodeMesh.nodes,
      receiverDistance nd receiver ^ 2 = (nd.x - receiver.x) ^ 2 + (nd.z - receiver.z) ^ 2 := by
  intro nd hnd
  simp only [edgeNodeMesh, List.mem_cons, List.mem_singleton, List.not_mem_nil, or_false] at hnd
  rcases hnd with rfl | rfl | rfl | rfl <;>
  norm_num [receiverDistance, receiver, nodeAt]

set_option maxRecDepth 100000 in
/-- The receiver of the example is on no node, its cell is triangle 0, the
slowness interpolated there is 1 and `getTraveltime` returns 8. -/
theorem edgeNodeMesh_run :
    (∀ nd ∈ edgeNodeMesh.nodes, receiverOps.nodeEq nd receiver = false) ∧
    getCellNo 32 receiverOps edgeNodeMesh receiver = some 0 ∧
    computeSlowness 32 receiverOps edgeNodeMesh receiver = some 1 ∧
    getTraveltime 32 receiverOps edgeNodeMesh receiver edgeNodeMesh.nodes 0 = some 8 := by
  have hcell : getCellNo 32 receiverOps edgeNodeMesh receiver = some 0 := by
    norm_num [getCellNo, getCellNoLoop, receiverOps, sxzOps, edgeNodeMesh, receiver,
      insideTriangle, Grid2Dui.corners, nodeAt, Arr3.get, insideCorners, baryA, baryB, det,
      cornerRel, cornerV0]
  have hslo : computeSlowness 32 receiverOps edgeNodeMesh receiver = some 1 := by
    rw [computeSlowness, hcell]
    norm_num [noCell_eq, receiverOps, sxzOps, edgeNodeMesh, receiver, interpNodes, nodeAt,
      inverseDistance, receiverDistance]
  refine ⟨?_, hcell, hslo, ?_⟩
  · intro nd hnd
    simp only [edgeNodeMesh, List.mem_cons, List.mem_singleton, List.not_mem_nil,
      or_false] at hnd
    rcases hnd with rfl | rfl | rfl | rfl <;>
    norm_num [receiverOps, sxzOps, receiver, nodeAt]
  · rw [getTraveltime, getTraveltimeInCell, hslo, hcell]
    norm_num [receiverOps, sxzOps, edgeNodeMesh, receiver, nodeAt, getTraveltimeLoop,
      computeDt, receiverDistance]

end Traveltime2DExamples

section Obtuse

variable {α : Type} [LinearOrderedField α]

/-- On the scenario mesh, with an obtuse angle at node 2 only, `processObtuse`
returns with one entry in the registry, for triangle 0; the opposite triangle
found is triangle 0 itself and the opposite node is node 1. -/
theorem obtuseTriangle_processObtuse (acos : α → α) (pi : α) (dist : Node α → Node α → α)
    (l0 l1 l2 a0 a1 a2 : α) (h0 : ¬ a0 > pi / 2) (h1 : ¬ a1 > pi / 2) (h2 : a2 > pi / 2) :
    processObtuse acos pi dist (obtuseTriangle l0 l1 l2 a0 a1 a2) =
      .ok (insertVirtualNode (obtuseTriangle l0 l1 l2 a0 a1 a2) 0
        (unfoldTriangle acos pi dist 0 1 1 (nodeAt 2 5 (1 / 10) 0) (nodeAt 0 0 0 0)
          (nodeAt 1 10 0 0) (nodeAt 1 10 0 0))) := by
  simp [processObtuse, processVertex, correctVertex, obtuseTriangle, Outcome.forEach,
    Outcome.andThen, Arr3.get, h0, h1, h2, commonOwner, oppositeNode, nodeAt, List.range,
    List.range.loop, insertVirtualNode]

end Obtuse

section ObtuseScenario

/-- The stored edge lengths and angles of the scenario are those of the
coordinates: `l[k]` is the length of the edge opposite node `k`, and the cosine
of the angle at a node follows from the three lengths by the law of cosines. -/
theorem obtuse_scenario_geometry :
    (Real.sqrt 2501 / 10) ^ 2 = ((10 : ℝ) - 5) ^ 2 + (0 - 1 / 10) ^ 2 ∧
    (Real.sqrt 2501 / 10) ^ 2 = ((0 : ℝ) - 5) ^ 2 + (0 - 1 / 10) ^ 2 ∧
    ((Real.sqrt 2501 / 10) ^ 2 + 10 ^ 2 - (Real.sqrt 2501 / 10) ^ 2) /
      (2 * (Real.sqrt 2501 / 10) * 10) = 50 / Real.sqrt 2501 ∧
    ((Real.sqrt 2501 / 10) ^ 2 + (Real.sqrt 2501 / 10) ^ 2 - 10 ^ 2) /
      (2 * (Real.sqrt 2501 / 10) * (Real.sqrt 2501 / 10)) = -2499 / 2501 := by
  have hs : Real.sqrt 2501 ^ 2 = 2501 := Real.sq_sqrt (by norm_num)
  have hpos : 0 < Real.sqrt 2501 := Real.sqrt_pos.2 (by norm_num)
  have hne : Real.sqrt 2501 ≠ 0 := ne_of_gt hpos
  refine ⟨?_, ?_, ?_, ?_⟩
  · rw [div_pow, hs]; norm_num
  · rw [div_pow, hs]; norm_num
  · field_simp
    nlinarith [hs]
  · field_simp
    nlinarith [hs]

/-- In the scenario the angles at nodes 0 and 1 are not obtuse and the angle at
node 2 is. -/
theorem obtuse_scenario_angles :
    ¬ Real.arccos (50 / Real.sqrt 2501) > Real.pi / 2 ∧
    Real.arccos (-2499 / 2501) > Real.pi / 2 := by
  constructor
  · exact not_lt.2 (Real.arccos_le_pi_div_two.2 (by positivity))
  · by_contra h
    have := Real.arccos_le_pi_div_two.1 (not_lt.1 h)
    norm_num at this

/-- C19. Scenario `Obtuse triangle`: on the mesh of the single triangle with
nodes (0,0), (10,0), (5,0.1), every node owned by triangle 0 and the angles
those of the coordinates, `processObtuse` returns and the virtual-node registry
then has an entry for triangle 0, whatever the distance function of the nodes
is. -/
theorem processObtuse_obtuse_scenario (dist : Node ℝ → Node ℝ → ℝ) :
    ∃ g vn, processObtuse Real.arccos Real.pi dist
        (obtuseTriangle (Real.sqrt 2501 / 10) (Real.sqrt 2501 / 10) 10
          (Real.arccos (50 / Real.sqrt 2501)) (Real.arccos (50 / Real.sqrt 2501))
          (Real.arccos (-2499 / 2501))) = .ok g ∧
      g.virtualNodes.lookup 0 = some vn := by
  refine ⟨_, unfoldTriangle Real.arccos Real.pi dist 0 1 1 (nodeAt 2 5 (1 / 10) 0)
      (nodeAt 0 0 0 0) (nodeAt 1 10 0 0) (nodeAt 1 10 0 0),
    obtuseTriangle_processObtuse Real.arccos Real.pi dist _ _ _ _ _ _
      obtuse_scenario_angles.1 obtuse_scenario_angles.1 obtuse_scenario_angles.2, ?_⟩
  simp [insertVirtualNode, obtuseTriangle, List.lookup]

/-- C20, at the failing input. The mesh of the scenario has one triangle, obtuse
at node 2 only, so the edge opposite node 2, between nodes 0 and 1, is shared
with no other triangle. The search for the opposite triangle nevertheless
succeeds, with triangle 0 itself, the first common owner of nodes 0 and 1, and
`processObtuse` stores an entry for triangle 0 whose two supporting nodes are
nodes of triangle 0. -/
theorem processObtuse_boundary_triangle (dist : Node ℝ → Node ℝ → ℝ) :
    (obtuseTriangle (Real.sqrt 2501 / 10) (Real.sqrt 2501 / 10) 10
      (Real.arccos (50 / Real.sqrt 2501)) (Real.arccos (50 / Real.sqrt 2501))
      (Real.arccos (-2499 / 2501))).triangles.length = 1 ∧
    commonOwner (nodeAt 0 (0 : ℝ) 0 0).owners (nodeAt 1 (10 : ℝ) 0 0).owners = some 0 ∧
    ∃ g vn, processObtuse Real.arccos Real.pi dist
        (obtuseTriangle (Real.sqrt 2501 / 10) (Real.sqrt 2501 / 10) 10
          (Real.arccos (50 / Real.sqrt 2501)) (Real.arccos (50 / Real.sqrt 2501))
          (Real.arccos (-2499 / 2501))) = .ok g ∧
      g.virtualNodes = [(0, vn)] ∧ vn.node2 = 1 ∧ (vn.node1 = 0 ∨ vn.node1 = 1) := by
  refine ⟨rfl, by simp [commonOwner, nodeAt], _,
    unfoldTriangle Real.arccos Real.pi dist 0 1 1 (nodeAt 2 5 (1 / 10) 0)
      (nodeAt 0 0 0 0) (nodeAt 1 10 0 0) (nodeAt 1 10 0 0),
    obtuseTriangle_processObtuse Real.arccos Real.pi dist _ _ _ _ _ _
      obtuse_scenario_angles.1 obtuse_scenario_angles.1 obtuse_scenario_angles.2, ?_, ?_, ?_⟩
  · simp [insertVirtualNode, obtuseTriangle]
  · unfold unfoldTriangle mkVirtualNode
    split_ifs <;> rfl
  · unfold unfoldTriangle mkVirtualNode
    split_ifs
    · right; rfl
    · left; rfl

end ObtuseScenario

section Shapes

variable {α : Type} [LinearOrderedField α]

omit [LinearOrderedField α] in
/-- The loop that stores traveltimes and ray paths keeps the sizes of both
output vectors. -/
theorem fillPaths_length (g : Grid3Ducfm α) (rt : RayTracer α) (Tx : List (sxyz α))
    (tt : List α) :
    ∀ (rest : List (sxyz α)) (n : Nat) (out res : List α × List (List (sxyz α))),
      fillPaths g rt Tx tt n rest out = some res →
      res.1.length = out.1.length ∧ res.2.length = out.2.length := by
  intro rest
  induction rest with
  | nil =>
    intro n out res h
    simp only [fillPaths, Option.some.injEq] at h
    subst h
    exact ⟨rfl, rfl⟩
  | cons rx rest ih =>
    intro n out res h
    simp only [fillPaths] at h
    split at h
    · cases h
    · split_ifs at h
      have := ih _ _ _ h
      simpa using this

/-- After the loop over the receiver lists, entry `nr + j` of each output
vector points to a vector with one entry per receiver of list `j`. -/
theorem fillLists_shape (g : Grid3Ducfm α) (tt : List α) :
    ∀ (rest : List (List (sxyz α))) (nr : Nat) (out res : List (Option (List α))),
      fillLists g tt nr rest out = some res →
      res.length = out.length ∧
      (∀ i, i < nr → res[i]? = out[i]?) ∧
      (∀ j rx, rest[j]? = some rx → ∃ v, res[nr + j]? = some (some v) ∧
        v.length = rx.length) := by
  intro rest
  induction rest with
  | nil =>
    intro nr out res h
    simp only [fillLists, Option.some.injEq] at h
    subst h
    exact ⟨rfl, fun _ _ => rfl, fun j rx hj => by simp at hj⟩
  | cons rx rest ih =>
    intro nr out res h
    simp only [fillLists] at h
    split at h
    · rename_i v hv
      obtain ⟨h1, h2, h3⟩ := ih _ _ _ h
      have hnr : nr < out.length := (List.getElem?_eq_some_iff.1 hv).1
      refine ⟨by simpa using h1, fun i hi => ?_, fun j r hj => ?_⟩
      · rw [h2 i (by omega), List.getElem?_set]
        have hne : ¬ nr = i := by omega
        simp [hne]
      · cases j with
        | zero =>
          simp only [List.getElem?_cons_zero, Option.some.injEq] at hj
          subst hj
          refine ⟨fillTraveltimes g tt 0 rx (resize v rx.length 0), ?_, ?_⟩
          · rw [Nat.add_zero, h2 nr (by omega), List.getElem?_set]
            simp [hnr]
          · rw [fillTraveltimes_eq _ _ _ _ _ (by simp [resize_length])]
            simp
        | succ j =>
          simp only [List.getElem?_cons_succ] at hj
          obtain ⟨u, hu, hlen⟩ := h3 j r hj
          exact ⟨u, by rw [← hu]; congr 1; omega, hlen⟩
    · cases h

/-- The same for the loop that also stores ray paths. -/
theorem fillListsPaths_shape (g : Grid3Ducfm α) (rt : RayTracer α) (Tx : List (sxyz α))
    (tt : List α) :
    ∀ (rest : List (List (sxyz α))) (nr : Nat)
      (out res : List (Option (List α)) × List (Option (List (List (sxyz α))))),
      fillListsPaths g rt Tx tt nr rest out = some res →
      (∀ i, i < nr → res.1[i]? = out.1[i]? ∧ res.2[i]? = out.2[i]?) ∧
      (∀ j rx, rest[j]? = some rx →
        (∃ v, res.1[nr + j]? = some (some v) ∧ v.length = rx.length) ∧
        (∃ d, res.2[nr + j]? = some (some d) ∧ d.length = rx.length)) := by
  intro rest
  induction rest with
  | nil =>
    intro nr out res h
    simp only [fillListsPaths, Option.some.injEq] at h
    subst h
    exact ⟨fun _ _ => ⟨rfl, rfl⟩, fun j rx hj => by simp at hj⟩
  | cons rx rest ih =>
    intro nr out res h
    simp only [fillListsPaths] at h
    split at h
    · rename_i v d hv hd
      split at h
      · rename_i fp hfp
        obtain ⟨h2, h3⟩ := ih _ _ _ h
        have hnr1 : nr < out.1.length := (List.getElem?_eq_some_iff.1 hv).1
        have hnr2 : nr < out.2.length := (List.getElem?_eq_some_iff.1 hd).1
        have hlen := fillPaths_length g rt Tx tt rx 0 _ fp hfp
        simp only [resize_length, clearPaths, List.length_map] at hlen
        refine ⟨fun i hi => ?_, fun j r hj => ?_⟩
        · obtain ⟨e1, e2⟩ := h2 i (by omega)
          have hne : ¬ nr = i := by omega
          rw [e1, e2, List.getElem?_set, List.getElem?_set]
          simp [hne]
        · cases j with
          | zero =>
            simp only [List.getElem?_cons_zero, Option.some.injEq] at hj
            subst hj
            obtain ⟨e1, e2⟩ := h2 nr (by omega)
            refine ⟨⟨fp.1, ?_, hlen.1⟩, ⟨fp.2, ?_, hlen.2⟩⟩
            · rw [Nat.add_zero, e1, List.getElem?_set]
              simp [hnr1]
            · rw [Nat.add_zero, e2, List.getElem?_set]
              simp [hnr2]
          | succ j =>
            simp only [List.getElem?_cons_succ] at hj
            obtain ⟨⟨u, hu, hlu⟩, ⟨e, he, hle⟩⟩ := h3 j r hj
            exact ⟨⟨u, by rw [← hu]; congr 1; omega, hlu⟩, ⟨e, by rw [← he]; congr 1; omega, hle⟩⟩
      · cases h
    · cases h

/-- C11. Output shapes of `raytrace`. On normal return the two overloads for
one list of receivers leave `traveltimes`, and `r_data` for the one with paths,
with exactly `Rx.size()` entries, whatever their sizes on entry; the two
overloads for several lists leave, for every list `i`, a vector of
`Rx[i].size()` entries behind `traveltimes[i]`, and behind `r_data[i]` for the
one with paths. -/
theorem raytrace_output_shapes (g : Grid3Ducfm α) (rt : RayTracer α) (Tx : List (sxyz α))
    (t0 : List α) (nodes : List (Nat → α)) (threadNo : Nat)
    (Rx : List (sxyz α)) (traveltimes : List α) (r_data : List (List (sxyz α)))
    (RxLists : List (List (sxyz α))) (ttPtrs : List (Option (List α)))
    (pathPtrs : List (Option (List (List (sxyz α))))) :
    (∀ r, raytrace g Tx t0 Rx traveltimes nodes threadNo = .ok r →
      r.traveltimes.length = Rx.length) ∧
    (∀ r, raytracePaths g rt Tx t0 Rx traveltimes r_data nodes threadNo = .ok r →
      r.traveltimes.1.length = Rx.length ∧ r.traveltimes.2.length = Rx.length) ∧
    (∀ r, raytraceLists g Tx t0 RxLists ttPtrs nodes threadNo = .ok r →
      ∀ (i : Nat) (rx : List (sxyz α)), RxLists[i]? = some rx →
        ∃ v, r.traveltimes[i]? = some (some v) ∧ v.length = rx.length) ∧
    (∀ r, raytraceListsPaths g rt Tx t0 RxLists ttPtrs pathPtrs nodes threadNo = .ok r →
      ∀ (i : Nat) (rx : List (sxyz α)), RxLists[i]? = some rx →
        (∃ v, r.traveltimes.1[i]? = some (some v) ∧ v.length = rx.length) ∧
        (∃ d, r.traveltimes.2[i]? = some (some d) ∧ d.length = rx.length)) := by
  refine ⟨?_, ?_, ?_, ?_⟩
  · intro r h
    unfold raytrace at h
    split_ifs at h
    cases hm : march g Tx t0 nodes threadNo with
    | ok s =>
      rw [hm] at h
      cases h
      simp only [fillTraveltimes_out, List.length_map]
    | thrown s => rw [hm] at h; cases h
    | aborted => rw [hm] at h; cases h
    | undefined => rw [hm] at h; cases h
  · intro r h
    unfold raytracePaths at h
    split_ifs at h
    cases hm : march g Tx t0 nodes threadNo with
    | ok s =>
      rw [hm] at h
      simp only at h
      cases hout : fillPaths g rt Tx s.tt 0 Rx
          (fitSize traveltimes Rx.length 0, clearPaths (fitSize r_data Rx.length [])) with
      | some out =>
        rw [hout] at h
        cases h
        have := fillPaths_length g rt Tx _ Rx 0 _ out hout
        simpa [fitSize_length, clearPaths] using this
      | none => rw [hout] at h; cases h
    | thrown s => rw [hm] at h; cases h
    | aborted => rw [hm] at h; cases h
    | undefined => rw [hm] at h; cases h
  · intro r h i rx hi
    unfold raytraceLists at h
    split_ifs at h
    cases hm : march g Tx t0 nodes threadNo with
    | ok s =>
      rw [hm] at h
      simp only at h
      cases hres : fillLists g s.tt 0 RxLists (fitSize ttPtrs RxLists.length none) with
      | some res =>
        rw [hres] at h
        cases h
        obtain ⟨-, -, h3⟩ := fillLists_shape g _ RxLists 0 _ res hres
        simpa using h3 i rx hi
      | none => rw [hres] at h; cases h
    | thrown s => rw [hm] at h; cases h
    | aborted => rw [hm] at h; cases h
    | undefined => rw [hm] at h; cases h
  · intro r h i rx hi
    unfold raytraceListsPaths at h
    split_ifs at h
    cases hm : march g Tx t0 nodes threadNo with
    | ok s =>
      rw [hm] at h
      simp only at h
      cases hres : fillListsPaths g rt Tx s.tt 0 RxLists
          (fitSize ttPtrs RxLists.length none, fitSize pathPtrs RxLists.length none) with
      | some res =>
        rw [hres] at h
        cases h
        obtain ⟨-, h3⟩ := fillListsPaths_shape g rt Tx _ RxLists 0 _ res hres
        simpa using h3 i rx hi
      | none => rw [hres] at h; cases h
    | thrown s => rw [hm] at h; cases h
    | aborted => rw [hm] at h; cases h
    | undefined => rw [hm] at h; cases h

/-- C12. The point check of `Grid3Duc` is called first, inside
`try { ... } catch (...) { throw; }`, and the value it returns is not read, so
that its report of a point outside the mesh is the error it raises. When it
raises that error for `Tx` or for a list of receivers, every overload of
`raytrace` ends with that error before the nodes are reinitialised: the
traveltimes of the nodes and the output arguments are exactly those on entry. -/
theorem raytrace_rejects_outside_points (g : Grid3Ducfm α) (rt : RayTracer α)
    (Tx : List (sxyz α)) (t0 : List α) (nodes : List (Nat → α)) (threadNo : Nat)
    (Rx : List (sxyz α)) (traveltimes : List α) (r_data : List (List (sxyz α)))
    (RxLists : List (List (sxyz α))) (ttPtrs : List (Option (List α)))
    (pathPtrs : List (Option (List (List (sxyz α))))) :
    (g.checkPts Tx = true ∨ g.checkPts Rx = true →
      raytrace g Tx t0 Rx traveltimes nodes threadNo =
          .thrown { nodes := nodes, traveltimes := traveltimes } ∧
        raytracePaths g rt Tx t0 Rx traveltimes r_data nodes threadNo =
          .thrown { nodes := nodes, traveltimes := (traveltimes, r_data) }) ∧
    (g.checkPts Tx = true ∨ (∃ rx ∈ RxLists, g.checkPts rx = true) →
      raytraceLists g Tx t0 RxLists ttPtrs nodes threadNo =
          .thrown { nodes := nodes, traveltimes := ttPtrs } ∧
        raytraceListsPaths g rt Tx t0 RxLists ttPtrs pathPtrs nodes threadNo =
          .thrown { nodes := nodes, traveltimes := (ttPtrs, pathPtrs) }) := by
  constructor
  · intro h
    exact ⟨by rw [raytrace, if_pos h], by rw [raytracePaths, if_pos h]⟩
  · intro h
    exact ⟨by rw [raytraceLists, if_pos h], by rw [raytraceListsPaths, if_pos h]⟩

end Shapes

section PushHeap

theorem set_eq_self_of_getElem? {β : Type} (l : List β) (i : Nat) (a : β)
    (h : l[i]? = some a) : l.set i a = l := by
  apply List.ext_getElem?
  intro j
  rw [List.getElem?_set]
  split_ifs with h1 h2
  · rw [← h1, h]
  · exfalso
    exact h2 (List.getElem?_eq_some_iff.1 h).1
  · rfl

/-- Sifting a value up from a hole leaves the elements of the container with
the value written in the hole, in another order. -/
theorem siftUp_count (comp : Nat → Nat → Bool) (value : Nat) (a : Nat) :
    ∀ (fuel hole : Nat) (q : List Nat), hole < q.length →
      (siftUp comp value fuel hole q).count a = (q.set hole value).count a := by
  intro fuel
  induction fuel with
  | zero => intro hole q _; rfl
  | succ fuel ih =>
    intro hole q hh
    simp only [siftUp]
    split_ifs with hmove
    · have hp : (hole - 1) / 2 < q.length := by omega
      have hne : ¬ hole = (hole - 1) / 2 := by omega
      have hp2 : (hole - 1) / 2 < (q.set hole (q.getD ((hole - 1) / 2) 0)).length := by
        simpa using hp
      rw [ih _ _ hp2]
      have hgetD : q.getD ((hole - 1) / 2) 0 = q[(hole - 1) / 2] := by
        simp [List.getD, List.getElem?_eq_getElem hp]
      rw [List.count_set _ _ _ _ hp2, List.count_set _ _ _ _ hh,
        List.count_set _ _ _ _ hh, List.getElem_set, if_neg hne]
      simp only [hgetD]
      have hle : (if (q[hole] == a) = true then 1 else 0) ≤ q.count a := by
        split_ifs with h1
        · have : q[hole] = a := by simpa using h1
          exact List.count_pos_iff.2 (this ▸ List.getElem_mem hh)
        · exact Nat.zero_le _
      omega
    · rfl

theorem siftPushHeap_perm (comp : Nat → Nat → Bool) (c : List Nat) :
    (siftPushHeap comp c).Perm c := by
  rw [List.perm_iff_count]
  intro a
  unfold siftPushHeap
  cases hlast : c.getLast? with
  | none => rfl
  | some value =>
    simp only
    have hne : c ≠ [] := by
      intro e
      rw [e] at hlast
      cases hlast
    have hlen : 0 < c.length := List.length_pos.2 hne
    rw [siftUp_count comp value a c.length (c.length - 1) c (by omega)]
    rw [List.getLast?_eq_getElem?] at hlast
    rw [set_eq_self_of_getElem? c _ _ hlast]

end PushHeap

section RadiusScan

variable {α : Type} [LinearOrderedField α]

/-- A loop body may be replaced by one that agrees with it on the list. -/
theorem Outcome.forEach_congr {σ β : Type} (f f1 : β → σ → Outcome σ) :
    ∀ (xs : List β) (s : σ), (∀ x ∈ xs, ∀ u, f x u = f1 x u) →
      Outcome.forEach f xs s = Outcome.forEach f1 xs s := by
  intro xs
  induction xs with
  | nil => intro s _; rfl
  | cons x rest ih =>
    intro s h
    simp only [Outcome.forEach]
    rw [h x (List.mem_cons_self _ _) s]
    cases f1 x s with
    | ok s2 =>
      simp only [Outcome.andThen]
      exact ih s2 (fun y hy => h y (List.mem_cons_of_mem _ hy))
    | thrown s2 => rfl
    | aborted => rfl
    | undefined => rfl

/-- The relaxation of a node that is not in the band and whose traveltime is
above the candidate: the candidate is stored, the node is pushed and flagged,
and the counter goes up by one. -/
theorem relaxSeed_hit (g : Grid3Ducfm α) (t told : α) (no : Nat) (s : FMState α) (k : Nat)
    (htt : s.tt[no]? = some told) (hlt : t < told) (hband : s.inBand no = false) :
    relaxSeed g t no (s, k) = .ok (seedNode g s no t, k + 1) := by
  simp only [relaxSeed, htt, if_pos hlt, hband, if_true]

/-- What `seedNode` leaves at the node it seeds. -/
theorem seedNode_at (g : Grid3Ducfm α) (hg : g.PushPermutes) (s : FMState α) (n : Nat) (t : α)
    (hn : n < s.tt.length) :
    (seedNode g s n t).inBand n = true ∧ (seedNode g s n t).frozen n = true ∧
    (seedNode g s n t).tt[n]? = some t ∧ n ∈ (seedNode g s n t).narrow_band ∧
    (seedNode g s n t).tt.length = s.tt.length ∧
    ∀ m ∈ s.narrow_band, m ∈ (seedNode g s n t).narrow_band := by
  have hperm := hg (CompareNodePtr (s.tt.set n t)) (s.narrow_band ++ [n])
  refine ⟨by simp [seedNode, FMState.markSeed, FMState.push],
    by simp [seedNode, FMState.markSeed, FMState.push],
    by simp [seedNode, FMState.markSeed, FMState.push, List.getElem?_set, hn], ?_,
    by simp [seedNode, FMState.markSeed, FMState.push], ?_⟩
  · have : n ∈ g.push_heap (CompareNodePtr (s.tt.set n t)) (s.narrow_band ++ [n]) :=
      hperm.mem_iff.2 (by simp)
    simpa [seedNode, FMState.markSeed, FMState.push] using this
  · intro m hm
    have : m ∈ g.push_heap (CompareNodePtr (s.tt.set n t)) (s.narrow_band ++ [n]) :=
      hperm.mem_iff.2 (by simp [hm])
    simpa [seedNode, FMState.markSeed, FMState.push] using this

/-- What `seedNode` leaves at the other nodes. -/
theorem seedNode_other (g : Grid3Ducfm α) (s : FMState α) (n m : Nat) (t : α) (hm : m ≠ n) :
    (seedNode g s n t).tt[m]? = s.tt[m]? ∧ (seedNode g s n t).inBand m = s.inBand m ∧
    (seedNode g s n t).frozen m = s.frozen m := by
  have hne : ¬ n = m := fun e => hm e.symm
  refine ⟨?_, ?_, ?_⟩
  · simp [seedNode, FMState.markSeed, FMState.push, List.getElem?_set, hne]
  · simp [seedNode, FMState.markSeed, FMState.push, Function.update_noteq hm]
  · simp [seedNode, FMState.markSeed, FMState.push, Function.update_noteq hm]

/-- A scan that relaxes, with time `time no`, every node `no` of the list that
satisfies `hit` and skips the others, started where the nodes to relax are
outside the band with a traveltime above their candidate: it returns, counts
the nodes that satisfy `hit`, leaves each of them in the band and frozen with
its candidate time, and leaves every other node as it was. -/
theorem radiusScan (g : Grid3Ducfm α) (hg : g.PushPermutes)
    (f : Nat → FMState α × Nat → Outcome (FMState α × Nat)) (hit : Nat → Bool)
    (time : Nat → α) :
    ∀ (l : List Nat), l.Nodup →
      (∀ no ∈ l, hit no = true → ∀ st, f no st = relaxSeed g (time no) no st) →
      (∀ no ∈ l, hit no = false → ∀ st, f no st = .ok st) →
      ∀ (s : FMState α) (k : Nat),
        (∀ no ∈ l, hit no = true →
          ∃ told, s.tt[no]? = some told ∧ time no < told ∧ s.inBand no = false) →
        ∃ s1, Outcome.forEach f l (s, k) = .ok (s1, k + (l.filter hit).length) ∧
          s1.tt.length = s.tt.length ∧
          (∀ no ∈ l, hit no = true →
            s1.inBand no = true ∧ s1.frozen no = true ∧ s1.tt[no]? = some (time no) ∧
              no ∈ s1.narrow_band) ∧
          (∀ m, (m ∉ l ∨ hit m = false) →
            s1.tt[m]? = s.tt[m]? ∧ s1.inBand m = s.inBand m ∧ s1.frozen m = s.frozen m) ∧
          (∀ m ∈ s.narrow_band, m ∈ s1.narrow_band) := by
  intro l
  induction l with
  | nil =>
    intro _ _ _ s k _
    exact ⟨s, rfl, rfl, fun no hno => absurd hno (List.not_mem_nil _),
      fun m _ => ⟨rfl, rfl, rfl⟩, fun m hm => hm⟩
  | cons x rest ih =>
    intro hnd hf1 hf0 s k hpre
    have hx : x ∉ rest := (List.nodup_cons.1 hnd).1
    have hnd2 : rest.Nodup := (List.nodup_cons.1 hnd).2
    simp only [Outcome.forEach]
    cases hhit : hit x with
    | false =>
      rw [hf0 x (List.mem_cons_self _ _) hhit]
      simp only [Outcome.andThen]
      obtain ⟨s1, h1, h2, h3, h4, h5⟩ := ih hnd2
        (fun no hno => hf1 no (List.mem_cons_of_mem _ hno))
        (fun no hno => hf0 no (List.mem_cons_of_mem _ hno)) s k
        (fun no hno => hpre no (List.mem_cons_of_mem _ hno))
      refine ⟨s1, ?_, h2, ?_, ?_, h5⟩
      · rw [h1]
        simp [List.filter_cons, hhit]
      · intro no hno hh
        rcases List.mem_cons.1 hno with rfl | hno
        · rw [hhit] at hh; cases hh
        · exact h3 no hno hh
      · intro m hm
        rcases hm with hm | hm
        · exact h4 m (Or.inl (fun hmem => hm (List.mem_cons_of_mem _ hmem)))
        · exact h4 m (Or.inr hm)
    | true =>
      obtain ⟨told, htt, hlt, hband⟩ := hpre x (List.mem_cons_self _ _) hhit
      have hxlen : x < s.tt.length := (List.getElem?_eq_some_iff.1 htt).1
      rw [hf1 x (List.mem_cons_self _ _) hhit, relaxSeed_hit g _ told x s k htt hlt hband]
      simp only [Outcome.andThen]
      obtain ⟨a1, a2, a3, a4, a5, a6⟩ := seedNode_at g hg s x (time x) hxlen
      obtain ⟨s1, h1, h2, h3, h4, h5⟩ := ih hnd2
        (fun no hno => hf1 no (List.mem_cons_of_mem _ hno))
        (fun no hno => hf0 no (List.mem_cons_of_mem _ hno)) (seedNode g s x (time x)) (k + 1)
        (fun no hno hh => by
          have hne : no ≠ x := fun e => hx (e ▸ hno)
          obtain ⟨b1, b2, -⟩ := seedNode_other g s x no (time x) hne
          obtain ⟨told2, c1, c2, c3⟩ := hpre no (List.mem_cons_of_mem _ hno) hh
          exact ⟨told2, by rw [b1, c1], c2, by rw [b2, c3]⟩)
      refine ⟨s1, ?_, h2.trans a5, ?_, ?_, fun m hm => h5 m (a6 m hm)⟩
      · rw [h1]
        simp [List.filter_cons, hhit]
        omega
      · intro no hno hh
        rcases List.mem_cons.1 hno with rfl | hno
        · obtain ⟨d1, d2, d3⟩ := h4 no (Or.inl hx)
          exact ⟨by rw [d2, a1], by rw [d3, a2], by rw [d1, a3], h5 no a4⟩
        · exact h3 no hno hh
      · intro m hm
        have hne : m ≠ x := by
          rintro rfl
          rcases hm with hm | hm
          · exact hm (List.mem_cons_self _ _)
          · rw [hhit] at hm; cases hm
        obtain ⟨b1, b2, b3⟩ := seedNode_other g s x m (time x) hne
        have hm2 : m ∉ rest ∨ hit m = false := by
          rcases hm with hm | hm
          · exact Or.inl (fun hmem => hm (List.mem_cons_of_mem _ hmem))
          · exact Or.inr hm
        obtain ⟨d1, d2, d3⟩ := h4 m hm2
        exact ⟨d1.trans b1, d2.trans b2, d3.trans b3⟩

end RadiusScan

section SourceRadius

variable {α : Type} [LinearOrderedField α]

/-- With one source, `initBand` is the seeding of that source. -/
theorem initBand_single (g : Grid3Ducfm α) (p : sxyz α) (t : α) (s : FMState α) :
    initBand g [p] [t] s = initSource g 1 p (some t) s := by
  simp only [initBand, initBandLoop, List.length_singleton, List.getElem?_cons_zero]
  cases initSource g 1 p (some t) s <;> rfl

/-- The scan of all the nodes followed by the test of `nodes_added`: it aborts
exactly when no node satisfies `hit`, and otherwise it returns with every node
that satisfies `hit` in the band and frozen with its candidate time. -/
theorem checkAdded_scan (g : Grid3Ducfm α) (hg : g.PushPermutes)
    (f : Nat → FMState α × Nat → Outcome (FMState α × Nat)) (hit : Nat → Bool)
    (time : Nat → α) (N : Nat) (s : FMState α)
    (hf1 : ∀ no < N, hit no = true → ∀ st, f no st = relaxSeed g (time no) no st)
    (hf0 : ∀ no < N, hit no = false → ∀ st, f no st = .ok st)
    (hpre : ∀ no < N, hit no = true →
      ∃ told, s.tt[no]? = some told ∧ time no < told ∧ s.inBand no = false) :
    (checkAdded (Outcome.forEach f (List.range N) (s, 0)) = .aborted ↔
      ∀ no < N, hit no = false) ∧
    ((∃ no < N, hit no = true) →
      ∃ s1, checkAdded (Outcome.forEach f (List.range N) (s, 0)) = .ok s1 ∧
        ∀ no < N, hit no = true →
          s1.inBand no = true ∧ s1.frozen no = true ∧ s1.tt[no]? = some (time no) ∧
            no ∈ s1.narrow_band) := by
  obtain ⟨s1, h1, -, h3, -, -⟩ := radiusScan g hg f hit time (List.range N)
    (List.nodup_range N)
    (fun no hno => hf1 no (List.mem_range.1 hno))
    (fun no hno => hf0 no (List.mem_range.1 hno)) s 0
    (fun no hno => hpre no (List.mem_range.1 hno))
  rw [h1]
  simp only [checkAdded, Nat.zero_add]
  have hcount : ((List.range N).filter hit).length = 0 ↔ ∀ no < N, hit no = false := by
    rw [List.length_eq_zero, List.filter_eq_nil_iff]
    constructor
    · intro h no hno
      have := h no (List.mem_range.2 hno)
      simpa using this
    · intro h no hno
      rw [h no (List.mem_range.1 hno)]
      simp
  constructor
  · constructor
    · intro h
      split_ifs at h with hc
      exact hcount.1 hc
    · intro h
      rw [if_pos (hcount.2 h)]
  · rintro ⟨no, hno, hh⟩
    have hc : ¬ ((List.range N).filter hit).length = 0 := by
      intro hc
      rw [hcount.1 hc no hno] at hh
      cases hh
    rw [if_neg hc]
    exact ⟨s1, rfl, fun m hm hmh => h3 m (List.mem_range.2 hm) hmh⟩

/-- C18. EmptySourceRadius. `initBand` is called as `raytrace` calls it, after
the reinitialisation, with one source `Tx`, a source radius above 0 and a mesh
that is sound around the source; the time `t0` is finite in that the seed times
`t0 + d * slowness` of the nodes within the radius are below the value stored by
the reinitialisation. Then the call aborts exactly when no node, other than the
node on which the source was found, lies within the source radius; and when
there is such a node the call returns, with every such node in the band and
frozen with the traveltime `t0 + d * slowness`. -/
theorem initBand_source_radius (g : Grid3Ducfm α) (hg : g.PushPermutes) (p : sxyz α) (t : α)
    (nodes : List (Nat → α)) (threadNo : Nat) (hr : 0 < g.source_radius)
    (hmesh : SourceInMesh g nodes.length p)
    (hfin : ∀ no, InRadius g nodes.length p no →
      t + radiusDistance g nodes.length p no * radiusSlowness g nodes.length p < g.ttReinit) :
    (initBand g [p] [t] (freshState (reinit g nodes threadNo) threadNo) = .aborted ↔
      ∀ no, ¬ InRadius g nodes.length p no) ∧
    ((∃ no, InRadius g nodes.length p no) →
      ∃ s, initBand g [p] [t] (freshState (reinit g nodes threadNo) threadNo) = .ok s ∧
        ∀ no, InRadius g nodes.length p no →
          s.inBand no = true ∧ no ∈ s.narrow_band ∧ s.frozen no = true ∧
          s.tt[no]? = some (t + radiusDistance g nodes.length p no *
            radiusSlowness g nodes.length p)) := by
  have hrne : ¬ g.source_radius = 0 := ne_of_gt hr
  have htt0 : (freshState (reinit g nodes threadNo) threadNo).tt =
      List.replicate nodes.length g.ttReinit := by
    simp only [freshState, threadTT_reinit]
  have hlen0 : (freshState (reinit g nodes threadNo) threadNo).tt.length = nodes.length := by
    rw [htt0, List.length_replicate]
  have hget0 : ∀ no < nodes.length,
      (freshState (reinit g nodes threadNo) threadNo).tt[no]? = some g.ttReinit := by
    intro no hno
    rw [htt0, List.getElem?_replicate, if_pos hno]
  rw [initBand_single]
  unfold initSource
  rw [hlen0]
  cases hfind : findNode g nodes.length p with
  | some nn =>
    have hnn : nn < nodes.length := findNode_lt g _ p nn hfind
    simp only [SourceInMesh, hfind] at hmesh
    obtain ⟨hown, hvalid⟩ := hmesh
    have hIn : ∀ no, InRadius g nodes.length p no ↔
        (no < nodes.length ∧
          decide (no ≠ nn ∧ g.getDistance nn no ≤ g.source_radius) = true) := by
      intro no
      simp only [InRadius, radiusDistance, hfind, ne_eq, Option.some.injEq,
        decide_eq_true_eq]
      constructor
      · rintro ⟨h1, h2, h3⟩
        exact ⟨h1, fun e => h2 e.symm, h3⟩
      · rintro ⟨h1, h2, h3⟩
        exact ⟨h1, fun e => h2 e.symm, h3⟩
    have hslow : sourceSlowness g nn =
        some (((g.owners nn).map g.slowness).sum / ((g.owners nn).length : α)) := by
      simp only [sourceSlowness, if_pos hvalid]
    have hlen : ¬ (g.owners nn).length = 0 := fun e => hown (List.length_eq_zero.1 e)
    obtain ⟨hA, hB⟩ := checkAdded_scan g hg (seedRadiusNode g nn t)
      (fun no => decide (no ≠ nn ∧ g.getDistance nn no ≤ g.source_radius))
      (fun no => t + g.getDistance nn no *
        (((g.owners nn).map g.slowness).sum / ((g.owners nn).length : α)))
      nodes.length (seedNode g (freshState (reinit g nodes threadNo) threadNo) nn t)
      (fun no _ hh st => by
        simp only [ne_eq, decide_eq_true_eq] at hh
        simp only [seedRadiusNode, if_neg hh.1, if_pos hh.2, hslow, if_neg hlen])
      (fun no _ hh st => by
        simp only [ne_eq, decide_eq_false_iff_not, not_and, not_not] at hh
        by_cases e : no = nn
        · simp only [seedRadiusNode, if_pos e]
        · simp only [seedRadiusNode, if_neg e, if_neg (hh e)])
      (fun no hno hh => by
        have hin := (hIn no).2 ⟨hno, hh⟩
        simp only [ne_eq, decide_eq_true_eq] at hh
        obtain ⟨b1, b2, -⟩ := seedNode_other g
          (freshState (reinit g nodes threadNo) threadNo) nn no t hh.1
        refine ⟨g.ttReinit, by rw [b1, hget0 no hno], ?_, by rw [b2]; rfl⟩
        have := hfin no hin
        simpa only [radiusDistance, radiusSlowness, hfind] using this)
    simp only [seedOnNode, if_true, if_neg hrne, hlen0]
    constructor
    · rw [hA]
      constructor
      · intro h no hin
        have := (hIn no).1 hin
        rw [h no this.1] at this
        exact Bool.false_ne_true this.2
      · intro h no hno
        by_contra hh
        exact h no ((hIn no).2 ⟨hno, by simpa using hh⟩)
    · rintro ⟨no, hin⟩
      obtain ⟨s1, hs1, hprop⟩ := hB ⟨no, ((hIn no).1 hin).1, ((hIn no).1 hin).2⟩
      refine ⟨s1, hs1, fun m hm => ?_⟩
      obtain ⟨c1, c2, c3, c4⟩ := hprop m ((hIn m).1 hm).1 ((hIn m).1 hm).2
      refine ⟨c1, c4, c2, ?_⟩
      simpa only [radiusDistance, radiusSlowness, hfind] using c3
  | none =>
    simp only [SourceInMesh, hfind] at hmesh
    have hIn : ∀ no, InRadius g nodes.length p no ↔
        (no < nodes.length ∧ decide (g.getDistancePt no p ≤ g.source_radius) = true) := by
      intro no
      simp only [InRadius, radiusDistance, hfind, ne_eq, decide_eq_true_eq]
      constructor
      · rintro ⟨h1, -, h3⟩
        exact ⟨h1, h3⟩
      · rintro ⟨h1, h3⟩
        exact ⟨h1, fun e => Option.noConfusion e, h3⟩
    obtain ⟨hA, hB⟩ := checkAdded_scan g hg (seedRadiusPoint g p (some t) (g.getCellNo p))
      (fun no => decide (g.getDistancePt no p ≤ g.source_radius))
      (fun no => t + g.getDistancePt no p * g.slowness (g.getCellNo p))
      nodes.length (freshState (reinit g nodes threadNo) threadNo)
      (fun no _ hh st => by
        simp only [decide_eq_true_eq] at hh
        simp only [seedRadiusPoint, if_pos hh, if_pos hmesh])
      (fun no _ hh st => by
        simp only [decide_eq_false_iff_not] at hh
        simp only [seedRadiusPoint, if_neg hh])
      (fun no hno hh => by
        have hin := (hIn no).2 ⟨hno, hh⟩
        refine ⟨g.ttReinit, hget0 no hno, ?_, rfl⟩
        have := hfin no hin
        simpa only [radiusDistance, radiusSlowness, hfind] using this)
    simp only [seedInCell, if_neg hrne, if_true, hlen0]
    constructor
    · rw [hA]
      constructor
      · intro h no hin
        have := (hIn no).1 hin
        rw [h no this.1] at this
        exact Bool.false_ne_true this.2
      · intro h no hno
        by_contra hh
        exact h no ((hIn no).2 ⟨hno, by simpa using hh⟩)
    · rintro ⟨no, hin⟩
      obtain ⟨s1, hs1, hprop⟩ := hB ⟨no, ((hIn no).1 hin).1, ((hIn no).1 hin).2⟩
      refine ⟨s1, hs1, fun m hm => ?_⟩
      obtain ⟨c1, c2, c3, c4⟩ := hprop m ((hIn m).1 hm).1 ((hIn m).1 hm).2
      refine ⟨c1, c4, c2, ?_⟩
      simpa only [radiusDistance, radiusSlowness, hfind] using c3

end SourceRadius

section Witnesses2D

theorem checkPts_status_witness :
    (checkPts plainOps rightTriangle [⟨1 / 2, 1 / 2⟩, ⟨2, 0⟩] = some 0 ∧
        ∀ pt ∈ ([⟨1 / 2, 1 / 2⟩, ⟨2, 0⟩] : List (sxz ℚ)),
          (∃ nd ∈ rightTriangle.nodes, decide (nd.x = pt.x ∧ nd.z = pt.z) = true) ∨
            ∃ nt < rightTriangle.triangles.length,
              insideTriangle rightTriangle pt nt = some true) ∨
      (checkPts plainOps rightTriangle [⟨1 / 2, 1 / 2⟩, ⟨2, 0⟩] = some 1 ∧
        ¬ ∀ pt ∈ ([⟨1 / 2, 1 / 2⟩, ⟨2, 0⟩] : List (sxz ℚ)),
          (∃ nd ∈ rightTriangle.nodes, decide (nd.x = pt.x ∧ nd.z = pt.z) = true) ∨
            ∃ nt < rightTriangle.triangles.length,
              insideTriangle rightTriangle pt nt = some true) :=
  (checkPts_status rightTriangle rightTriangle_valid
    (fun nd p => decide (nd.x = p.x ∧ nd.z = p.z)) (fun _ _ => 0) (fun _ _ => 0)
    (fun _ _ => false) (fun _ _ => 0) (fun _ _ => 0)
    [⟨1 / 2, 1 / 2⟩, ⟨2, 0⟩] []).1

theorem setSlowness_vector_witness :
    (setSlowness rightTriangle [3, 4, 5]).1 = 0 ∧
    (setSlowness rightTriangle [3, 4, 5]).2.nodes.length = rightTriangle.nodes.length ∧
    (∀ n < rightTriangle.nodes.length,
      ((setSlowness rightTriangle [3, 4, 5]).2.nodes[n]?).map (fun nd => nd.slowness) =
        ([3, 4, 5] : List ℚ)[n]? ∧ ([3, 4, 5] : List ℚ)[n]? ≠ none) ∧
    setSlowness rightTriangle [3, 4] = (1, rightTriangle) :=
  ⟨((setSlowness_vector rightTriangle [3, 4, 5]).2 rfl).1,
    ((setSlowness_vector rightTriangle [3, 4, 5]).2 rfl).2.1,
    ((setSlowness_vector rightTriangle [3, 4, 5]).2 rfl).2.2,
    (setSlowness_vector rightTriangle [3, 4]).1 (by decide)⟩

theorem getCellNo_first_or_sentinel_witness :
    ∃ r, getCellNo 32 plainOps rightTriangle ⟨3, 3⟩ = some r ∧
      (r = noCell 32 ↔
        ∀ nt < rightTriangle.triangles.length,
          insideTriangle rightTriangle ⟨3, 3⟩ nt ≠ some true) ∧
      (r ≠ noCell 32 → r < rightTriangle.triangles.length ∧
        insideTriangle rightTriangle ⟨3, 3⟩ r = some true ∧
        ∀ m < r, insideTriangle rightTriangle ⟨3, 3⟩ m ≠ some true) :=
  (getCellNo_first_or_sentinel 32 rightTriangle rightTriangle_valid (by decide)
    (fun nd p => decide (nd.x = p.x ∧ nd.z = p.z)) (fun _ _ => 0) (fun _ _ => 0)
    (fun _ _ => false) (fun _ _ => 0) (fun _ _ => 0) ⟨3, 3⟩ ⟨0, 0, 0⟩).2.1

theorem getTraveltime_min_over_cell_nodes_witness :
    ∃ t, getTraveltime 32 receiverOps edgeNodeMesh receiver edgeNodeMesh.nodes 0 = some t ∧
      (∀ n ∈ [0, 1, 2, 3], ∀ nd, edgeNodeMesh.nodes[n]? = some nd →
        t ≤ nd.tt 0 + (receiverOps.inverseDistance receiver
            [nodeAt 0 0 0 6, nodeAt 1 21 0 15, nodeAt 2 0 16 18] + nd.slowness) / 2 *
          receiverOps.getDistance nd receiver) ∧
      (∃ n ∈ [0, 1, 2, 3], ∃ nd, edgeNodeMesh.nodes[n]? = some nd ∧
        t = nd.tt 0 + (receiverOps.inverseDistance receiver
            [nodeAt 0 0 0 6, nodeAt 1 21 0 15, nodeAt 2 0 16 18] + nd.slowness) / 2 *
          receiverOps.getDistance nd receiver) :=
  (getTraveltime_min_over_cell_nodes 32 receiverOps edgeNodeMesh receiver edgeNodeMesh.nodes
    0).2 0 [0, 1, 2, 3] [nodeAt 0 0 0 6, nodeAt 1 21 0 15, nodeAt 2 0 16 18]
    edgeNodeMesh_run.1 edgeNodeMesh_run.2.1 (by rw [noCell_eq]; norm_num) rfl (by simp)
    (by
      intro n hn
      simp only [List.mem_cons, List.mem_singleton, List.not_mem_nil, or_false] at hn
      rcases hn with rfl | rfl | rfl | rfl <;> simp [edgeNodeMesh])
    (by simp [interpNodes, edgeNodeMesh, nodeAt])

/-- C17, counterexample. In the triangle with primary nodes (0,0), (21,0),
(0,16) and a secondary node at (6,0), with traveltimes 6, 15, 18 and 0 and unit
slowness, the receiver (6,8) is on no node and in cell 0; the arrival times
through the three primary nodes are 16, 32 and 28, so that their minimum is 16,
and `getTraveltime` returns 8, the arrival time through the secondary node. -/
theorem getTraveltime_primary_counterexample :
    (∀ nd ∈ edgeNodeMesh.nodes, receiverOps.nodeEq nd receiver = false) ∧
    getCellNo 32 receiverOps edgeNodeMesh receiver = some 0 ∧
    computeSlowness 32 receiverOps edgeNodeMesh receiver = some 1 ∧
    (∀ nd ∈ edgeNodeMesh.nodes, nd.primary = true →
      16 ≤ nd.tt 0 + (1 + nd.slowness) / 2 * receiverOps.getDistance nd receiver) ∧
    (∃ nd ∈ edgeNodeMesh.nodes, nd.primary = true ∧
      nd.tt 0 + (1 + nd.slowness) / 2 * receiverOps.getDistance nd receiver = 16) ∧
    getTraveltime 32 receiverOps edgeNodeMesh receiver edgeNodeMesh.nodes 0 = some 8 ∧
    getTraveltime 32 receiverOps edgeNodeMesh receiver edgeNodeMesh.nodes 0 ≠ some 16 := by
  refine ⟨edgeNodeMesh_run.1, edgeNodeMesh_run.2.1, edgeNodeMesh_run.2.2.1, ?_, ?_,
    edgeNodeMesh_run.2.2.2, ?_⟩
  · intro nd hnd hprim
    simp only [edgeNodeMesh, List.mem_cons, List.mem_singleton, List.not_mem_nil,
      or_false] at hnd
    rcases hnd with rfl | rfl | rfl | rfl
    · norm_num [receiverOps, sxzOps, receiverDistance, nodeAt, receiver]
    · norm_num [receiverOps, sxzOps, receiverDistance, nodeAt, receiver]
    · norm_num [receiverOps, sxzOps, receiverDistance, nodeAt, receiver]
    · simp at hprim
  · refine ⟨nodeAt 0 0 0 6, by simp [edgeNodeMesh], rfl, ?_⟩
    norm_num [receiverOps, sxzOps, receiverDistance, nodeAt, receiver]
  · rw [edgeNodeMesh_run.2.2.2]
    norm_num

end Witnesses2D

section Witnesses3Dmore

theorem radiusMesh_pushPermutes : radiusMesh.PushPermutes :=
  fun cmp c => siftPushHeap_perm cmp c

theorem raytrace_output_shapes_witness :
    ∃ r, raytraceLists tetMesh [srcA, srcB] [0, 0]
        [[srcA, srcB, srcA], [srcB, srcA, srcB, srcA, srcB]] [some [], some [1]]
        fourNodes 0 = .ok r ∧
      (∃ v, r.traveltimes[0]? = some (some v) ∧ v.length = 3) ∧
      (∃ v, r.traveltimes[1]? = some (some v) ∧ v.length = 5) := by
  obtain ⟨s, hm, -⟩ := Outcome.ok_of_map_ok? tetMesh_run_two_sources
  have hc : ¬ (tetMesh.checkPts [srcA, srcB] = true ∨
      ∃ rx ∈ [[srcA, srcB, srcA], [srcB, srcA, srcB, srcA, srcB]],
        tetMesh.checkPts rx = true) := by
    simp [tetMesh]
  have hres := fillLists_eq tetMesh s.tt [[srcA, srcB, srcA], [srcB, srcA, srcB, srcA, srcB]] 0
    (fitSize [some [], some [1]] 2 none) (by simp [fitSize])
    (by
      intro i _ hi
      simp only [fitSize_length] at hi
      interval_cases i
      · exact ⟨[], by simp [fitSize]⟩
      · exact ⟨[1], by simp [fitSize]⟩)
  have hrun : raytraceLists tetMesh [srcA, srcB] [0, 0]
      [[srcA, srcB, srcA], [srcB, srcA, srcB, srcA, srcB]] [some [], some [1]] fourNodes 0 =
      .ok { nodes := storeTT fourNodes 0 s.tt,
            traveltimes := List.take 0 (fitSize [some [], some [1]] 2 none) ++
              List.map (fun rx => some (List.map (fun r => tetMesh.getTraveltime r s.tt) rx))
                [[srcA, srcB, srcA], [srcB, srcA, srcB, srcA, srcB]] } := by
    unfold raytraceLists
    rw [if_neg hc, hm]
    simp only [List.length_cons, List.length_nil, Nat.zero_add, Nat.reduceAdd]
    rw [hres]
  have hshape := (raytrace_output_shapes tetMesh receiverOnly [srcA, srcB] [0, 0] fourNodes 0
    [] [] [] [[srcA, srcB, srcA], [srcB, srcA, srcB, srcA, srcB]] [some [], some [1]] []).2.2.1
    _ hrun
  exact ⟨_, hrun, hshape 0 _ rfl, hshape 1 _ rfl⟩

theorem raytrace_rejects_outside_points_witness :
    raytrace checkedMesh [srcA] [0] [srcB, ⟨100, 0, 0⟩] [5] fourNodes 0 =
        .thrown { nodes := fourNodes, traveltimes := [5] } ∧
      raytracePaths checkedMesh receiverOnly [srcA] [0] [srcB, ⟨100, 0, 0⟩] [5] [] fourNodes 0 =
        .thrown { nodes := fourNodes, traveltimes := ([5], []) } :=
  (raytrace_rejects_outside_points checkedMesh receiverOnly [srcA] [0] fourNodes 0
    [srcB, ⟨100, 0, 0⟩] [5] [] [] [] []).1 (Or.inr (by simp [checkedMesh]))

theorem initBand_source_radius_witness :
    ∃ s, initBand radiusMesh [srcA] [0] (freshState (reinit radiusMesh fourNodes 0) 0) = .ok s ∧
      ∀ no, InRadius radiusMesh fourNodes.length srcA no →
        s.inBand no = true ∧ no ∈ s.narrow_band ∧ s.frozen no = true ∧
        s.tt[no]? = some (0 + radiusDistance radiusMesh fourNodes.length srcA no *
          radiusSlowness radiusMesh fourNodes.length srcA) := by
  have hfind : findNode radiusMesh fourNodes.length srcA = none := by
    simp [findNode, radiusMesh, tetMesh, fourNodes, srcA, tetNode, List.range, List.range.loop]
  refine (initBand_source_radius radiusMesh radiusMesh_pushPermutes srcA 0 fourNodes 0
    (by norm_num [radiusMesh]) ?_ ?_).2 ⟨0, ?_⟩
  · simp only [SourceInMesh, hfind]
    simp [radiusMesh, tetMesh]
  · intro no _
    simp only [radiusDistance, radiusSlowness, hfind]
    simp only [radiusMesh, tetMesh, tetDistance]
    split_ifs <;> norm_num
  · refine ⟨by simp [fourNodes], by rw [hfind]; simp, ?_⟩
    simp only [radiusDistance, hfind]
    norm_num [radiusMesh, tetMesh, tetDistance]

end Witnesses3Dmore

/-! ## The cell across an edge -/

section NextCell

/-- A list without repetition whose members are exactly `c0` and `c1`, two
different values, is `[c0, c1]` or `[c1, c0]`. -/
theorem pair_of_nodup (l : List Nat) (c0 c1 : Nat) (hnd : l.Nodup)
    (hex : ∀ c, c ∈ l ↔ (c = c0 ∨ c = c1)) (hne : c0 ≠ c1) :
    l = [c0, c1] ∨ l = [c1, c0] := by
  match l, hnd, hex with
  | [], _, hex => exact absurd ((hex c0).2 (Or.inl rfl)) (List.not_mem_nil _)
  | [a], _, hex =>
    have h0 := (hex c0).2 (Or.inl rfl)
    have h1 := (hex c1).2 (Or.inr rfl)
    simp only [List.mem_singleton] at h0 h1
    exact absurd (h0.trans h1.symm) hne
  | a :: b :: rest, hnd, hex =>
    have hab : a ≠ b := by
      intro e
      subst e
      simp at hnd
    have hrest : rest = [] := by
      cases rest with
      | nil => rfl
      | cons r rest2 =>
        exfalso
        have ha := (hex a).1 (by simp)
        have hb := (hex b).1 (by simp)
        have hr := (hex r).1 (by simp)
        simp only [List.nodup_cons, List.mem_cons, not_or] at hnd
        obtain ⟨⟨hab2, har, _⟩, ⟨hbr, _⟩, _⟩ := hnd
        rcases ha with rfl | rfl <;> rcases hb with rfl | rfl <;> rcases hr with rfl | rfl <;>
          simp_all
    subst hrest
    have ha := (hex a).1 (by simp)
    have hb := (hex b).1 (by simp)
    rcases ha with rfl | rfl <;> rcases hb with rfl | rfl
    · exact absurd rfl hab
    · exact Or.inl rfl
    · exact Or.inr rfl
    · exact absurd rfl hab

/-- A list without repetition whose only member is `c` is `[c]`. -/
theorem single_of_nodup (l : List Nat) (c : Nat) (hnd : l.Nodup) (hex : ∀ d, d ∈ l ↔ d = c) :
    l = [c] := by
  match l, hnd, hex with
  | [], _, hex => exact absurd ((hex c).2 rfl) (List.not_mem_nil _)
  | [a], _, hex =>
    have h0 := (hex a).1 (by simp)
    rw [h0]
  | a :: b :: rest, hnd, hex =>
    have ha := (hex a).1 (by simp)
    have hb := (hex b).1 (by simp)
    subst ha
    subst hb
    simp at hnd

variable {α : Type}

/-- The vector `cells` when both nodes exist: the owners of `i0` that own `i1`
as well. -/
theorem cells_eq (g : Grid2Dui α) (i0 i1 : Nat) (n0 n1 : Node α)
    (h0 : g.nodes[i0]? = some n0) (h1 : g.nodes[i1]? = some n1) :
    cells g i0 i1 = some (n0.owners.filter (fun nc0 => n1.owners.contains nc0)) := by
  unfold cells
  simp only [h0, h1]
  split_ifs with he
  · have : n0.owners = [] := List.isEmpty_iff.1 he
    simp [this]
  · rfl

/-- C22. `findNextCell2(i0, i1, cellNo)` when exactly two cells, `c0` and `c1`,
contain both nodes `i0` and `i1` (the owner list of `i0` names each of its cells
once): if `cellNo` is one of the two the result is the other one, and if it is
neither the result is the sentinel `numeric_limits<T2>::max()`. -/
theorem findNextCell2_other_cell (w : Nat) (g : Grid2Dui α) (i0 i1 cellNo c0 c1 : Nat)
    (n0 n1 : Node α) (h0 : g.nodes[i0]? = some n0) (h1 : g.nodes[i1]? = some n1)
    (hnd : n0.owners.Nodup)
    (hex : ∀ c, (c ∈ n0.owners ∧ c ∈ n1.owners) ↔ (c = c0 ∨ c = c1)) (hne : c0 ≠ c1) :
    (cellNo = c0 → findNextCell2 w g i0 i1 cellNo = some c1) ∧
    (cellNo = c1 → findNextCell2 w g i0 i1 cellNo = some c0) ∧
    (cellNo ≠ c0 → cellNo ≠ c1 → findNextCell2 w g i0 i1 cellNo = some (maxT2 w)) := by
  have hmem : ∀ c, c ∈ n0.owners.filter (fun nc0 => n1.owners.contains nc0) ↔
      (c = c0 ∨ c = c1) := by
    intro c
    rw [← hex c]
    simp [List.mem_filter]
  have hc := cells_eq g i0 i1 n0 n1 h0 h1
  rcases pair_of_nodup _ c0 c1 (hnd.filter _) hmem hne with hq | hq
  · rw [hq] at hc
    refine ⟨fun e => ?_, fun e => ?_, fun e0 e1 => ?_⟩
    · simp [findNextCell2, hc, e]
    · simp [findNextCell2, hc, e, fun h : c1 = c0 => hne h.symm]
    · simp [findNextCell2, hc, e0, e1]
  · rw [hq] at hc
    refine ⟨fun e => ?_, fun e => ?_, fun e0 e1 => ?_⟩
    · simp [findNextCell2, hc, e, hne]
    · simp [findNextCell2, hc, e]
    · simp [findNextCell2, hc, e0, e1]

/-- C23, as amended. On an edge of the mesh boundary, that is when exactly one
cell `c` contains both nodes `i0` and `i1` (the owner list of `i0` names each of
its cells once), `findNextCell1` and `findNextCell2` return that cell `c`,
whatever their third argument is. -/
theorem findNextCell_boundary_edge (w : Nat) (g : Grid2Dui α) (i0 i1 c : Nat) (n0 n1 : Node α)
    (h0 : g.nodes[i0]? = some n0) (h1 : g.nodes[i1]? = some n1) (hnd : n0.owners.Nodup)
    (hex : ∀ d, (d ∈ n0.owners ∧ d ∈ n1.owners) ↔ d = c) :
    (∀ nodeNo, findNextCell1 w g i0 i1 nodeNo = some c) ∧
    (∀ cellNo, findNextCell2 w g i0 i1 cellNo = some c) := by
  have hmem : ∀ d, d ∈ n0.owners.filter (fun nc0 => n1.owners.contains nc0) ↔ d = c := by
    intro d
    rw [← hex d]
    simp [List.mem_filter]
  have hc := cells_eq g i0 i1 n0 n1 h0 h1
  rw [single_of_nodup _ c (hnd.filter _) hmem] at hc
  exact ⟨fun nodeNo => by simp [findNextCell1, hc], fun cellNo => by simp [findNextCell2, hc]⟩

end NextCell

section NextCellExamples

/-- C23, counterexample. In the mesh of one triangle the edge between nodes 0
and 1 is on the boundary: cell 0 is the only cell that contains both nodes. With
a 32-bit index type `findNextCell1` and `findNextCell2` return cell 0 there, not
the sentinel `numeric_limits<T2>::max()`. -/
theorem findNextCell_boundary_counterexample :
    cells rightTriangle 0 1 = some [0] ∧
    findNextCell1 32 rightTriangle 0 1 2 = some 0 ∧
    findNextCell2 32 rightTriangle 0 1 0 = some 0 ∧
    findNextCell1 32 rightTriangle 0 1 2 ≠ some (maxT2 32) ∧
    findNextCell2 32 rightTriangle 0 1 0 ≠ some (maxT2 32) := by
  refine ⟨?_, ?_, ?_, ?_, ?_⟩ <;>
    simp [cells, findNextCell1, findNextCell2, rightTriangle, nodeAt, maxT2]

theorem findNextCell_boundary_edge_witness :
    (∀ nodeNo, findNextCell1 32 rightTriangle 0 1 nodeNo = some 0) ∧
    (∀ cellNo, findNextCell2 32 rightTriangle 0 1 cellNo = some 0) :=
  findNextCell_boundary_edge 32 rightTriangle 0 1 0 (nodeAt 0 0 0 0) (nodeAt 1 2 0 0) rfl rfl
    (by simp [nodeAt]) (by intro d; simp [nodeAt])

theorem findNextCell2_other_cell_witness :
    (0 = 0 → findNextCell2 32 (edgeNeighbours (-10 : ℚ) 0 0 0 0 0 0) 0 1 0 = some 1) ∧
    (0 = 1 → findNextCell2 32 (edgeNeighbours (-10 : ℚ) 0 0 0 0 0 0) 0 1 0 = some 0) ∧
    (0 ≠ 0 → 0 ≠ 1 →
      findNextCell2 32 (edgeNeighbours (-10 : ℚ) 0 0 0 0 0 0) 0 1 0 = some (maxT2 32)) :=
  findNextCell2_other_cell 32 (edgeNeighbours (-10 : ℚ) 0 0 0 0 0 0) 0 1 0 0 1
    { nodeAt 0 0 0 0 with owners := [0, 1] } { nodeAt 1 10 0 0 with owners := [0, 1] } rfl rfl
    (by simp) (by intro c; simp) (by decide)

end NextCellExamples

/-! ## The support chosen by `localSolver` -/

section SupportBranches

variable {α : Type} [LinearOrderedField α]

/-- C27, as amended. In the regular branch of `localSolver`, with C the vertex
of the element at position `i0`, A the vertex at position `(i0+1)%3` and B the
vertex at position `(i0+2)%3`, and with the stored `l[k]` the length
`dist` of the edge between the two vertices other than vertex `k`, the solver
uses `a = |BC|`, `b = |CA|`, `c = |AB|`, `alpha` = the stored interior angle at
B and `beta` = the stored interior angle at A. -/
theorem support_regular_branch (pi : α) (g : Grid2Dui α) (gridIndexC triangleNo i0 : Nat)
    (tri : triangleElemAngle α) (dist : Nat → Nat → α)
    (htri : g.triangles[triangleNo]? = some tri) (hi0 : findI0 gridIndexC tri = some i0)
    (hreg : ¬ (tri.a.get i0 > pi / 2 ∧ g.virtualNodes.isEmpty = false))
    (hl : ∀ k, k < 3 → tri.l.get k = dist (tri.i.get ((k + 1) % 3)) (tri.i.get ((k + 2) % 3))) :
    ∃ sp, support pi g gridIndexC triangleNo = .found sp ∧
      gridIndexC = tri.i.get i0 ∧
      sp.vertexA = tri.i.get ((i0 + 1) % 3) ∧ sp.vertexB = tri.i.get ((i0 + 2) % 3) ∧
      sp.a = dist sp.vertexB gridIndexC ∧ sp.b = dist gridIndexC sp.vertexA ∧
      sp.c = dist sp.vertexA sp.vertexB ∧
      sp.alpha = tri.a.get ((i0 + 2) % 3) ∧ sp.beta = tri.a.get ((i0 + 1) % 3) := by
  have hsp : support pi g gridIndexC triangleNo =
      .found { vertexA := tri.i.get ((i0 + 1) % 3), vertexB := tri.i.get ((i0 + 2) % 3),
               c := tri.l.get i0, a := tri.l.get ((i0 + 1) % 3), b := tri.l.get ((i0 + 2) % 3),
               alpha := tri.a.get ((i0 + 2) % 3), beta := tri.a.get ((i0 + 1) % 3) } := by
    unfold support
    simp only [htri, hi0]
    rw [if_neg hreg]
  refine ⟨_, hsp, ?_⟩
  have h0 : tri.l.get 0 = dist (tri.i.get 1) (tri.i.get 2) := hl 0 (by decide)
  have h1 : tri.l.get 1 = dist (tri.i.get 2) (tri.i.get 0) := hl 1 (by decide)
  have h2 : tri.l.get 2 = dist (tri.i.get 0) (tri.i.get 1) := hl 2 (by decide)
  unfold findI0 at hi0
  split_ifs at hi0 with e0 e1 e2
  · cases hi0
    refine ⟨e0, rfl, rfl, ?_, ?_, ?_, rfl, rfl⟩
    · show tri.l.get 1 = dist (tri.i.get 2) gridIndexC
      rw [h1, e0]
    · show tri.l.get 2 = dist gridIndexC (tri.i.get 1)
      rw [h2, e0]
    · exact h0
  · cases hi0
    refine ⟨e1, rfl, rfl, ?_, ?_, ?_, rfl, rfl⟩
    · show tri.l.get 2 = dist (tri.i.get 0) gridIndexC
      rw [h2, e1]
    · show tri.l.get 0 = dist gridIndexC (tri.i.get 2)
      rw [h0, e1]
    · exact h1
  · cases hi0
    refine ⟨e2, rfl, rfl, ?_, ?_, ?_, rfl, rfl⟩
    · show tri.l.get 0 = dist (tri.i.get 1) gridIndexC
      rw [h0, e2]
    · show tri.l.get 1 = dist gridIndexC (tri.i.get 0)
      rw [h1, e2]
    · exact h2

/-- On the mesh `edgeNeighbours`, with an obtuse angle at node 2 of triangle 1
only, `processObtuse` returns with one entry in the registry, for triangle 1;
the opposite triangle found is triangle 0 and the node taken from it is node 1,
an end of the shared edge. -/
theorem edgeNeighbours_processObtuse (acos : α → α) (pi : α) (dist : Node α → Node α → α)
    (z3 b0 b1 b2 a0 a1 a2 : α) (hb0 : ¬ b0 > pi / 2) (hb1 : ¬ b1 > pi / 2)
    (hb2 : ¬ b2 > pi / 2) (h0 : ¬ a0 > pi / 2) (h1 : ¬ a1 > pi / 2) (h2 : a2 > pi / 2) :
    processObtuse acos pi dist (edgeNeighbours z3 b0 b1 b2 a0 a1 a2) =
      .ok (insertVirtualNode (edgeNeighbours z3 b0 b1 b2 a0 a1 a2) 1
        (unfoldTriangle acos pi dist 0 1 1 { nodeAt 2 5 (1 / 10) 0 with owners := [1] }
          { nodeAt 0 0 0 0 with owners := [0, 1] } { nodeAt 1 10 0 0 with owners := [0, 1] }
          { nodeAt 1 10 0 0 with owners := [0, 1] })) := by
  simp [processObtuse, processVertex, correctVertex, edgeNeighbours, Outcome.forEach,
    Outcome.andThen, Arr3.get, hb0, hb1, hb2, h0, h1, h2, commonOwner, oppositeNode, nodeAt,
    List.range, List.range.loop, insertVirtualNode]

end SupportBranches

section SupportExamples

/-- C27, counterexample. In the triangle with nodes (0,0), (4,0), (4,3) and the
angles of the coordinates, the update of node 0 takes the regular branch with A
= node 1 and B = node 2; the stored angle at A is `π/2` and the stored angle at
B is `arccos (3/5)`. The `alpha` of the solver is the angle at B, not the angle at A,
and its `beta` is the angle at A, not the angle at B. -/
theorem support_angles_counterexample :
    ∃ sp, support Real.pi
        (oneTriangle (Real.arccos (4 / 5)) (Real.pi / 2) (Real.arccos (3 / 5)) 0 0 0) 0 0 =
          .found sp ∧
      sp.vertexA = 1 ∧ sp.vertexB = 2 ∧
      sp.alpha = Real.arccos (3 / 5) ∧ sp.alpha ≠ Real.pi / 2 ∧
      sp.beta = Real.pi / 2 ∧ sp.beta ≠ Real.arccos (3 / 5) := by
  have hne : Real.arccos (3 / 5) ≠ Real.pi / 2 := by
    intro h
    have := Real.arccos_eq_pi_div_two.1 h
    norm_num at this
  refine ⟨⟨1, 2, 5, 4, 3, Real.arccos (3 / 5), Real.pi / 2⟩, ?_, rfl, rfl, rfl, hne, rfl,
    fun h => hne h.symm⟩
  simp [support, oneTriangle, findI0, Arr3.get]

theorem support_regular_branch_witness :
    ∃ sp, support (4 : ℚ) (oneTriangle 1 2 1 0 0 0) 0 0 = .found sp ∧
      0 = (⟨0, 1, 2⟩ : Arr3 Nat).get 0 ∧
      sp.vertexA = (⟨0, 1, 2⟩ : Arr3 Nat).get ((0 + 1) % 3) ∧
      sp.vertexB = (⟨0, 1, 2⟩ : Arr3 Nat).get ((0 + 2) % 3) ∧
      sp.a = (fun m n => if m + n = 3 then (3 : ℚ) else if m + n = 2 then 5 else 4) sp.vertexB 0 ∧
      sp.b = (fun m n => if m + n = 3 then (3 : ℚ) else if m + n = 2 then 5 else 4) 0 sp.vertexA ∧
      sp.c = (fun m n => if m + n = 3 then (3 : ℚ) else if m + n = 2 then 5 else 4)
        sp.vertexA sp.vertexB ∧
      sp.alpha = (⟨1, 2, 1⟩ : Arr3 ℚ).get ((0 + 2) % 3) ∧
      sp.beta = (⟨1, 2, 1⟩ : Arr3 ℚ).get ((0 + 1) % 3) :=
  support_regular_branch (4 : ℚ) (oneTriangle 1 2 1 0 0 0) 0 0 0
    { i := ⟨0, 1, 2⟩, l := ⟨3, 5, 4⟩, a := ⟨1, 2, 1⟩ }
    (fun m n => if m + n = 3 then (3 : ℚ) else if m + n = 2 then 5 else 4)
    rfl (by simp [findI0, Arr3.get]) (by simp [oneTriangle])
    (by
      intro k hk
      interval_cases k <;> simp [Arr3.get])

/-- The angles of the triangle with nodes (0,0), (10,0), (5,-10): none is
obtuse. -/
theorem edgeNeighbours_angles :
    ¬ Real.arccos (1 / Real.sqrt 5) > Real.pi / 2 ∧ ¬ Real.arccos (3 / 5) > Real.pi / 2 :=
  ⟨not_lt.2 (Real.arccos_le_pi_div_two.2 (by positivity)),
    not_lt.2 (Real.arccos_le_pi_div_two.2 (by norm_num))⟩

/-- C29, at the failing input. The mesh has triangle 0 with nodes 0 at (0,0), 1
at (10,0), 3 at (5,-10) and triangle 1 with nodes 0, 1 and 2 at (5,1/10), the
angles being those of the coordinates. Triangle 1 is obtuse at node 2, and
triangle 0 is its neighbour across the opposite edge, between nodes 0 and 1; the
third vertex of that neighbour is node 3. `processObtuse` returns with one
entry, for triangle 1, whose replacement vertex is node 1, an end of the shared
edge: the two supporting nodes recorded are among nodes 0 and 1, and node 3 is
not one of them. -/
theorem processObtuse_replacement_vertex (dist : Node ℝ → Node ℝ → ℝ) :
    ∃ g vn, processObtuse Real.arccos Real.pi dist
        (edgeNeighbours (-10) (Real.arccos (1 / Real.sqrt 5)) (Real.arccos (1 / Real.sqrt 5))
          (Real.arccos (3 / 5)) (Real.arccos (50 / Real.sqrt 2501))
          (Real.arccos (50 / Real.sqrt 2501)) (Real.arccos (-2499 / 2501))) = .ok g ∧
      g.virtualNodes = [(1, vn)] ∧ vn.node2 = 1 ∧ (vn.node1 = 0 ∨ vn.node1 = 1) ∧
      vn.node1 ≠ 3 ∧ vn.node2 ≠ 3 := by
  refine ⟨_, unfoldTriangle Real.arccos Real.pi dist 0 1 1
      { nodeAt 2 5 (1 / 10) 0 with owners := [1] } { nodeAt 0 0 0 0 with owners := [0, 1] }
      { nodeAt 1 10 0 0 with owners := [0, 1] } { nodeAt 1 10 0 0 with owners := [0, 1] },
    edgeNeighbours_processObtuse Real.arccos Real.pi dist _ _ _ _ _ _ _
      edgeNeighbours_angles.1 edgeNeighbours_angles.1 edgeNeighbours_angles.2
      obtuse_scenario_angles.1 obtuse_scenario_angles.1 obtuse_scenario_angles.2,
    ?_, ?_, ?_, ?_, ?_⟩
  · simp [insertVirtualNode, edgeNeighbours]
  · unfold unfoldTriangle mkVirtualNode
    split_ifs <;> rfl
  · unfold unfoldTriangle mkVirtualNode
    split_ifs
    · right; rfl
    · left; rfl
  · unfold unfoldTriangle mkVirtualNode
    split_ifs <;> simp
  · unfold unfoldTriangle mkVirtualNode
    split_ifs <;> simp

end SupportExamples

/-! ## The angle recorded by the obtuse-angle pass -/

section RecordedAngle

/-- In the plane, when the angles at the origin between `p1` and `p2` and
between `p1` and `p3` are obtuse and `p3` lies strictly on the other side of the
line through `p1` and `p2`, the angle between `p2` and `p3` is acute. -/
theorem dot_pos_of_across (x1 z1 x2 z2 x3 z3 : ℝ) (h12 : x1 * x2 + z1 * z2 < 0)
    (h13 : x1 * x3 + z1 * z3 < 0)
    (hside : (x1 * z2 - z1 * x2) * ((x2 - x1) * (z3 - z1) - (z2 - z1) * (x3 - x1)) < 0) :
    0 < x2 * x3 + z2 * z3 := by
  by_contra h
  have h23 : x2 * x3 + z2 * z3 ≤ 0 := not_lt.1 h
  have e : (x1 * z2 - z1 * x2) * ((x2 - x1) * (z3 - z1) - (z2 - z1) * (x3 - x1)) =
      (x1 * z2 - z1 * x2) ^ 2 +
        ((x1 * x2 + z1 * z2) * (x2 * x3 + z2 * z3) - (x1 * x3 + z1 * z3) * (x2 * x2 + z2 * z2)) +
        ((x1 * x3 + z1 * z3) * (x1 * x2 + z1 * z2) -
          (x1 * x1 + z1 * z1) * (x2 * x3 + z2 * z3)) := by
    ring
  have t1 : 0 ≤ (x1 * x2 + z1 * z2) * (x2 * x3 + z2 * z3) :=
    mul_nonneg_of_nonpos_of_nonpos (le_of_lt h12) h23
  have t2 : 0 ≤ -((x1 * x3 + z1 * z3) * (x2 * x2 + z2 * z2)) := by
    have : 0 ≤ x2 * x2 + z2 * z2 := add_nonneg (mul_self_nonneg _) (mul_self_nonneg _)
    nlinarith
  have t3 : 0 ≤ (x1 * x3 + z1 * z3) * (x1 * x2 + z1 * z2) :=
    mul_nonneg_of_nonpos_of_nonpos (le_of_lt h13) (le_of_lt h12)
  have t4 : 0 ≤ -((x1 * x1 + z1 * z1) * (x2 * x3 + z2 * z3)) := by
    have : 0 ≤ x1 * x1 + z1 * z1 := add_nonneg (mul_self_nonneg _) (mul_self_nonneg _)
    nlinarith
  have t5 : 0 ≤ (x1 * z2 - z1 * x2) ^ 2 := sq_nonneg _
  rw [e] at hside
  linarith

/-- The numerator of the law of cosines for the planar distance is twice the
scalar product of the two edge vectors. -/
theorem cosine_numerator (dist : Node ℝ → Node ℝ → ℝ)
    (hdist : ∀ p q, dist p q = Real.sqrt ((p.x - q.x) ^ 2 + (p.z - q.z) ^ 2))
    (n0 p q : Node ℝ) :
    dist n0 q * dist n0 q + dist n0 p * dist n0 p - dist p q * dist p q =
      2 * ((p.x - n0.x) * (q.x - n0.x) + (p.z - n0.z) * (q.z - n0.z)) := by
  rw [hdist n0 q, hdist n0 p, hdist p q, Real.mul_self_sqrt (by positivity),
    Real.mul_self_sqrt (by positivity), Real.mul_self_sqrt (by positivity)]
  ring

/-- The angle at node 0 of a support, for the planar distance, is at most `π/2`
when the scalar product of its two edge vectors is not negative, and the
scalar product is negative when the angle exceeds `π/2`. -/
theorem angle0_planar (dist : Node ℝ → Node ℝ → ℝ)
    (hdist : ∀ p q, dist p q = Real.sqrt ((p.x - q.x) ^ 2 + (p.z - q.z) ^ 2))
    (n0 p q : Node ℝ) :
    (0 ≤ (p.x - n0.x) * (q.x - n0.x) + (p.z - n0.z) * (q.z - n0.z) →
      angle0 Real.arccos (dist p q) (dist n0 q) (dist n0 p) ≤ Real.pi / 2) ∧
    (angle0 Real.arccos (dist p q) (dist n0 q) (dist n0 p) > Real.pi / 2 →
      (p.x - n0.x) * (q.x - n0.x) + (p.z - n0.z) * (q.z - n0.z) < 0) := by
  have hden : 0 ≤ 2 * dist n0 q * dist n0 p := by
    rw [hdist n0 q, hdist n0 p]
    positivity
  have hnum := cosine_numerator dist hdist n0 p q
  constructor
  · intro h
    unfold angle0
    rw [Real.arccos_le_pi_div_two, hnum]
    exact div_nonneg (by linarith) hden
  · intro h
    by_contra hc
    have hge : 0 ≤ (p.x - n0.x) * (q.x - n0.x) + (p.z - n0.z) * (q.z - n0.z) := not_lt.1 hc
    unfold angle0 at h
    have : Real.arccos ((dist n0 q * dist n0 q + dist n0 p * dist n0 p - dist p q * dist p q) /
        (2 * dist n0 q * dist n0 p)) ≤ Real.pi / 2 := by
      rw [Real.arccos_le_pi_div_two, hnum]
      exact div_nonneg (by linarith) hden
    exact absurd h (not_lt.2 this)

/-- The support recorded for a planar configuration in which the replacement
node lies across the opposite edge is not obtuse at the update vertex. -/
theorem unfoldTriangle_planar (dist : Node ℝ → Node ℝ → ℝ)
    (hdist : ∀ p q, dist p q = Real.sqrt ((p.x - q.x) ^ 2 + (p.z - q.z) ^ 2))
    (i1 i2 i3 : Nat) (n0 n1 n2 n3 : Node ℝ) (h : UnfoldsAcross n0 n1 n2 n3) :
    (unfoldTriangle Real.arccos Real.pi dist i1 i2 i3 n0 n1 n2 n3).a.get 0 ≤ Real.pi / 2 := by
  obtain ⟨hobt, hside⟩ := h
  unfold unfoldTriangle
  split_ifs with hc
  · obtain ⟨_, hfirst⟩ := hc
    have h13 := (angle0_planar dist hdist n0 n1 n3).2 hfirst
    have h23 := dot_pos_of_across (n1.x - n0.x) (n1.z - n0.z) (n2.x - n0.x) (n2.z - n0.z)
      (n3.x - n0.x) (n3.z - n0.z) hobt h13 (by
        have e : ((n1.x - n0.x) * (n2.z - n0.z) - (n1.z - n0.z) * (n2.x - n0.x)) *
            ((n2.x - n0.x - (n1.x - n0.x)) * (n3.z - n0.z - (n1.z - n0.z)) -
              (n2.z - n0.z - (n1.z - n0.z)) * (n3.x - n0.x - (n1.x - n0.x))) =
            ((n2.x - n1.x) * (n0.z - n1.z) - (n2.z - n1.z) * (n0.x - n1.x)) *
              ((n2.x - n1.x) * (n3.z - n1.z) - (n2.z - n1.z) * (n3.x - n1.x)) := by ring
        rw [e]
        exact hside)
    show angle0 Real.arccos (dist n2 n3) (dist n0 n2) (dist n0 n3) ≤ Real.pi / 2
    have := (angle0_planar dist hdist n0 n3 n2).1 (by linarith)
    have hsym : dist n3 n2 = dist n2 n3 := by
      rw [hdist, hdist]
      congr 1
      ring
    rw [hsym] at this
    exact this
  · show angle0 Real.arccos (dist n1 n3) (dist n0 n3) (dist n0 n1) ≤ Real.pi / 2
    rw [not_and_or] at hc
    rcases hc with hz | hle
    · have hz2 : 2 * dist n0 n3 * dist n0 n1 = 0 := not_not.1 hz
      unfold angle0
      rw [hz2, div_zero, Real.arccos_zero]
    · exact not_lt.1 hle

end RecordedAngle

section RecordedEntries

variable {α : Type} [LinearOrderedField α]

theorem processVertex_entries (acos : α → α) (pi : α) (dist : Node α → Node α → α)
    (g s s1 : Grid2Dui α) (ntri n : Nat) (hn : n < 3) (hP : ObtusePassInv acos pi dist g s)
    (h : processVertex acos pi dist ntri n s = .ok s1) : ObtusePassInv acos pi dist g s1 := by
  obtain ⟨hnodes, htris, added, hadd, hall⟩ := hP
  unfold processVertex at h
  cases htri : s.triangles[ntri]? with
  | none => simp [htri] at h
  | some tri =>
    simp only [htri] at h
    split_ifs at h with hobt
    · unfold correctVertex at h
      cases h1 : s.nodes[tri.i.get ((n + 1) % 3)]? with
      | none => simp [h1] at h
      | some n1 =>
        cases h2 : s.nodes[tri.i.get ((n + 2) % 3)]? with
        | none => simp [h1, h2] at h
        | some n2 =>
          simp only [h1, h2] at h
          cases hco : commonOwner n1.owners n2.owners with
          | none =>
            simp only [hco, Outcome.ok.injEq] at h
            subst h
            exact ⟨hnodes, htris, added, hadd, hall⟩
          | some opp =>
            simp only [hco] at h
            cases hot : s.triangles[opp]? with
            | none => simp [hot] at h
            | some otri =>
              simp only [hot] at h
              cases h0 : s.nodes[tri.i.get n]? with
              | none => simp [h0] at h
              | some n0 =>
                cases h3 : s.nodes[oppositeNode otri (tri.i.get ((n + 1) % 3))
                    (tri.i.get ((n + 2) % 3))]? with
                | none => simp [h0, h3] at h
                | some n3 =>
                  simp only [h0, h3, Outcome.ok.injEq] at h
                  subst h
                  refine ⟨hnodes, htris, added ++ [(ntri,
                    unfoldTriangle acos pi dist (tri.i.get ((n + 1) % 3))
                      (tri.i.get ((n + 2) % 3))
                      (oppositeNode otri (tri.i.get ((n + 1) % 3)) (tri.i.get ((n + 2) % 3)))
                      n0 n1 n2 n3)], ?_, ?_⟩
                  · simp [insertVirtualNode, hadd]
                  · intro e he
                    rcases List.mem_append.1 he with he1 | he2
                    · exact hall e he1
                    · rw [List.mem_singleton] at he2
                      subst he2
                      refine ⟨n0, n1, n2, n3, tri, n, otri, ?_, hn, hobt, ?_, ?_, ?_, ?_, ?_, rfl⟩
                      · rw [← htris]; exact htri
                      · rw [← htris]; exact List.getElem?_mem hot
                      · rw [← hnodes]; exact h0
                      · rw [← hnodes]; exact h1
                      · rw [← hnodes]; exact h2
                      · rw [← hnodes]; exact h3
    · simp only [Outcome.ok.injEq] at h
      subst h
      exact ⟨hnodes, htris, added, hadd, hall⟩

/-- Every entry that `processObtuse` appends to the registry is built by
`unfoldTriangle` from an obtuse vertex of a triangle of the mesh. -/
theorem processObtuse_entries (acos : α → α) (pi : α) (dist : Node α → Node α → α)
    (g g1 : Grid2Dui α) (h : processObtuse acos pi dist g = .ok g1) :
    ObtusePassInv acos pi dist g g1 := by
  unfold processObtuse at h
  refine Outcome.forEach_ok_induction (ObtusePassInv acos pi dist g) _ _ ?_ g g1
    ⟨rfl, rfl, [], by simp, fun e he => absurd he (List.not_mem_nil _)⟩ h
  intro ntri _ s s1 hP hs
  refine Outcome.forEach_ok_induction (ObtusePassInv acos pi dist g) _ [0, 1, 2] ?_ s s1 hP hs
  intro n hn s2 s3 hP2 hs2
  have hn3 : n < 3 := by
    simp only [List.mem_cons, List.mem_singleton, List.not_mem_nil, or_false] at hn
    omega
  exact processVertex_entries acos pi dist g s2 s3 ntri n hn3 hP2 hs2

/-- On the mesh `unfoldMesh`, with an obtuse angle at node 2 of triangle 1
only, `processObtuse` returns with one entry in the registry, for triangle 1;
the opposite triangle found is triangle 0 and the node taken from it is node 3,
its vertex across the shared edge. -/
theorem unfoldMesh_processObtuse (acos : α → α) (pi : α) (dist : Node α → Node α → α)
    (y3 z3 b0 b1 b2 a0 a1 a2 : α) (hb0 : ¬ b0 > pi / 2) (hb1 : ¬ b1 > pi / 2)
    (hb2 : ¬ b2 > pi / 2) (h0 : a0 > pi / 2) (h1 : ¬ a1 > pi / 2) (h2 : ¬ a2 > pi / 2) :
    processObtuse acos pi dist (unfoldMesh y3 z3 b0 b1 b2 a0 a1 a2) =
      .ok (insertVirtualNode (unfoldMesh y3 z3 b0 b1 b2 a0 a1 a2) 1
        (unfoldTriangle acos pi dist 0 1 3 { nodeAt 2 0 1 0 with owners := [1] }
          { nodeAt 0 (-10) 0 0 with owners := [0, 1] } { nodeAt 1 10 0 0 with owners := [0, 1] }
          { nodeAt 3 0 z3 0 with y := y3, owners := [0] })) := by
  simp [processObtuse, processVertex, correctVertex, unfoldMesh, Outcome.forEach,
    Outcome.andThen, Arr3.get, hb0, hb1, hb2, h0, h1, h2, commonOwner, oppositeNode, nodeAt,
    List.range, List.range.loop, insertVirtualNode]

end RecordedEntries

section RecordedAngleClaims

/-- C28, as amended. Every entry that `processObtuse` appends to the registry is
the support built for an obtuse vertex `n0` of a triangle, with the two other
vertices `n1`, `n2` of the triangle and a node `n3` of a triangle of the mesh;
its recorded angle `a[0]` at the update vertex is at most `π/2` whenever, with
the distance between two nodes that of their coordinates `x` and `z`, the angle
at `n0` between `n1` and `n2` is obtuse and `n3` lies strictly on the other side
of the line through `n1` and `n2`. -/
theorem processObtuse_acute_across (dist : Node ℝ → Node ℝ → ℝ) (g g1 : Grid2Dui ℝ)
    (hdist : ∀ p q, dist p q = Real.sqrt ((p.x - q.x) ^ 2 + (p.z - q.z) ^ 2))
    (h : processObtuse Real.arccos Real.pi dist g = .ok g1) :
    ∃ added, g1.virtualNodes = g.virtualNodes ++ added ∧
      ∀ e ∈ added, ∃ n0 n1 n2 n3, Unfolded Real.arccos Real.pi dist g e n0 n1 n2 n3 ∧
        (UnfoldsAcross n0 n1 n2 n3 → e.2.a.get 0 ≤ Real.pi / 2) := by
  obtain ⟨_, _, added, hadd, hall⟩ := processObtuse_entries Real.arccos Real.pi dist g g1 h
  refine ⟨added, hadd, fun e he => ?_⟩
  obtain ⟨n0, n1, n2, n3, hu⟩ := hall e he
  refine ⟨n0, n1, n2, n3, hu, fun hacross => ?_⟩
  obtain ⟨tri, n, otri, _, _, _, _, _, _, _, _, he2⟩ := hu
  rw [he2]
  exact unfoldTriangle_planar dist hdist _ _ _ n0 n1 n2 n3 hacross

/-- The angles of the triangles of `unfoldMesh`, from the squared edge lengths
101, 101, 400 of triangle 1 and 248, 248, 400 (folded) or 244, 244, 400 (planar)
of triangle 0: only the angle at node 2 is obtuse. -/
theorem unfoldMesh_angles :
    Real.arccos (-99 / 101) > Real.pi / 2 ∧ ¬ Real.arccos (10 / Real.sqrt 101) > Real.pi / 2 ∧
    ¬ Real.arccos (6 / 31) > Real.pi / 2 ∧ ¬ Real.arccos (10 / Real.sqrt 248) > Real.pi / 2 ∧
    ¬ Real.arccos (11 / 61) > Real.pi / 2 ∧ ¬ Real.arccos (10 / Real.sqrt 244) > Real.pi / 2 := by
  refine ⟨?_, ?_, ?_, ?_, ?_, ?_⟩
  · by_contra h
    have := Real.arccos_le_pi_div_two.1 (not_lt.1 h)
    norm_num at this
  · exact not_lt.2 (Real.arccos_le_pi_div_two.2 (by positivity))
  · exact not_lt.2 (Real.arccos_le_pi_div_two.2 (by norm_num))
  · exact not_lt.2 (Real.arccos_le_pi_div_two.2 (by positivity))
  · exact not_lt.2 (Real.arccos_le_pi_div_two.2 (by norm_num))
  · exact not_lt.2 (Real.arccos_le_pi_div_two.2 (by positivity))

/-- C28, counterexample. A surface of two triangles folded along the edge
between node 0 at (-10,0,0) and node 1 at (10,0,0): triangle 1 has its third
node at (0,0,1), where it is obtuse, and triangle 0 has its third node at
(0,12,2). With the angles and the distances of the coordinates, `processObtuse`
records one entry, for triangle 1, and its angle `a[0]` at the update vertex
exceeds `π/2`: both supports tried are obtuse there. -/
theorem processObtuse_folded_counterexample :
    ∃ g1 vn, processObtuse Real.arccos Real.pi
        (fun p q => Real.sqrt ((p.x - q.x) ^ 2 + (p.y - q.y) ^ 2 + (p.z - q.z) ^ 2))
        (unfoldMesh 12 2 (Real.arccos (6 / 31)) (Real.arccos (10 / Real.sqrt 248))
          (Real.arccos (10 / Real.sqrt 248)) (Real.arccos (-99 / 101))
          (Real.arccos (10 / Real.sqrt 101)) (Real.arccos (10 / Real.sqrt 101))) = .ok g1 ∧
      g1.virtualNodes = [(1, vn)] ∧ ¬ vn.a.get 0 ≤ Real.pi / 2 := by
  refine ⟨_, unfoldTriangle Real.arccos Real.pi
      (fun p q => Real.sqrt ((p.x - q.x) ^ 2 + (p.y - q.y) ^ 2 + (p.z - q.z) ^ 2)) 0 1 3
      { nodeAt 2 0 1 0 with owners := [1] } { nodeAt 0 (-10) 0 0 with owners := [0, 1] }
      { nodeAt 1 10 0 0 with owners := [0, 1] } { nodeAt 3 0 2 0 with y := 12, owners := [0] },
    unfoldMesh_processObtuse Real.arccos Real.pi _ 12 2 _ _ _ _ _ _
    unfoldMesh_angles.2.2.1 unfoldMesh_angles.2.2.2.1 unfoldMesh_angles.2.2.2.1
    unfoldMesh_angles.1 unfoldMesh_angles.2.1 unfoldMesh_angles.2.1, ?_, ?_⟩
  · simp [insertVirtualNode, unfoldMesh]
  · have h145 : Real.sqrt 145 * Real.sqrt 145 = 145 := Real.mul_self_sqrt (by norm_num)
    have h101 : Real.sqrt 101 * Real.sqrt 101 = 101 := Real.mul_self_sqrt (by norm_num)
    have h248 : Real.sqrt 248 * Real.sqrt 248 = 248 := Real.mul_self_sqrt (by norm_num)
    have p145 : 0 < Real.sqrt 145 := Real.sqrt_pos.2 (by norm_num)
    have p101 : 0 < Real.sqrt 101 := Real.sqrt_pos.2 (by norm_num)
    have hneg : (Real.sqrt 145 * Real.sqrt 145 + Real.sqrt 101 * Real.sqrt 101 -
        Real.sqrt 248 * Real.sqrt 248) / (2 * Real.sqrt 145 * Real.sqrt 101) < 0 := by
      rw [h145, h101, h248]
      exact div_neg_of_neg_of_pos (by norm_num) (by positivity)
    have hneg2 : (Real.sqrt 101 * Real.sqrt 101 + Real.sqrt 145 * Real.sqrt 145 -
        Real.sqrt 248 * Real.sqrt 248) / (2 * Real.sqrt 101 * Real.sqrt 145) < 0 := by
      rw [h145, h101, h248]
      exact div_neg_of_neg_of_pos (by norm_num) (by positivity)
    have d03 : Real.sqrt (((0 : ℝ) - 0) ^ 2 + (0 - 12) ^ 2 + (1 - 2) ^ 2) = Real.sqrt 145 := by
      norm_num
    have d01 : Real.sqrt (((0 : ℝ) - -10) ^ 2 + (0 - 0) ^ 2 + (1 - 0) ^ 2) = Real.sqrt 101 := by
      norm_num
    have d02 : Real.sqrt (((0 : ℝ) - 10) ^ 2 + (0 - 0) ^ 2 + (1 - 0) ^ 2) = Real.sqrt 101 := by
      norm_num
    have d13 : Real.sqrt (((-10 : ℝ) - 0) ^ 2 + (0 - 12) ^ 2 + (0 - 2) ^ 2) = Real.sqrt 248 := by
      norm_num
    have d23 : Real.sqrt (((10 : ℝ) - 0) ^ 2 + (0 - 12) ^ 2 + (0 - 2) ^ 2) = Real.sqrt 248 := by
      norm_num
    have hfirst : angle0 Real.arccos (Real.sqrt 248) (Real.sqrt 145) (Real.sqrt 101) >
        Real.pi / 2 := by
      unfold angle0
      by_contra hc
      exact absurd (Real.arccos_le_pi_div_two.1 (not_lt.1 hc)) (not_le.2 hneg)
    have hsecond : ¬ angle0 Real.arccos (Real.sqrt 248) (Real.sqrt 101) (Real.sqrt 145) ≤
        Real.pi / 2 := by
      unfold angle0
      intro hc
      exact absurd (Real.arccos_le_pi_div_two.1 hc) (not_le.2 hneg2)
    have hne : 2 * Real.sqrt 145 * Real.sqrt 101 ≠ 0 := by positivity
    simp only [unfoldTriangle, nodeAt, d03, d01, d02, d13, d23]
    rw [if_pos ⟨hne, hfirst⟩]
    exact hsecond

theorem processObtuse_acute_across_witness :
    ∃ added,
      (insertVirtualNode
        (unfoldMesh 0 (-12) (Real.arccos (11 / 61)) (Real.arccos (10 / Real.sqrt 244))
          (Real.arccos (10 / Real.sqrt 244)) (Real.arccos (-99 / 101))
          (Real.arccos (10 / Real.sqrt 101)) (Real.arccos (10 / Real.sqrt 101))) 1
        (unfoldTriangle Real.arccos Real.pi
          (fun p q => Real.sqrt ((p.x - q.x) ^ 2 + (p.z - q.z) ^ 2)) 0 1 3
          { nodeAt 2 0 1 0 with owners := [1] } { nodeAt 0 (-10) 0 0 with owners := [0, 1] }
          { nodeAt 1 10 0 0 with owners := [0, 1] }
          { nodeAt 3 0 (-12) 0 with y := 0, owners := [0] })).virtualNodes =
        (unfoldMesh 0 (-12) (Real.arccos (11 / 61)) (Real.arccos (10 / Real.sqrt 244))
          (Real.arccos (10 / Real.sqrt 244)) (Real.arccos (-99 / 101))
          (Real.arccos (10 / Real.sqrt 101)) (Real.arccos (10 / Real.sqrt 101))).virtualNodes ++
          added ∧
      ∀ e ∈ added, ∃ n0 n1 n2 n3,
        Unfolded Real.arccos Real.pi (fun p q => Real.sqrt ((p.x - q.x) ^ 2 + (p.z - q.z) ^ 2))
          (unfoldMesh 0 (-12) (Real.arccos (11 / 61)) (Real.arccos (10 / Real.sqrt 244))
            (Real.arccos (10 / Real.sqrt 244)) (Real.arccos (-99 / 101))
            (Real.arccos (10 / Real.sqrt 101)) (Real.arccos (10 / Real.sqrt 101))) e n0 n1 n2 n3 ∧
        (UnfoldsAcross n0 n1 n2 n3 → e.2.a.get 0 ≤ Real.pi / 2) :=
  processObtuse_acute_across _ _ _ (fun _ _ => rfl)
    (unfoldMesh_processObtuse Real.arccos Real.pi _ 0 (-12) _ _ _ _ _ _
      unfoldMesh_angles.2.2.2.2.1 unfoldMesh_angles.2.2.2.2.2 unfoldMesh_angles.2.2.2.2.2
      unfoldMesh_angles.1 unfoldMesh_angles.2.1 unfoldMesh_angles.2.1)

end RecordedAngleClaims

/-! ## Projection of points on the mesh -/

section ProjectionLemmas

variable {α : Type} [LinearOrderedField α]

/-- The coefficients of the projection sum to one. -/
theorem proj_coefficients_sum (pt p1 p2 p3 : sxyz α) :
    projAlpha pt p1 p2 p3 + projBeta pt p1 p2 p3 + projGamma pt p1 p2 p3 = 1 := by
  unfold projAlpha
  ring

/-- For a triangle that is not degenerate, the residual of the projection is
orthogonal to the two edges from the first corner. -/
theorem projectOnTriangle_orthogonal (pt p1 p2 p3 : sxyz α)
    (hnd : norm2 (cross (p2.sub p1) (p3.sub p1)) ≠ 0) :
    dot (pt.sub (projectOnTriangle pt p1 p2 p3)) (p2.sub p1) = 0 ∧
    dot (pt.sub (projectOnTriangle pt p1 p2 p3)) (p3.sub p1) = 0 := by
  simp only [projectOnTriangle, projAlpha, projBeta, projGamma, dot, cross, sxyz.sub, sxyz.add,
    sxyz.smul, norm2] at hnd ⊢
  constructor
  · field_simp
    ring
  · field_simp
    ring

/-- For a triangle that is not degenerate, a point of its plane is its own
projection. -/
theorem projectOnTriangle_in_plane (pt p1 p2 p3 : sxyz α)
    (hnd : norm2 (cross (p2.sub p1) (p3.sub p1)) ≠ 0)
    (hplane : dot (cross (p2.sub p1) (p3.sub p1)) (pt.sub p1) = 0) :
    projectOnTriangle pt p1 p2 p3 = pt := by
  cases pt with
  | mk px py pz =>
    simp only [projectOnTriangle, projAlpha, projBeta, projGamma, dot, cross, sxyz.sub, sxyz.add,
      sxyz.smul, norm2, sxyz.mk.injEq] at hnd hplane ⊢
    refine ⟨?_, ?_, ?_⟩
    · field_simp
      linear_combination
        (-((p2.y - p1.y) * (p3.z - p1.z) - (p2.z - p1.z) * (p3.y - p1.y))) * hplane
    · field_simp
      linear_combination
        (-((p2.z - p1.z) * (p3.x - p1.x) - (p2.x - p1.x) * (p3.z - p1.z))) * hplane
    · field_simp
      linear_combination
        (-((p2.x - p1.x) * (p3.y - p1.y) - (p2.y - p1.y) * (p3.x - p1.x))) * hplane

end ProjectionLemmas

section ProjectionLoops

variable {α : Type} [LinearOrderedField α]

/-- The vector of centroids, when every node index of the triangles listed is
valid: one centroid per triangle, that of its corners. -/
theorem centroidLoop_spec (g : Grid2Dui α) (hg : g.IndicesValid) :
    ∀ l : List Nat, (∀ n ∈ l, n < g.triangles.length) →
      ∃ ctrs, centroidLoop g l = some ctrs ∧ ctrs.length = l.length ∧
        ∀ (k n : Nat), l[k]? = some n →
          ∃ c, g.corners n = some c ∧ ctrs[k]? = some (centroidOf c) := by
  intro l
  induction l with
  | nil =>
    intro _
    exact ⟨[], rfl, rfl, fun k n h => by simp at h⟩
  | cons n rest ih =>
    intro hl
    obtain ⟨ctrs, hc, hlen, hall⟩ := ih (fun m hm => hl m (List.mem_cons_of_mem _ hm))
    obtain ⟨c, hcor⟩ := g.corners_isSome hg n (hl n (List.mem_cons_self _ _))
    refine ⟨centroidOf c :: ctrs, by simp only [centroidLoop, hcor, hc], by simp [hlen], ?_⟩
    intro k m hk
    cases k with
    | zero =>
      simp only [List.getElem?_cons_zero, Option.some.injEq] at hk
      subst hk
      exact ⟨c, hcor, by simp⟩
    | succ k =>
      simp only [List.getElem?_cons_succ] at hk ⊢
      exact hall k m hk

/-- The loop over the centroids keeps the first centroid at the least
distance. -/
theorem closestLoop_spec (dist : sxyz α → sxyz α → α) (pt : sxyz α) (ctrs : List (sxyz α)) :
    ∀ (rest : List (sxyz α)) (nn : Nat) (minDist : α) (iMinDist : Nat),
      ctrs.drop nn = rest → iMinDist < nn →
      (∃ ci, ctrs[iMinDist]? = some ci ∧ minDist = dist pt ci) →
      (∀ (j : Nat) (cj : sxyz α), j < nn → ctrs[j]? = some cj → minDist ≤ dist pt cj) →
      (∀ (j : Nat) (cj : sxyz α), j < iMinDist → ctrs[j]? = some cj → minDist < dist pt cj) →
      NearestCentroid dist pt ctrs (closestLoop dist pt rest nn minDist iMinDist) := by
  intro rest
  induction rest with
  | nil =>
    intro nn minDist iMinDist hdrop _ hmin hle hlt
    obtain ⟨ci, hci, hmd⟩ := hmin
    have hlen : ctrs.length ≤ nn := List.drop_eq_nil_iff.1 hdrop
    refine ⟨ci, hci, ?_, ?_⟩
    · intro j cj hj
      have hjl : j < ctrs.length := (List.getElem?_eq_some_iff.1 hj).1
      rw [← hmd]
      exact hle j cj (lt_of_lt_of_le hjl hlen) hj
    · intro j cj hji hj
      rw [← hmd]
      exact hlt j cj hji hj
  | cons ctr rest ih =>
    intro nn minDist iMinDist hdrop hi hmin hle hlt
    have hnn : ctrs[nn]? = some ctr := by
      have := congrArg (fun l => l[0]?) hdrop
      simpa using this
    have hdrop2 : ctrs.drop (nn + 1) = rest := by
      have := congrArg List.tail hdrop
      simpa using this
    simp only [closestLoop]
    split_ifs with hd
    · refine ih (nn + 1) (dist pt ctr) nn hdrop2 (Nat.lt_succ_self _) ⟨ctr, hnn, rfl⟩ ?_ ?_
      · intro j cj hj hcj
        rcases Nat.lt_succ_iff_lt_or_eq.1 hj with hlt2 | heq
        · exact le_of_lt (lt_of_lt_of_le hd (hle j cj hlt2 hcj))
        · subst heq
          rw [hnn] at hcj
          cases hcj
          exact le_refl _
      · intro j cj hj hcj
        exact lt_of_lt_of_le hd (hle j cj hj hcj)
    · refine ih (nn + 1) minDist iMinDist hdrop2 (Nat.lt_succ_of_lt hi) hmin ?_ hlt
      intro j cj hj hcj
      rcases Nat.lt_succ_iff_lt_or_eq.1 hj with hlt2 | heq
      · exact hle j cj hlt2 hcj
      · subst heq
        rw [hnn] at hcj
        cases hcj
        exact not_lt.1 hd

/-- The index found for a point is that of the closest centroid, the first at
its distance. -/
theorem closestCentroid_spec (dist : sxyz α → sxyz α → α) (pt : sxyz α) (ctrs : List (sxyz α))
    (hne : ctrs ≠ []) :
    ∃ i, closestCentroid dist pt ctrs = some i ∧ NearestCentroid dist pt ctrs i := by
  cases ctrs with
  | nil => exact absurd rfl hne
  | cons c0 rest =>
    refine ⟨_, rfl, ?_⟩
    refine closestLoop_spec dist pt (c0 :: rest) rest 1 (dist pt c0) 0 rfl (by decide)
      ⟨c0, by simp, rfl⟩ ?_ ?_
    · intro j cj hj hcj
      have : j = 0 := by omega
      subst this
      simp only [List.getElem?_cons_zero, Option.some.injEq] at hcj
      subst hcj
      exact le_refl _
    · intro j cj hj
      exact absurd hj (Nat.not_lt_zero _)

/-- The loop over the points stores one point for each point. -/
theorem projectPtsLoop_spec (dist : sxyz α → sxyz α → α) (g : Grid2Dui α)
    (ctrs : List (sxyz α)) :
    ∀ pts : List (sxyz α), (∀ pt ∈ pts, ∃ p, projectPt dist g ctrs pt = some p) →
      ∃ out, projectPtsLoop dist g ctrs pts = some out ∧ out.length = pts.length ∧
        ∀ (k : Nat) (pt : sxyz α), pts[k]? = some pt →
          ∃ p, projectPt dist g ctrs pt = some p ∧ out[k]? = some p := by
  intro pts
  induction pts with
  | nil =>
    intro _
    exact ⟨[], rfl, rfl, fun k pt h => by simp at h⟩
  | cons pt rest ih =>
    intro hall
    obtain ⟨out, hout, hlen, hk⟩ := ih (fun q hq => hall q (List.mem_cons_of_mem _ hq))
    obtain ⟨p, hp⟩ := hall pt (List.mem_cons_self _ _)
    refine ⟨p :: out, by simp only [projectPtsLoop, hp, hout], by simp [hlen], ?_⟩
    intro k q hq
    cases k with
    | zero =>
      simp only [List.getElem?_cons_zero, Option.some.injEq] at hq
      subst hq
      exact ⟨p, hp, by simp⟩
    | succ k =>
      simp only [List.getElem?_cons_succ] at hq ⊢
      exact hk k q hq

/-- C26. On a mesh with at least one triangle and valid node indices,
`projectPts` returns 0 and replaces every point `p` by
`alpha*A + beta*B + gamma*C` with `alpha + beta + gamma = 1`, where `A`, `B`,
`C` are the corners of the triangle whose centroid is the closest to `p`, the
one of lowest index among equally close ones. When that triangle is not
degenerate the new point is the orthogonal projection of `p` on its plane: the
residual is orthogonal to `B − A` and to `C − A`, and a point of the plane is
left where it is. -/
theorem projectPts_orthogonal_projection (dist : sxyz α → sxyz α → α) (g : Grid2Dui α)
    (pts : List (sxyz α)) (hg : g.IndicesValid) (hne : g.triangles ≠ []) :
    ∃ out ctrs, projectPts dist g pts = some (0, out) ∧ out.length = pts.length ∧
      centroidLoop g (List.range g.triangles.length) = some ctrs ∧
      ∀ (k : Nat) (p : sxyz α), pts[k]? = some p →
        ∃ i c, NearestCentroid dist p ctrs i ∧ g.corners i = some c ∧
          ctrs[i]? = some (centroidOf c) ∧
          projAlpha p (cornerXYZ c.1) (cornerXYZ c.2.1) (cornerXYZ c.2.2) +
            projBeta p (cornerXYZ c.1) (cornerXYZ c.2.1) (cornerXYZ c.2.2) +
            projGamma p (cornerXYZ c.1) (cornerXYZ c.2.1) (cornerXYZ c.2.2) = 1 ∧
          out[k]? = some
            (((sxyz.smul (projAlpha p (cornerXYZ c.1) (cornerXYZ c.2.1) (cornerXYZ c.2.2))
                (cornerXYZ c.1)).add
              (sxyz.smul (projBeta p (cornerXYZ c.1) (cornerXYZ c.2.1) (cornerXYZ c.2.2))
                (cornerXYZ c.2.1))).add
              (sxyz.smul (projGamma p (cornerXYZ c.1) (cornerXYZ c.2.1) (cornerXYZ c.2.2))
                (cornerXYZ c.2.2))) ∧
          (norm2 (cross ((cornerXYZ c.2.1).sub (cornerXYZ c.1))
              ((cornerXYZ c.2.2).sub (cornerXYZ c.1))) ≠ 0 →
            ∀ q, out[k]? = some q →
              dot (p.sub q) ((cornerXYZ c.2.1).sub (cornerXYZ c.1)) = 0 ∧
              dot (p.sub q) ((cornerXYZ c.2.2).sub (cornerXYZ c.1)) = 0 ∧
              (dot (cross ((cornerXYZ c.2.1).sub (cornerXYZ c.1))
                  ((cornerXYZ c.2.2).sub (cornerXYZ c.1))) (p.sub (cornerXYZ c.1)) = 0 →
                q = p)) := by
  obtain ⟨ctrs, hctrs, hclen, hcall⟩ := centroidLoop_spec g hg (List.range g.triangles.length)
    (fun n hn => List.mem_range.1 hn)
  have hcne : ctrs ≠ [] := by
    intro e
    rw [e] at hclen
    simp only [List.length_nil, List.length_range] at hclen
    exact hne (List.length_eq_zero.1 hclen.symm)
  have hpt : ∀ p : sxyz α, ∃ i c, closestCentroid dist p ctrs = some i ∧
      NearestCentroid dist p ctrs i ∧ g.corners i = some c ∧ ctrs[i]? = some (centroidOf c) := by
    intro p
    obtain ⟨i, hi, hnear⟩ := closestCentroid_spec dist p ctrs hcne
    obtain ⟨ci, hci, _⟩ := hnear
    have hil : i < ctrs.length := (List.getElem?_eq_some_iff.1 hci).1
    have hir : (List.range g.triangles.length)[i]? = some i := by
      rw [List.getElem?_range]
      rw [hclen, List.length_range] at hil
      exact hil
    obtain ⟨c, hc, hcc⟩ := hcall i i hir
    exact ⟨i, c, hi, ⟨ci, hci, by assumption⟩, hc, hcc⟩
  have hproj : ∀ pt ∈ pts, ∃ p, projectPt dist g ctrs pt = some p := by
    intro pt _
    obtain ⟨i, c, hi, _, hc, _⟩ := hpt pt
    exact ⟨projectOnTriangle pt (cornerXYZ c.1) (cornerXYZ c.2.1) (cornerXYZ c.2.2),
      by simp only [projectPt, hi, hc]⟩
  obtain ⟨out, hout, hlen, hk⟩ := projectPtsLoop_spec dist g ctrs pts hproj
  refine ⟨out, ctrs, by simp only [projectPts, hctrs, hout], hlen, hctrs, ?_⟩
  intro k p hp
  obtain ⟨q, hq, hoq⟩ := hk k p hp
  obtain ⟨i, c, hi, hnear, hc, hcc⟩ := hpt p
  simp only [projectPt, hi, hc, Option.some.injEq] at hq
  refine ⟨i, c, hnear, hc, hcc, proj_coefficients_sum _ _ _ _, ?_, ?_⟩
  · rw [hoq, ← hq]
    rfl
  · intro hnd q2 hq2
    rw [hoq] at hq2
    cases hq2
    rw [← hq]
    exact ⟨(projectOnTriangle_orthogonal p _ _ _ hnd).1,
      (projectOnTriangle_orthogonal p _ _ _ hnd).2,
      fun hplane => projectOnTriangle_in_plane p _ _ _ hnd hplane⟩

end ProjectionLoops

section ProjectionExamples

theorem flatTriangle_valid : flatTriangle.IndicesValid := by
  intro tri htri
  simp only [flatTriangle, List.mem_singleton] at htri
  subst htri
  simp [flatTriangle, Arr3.get]

/-- The point (1,1,5) above the triangle of `flatTriangle` is replaced by
(1,1,0). -/
theorem flatTriangle_projection :
    projectPts (fun _ _ => (0 : ℚ)) flatTriangle [⟨1, 1, 5⟩] = some (0, [⟨1, 1, 0⟩]) := by
  norm_num [projectPts, centroidLoop, projectPtsLoop, projectPt, closestCentroid,
    closestLoop, flatTriangle, Grid2Dui.corners, projectOnTriangle, projAlpha, projBeta,
    projGamma, dot, cross, sxyz.sub, sxyz.add, sxyz.smul, norm2, cornerXYZ, nodeAt,
    Arr3.get, List.range, List.range.loop]

theorem projectPts_orthogonal_projection_witness :
    ∃ out ctrs, projectPts (fun _ _ => (0 : ℚ)) flatTriangle [⟨1, 1, 5⟩] = some (0, out) ∧
      out.length = 1 ∧
      centroidLoop flatTriangle (List.range flatTriangle.triangles.length) = some ctrs := by
  obtain ⟨out, ctrs, h, hl, hc, _⟩ := projectPts_orthogonal_projection (fun _ _ => (0 : ℚ))
    flatTriangle [⟨1, 1, 5⟩] flatTriangle_valid (by simp [flatTriangle])
  exact ⟨out, ctrs, h, hl, hc⟩

end ProjectionExamples

/-! ## Seeding of the band around a source node -/

section SeedOnNode

variable {α : Type} [LinearOrderedField α]

theorem relaxes_refl (s : FMState α) : Relaxes (fun _ _ => False) s s :=
  ⟨rfl, fun _ h => h, fun _ told h => ⟨told, h, le_refl _, fun _ hc => False.elim hc,
    Or.inl rfl, fun h => h, fun h => h, fun _ => ⟨rfl, rfl⟩, fun h => absurd h (lt_irrefl _)⟩⟩

theorem relaxes_mono (C D : Nat → α → Prop) (s s1 : FMState α)
    (hCD : ∀ u τ, C u τ ↔ D u τ) (h : Relaxes C s s1) : Relaxes D s s1 := by
  obtain ⟨h1, h2, h3⟩ := h
  refine ⟨h1, h2, fun u told hu => ?_⟩
  obtain ⟨tnew, a1, a2, a3, a4, a5, a6, a7, a8⟩ := h3 u told hu
  exact ⟨tnew, a1, a2, fun τ hτ => a3 τ ((hCD u τ).2 hτ),
    a4.imp id (fun hc => (hCD u tnew).1 hc), a5, a6, a7, a8⟩

theorem relaxes_trans (C D : Nat → α → Prop) (s s1 s2 : FMState α)
    (h : Relaxes C s s1) (k : Relaxes D s1 s2) :
    Relaxes (fun u τ => C u τ ∨ D u τ) s s2 := by
  obtain ⟨h1, h2, h3⟩ := h
  obtain ⟨k1, k2, k3⟩ := k
  refine ⟨k1.trans h1, fun m hm => k2 m (h2 m hm), fun u told hu => ?_⟩
  obtain ⟨t1, a1, a2, a3, a4, a5, a6, a7, a8⟩ := h3 u told hu
  obtain ⟨t2, b1, b2, b3, b4, b5, b6, b7, b8⟩ := k3 u t1 a1
  refine ⟨t2, b1, le_trans b2 a2, ?_, ?_, fun hb => b5 (a5 hb), fun hf => b6 (a6 hf), ?_, ?_⟩
  · intro τ hτ
    rcases hτ with hτ | hτ
    · exact le_trans b2 (a3 τ hτ)
    · exact b3 τ hτ
  · rcases b4 with e | hd
    · rcases a4 with e1 | hc
      · exact Or.inl (e.trans e1)
      · exact Or.inr (Or.inl (e ▸ hc))
    · exact Or.inr (Or.inr hd)
  · intro e
    have e1 : t1 = told := le_antisymm a2 (e ▸ b2)
    have e2 : t2 = t1 := e.trans e1.symm
    obtain ⟨c1, c2⟩ := a7 e1
    obtain ⟨d1, d2⟩ := b7 e2
    exact ⟨d1.trans c1, d2.trans c2⟩
  · intro hlt
    rcases lt_or_eq_of_le b2 with hlt2 | heq2
    · obtain ⟨d1, d2⟩ := b8 hlt2
      refine ⟨d1, fun hband => ?_⟩
      rcases lt_or_eq_of_le a2 with hlt1 | heq1
      · obtain ⟨-, c2⟩ := a8 hlt1
        obtain ⟨c3, c4⟩ := c2 hband
        exact ⟨b6 c3, k2 u c4⟩
      · obtain ⟨c1, -⟩ := a7 heq1
        exact d2 (c1.trans hband)
    · have hlt1 : t1 < told := heq2 ▸ hlt
      obtain ⟨c1, c2⟩ := a8 hlt1
      obtain ⟨d1, d2⟩ := b7 heq2
      refine ⟨d1.trans c1, fun hband => ?_⟩
      obtain ⟨c3, c4⟩ := c2 hband
      exact ⟨d2.trans c3, k2 u c4⟩

/-- One relaxation offers the time `t` to node `no`. -/
theorem relaxSeed_relaxes (g : Grid3Ducfm α) (hg : g.PushPermutes) (t : α) (no : Nat)
    (s : FMState α) (k : Nat) (hno : no < s.tt.length) :
    ∃ s1 k1, relaxSeed g t no (s, k) = .ok (s1, k1) ∧
      Relaxes (fun u τ => u = no ∧ τ = t) s s1 := by
  have htt : s.tt[no]? = some s.tt[no] := List.getElem?_eq_getElem hno
  simp only [relaxSeed, htt]
  split_ifs with hlt hband
  · obtain ⟨a1, a2, a3, a4, a5, a6⟩ := seedNode_at g hg s no t hno
    refine ⟨_, _, rfl, a5, a6, fun u told hu => ?_⟩
    by_cases hun : u = no
    · subst hun
      rw [htt] at hu
      cases hu
      exact ⟨t, a3, le_of_lt hlt, fun τ hτ => le_of_eq hτ.2.symm, Or.inr ⟨rfl, rfl⟩,
        fun _ => a1, fun _ => a2, fun e => absurd hlt (by rw [e]; exact lt_irrefl _),
        fun _ => ⟨a1, fun _ => ⟨a2, a4⟩⟩⟩
    · obtain ⟨b1, b2, b3⟩ := seedNode_other g s no u t hun
      exact ⟨told, by rw [b1, hu], le_refl _, fun τ hτ => absurd hτ.1 hun, Or.inl rfl,
        fun h => by rw [b2, h], fun h => by rw [b3, h], fun _ => ⟨b2, b3⟩,
        fun h => absurd h (lt_irrefl _)⟩
  · refine ⟨_, _, rfl, by simp, fun m hm => hm, fun u told hu => ?_⟩
    by_cases hun : u = no
    · subst hun
      rw [htt] at hu
      cases hu
      have hb : s.inBand u = true := by simpa using hband
      exact ⟨t, by simp [List.getElem?_set, hno], le_of_lt hlt,
        fun τ hτ => le_of_eq hτ.2.symm, Or.inr ⟨rfl, rfl⟩, fun h => h, fun h => h,
        fun _ => ⟨rfl, rfl⟩, fun _ => ⟨hb, fun hf => by rw [hb] at hf; cases hf⟩⟩
    · have hne : ¬ no = u := fun e => hun e.symm
      exact ⟨told, by simp [List.getElem?_set, hne, hu], le_refl _,
        fun τ hτ => absurd hτ.1 hun, Or.inl rfl, fun h => h, fun h => h, fun _ => ⟨rfl, rfl⟩,
        fun h => absurd h (lt_irrefl _)⟩
  · refine ⟨_, _, rfl, rfl, fun m hm => hm, fun u told hu => ?_⟩
    refine ⟨told, hu, le_refl _, fun τ hτ => ?_, Or.inl rfl, fun h => h, fun h => h,
      fun _ => ⟨rfl, rfl⟩, fun h => absurd h (lt_irrefl _)⟩
    obtain ⟨e1, e2⟩ := hτ
    subst e1
    rw [htt] at hu
    cases hu
    rw [e2]
    exact not_lt.1 hlt

/-- The loop over the nodes of one owning cell offers to every node of the cell
other than the source its time through the cell. -/
theorem seedCellLoop_relaxes (g : Grid3Ducfm α) (hg : g.PushPermutes) (nn : Nat) (t : α)
    (cellNo : Nat) :
    ∀ (l : List Nat) (s : FMState α) (k : Nat), (∀ u ∈ l, u < s.tt.length) →
      ∃ s1 k1, Outcome.forEach
          (fun neibNo st =>
            if neibNo = nn then .ok st
            else relaxSeed g (t + g.computeDt nn neibNo cellNo) neibNo st) l (s, k) =
            .ok (s1, k1) ∧
        Relaxes (fun u τ => u ∈ l ∧ u ≠ nn ∧ τ = t + g.computeDt nn u cellNo) s s1 := by
  intro l
  induction l with
  | nil =>
    intro s k _
    exact ⟨s, k, rfl, relaxes_mono _ _ s s (fun u τ => by simp) (relaxes_refl s)⟩
  | cons x rest ih =>
    intro s k hl
    simp only [Outcome.forEach]
    by_cases hx : x = nn
    · obtain ⟨s1, k1, h1, hrel⟩ := ih s k (fun u hu => hl u (List.mem_cons_of_mem _ hu))
      refine ⟨s1, k1, by simp only [if_pos hx, Outcome.andThen]; exact h1, ?_⟩
      refine relaxes_mono _ _ s s1 (fun u τ => ?_) hrel
      constructor
      · rintro ⟨a, b, c⟩
        exact ⟨List.mem_cons_of_mem _ a, b, c⟩
      · rintro ⟨a, b, c⟩
        rcases List.mem_cons.1 a with e | a
        · exact absurd (e.trans hx) b
        · exact ⟨a, b, c⟩
    · obtain ⟨s1, k1, h1, hrel1⟩ := relaxSeed_relaxes g hg (t + g.computeDt nn x cellNo) x s k
        (hl x (List.mem_cons_self _ _))
      obtain ⟨s2, k2, h2, hrel2⟩ := ih s1 k1 (fun u hu => by
        rw [hrel1.1]
        exact hl u (List.mem_cons_of_mem _ hu))
      refine ⟨s2, k2, by simp only [if_neg hx, h1, Outcome.andThen]; exact h2, ?_⟩
      refine relaxes_mono _ _ s s2 (fun u τ => ?_) (relaxes_trans _ _ s s1 s2 hrel1 hrel2)
      constructor
      · rintro (⟨a, b⟩ | ⟨a, b, c⟩)
        · subst a
          exact ⟨List.mem_cons_self _ _, hx, b⟩
        · exact ⟨List.mem_cons_of_mem _ a, b, c⟩
      · rintro ⟨a, b, c⟩
        rcases List.mem_cons.1 a with e | a
        · exact Or.inl ⟨e, e ▸ c⟩
        · exact Or.inr ⟨a, b, c⟩

/-- The loop over the owning cells of the source offers to every node its times
through the cells that it shares with the source. -/
theorem seedCells_relaxes (g : Grid3Ducfm α) (hg : g.PushPermutes) (nn : Nat) (t : α) :
    ∀ (l : List Nat) (s : FMState α) (k : Nat), (∀ c ∈ l, c < g.nCells) →
      (∀ c ∈ l, ∀ u ∈ g.neighbors c, u < s.tt.length) →
      ∃ s1 k1, Outcome.forEach (seedCellNeighbors g nn t) l (s, k) = .ok (s1, k1) ∧
        Relaxes (fun u τ => ∃ c ∈ l, u ∈ g.neighbors c ∧ u ≠ nn ∧ τ = t + g.computeDt nn u c)
          s s1 := by
  intro l
  induction l with
  | nil =>
    intro s k _ _
    exact ⟨s, k, rfl, relaxes_mono _ _ s s (fun u τ => by simp) (relaxes_refl s)⟩
  | cons c rest ih =>
    intro s k hc hnb
    simp only [Outcome.forEach]
    obtain ⟨s1, k1, h1, hrel1⟩ := seedCellLoop_relaxes g hg nn t c (g.neighbors c) s k
      (hnb c (List.mem_cons_self _ _))
    obtain ⟨s2, k2, h2, hrel2⟩ := ih s1 k1 (fun d hd => hc d (List.mem_cons_of_mem _ hd))
      (fun d hd u hu => by
        rw [hrel1.1]
        exact hnb d (List.mem_cons_of_mem _ hd) u hu)
    refine ⟨s2, k2, ?_, ?_⟩
    · simp only [seedCellNeighbors, if_pos (hc c (List.mem_cons_self _ _)), h1, Outcome.andThen]
      exact h2
    · refine relaxes_mono _ _ s s2 (fun u τ => ?_) (relaxes_trans _ _ s s1 s2 hrel1 hrel2)
      constructor
      · rintro (⟨a, b, e⟩ | ⟨d, hd, a, b, e⟩)
        · exact ⟨c, List.mem_cons_self _ _, a, b, e⟩
        · exact ⟨d, List.mem_cons_of_mem _ hd, a, b, e⟩
      · rintro ⟨d, hd, a, b, e⟩
        rcases List.mem_cons.1 hd with rfl | hd
        · exact Or.inl ⟨a, b, e⟩
        · exact Or.inr ⟨d, hd, a, b, e⟩

end SeedOnNode

section SeedOnNodeClaim

variable {α : Type} [LinearOrderedField α]

/-- C30. Seeding on a node. `initBand` is called as `raytrace` calls it, after
the reinitialisation, with one source `Tx` found on node `v`, time `t0` and a
source radius of 0; the owners of `v` are cells of the mesh whose nodes are
nodes of the mesh, and the times `t0 + computeDt(v, u, c)` are below the value
stored by the reinitialisation. Then the call returns; node `v` has the
traveltime `t0`; every other node `u` that shares a cell with `v` is in the
band and frozen, and its traveltime is `t0 + computeDt(v, u, c)` for a shared
cell `c` at which this time is least among the shared cells; and every node
that shares no cell with `v` keeps the traveltime of the reinitialisation and
is neither in the band nor frozen. -/
theorem initBand_on_node (g : Grid3Ducfm α) (hg : g.PushPermutes) (p : sxyz α) (t : α)
    (nodes : List (Nat → α)) (threadNo v : Nat) (hr : g.source_radius = 0)
    (hfind : findNode g nodes.length p = some v)
    (hcells : ∀ c ∈ g.owners v, c < g.nCells)
    (hnb : ∀ c ∈ g.owners v, ∀ u ∈ g.neighbors c, u < nodes.length)
    (hfin : ∀ c ∈ g.owners v, ∀ u ∈ g.neighbors c, u ≠ v →
      t + g.computeDt v u c < g.ttReinit) :
    ∃ s, initBand g [p] [t] (freshState (reinit g nodes threadNo) threadNo) = .ok s ∧
      s.tt[v]? = some t ∧
      (∀ u, u ≠ v → (∃ c ∈ g.owners v, u ∈ g.neighbors c) →
        s.inBand u = true ∧ u ∈ s.narrow_band ∧ s.frozen u = true ∧
        ∃ c ∈ g.owners v, u ∈ g.neighbors c ∧ s.tt[u]? = some (t + g.computeDt v u c) ∧
          ∀ d ∈ g.owners v, u ∈ g.neighbors d → g.computeDt v u c ≤ g.computeDt v u d) ∧
      (∀ u, u < nodes.length → u ≠ v → (¬ ∃ c ∈ g.owners v, u ∈ g.neighbors c) →
        s.tt[u]? = some g.ttReinit ∧ s.inBand u = false ∧ s.frozen u = false) := by
  have htt0 : (freshState (reinit g nodes threadNo) threadNo).tt =
      List.replicate nodes.length g.ttReinit := by
    simp only [freshState, threadTT_reinit]
  have hlen0 : (freshState (reinit g nodes threadNo) threadNo).tt.length = nodes.length := by
    rw [htt0, List.length_replicate]
  have hget0 : ∀ no < nodes.length,
      (freshState (reinit g nodes threadNo) threadNo).tt[no]? = some g.ttReinit := by
    intro no hno
    rw [htt0, List.getElem?_replicate, if_pos hno]
  have hv : v < nodes.length := findNode_lt g _ p v hfind
  obtain ⟨a1, a2, a3, a4, a5, a6⟩ := seedNode_at g hg
    (freshState (reinit g nodes threadNo) threadNo) v t (by rw [hlen0]; exact hv)
  obtain ⟨s1, k1, hrun, hlen, hband, hrel⟩ := seedCells_relaxes g hg v t (g.owners v)
    (seedNode g (freshState (reinit g nodes threadNo) threadNo) v t) 0 hcells
    (fun c hc u hu => by rw [a5, hlen0]; exact hnb c hc u hu)
  refine ⟨s1, ?_, ?_, ?_, ?_⟩
  · rw [initBand_single]
    unfold initSource
    rw [hlen0, hfind]
    simp only [seedOnNode, if_true, if_pos hr, hrun, dropCount]
  · obtain ⟨tnew, b1, -, -, b4, -⟩ := hrel v t a3
    rcases b4 with e | ⟨c, _, _, hne, _⟩
    · rw [b1, e]
    · exact absurd rfl hne
  · intro u hu hshare
    obtain ⟨c0, hc0, hu0⟩ := hshare
    have hul : u < nodes.length := hnb c0 hc0 u hu0
    obtain ⟨o1, o2, o3⟩ := seedNode_other g (freshState (reinit g nodes threadNo) threadNo)
      v u t hu
    have hstart : (seedNode g (freshState (reinit g nodes threadNo) threadNo) v t).tt[u]? =
        some g.ttReinit := by rw [o1, hget0 u hul]
    obtain ⟨tnew, b1, b2, b3, b4, b5, b6, b7, b8⟩ := hrel u g.ttReinit hstart
    have hle0 : tnew ≤ t + g.computeDt v u c0 := b3 _ ⟨c0, hc0, hu0, hu, rfl⟩
    have hlt : tnew < g.ttReinit := lt_of_le_of_lt hle0 (hfin c0 hc0 u hu0 hu)
    obtain ⟨d1, d2⟩ := b8 hlt
    obtain ⟨d3, d4⟩ := d2 (by rw [o2]; rfl)
    refine ⟨d1, d4, d3, ?_⟩
    rcases b4 with e | ⟨c, hc, huc, _, e⟩
    · exact absurd hlt (by rw [e]; exact lt_irrefl _)
    · refine ⟨c, hc, huc, by rw [b1, e], fun d hd hud => ?_⟩
      have := b3 _ ⟨d, hd, hud, hu, rfl⟩
      rw [e] at this
      exact le_of_add_le_add_left this
  · intro u hul hu hshare
    obtain ⟨o1, o2, o3⟩ := seedNode_other g (freshState (reinit g nodes threadNo) threadNo)
      v u t hu
    have hstart : (seedNode g (freshState (reinit g nodes threadNo) threadNo) v t).tt[u]? =
        some g.ttReinit := by rw [o1, hget0 u hul]
    obtain ⟨tnew, b1, b2, b3, b4, b5, b6, b7, b8⟩ := hrel u g.ttReinit hstart
    rcases b4 with e | ⟨c, hc, huc, _, _⟩
    · obtain ⟨f1, f2⟩ := b7 e
      exact ⟨by rw [b1, e], by rw [f1, o2]; rfl, by rw [f2, o3]; rfl⟩
    · exact absurd ⟨c, hc, huc⟩ hshare

end SeedOnNodeClaim

section SeedOnNodeWitness

theorem initBand_on_node_witness :
    ∃ s, initBand tetMesh [tetNode 0] [5]
        (freshState (reinit tetMesh fourNodes 0) 0) = .ok s ∧
      s.tt[0]? = some 5 ∧
      (∀ u, u ≠ 0 → (∃ c ∈ tetMesh.owners 0, u ∈ tetMesh.neighbors c) →
        s.inBand u = true ∧ u ∈ s.narrow_band ∧ s.frozen u = true ∧
        ∃ c ∈ tetMesh.owners 0, u ∈ tetMesh.neighbors c ∧
          s.tt[u]? = some (5 + tetMesh.computeDt 0 u c) ∧
          ∀ d ∈ tetMesh.owners 0, u ∈ tetMesh.neighbors d →
            tetMesh.computeDt 0 u c ≤ tetMesh.computeDt 0 u d) ∧
      (∀ u, u < fourNodes.length → u ≠ 0 →
        (¬ ∃ c ∈ tetMesh.owners 0, u ∈ tetMesh.neighbors c) →
        s.tt[u]? = some tetMesh.ttReinit ∧ s.inBand u = false ∧ s.frozen u = false) :=
  initBand_on_node tetMesh (fun _ q => siftPushHeap_perm _ q) (tetNode 0) 5 fourNodes 0 0 rfl
    (by decide)
    (by
      intro c hc
      simp [tetMesh] at hc
      subst hc
      simp [tetMesh])
    (by
      intro c hc u hu
      simp [tetMesh] at hc
      subst hc
      simp [tetMesh] at hu
      simp [fourNodes]
      omega)
    (by
      intro c hc u hu hne
      simp [tetMesh] at hc
      subst hc
      simp [tetMesh] at hu
      rcases hu with rfl | rfl | rfl | rfl <;> simp [tetMesh] at hne ⊢ <;> norm_num)

end SeedOnNodeWitness

/-! ## The ray path of `getRaypath_ho` -/

section RayPath

variable {α : Type} [LinearOrderedField α]

omit [LinearOrderedField α] in
theorem startsAt_append (Rx p : sxz α) (l : List (sxz α)) (h : StartsAt Rx l) :
    StartsAt Rx (l ++ [p]) := by
  obtain ⟨t, ht⟩ := h
  exact ⟨t ++ [p], by rw [ht]; rfl⟩

theorem TraceState.fail_r_data (s : TraceState α) (Rx : sxz α) : (s.fail Rx).r_data = [Rx] := by
  unfold TraceState.fail resize
  cases s.r_data with
  | nil => rfl
  | cons a l => simp

theorem TraceState.fail_reachedTx (s : TraceState α) (Rx : sxz α) :
    (s.fail Rx).reachedTx = true := rfl

/-- A crossing of a cell from a node keeps the start of the path. -/
theorem crossCell_startsAt (w : Nat) (g : Grid2Dui α) (Rx : sxz α) (nb : Nat × Nat)
    (gn : sxz α) (nodeNo : Nat) (s s1 : TraceState α)
    (h : crossCell w g Rx nb gn nodeNo s = .ok s1) (hs : StartsAt Rx s.r_data) :
    StartsAt Rx s1.r_data := by
  unfold crossCell at h
  split at h
  · cases h
  · split_ifs at h with hb
    · cases h
      exact startsAt_append Rx _ _ hs
    · split at h
      · cases h
      · split_ifs at h with hm
        · cases h
          rw [TraceState.fail_r_data]
          exact ⟨[], rfl⟩
        · cases h
          exact startsAt_append Rx _ _ hs

/-- The first pass over the owners keeps the start of the path. -/
theorem firstPass_startsAt (ops : TraceOps α) (w : Nat) (g : Grid2Dui α) (Rx : sxz α)
    (threadNo nodeNo : Nat) :
    ∀ (owners : List Nat) (grads : List (sxz α)) (s s1 : TraceState α)
      (r : Option (List (sxz α))),
      firstPass ops w g Rx threadNo nodeNo owners grads s = .ok (s1, r) →
      StartsAt Rx s.r_data → StartsAt Rx s1.r_data := by
  intro owners
  induction owners with
  | nil =>
    intro grads s s1 r h hs
    simp only [firstPass, Outcome.ok.injEq, Prod.mk.injEq] at h
    rw [← h.1]
    exact hs
  | cons nc rest ih =>
    intro grads s s1 r h hs
    simp only [firstPass] at h
    split at h
    · cases h
    · rename_i nb _
      split at h
      · rename_i gv _
        split at h
        · rename_i v1 v2 _ _
          split_ifs at h with ha
          · cases hc : crossCell w g Rx nb (ops.normalize gv) nodeNo s with
            | ok s2 =>
              rw [hc] at h
              simp only [Outcome.map, Outcome.ok.injEq, Prod.mk.injEq] at h
              rw [← h.1]
              exact crossCell_startsAt w g Rx nb _ nodeNo s s2 hc hs
            | thrown s2 => rw [hc] at h; cases h
            | aborted => rw [hc] at h; cases h
            | undefined => rw [hc] at h; cases h
          · exact ih _ s s1 r h hs
        · cases h
      · cases h
      · cases h
      · cases h

/-- The second pass over the owners keeps the start of the path. -/
theorem secondPass_startsAt (ops : TraceOps α) (w : Nat) (g : Grid2Dui α) (Rx : sxz α)
    (nodeNo : Nat) :
    ∀ (owners : List Nat) (gv : sxz α) (s s1 : TraceState α) (b : Bool),
      secondPass ops w g Rx nodeNo owners gv s = .ok (s1, b) →
      StartsAt Rx s.r_data → StartsAt Rx s1.r_data := by
  intro owners
  induction owners with
  | nil =>
    intro gv s s1 b h hs
    simp only [secondPass, Outcome.ok.injEq, Prod.mk.injEq] at h
    rw [← h.1]
    exact hs
  | cons nc rest ih =>
    intro gv s s1 b h hs
    simp only [secondPass] at h
    split at h
    · cases h
    · rename_i nb _
      split at h
      · rename_i v1 v2 _ _
        split_ifs at h with ha
        · cases hc : crossCell w g Rx nb (ops.normalize gv) nodeNo s with
          | ok s2 =>
            rw [hc] at h
            simp only [Outcome.map, Outcome.ok.injEq, Prod.mk.injEq] at h
            rw [← h.1]
            exact crossCell_startsAt w g Rx nb _ nodeNo s s2 hc hs
          | thrown s2 => rw [hc] at h; cases h
          | aborted => rw [hc] at h; cases h
          | undefined => rw [hc] at h; cases h
        · exact ih _ s s1 b h hs
      · cases h

/-- The step on a node keeps the start of the path. -/
theorem stepOnNode_startsAt (ops : TraceOps α) (w : Nat) (g : Grid2Dui α) (Rx : sxz α)
    (threadNo : Nat) (s s1 : TraceState α) (h : stepOnNode ops w g Rx threadNo s = .ok s1)
    (hs : StartsAt Rx s.r_data) : StartsAt Rx s1.r_data := by
  unfold stepOnNode at h
  split at h
  · cases h
  · rename_i nodeNo _
    split at h
    · cases h
    · rename_i nd _
      split at h
      · rename_i s2 hf
        cases h
        exact firstPass_startsAt ops w g Rx threadNo nodeNo _ _ s _ _ hf hs
      · rename_i s2 grads hf
        have h2 := firstPass_startsAt ops w g Rx threadNo nodeNo _ _ s _ _ hf hs
        split at h
        · rename_i s3 hsec
          cases h
          exact secondPass_startsAt ops w g Rx nodeNo _ _ s2 _ _ hsec h2
        · cases h
          rw [TraceState.fail_r_data]
          exact ⟨[], rfl⟩
        · cases h
        · cases h
        · cases h
      · cases h
      · cases h
      · cases h


omit [LinearOrderedField α] in
theorem TraceState.moveTo_startsAt (Rx : sxz α) (s : TraceState α) (nd : Node α)
    (hs : StartsAt Rx s.r_data) : StartsAt Rx (s.moveTo nd).r_data :=
  startsAt_append Rx _ _ hs

/-- Leaving a cell through an edge keeps the start of the path. -/
theorem leaveCell_startsAt (w : Nat) (g : Grid2Dui α) (Rx : sxz α) (cellNo : Nat)
    (ind : Nat × Nat) (pt_i : sxz α) (s s1 : TraceState α)
    (h : leaveCell w g Rx cellNo ind pt_i s = .ok s1) (hs : StartsAt Rx s.r_data) :
    StartsAt Rx s1.r_data := by
  unfold leaveCell at h
  split at h
  · cases h
  · split_ifs at h with hm
    · cases h
      rw [TraceState.fail_r_data]
      exact ⟨[], rfl⟩
    · cases h
      exact startsAt_append Rx _ _ hs

theorem alongEdge_startsAt (ops : TraceOps α) (Rx gv : sxz α) (n0 n1 : Node α)
    (s s1 : TraceState α) (h : alongEdge ops gv n0 n1 s = some s1)
    (hs : StartsAt Rx s.r_data) : StartsAt Rx s1.r_data := by
  unfold alongEdge at h
  split at h
  · split_ifs at h
    · cases h
      exact TraceState.moveTo_startsAt Rx s n1 hs
    · cases h
      exact TraceState.moveTo_startsAt Rx s n0 hs
  · cases h

theorem leaveCell_map_startsAt (w : Nat) (g : Grid2Dui α) (Rx : sxz α) (cellNo : Nat)
    (ind : Nat × Nat) (pt_i : sxz α) (s s1 : TraceState α) (b : Bool)
    (h : (leaveCell w g Rx cellNo ind pt_i s).map (fun s2 => (s2, true)) = .ok (s1, b))
    (hs : StartsAt Rx s.r_data) : StartsAt Rx s1.r_data := by
  cases hc : leaveCell w g Rx cellNo ind pt_i s with
  | ok s2 =>
    rw [hc] at h
    simp only [Outcome.map, Outcome.ok.injEq, Prod.mk.injEq] at h
    rw [← h.1]
    exact leaveCell_startsAt w g Rx cellNo ind pt_i s s2 hc hs
  | thrown s2 => rw [hc] at h; cases h
  | aborted => rw [hc] at h; cases h
  | undefined => rw [hc] at h; cases h

/-- The loop over the segments of a cell keeps the start of the path. -/
theorem trySegments_startsAt (ops : TraceOps α) (w : Nat) (g : Grid2Dui α) (Rx gv : sxz α)
    (cellNo : Nat) :
    ∀ (edges : List (Nat × Nat)) (s s1 : TraceState α) (b : Bool),
      trySegments ops w g Rx gv cellNo edges s = .ok (s1, b) →
      StartsAt Rx s.r_data → StartsAt Rx s1.r_data := by
  intro edges
  induction edges with
  | nil =>
    intro s s1 b h hs
    simp only [trySegments, Outcome.ok.injEq, Prod.mk.injEq] at h
    rw [← h.1]
    exact hs
  | cons ind rest ih =>
    intro s s1 b h hs
    simp only [trySegments] at h
    split at h
    · rename_i n0 n1 _ _
      split_ifs at h with he
      · split at h
        · cases h
        · rename_i e _
          split_ifs at h with hie
          · split at h
            · rename_i s2 ha
              simp only [Outcome.ok.injEq, Prod.mk.injEq] at h
              rw [← h.1]
              exact alongEdge_startsAt ops Rx gv n0 n1 s s2 ha hs
            · exact ih s s1 b h hs
          · split at h
            · exact ih s s1 b h hs
            · rename_i pt_i _
              split_ifs at h with hd hbx
              · exact ih s s1 b h hs
              · exact leaveCell_map_startsAt w g Rx cellNo ind pt_i s s1 b h hs
              · exact ih s s1 b h hs
      · split at h
        · exact ih s s1 b h hs
        · rename_i pt_i _
          split_ifs at h with hd hbx
          · exact ih s s1 b h hs
          · exact leaveCell_map_startsAt w g Rx cellNo ind pt_i s s1 b h hs
          · exact ih s s1 b h hs
    · cases h

theorem fallbackNode_startsAt (g : Grid2Dui α) (Rx gv : sxz α) (s s1 : TraceState α)
    (h : fallbackNode g gv s = .ok s1) (hs : StartsAt Rx s.r_data) :
    StartsAt Rx s1.r_data := by
  unfold fallbackNode at h
  split at h
  · cases h
  · split at h
    · split_ifs at h
      · cases h
        exact TraceState.moveTo_startsAt Rx s _ hs
      · cases h
        exact TraceState.moveTo_startsAt Rx s _ hs
    · cases h

/-- The step in a cell keeps the start of the path. -/
theorem stepInCell_startsAt (ops : TraceOps α) (w : Nat) (g : Grid2Dui α) (Rx : sxz α)
    (threadNo : Nat) (s s1 : TraceState α) (h : stepInCell ops w g Rx threadNo s = .ok s1)
    (hs : StartsAt Rx s.r_data) : StartsAt Rx s1.r_data := by
  unfold stepInCell at h
  split at h
  · cases h
  · rename_i cellNo _
    split at h
    · rename_i gv _
      split at h
      · cases h
      · rename_i edges _
        split at h
        · rename_i s2 ht
          cases h
          exact trySegments_startsAt ops w g Rx _ cellNo edges s _ _ ht hs
        · rename_i s2 ht
          exact fallbackNode_startsAt g Rx _ s2 s1 h
            (trySegments_startsAt ops w g Rx _ cellNo edges s _ _ ht hs)
        · cases h
        · cases h
        · cases h
    · cases h
    · cases h
    · cases h

omit [LinearOrderedField α] in
theorem locate_r_data (pops : PointOps α (sxz α)) (g : Grid2Dui α) (s : TraceState α) :
    (locate pops g s).r_data = s.r_data := by
  unfold locate
  split <;> rfl

omit [LinearOrderedField α] in
/-- The loop over the sources at the end of an iteration keeps the start of the
path. -/
theorem closeInCell_startsAt (g : Grid2Dui α) (Rx : sxz α) :
    ∀ (places : List (sxz α × TxPlace)) (s s1 : TraceState α),
      closeInCell g places s = .ok s1 → StartsAt Rx s.r_data → StartsAt Rx s1.r_data := by
  intro places
  induction places with
  | nil =>
    intro s s1 h hs
    simp only [closeInCell, Outcome.ok.injEq] at h
    rw [← h]
    exact hs
  | cons tp rest ih =>
    intro s s1 h hs
    obtain ⟨tx, place⟩ := tp
    cases place with
    | onNode txNode =>
      simp only [closeInCell] at h
      split at h
      · cases h
      · rename_i nd _
        by_cases he : nd.owners.isEmpty = true
        · rw [if_pos he] at h
          by_cases hr : s.reachedTx = true
          · rw [if_pos hr] at h
            cases h
            exact hs
          · rw [if_neg hr] at h
            exact ih s s1 h hs
        · rw [if_neg he] at h
          split at h
          · cases h
          · rename_i cellNo _
            by_cases hm : cellNo ∈ nd.owners
            · rw [if_pos hm] at h
              cases h
              exact startsAt_append Rx _ _ hs
            · rw [if_neg hm] at h
              by_cases hr : s.reachedTx = true
              · rw [if_pos hr] at h
                cases h
                exact hs
              · rw [if_neg hr] at h
                exact ih s s1 h hs
    | inCell txCell =>
      simp only [closeInCell] at h
      split at h
      · cases h
      · split_ifs at h with hm hr
        · cases h
          exact startsAt_append Rx _ _ hs
        · cases h
          exact hs
        · exact ih s s1 h hs

/-- The end of an iteration keeps the start of the path. -/
theorem afterStep_startsAt (pops : PointOps α (sxz α)) (ops : TraceOps α) (g : Grid2Dui α)
    (places : List (sxz α × TxPlace)) (Rx : sxz α) (s s1 : TraceState α)
    (h : afterStep pops ops g places s = .ok s1) (hs : StartsAt Rx s.r_data) :
    StartsAt Rx s1.r_data := by
  have hl : StartsAt Rx (locate pops g s).r_data := by rw [locate_r_data]; exact hs
  unfold afterStep at h
  split_ifs at h with hn hd
  · cases h
    exact hl
  · cases h
    exact hl
  · exact closeInCell_startsAt g Rx places _ s1 h hl

/-- One iteration of the loop keeps the start of the path. -/
theorem traceStep_startsAt (pops : PointOps α (sxz α)) (ops : TraceOps α) (w : Nat)
    (g : Grid2Dui α) (places : List (sxz α × TxPlace)) (Rx : sxz α) (threadNo : Nat)
    (s s1 : TraceState α) (h : traceStep pops ops w g places Rx threadNo s = .ok s1)
    (hs : StartsAt Rx s.r_data) : StartsAt Rx s1.r_data := by
  unfold traceStep at h
  split_ifs at h with hn
  · cases hstep : stepOnNode ops w g Rx threadNo s with
    | ok s2 =>
      rw [hstep] at h
      exact afterStep_startsAt pops ops g places Rx s2 s1 h
        (stepOnNode_startsAt ops w g Rx threadNo s s2 hstep hs)
    | thrown s2 => rw [hstep] at h; cases h
    | aborted => rw [hstep] at h; cases h
    | undefined => rw [hstep] at h; cases h
  · cases hstep : stepInCell ops w g Rx threadNo s with
    | ok s2 =>
      rw [hstep] at h
      exact afterStep_startsAt pops ops g places Rx s2 s1 h
        (stepInCell_startsAt ops w g Rx threadNo s s2 hstep hs)
    | thrown s2 => rw [hstep] at h; cases h
    | aborted => rw [hstep] at h; cases h
    | undefined => rw [hstep] at h; cases h

/-- The loop returns a path that starts where the path at its entry starts. -/
theorem traceLoop_startsAt (pops : PointOps α (sxz α)) (ops : TraceOps α) (w : Nat)
    (g : Grid2Dui α) (places : List (sxz α × TxPlace)) (Rx : sxz α) (threadNo : Nat) :
    ∀ (fuel : Nat) (s : TraceState α) (out : List (sxz α)),
      traceLoop pops ops w g places Rx threadNo fuel s = some (.ok out) →
      StartsAt Rx s.r_data → StartsAt Rx out := by
  intro fuel
  induction fuel with
  | zero =>
    intro s out h _
    simp [traceLoop] at h
  | succ fuel ih =>
    intro s out h hs
    simp only [traceLoop] at h
    split_ifs at h with hr
    · simp only [Option.some.injEq, Outcome.ok.injEq] at h
      rw [← h]
      exact hs
    · split at h
      · rename_i s1 hstep
        exact ih s1 out h (traceStep_startsAt pops ops w g places Rx threadNo s s1 hstep hs)
      · simp at h
      · simp at h
      · simp at h

omit [LinearOrderedField α] in
theorem traceStart_startsAt (pops : PointOps α (sxz α)) (w : Nat) (g : Grid2Dui α)
    (Rx : sxz α) (s : TraceState α) (h : traceStart pops w g Rx [] = some s) :
    StartsAt Rx s.r_data := by
  unfold traceStart at h
  split at h
  · cases h
    exact ⟨[], rfl⟩
  · split at h
    · cases h
    · cases h
      exact ⟨[], rfl⟩

/-- C25. Every call of `getRaypath_ho` that returns, started with an empty
`r_data`, leaves in `r_data` a path that is not empty and whose first point is
`Rx`; and when `Rx` equals one of the points of `Tx` the path is exactly
`[Rx]`, with one test of the condition of the loop at most. -/
theorem getRaypath_ho_starts_at_receiver (pops : PointOps α (sxz α)) (ops : TraceOps α)
    (w : Nat) (g : Grid2Dui α) (Tx : List (sxz α)) (Rx : sxz α) (threadNo : Nat) :
    (∀ (fuel : Nat) (out : List (sxz α)),
      getRaypath_ho pops ops w g Tx Rx [] threadNo fuel = some (.ok out) →
      out ≠ [] ∧ out.head? = some Rx) ∧
    ((∃ tx ∈ Tx, ops.ptEq Rx tx = true) →
      ∀ fuel, getRaypath_ho pops ops w g Tx Rx [] threadNo fuel = some (.ok [Rx])) := by
  constructor
  · intro fuel out h
    have hst : StartsAt Rx out := by
      unfold getRaypath_ho at h
      split_ifs at h with hany
      · simp only [List.nil_append, Option.some.injEq, Outcome.ok.injEq] at h
        exact ⟨[], h.symm⟩
      · split at h
        · rename_i places s _ hs
          exact traceLoop_startsAt pops ops w g places Rx threadNo fuel s out h
            (traceStart_startsAt pops w g Rx s hs)
        · simp at h
    obtain ⟨t, ht⟩ := hst
    rw [ht]
    exact ⟨by simp, rfl⟩
  · rintro ⟨tx, htx, heq⟩ fuel
    have hany : Tx.any (fun tx => ops.ptEq Rx tx) = true :=
      List.any_eq_true.2 ⟨tx, htx, heq⟩
    simp only [getRaypath_ho, hany, if_true, List.nil_append]

end RayPath

section PathFailure

variable {α : Type} [LinearOrderedField α]

/-- The first pass when no owner admits its own gradient: the state is left as
it is and the normalised gradients are collected. -/
theorem firstPass_none_admitted (ops : TraceOps α) (w : Nat) (g : Grid2Dui α) (Rx : sxz α)
    (threadNo nodeNo : Nat) (gv : Nat → sxz α) (nb : Nat → Nat × Nat) (v1 v2 : Nat → sxz α)
    (s : TraceState α) :
    ∀ (owners : List Nat) (grads : List (sxz α)),
      (∀ nc ∈ owners, otherNodes g nc nodeNo = some (nb nc) ∧
        cellGradient ops g nc threadNo = .ok (gv nc) ∧
        edgeVector g (nb nc).1 nodeNo = some (v1 nc) ∧
        edgeVector g (nb nc).2 nodeNo = some (v2 nc)) →
      (∀ nc ∈ owners, admits ops (ops.normalize (gv nc)) (v1 nc) (v2 nc) = false) →
      firstPass ops w g Rx threadNo nodeNo owners grads s =
        .ok (s, some (grads ++ owners.map (fun c => ops.normalize (gv c)))) := by
  intro owners
  induction owners with
  | nil =>
    intro grads _ _
    simp [firstPass]
  | cons nc rest ih =>
    intro grads hcell hown
    obtain ⟨h1, h2, h3, h4⟩ := hcell nc (List.mem_cons_self _ _)
    have h5 := hown nc (List.mem_cons_self _ _)
    simp only [firstPass, h1, h2, h3, h4, h5, Bool.false_eq_true, if_false]
    rw [ih (grads ++ [ops.normalize (gv nc)])
      (fun c hc => hcell c (List.mem_cons_of_mem _ hc))
      (fun c hc => hown c (List.mem_cons_of_mem _ hc))]
    simp

/-- The second pass when no owner admits the averaged gradient: the state is
left as it is and no intersection is found. -/
theorem secondPass_none_admitted (ops : TraceOps α) (w : Nat) (g : Grid2Dui α) (Rx : sxz α)
    (nodeNo : Nat) (avg : sxz α) (nb : Nat → Nat × Nat) (v1 v2 : Nat → sxz α)
    (s : TraceState α) (hidem : ∀ v, ops.normalize (ops.normalize v) = ops.normalize v) :
    ∀ (owners : List Nat) (gv : sxz α), ops.normalize gv = ops.normalize avg →
      (∀ nc ∈ owners, otherNodes g nc nodeNo = some (nb nc) ∧
        edgeVector g (nb nc).1 nodeNo = some (v1 nc) ∧
        edgeVector g (nb nc).2 nodeNo = some (v2 nc)) →
      (∀ nc ∈ owners, admits ops (ops.normalize avg) (v1 nc) (v2 nc) = false) →
      secondPass ops w g Rx nodeNo owners gv s = .ok (s, false) := by
  intro owners
  induction owners with
  | nil =>
    intro gv _ _ _
    simp [secondPass]
  | cons nc rest ih =>
    intro gv hgv hcell havg
    obtain ⟨h1, h3, h4⟩ := hcell nc (List.mem_cons_self _ _)
    have h5 := havg nc (List.mem_cons_self _ _)
    simp only [secondPass, h1, h3, h4, hgv, h5, Bool.false_eq_true, if_false]
    rw [← hgv]
    exact ih (ops.normalize gv) (by rw [hidem, hgv])
      (fun c hc => hcell c (List.mem_cons_of_mem _ hc))
      (fun c hc => havg c (List.mem_cons_of_mem _ hc))

/-- C24. PathFailure in the on-node step of `getRaypath_ho`. The loop is at a
state in which the current point is on node `nodeNo`; for every cell owning the
node the two other nodes, the gradient of the neighbourhood and the two edge
vectors are defined; `normalize` leaves a normalised vector as it is. If no
owning cell admits its own gradient and none admits the averaged gradient, the
iteration returns with `r_data` equal to `[Rx]` and `reachedTx` set, and the
loop returns `[Rx]` at the next test of its condition. -/
theorem getRaypath_ho_path_failure (pops : PointOps α (sxz α)) (ops : TraceOps α) (w : Nat)
    (g : Grid2Dui α) (places : List (sxz α × TxPlace)) (Rx : sxz α) (threadNo : Nat)
    (s : TraceState α) (nodeNo : Nat) (nd : Node α) (gv : Nat → sxz α) (nb : Nat → Nat × Nat)
    (v1 v2 : Nat → sxz α)
    (hreach : s.reachedTx = false) (hon : s.onNode = true) (hno : s.nodeNo = some nodeNo)
    (hnd : g.nodes[nodeNo]? = some nd) (hat : pops.nodeEq nd s.curr_pt = true)
    (hidem : ∀ v, ops.normalize (ops.normalize v) = ops.normalize v)
    (hcell : ∀ nc ∈ nd.owners, otherNodes g nc nodeNo = some (nb nc) ∧
      cellGradient ops g nc threadNo = .ok (gv nc) ∧
      edgeVector g (nb nc).1 nodeNo = some (v1 nc) ∧
      edgeVector g (nb nc).2 nodeNo = some (v2 nc))
    (hown : ∀ nc ∈ nd.owners, admits ops (ops.normalize (gv nc)) (v1 nc) (v2 nc) = false)
    (havg : ∀ nc ∈ nd.owners,
      admits ops
        (ops.normalize (averageGradient (nd.owners.map (fun c => ops.normalize (gv c)))))
        (v1 nc) (v2 nc) = false) :
    ∃ s1, traceStep pops ops w g places Rx threadNo s = .ok s1 ∧ s1.r_data = [Rx] ∧
      s1.reachedTx = true ∧
      ∀ fuel, traceLoop pops ops w g places Rx threadNo (fuel + 2) s = some (.ok [Rx]) := by
  have hfirst := firstPass_none_admitted ops w g Rx threadNo nodeNo gv nb v1 v2 s nd.owners []
    hcell hown
  have hsecond := secondPass_none_admitted ops w g Rx nodeNo
    (averageGradient (nd.owners.map (fun c => ops.normalize (gv c)))) nb v1 v2 s hidem nd.owners
    (averageGradient (nd.owners.map (fun c => ops.normalize (gv c)))) rfl
    (fun nc hc => ⟨(hcell nc hc).1, (hcell nc hc).2.2.1, (hcell nc hc).2.2.2⟩) havg
  have hstep : stepOnNode ops w g Rx threadNo s = .ok (s.fail Rx) := by
    simp only [stepOnNode, hno, hnd, hfirst, List.nil_append, hsecond]
  have hfind : ∃ nn, g.nodes.findIdx? (fun n => pops.nodeEq n (s.fail Rx).curr_pt) = some nn :=
    ⟨_, List.findIdx?_eq_some_of_exists ⟨nd, List.getElem?_mem hnd, hat⟩⟩
  obtain ⟨nn, hnn⟩ := hfind
  have hloc : locate pops g (s.fail Rx) =
      { s.fail Rx with nodeNo := some nn, onNode := true, onEdge := false } := by
    simp only [locate, hnn]
  have hafter : ∃ s1, afterStep pops ops g places (s.fail Rx) = .ok s1 ∧ s1.r_data = [Rx] ∧
      s1.reachedTx = true := by
    unfold afterStep
    rw [hloc]
    simp only [if_true]
    split_ifs
    · exact ⟨_, rfl, TraceState.fail_r_data s Rx, rfl⟩
    · exact ⟨_, rfl, TraceState.fail_r_data s Rx, rfl⟩
  obtain ⟨s1, hs1, hr, ht⟩ := hafter
  have htrace : traceStep pops ops w g places Rx threadNo s = .ok s1 := by
    simp only [traceStep, hon, if_true, hstep, Outcome.andThen]
    exact hs1
  refine ⟨s1, htrace, hr, ht, fun fuel => ?_⟩
  simp only [traceLoop, hreach, Bool.false_eq_true, if_false, htrace, ht, if_true, hr]

end PathFailure

section RayPathExamples

/-- On the mesh of one triangle the neighbourhood of cell 0 holds the three
nodes, and with `NDEBUG` defined the gradient is the one the solver returns. -/
theorem rightTriangle_gradient : cellGradient plainTrace rightTriangle 0 0 = .ok ⟨-1, -1⟩ := by
  simp [cellGradient, getNeighborNodes, insertStar, insertOwnersNodes, insertCellNodes,
    rightTriangle, nodeAt, ls_grad, plainTrace, List.insert]

/-- A receiver inside the triangle with the source on node 0: the ray leaves
the cell at node 0, and the path is the receiver followed by that node. -/
theorem getRaypath_ho_run :
    getRaypath_ho plainOps plainTrace 32 rightTriangle [⟨0, 0⟩] ⟨1 / 2, 1 / 2⟩ [] 0 2 =
      some (.ok [⟨1 / 2, 1 / 2⟩, ⟨0, 0⟩]) := by
  have hg := rightTriangle_gradient
  have hcell : getCellNo 32 plainOps rightTriangle (⟨1 / 2, 1 / 2⟩ : sxz ℚ) = some 0 := by
    norm_num [getCellNo, getCellNoLoop, plainOps, sxzOps, insideTriangle, Grid2Dui.corners,
      rightTriangle, nodeAt, Arr3.get, insideCorners, baryA, baryB, det, cornerRel, cornerV0]
  have hstart : traceStart plainOps 32 rightTriangle (⟨1 / 2, 1 / 2⟩ : sxz ℚ) [] =
      some { r_data := [⟨1 / 2, 1 / 2⟩], curr_pt := ⟨1 / 2, 1 / 2⟩, onNode := false,
             nodeNo := none, cellNo := some 0, onEdge := false, edgeNodes := none,
             reachedTx := false } := by
    have hnone : rightTriangle.nodes.findIdx?
        (fun nd => plainOps.nodeEq nd (⟨1 / 2, 1 / 2⟩ : sxz ℚ)) = none := by
      norm_num [rightTriangle, plainOps, sxzOps, nodeAt, List.findIdx?_cons]
    simp only [traceStart, hnone, hcell, List.nil_append]
  have hplaces : txPlaces plainOps 32 rightTriangle [(⟨0, 0⟩ : sxz ℚ)] =
      some [(⟨0, 0⟩, .onNode 0)] := by
    norm_num [txPlaces, rightTriangle, plainOps, sxzOps, nodeAt, List.findIdx?_cons]
  have hany : List.any [(⟨0, 0⟩ : sxz ℚ)]
      (fun tx => plainTrace.ptEq (⟨1 / 2, 1 / 2⟩ : sxz ℚ) tx) = false := by
    norm_num [plainTrace]
  simp only [getRaypath_ho, hany, Bool.false_eq_true, if_false, hplaces, hstart, traceLoop,
    traceStep, stepInCell, hg]
  norm_num [cellEdges, rightTriangle, nodeAt, trySegments, plainTrace, intersect, edgeLine,
    gradLine, sxz.dot, inEdgeBox, leaveCell, findNextCell2, cells, maxT2, Outcome.map,
    Outcome.andThen, afterStep, locate, plainOps, sxzOps, List.findIdx?_cons, TraceState.push,
    TraceState.setPt, TraceState.enterEdge]

end RayPathExamples

section RayPathWitnesses

theorem getRaypath_ho_starts_at_receiver_witness :
    ([⟨1 / 2, 1 / 2⟩, ⟨0, 0⟩] : List (sxz ℚ)) ≠ [] ∧
      ([⟨1 / 2, 1 / 2⟩, ⟨0, 0⟩] : List (sxz ℚ)).head? = some ⟨1 / 2, 1 / 2⟩ :=
  (getRaypath_ho_starts_at_receiver plainOps plainTrace 32 rightTriangle [⟨0, 0⟩]
    ⟨1 / 2, 1 / 2⟩ 0).1 2 _ getRaypath_ho_run

/-- The start of a call with the receiver on node 0 of the triangle and the
source at (5,5), outside the mesh. -/
theorem rightTriangle_start :
    txPlaces plainOps 32 rightTriangle [(⟨5, 5⟩ : sxz ℚ)] =
      some [(⟨5, 5⟩, .inCell (noCell 32))] ∧
    traceStart plainOps 32 rightTriangle (⟨0, 0⟩ : sxz ℚ) [] =
      some { r_data := [⟨0, 0⟩], curr_pt := ⟨0, 0⟩, onNode := true, nodeNo := some 0,
             cellNo := none, onEdge := false, edgeNodes := none, reachedTx := false } ∧
    List.any [(⟨5, 5⟩ : sxz ℚ)] (fun tx => plainTrace.ptEq (⟨0, 0⟩ : sxz ℚ) tx) = false := by
  have hcell : getCellNo 32 plainOps rightTriangle (⟨5, 5⟩ : sxz ℚ) = some (noCell 32) := by
    norm_num [getCellNo, getCellNoLoop, plainOps, sxzOps, insideTriangle, Grid2Dui.corners,
      rightTriangle, nodeAt, Arr3.get, insideCorners, baryA, baryB, det, cornerRel, cornerV0]
  have hnone : rightTriangle.nodes.findIdx?
      (fun nd => plainOps.nodeEq nd (⟨5, 5⟩ : sxz ℚ)) = none := by
    norm_num [rightTriangle, plainOps, sxzOps, nodeAt, List.findIdx?_cons]
  refine ⟨by simp only [txPlaces, hnone, hcell], ?_, ?_⟩
  · norm_num [traceStart, rightTriangle, plainOps, sxzOps, nodeAt, List.findIdx?_cons]
  · norm_num [plainTrace]

theorem getRaypath_ho_path_failure_witness :
    (∃ s1, traceStep plainOps plainTrace 32 rightTriangle [(⟨5, 5⟩, .inCell (noCell 32))]
        ⟨0, 0⟩ 0
        { r_data := [⟨0, 0⟩], curr_pt := ⟨0, 0⟩, onNode := true, nodeNo := some 0,
          cellNo := none, onEdge := false, edgeNodes := none, reachedTx := false } = .ok s1 ∧
      s1.r_data = [⟨0, 0⟩] ∧ s1.reachedTx = true) ∧
    getRaypath_ho plainOps plainTrace 32 rightTriangle [⟨5, 5⟩] ⟨0, 0⟩ [] 0 2 =
      some (.ok [⟨0, 0⟩]) := by
  obtain ⟨s1, h1, h2, h3, hloop⟩ := getRaypath_ho_path_failure plainOps plainTrace 32
    rightTriangle [(⟨5, 5⟩, .inCell (noCell 32))] ⟨0, 0⟩ 0
    { r_data := [⟨0, 0⟩], curr_pt := ⟨0, 0⟩, onNode := true, nodeNo := some 0,
      cellNo := none, onEdge := false, edgeNodes := none, reachedTx := false }
    0 (nodeAt 0 0 0 0) (fun _ => ⟨-1, -1⟩) (fun _ => (1, 2)) (fun _ => ⟨2, 0⟩) (fun _ => ⟨0, 2⟩)
    rfl rfl rfl rfl (by simp [plainOps, sxzOps, nodeAt]) (fun _ => rfl)
    (by
      intro nc hnc
      simp only [nodeAt, List.mem_singleton] at hnc
      subst hnc
      refine ⟨?_, rightTriangle_gradient, ?_, ?_⟩
      · simp [otherNodes, rightTriangle]
      · norm_num [edgeVector, rightTriangle, nodeAt]
      · norm_num [edgeVector, rightTriangle, nodeAt])
    (by
      intro nc _
      norm_num [admits, plainTrace, sxz.dot])
    (by
      intro nc _
      norm_num [admits, plainTrace, sxz.dot, averageGradient, nodeAt])
  refine ⟨⟨s1, h1, h2, h3⟩, ?_⟩
  obtain ⟨hplaces, hstart, hany⟩ := rightTriangle_start
  simp only [getRaypath_ho, hany, Bool.false_eq_true, if_false, hplaces, hstart]
  exact hloop 0

end RayPathWitnesses

/-! ## Frame of the local solver -/

section Frame

variable {α : Type} [LinearOrderedField α]

omit [LinearOrderedField α] in
theorem Grid2Dui.sameButTT_refl (g : Grid2Dui α) (vertexC threadNo : Nat) :
    g.SameButTT g vertexC threadNo :=
  ⟨rfl, rfl, rfl, rfl, fun _ nd h =>
    ⟨nd, h, rfl, rfl, rfl, rfl, rfl, rfl, rfl, fun _ _ => rfl⟩⟩

omit [LinearOrderedField α] in
theorem Grid2Dui.sameButTT_trans {g g1 g2 : Grid2Dui α} {vertexC threadNo : Nat}
    (h1 : g.SameButTT g1 vertexC threadNo) (h2 : g1.SameButTT g2 vertexC threadNo) :
    g.SameButTT g2 vertexC threadNo := by
  obtain ⟨a1, b1, c1, d1, e1⟩ := h1
  obtain ⟨a2, b2, c2, d2, e2⟩ := h2
  refine ⟨a2.trans a1, b2.trans b1, c2.trans c1, d2.trans d1, ?_⟩
  intro n nd hn
  obtain ⟨nd1, hn1, hx, hy, hz, hg, hs, ho, hp, ht⟩ := e1 n nd hn
  obtain ⟨nd2, hn2, hx2, hy2, hz2, hg2, hs2, ho2, hp2, ht2⟩ := e2 n nd1 hn1
  exact ⟨nd2, hn2, hx2.trans hx, hy2.trans hy, hz2.trans hz, hg2.trans hg, hs2.trans hs,
    ho2.trans ho, hp2.trans hp, fun th hth => (ht2 th hth).trans (ht th hth)⟩

omit [LinearOrderedField α] in
/-- The write `nodes[n].setTT(t, threadNo)` changes the traveltime of node `n`
for thread `threadNo` and nothing else. -/
theorem Grid2Dui.sameButTT_setTT (g : Grid2Dui α) (vertexC threadNo : Nat) (t : α) :
    g.SameButTT (g.setTT vertexC threadNo t) vertexC threadNo := by
  unfold Grid2Dui.setTT
  cases hC : g.nodes[vertexC]? with
  | none => exact Grid2Dui.sameButTT_refl g vertexC threadNo
  | some nodeC =>
    refine ⟨rfl, rfl, rfl, by simp, ?_⟩
    intro n nd hn
    by_cases hnC : n = vertexC
    · subst hnC
      rw [hC] at hn
      cases hn
      have hlt : n < g.nodes.length := (List.getElem?_eq_some_iff.1 hC).1
      refine ⟨{ nodeC with tt := Function.update nodeC.tt threadNo t }, ?_, rfl, rfl, rfl, rfl,
        rfl, rfl, rfl, ?_⟩
      · simp [List.getElem?_set, hlt]
      · intro th hth
        rcases hth with h | h
        · exact absurd rfl h
        · simp [Function.update, h]
    · refine ⟨nd, ?_, rfl, rfl, rfl, rfl, rfl, rfl, rfl, fun _ _ => rfl⟩
      have hne : ¬ vertexC = n := fun e => hnC e.symm
      simp [List.getElem?_set, hne, hn]

theorem localSolverLoop_frame (sin asin : α → α) (pi : α) (vertexC threadNo : Nat)
    (owners : List Nat) : ∀ (g g1 : Grid2Dui α),
    (localSolverLoop sin asin pi vertexC threadNo owners g).state? = some g1 →
    g.SameButTT g1 vertexC threadNo := by
  induction owners with
  | nil =>
    intro g g1 h
    simp [localSolverLoop, Outcome.state?] at h
    subst h
    exact Grid2Dui.sameButTT_refl g vertexC threadNo
  | cons triangleNo rest ih =>
    intro g g1 h
    simp only [localSolverLoop] at h
    have hstep : ∀ g2, (localSolverStep sin asin pi vertexC threadNo g triangleNo).state? =
        some g2 → g.SameButTT g2 vertexC threadNo := by
      intro g2 h2
      rcases localSolverStep_state sin asin pi vertexC threadNo g g2 triangleNo h2 with
        rfl | ⟨_, t, _, _, rfl⟩
      · exact Grid2Dui.sameButTT_refl _ vertexC threadNo
      · exact Grid2Dui.sameButTT_setTT g vertexC threadNo t
    cases hs : localSolverStep sin asin pi vertexC threadNo g triangleNo with
    | ok g2 =>
      rw [hs] at h
      simp only [Outcome.andThen] at h
      exact Grid2Dui.sameButTT_trans (hstep g2 (by rw [hs]; rfl)) (ih g2 g1 h)
    | thrown g2 =>
      rw [hs] at h
      simp only [Outcome.andThen, Outcome.state?] at h
      cases h
      exact hstep g1 (by rw [hs]; rfl)
    | aborted =>
      rw [hs] at h
      simp [Outcome.andThen, Outcome.state?] at h
    | undefined =>
      rw [hs] at h
      simp [Outcome.andThen, Outcome.state?] at h

/-- C38. Frame of `localSolver`: the grid observed after a call
`localSolver(C, threadNo)`, on a normal return and after the exception of the
registry lookup alike, is the grid before the call up to the traveltime of C
for that thread: the cells, the triangles and the registry are the same, and
every node keeps its coordinates, its slowness, its owners and all its
traveltimes other than that of C for `threadNo`. -/
theorem localSolver_frame (sin asin : α → α) (pi : α) (g g1 : Grid2Dui α)
    (vertexC threadNo : Nat)
    (h : (localSolver sin asin pi g vertexC threadNo).state? = some g1) :
    g.SameButTT g1 vertexC threadNo := by
  unfold localSolver at h
  split at h
  · simp [Outcome.state?] at h
  · rename_i nodeC hC
    exact localSolverLoop_frame sin asin pi vertexC threadNo nodeC.owners g g1 h

end Frame

section FrameWitness

theorem localSolver_frame_witness :
    (localSolver Real.sin Real.arcsin Real.pi
      (oneTriangle (Real.arccos (4 / 5)) (Real.arccos 0) (Real.arccos (3 / 5)) 0 10 100)
      2 0).state? =
      some ((oneTriangle (Real.arccos (4 / 5)) (Real.arccos 0) (Real.arccos (3 / 5))
        0 10 100).setTT 2 0 5) ∧
    (oneTriangle (Real.arccos (4 / 5)) (Real.arccos 0) (Real.arccos (3 / 5))
      0 10 100).SameButTT
      ((oneTriangle (Real.arccos (4 / 5)) (Real.arccos 0) (Real.arccos (3 / 5))
        0 10 100).setTT 2 0 5) 2 0 :=
  ⟨by rw [oneTriangle_edge_run]; rfl,
   localSolver_frame Real.sin Real.arcsin Real.pi _ _ 2 0
      (by rw [oneTriangle_edge_run]; rfl)⟩

end FrameWitness

/-! ## The acceptance test of the wavefront branch -/

section ConeTest

/-- For a non-negative angle the two disjuncts of the acceptance test reduce
to the first one. -/
theorem coneTest_iff_of_nonneg {α : Type} [LinearOrderedField α] (pi : α) (sp : Support α)
    (theta : α) (h0 : 0 ≤ theta) :
    coneTest pi sp theta ↔
      max 0 (sp.alpha - pi / 2) ≤ theta ∧ theta ≤ pi / 2 - sp.beta := by
  unfold coneTest
  dsimp only
  constructor
  · rintro (⟨h1, h2⟩ | ⟨h1, h2⟩)
    · refine ⟨?_, h2⟩
      split_ifs at h1 with h
      · exact max_le h0 (le_trans (le_of_lt (by linarith)) h0)
      · exact max_le h0 h1
    · split_ifs at h2 with h
      · have hz : theta = 0 := le_antisymm h2 h0
        subst hz
        exact ⟨max_le (le_refl _) h1, le_of_lt h⟩
      · have hz : theta = 0 := le_antisymm (le_trans h2 (not_lt.1 h)) h0
        subst hz
        exact ⟨max_le (le_refl _) h1, h2⟩
  · rintro ⟨h1, h2⟩
    left
    refine ⟨?_, h2⟩
    split_ifs with h
    · exact h0
    · exact le_trans (le_max_right _ _) h1

/-- The angle `theta` of the wavefront branch is not negative. -/
theorem theta_nonneg (sp : Support ℝ) (tA tB sC : ℝ) (hle : |tB - tA| ≤ sp.c * sC) :
    0 ≤ Real.arcsin (|tB - tA| / (sp.c * sC)) :=
  Real.arcsin_nonneg.2 (div_nonneg (abs_nonneg _) (le_trans (abs_nonneg _) hle))

/-- C36. The acceptance test of the wavefront branch of `localSolver`, over
the reals. In the branch where it is evaluated (`|tB - tA| <= c*sC`) the test
on `theta = asin(|tB - tA| / (c*sC))` is equivalent to the single condition
`max(0, alpha - pi/2) <= theta <= pi/2 - beta`; the candidate time is the
wavefront value exactly when the guard and this single condition hold, and the
edge-limited value otherwise; and when the traveltimes of A and B are
exchanged the branch taken is the same and the wavefront value is the same. -/
theorem coneTest_single_condition (sp : Support ℝ) (tA tB sC : ℝ) :
    (|tB - tA| ≤ sp.c * sC →
      (coneTest Real.pi sp (Real.arcsin (|tB - tA| / (sp.c * sC))) ↔
        max 0 (sp.alpha - Real.pi / 2) ≤ Real.arcsin (|tB - tA| / (sp.c * sC)) ∧
          Real.arcsin (|tB - tA| / (sp.c * sC)) ≤ Real.pi / 2 - sp.beta)) ∧
    (candidate Real.sin Real.arcsin Real.pi sp tA tB sC =
      if |tB - tA| ≤ sp.c * sC ∧ sp.c * sC ≠ 0 ∧
          max 0 (sp.alpha - Real.pi / 2) ≤ Real.arcsin (|tB - tA| / (sp.c * sC)) ∧
          Real.arcsin (|tB - tA| / (sp.c * sC)) ≤ Real.pi / 2 - sp.beta then
        wavefront Real.sin sp (Real.arcsin (|tB - tA| / (sp.c * sC))) tA tB sC
      else edgeLimited sp tA tB sC) ∧
    ((|tA - tB| ≤ sp.c * sC ∧ sp.c * sC ≠ 0 ∧
        coneTest Real.pi sp (Real.arcsin (|tA - tB| / (sp.c * sC)))) ↔
      (|tB - tA| ≤ sp.c * sC ∧ sp.c * sC ≠ 0 ∧
        coneTest Real.pi sp (Real.arcsin (|tB - tA| / (sp.c * sC))))) ∧
    wavefront Real.sin sp (Real.arcsin (|tA - tB| / (sp.c * sC))) tB tA sC =
      wavefront Real.sin sp (Real.arcsin (|tB - tA| / (sp.c * sC))) tA tB sC := by
  have hiff : |tB - tA| ≤ sp.c * sC →
      (coneTest Real.pi sp (Real.arcsin (|tB - tA| / (sp.c * sC))) ↔
        max 0 (sp.alpha - Real.pi / 2) ≤ Real.arcsin (|tB - tA| / (sp.c * sC)) ∧
          Real.arcsin (|tB - tA| / (sp.c * sC)) ≤ Real.pi / 2 - sp.beta) :=
    fun hle => coneTest_iff_of_nonneg Real.pi sp _ (theta_nonneg sp tA tB sC hle)
  refine ⟨hiff, ?_, ?_, ?_⟩
  · unfold candidate
    dsimp only
    by_cases hle : |tB - tA| ≤ sp.c * sC
    · rw [if_pos hle]
      by_cases hz : sp.c * sC = 0
      · rw [if_pos hz, if_neg (fun h => h.2.1 hz)]
      · rw [if_neg hz]
        by_cases hc : coneTest Real.pi sp (Real.arcsin (|tB - tA| / (sp.c * sC)))
        · rw [if_pos hc, if_pos ⟨hle, hz, (hiff hle).1 hc⟩]
        · rw [if_neg hc, if_neg (fun h => hc ((hiff hle).2 h.2.2))]
    · rw [if_neg hle, if_neg (fun h => hle h.1)]
  · rw [abs_sub_comm tA tB]
  · rw [abs_sub_comm tA tB]
    unfold wavefront
    dsimp only
    ring

end ConeTest

/-! ## The edges recorded by the obtuse-angle pass -/

section RecordedEdges

variable {α : Type} [LinearOrderedField α]

/-- The two shapes of the record built by `unfoldTriangle`: `i2` replaced by
`i3`, or, after the swap, `i1` replaced by `i3`. -/
theorem unfoldTriangle_edges (acos : α → α) (pi : α) (dist : Node α → Node α → α)
    (i1 i2 i3 : Nat) (n0 n1 n2 n3 : Node α) :
    ((unfoldTriangle acos pi dist i1 i2 i3 n0 n1 n2 n3).node1 = i1 ∧
      (unfoldTriangle acos pi dist i1 i2 i3 n0 n1 n2 n3).node2 = i3 ∧
      (unfoldTriangle acos pi dist i1 i2 i3 n0 n1 n2 n3).e.get 0 = dist n1 n3 ∧
      (unfoldTriangle acos pi dist i1 i2 i3 n0 n1 n2 n3).e.get 1 = dist n0 n3 ∧
      (unfoldTriangle acos pi dist i1 i2 i3 n0 n1 n2 n3).e.get 2 = dist n0 n1) ∨
    ((unfoldTriangle acos pi dist i1 i2 i3 n0 n1 n2 n3).node1 = i3 ∧
      (unfoldTriangle acos pi dist i1 i2 i3 n0 n1 n2 n3).node2 = i2 ∧
      (unfoldTriangle acos pi dist i1 i2 i3 n0 n1 n2 n3).e.get 0 = dist n2 n3 ∧
      (unfoldTriangle acos pi dist i1 i2 i3 n0 n1 n2 n3).e.get 1 = dist n0 n2 ∧
      (unfoldTriangle acos pi dist i1 i2 i3 n0 n1 n2 n3).e.get 2 = dist n0 n3) := by
  unfold unfoldTriangle
  split_ifs with h
  · right
    exact ⟨rfl, rfl, rfl, rfl, rfl⟩
  · left
    exact ⟨rfl, rfl, rfl, rfl, rfl⟩

/-- The support that `localSolver` reads from a registry entry `vn` in force
for a triangle obtuse at the update vertex. -/
theorem support_of_registry (pi : α) (g : Grid2Dui α) (gridIndexC triangleNo i0 : Nat)
    (tri : triangleElemAngle α) (vn : virtualNode α)
    (htri : g.triangles[triangleNo]? = some tri) (hi0 : findI0 gridIndexC tri = some i0)
    (hobt : tri.a.get i0 > pi / 2) (hvn : g.virtualNodes.lookup triangleNo = some vn) :
    support pi g gridIndexC triangleNo =
      .found { vertexA := vn.node1, vertexB := vn.node2, c := vn.e.get 0, a := vn.e.get 1,
               b := vn.e.get 2, alpha := vn.a.get 2, beta := vn.a.get 1 } := by
  have hne : g.virtualNodes.isEmpty = false := by
    cases hv : g.virtualNodes with
    | nil => rw [hv] at hvn; simp at hvn
    | cons a l => rfl
  simp only [support, htri, hi0]
  rw [if_pos ⟨hobt, hne⟩]
  simp only [hvn]

/-- C37. Every entry that `processObtuse` writes in the registry is
consistent, in both of its branches. With `v` the node at which the triangle of
the entry is obtuse, `A` the node `node1` and `B` the node `node2` of the
entry: `e[0]` is the distance between `A` and `B` (computed from `A` when `i2`
was replaced, from `B` after the swap), `e[1]` the distance from `v` to `B` and
`e[2]` the distance from `v` to `A`. Hence the support that `localSolver` reads
from the entry, for whatever grid holds it in force for a triangle obtuse at
the update vertex, has `A = node1`, `B = node2`, `a` the distance from `v` to
`B`, `b` the distance from `v` to `A` and `c` the distance between `A` and
`B`. -/
theorem processObtuse_entry_edges (acos : α → α) (pi : α) (dist : Node α → Node α → α)
    (g g1 : Grid2Dui α) (h : processObtuse acos pi dist g = .ok g1) :
    ∃ added, g1.virtualNodes = g.virtualNodes ++ added ∧
      ∀ e ∈ added, ∃ (tri : triangleElemAngle α) (n : Nat) (nv nA nB : Node α),
        g.triangles[e.1]? = some tri ∧ n < 3 ∧ tri.a.get n > pi / 2 ∧
        g.nodes[tri.i.get n]? = some nv ∧
        g.nodes[e.2.node1]? = some nA ∧ g.nodes[e.2.node2]? = some nB ∧
        (e.2.e.get 0 = dist nA nB ∨ e.2.e.get 0 = dist nB nA) ∧
        e.2.e.get 1 = dist nv nB ∧ e.2.e.get 2 = dist nv nA ∧
        ∀ (g2 : Grid2Dui α) (gridIndexC i0 : Nat) (tri2 : triangleElemAngle α),
          g2.triangles[e.1]? = some tri2 → findI0 gridIndexC tri2 = some i0 →
          tri2.a.get i0 > pi / 2 → g2.virtualNodes.lookup e.1 = some e.2 →
          ∃ sp, support pi g2 gridIndexC e.1 = .found sp ∧
            sp.vertexA = e.2.node1 ∧ sp.vertexB = e.2.node2 ∧
            sp.a = dist nv nB ∧ sp.b = dist nv nA ∧
            (sp.c = dist nA nB ∨ sp.c = dist nB nA) := by
  obtain ⟨-, -, added, hadd, hall⟩ := processObtuse_entries acos pi dist g g1 h
  refine ⟨added, hadd, ?_⟩
  intro e he
  obtain ⟨n0, n1, n2, n3, tri, n, otri, htri, hn, hobt, -, h0, h1, h2, h3, he2⟩ := hall e he
  have hsup : ∀ (nA nB : Node α), (e.2.e.get 0 = dist nA nB ∨ e.2.e.get 0 = dist nB nA) →
      e.2.e.get 1 = dist n0 nB → e.2.e.get 2 = dist n0 nA →
      ∀ (g2 : Grid2Dui α) (gridIndexC i0 : Nat) (tri2 : triangleElemAngle α),
        g2.triangles[e.1]? = some tri2 → findI0 gridIndexC tri2 = some i0 →
        tri2.a.get i0 > pi / 2 → g2.virtualNodes.lookup e.1 = some e.2 →
        ∃ sp, support pi g2 gridIndexC e.1 = .found sp ∧
          sp.vertexA = e.2.node1 ∧ sp.vertexB = e.2.node2 ∧
          sp.a = dist n0 nB ∧ sp.b = dist n0 nA ∧
          (sp.c = dist nA nB ∨ sp.c = dist nB nA) := by
    intro nA nB hc ha hb g2 gridIndexC i0 tri2 ht2 hi0 hob2 hvn
    exact ⟨_, support_of_registry pi g2 gridIndexC e.1 i0 tri2 e.2 ht2 hi0 hob2 hvn, rfl, rfl,
      ha, hb, hc⟩
  rcases unfoldTriangle_edges acos pi dist (tri.i.get ((n + 1) % 3)) (tri.i.get ((n + 2) % 3))
      (oppositeNode otri (tri.i.get ((n + 1) % 3)) (tri.i.get ((n + 2) % 3))) n0 n1 n2 n3 with
    ⟨e1, e2, e3, e4, e5⟩ | ⟨e1, e2, e3, e4, e5⟩
  · rw [← he2] at e1 e2 e3 e4 e5
    refine ⟨tri, n, n0, n1, n3, htri, hn, hobt, h0, ?_, ?_, Or.inl e3, e4, e5,
      hsup n1 n3 (Or.inl e3) e4 e5⟩
    · rw [e1]; exact h1
    · rw [e2]; exact h3
  · rw [← he2] at e1 e2 e3 e4 e5
    refine ⟨tri, n, n0, n3, n2, htri, hn, hobt, h0, ?_, ?_, Or.inr e3, e4, e5,
      hsup n3 n2 (Or.inr e3) e4 e5⟩
    · rw [e1]; exact h3
    · rw [e2]; exact h2

end RecordedEdges

section RecordedEdgesWitness

theorem processObtuse_entry_edges_witness :
    ∃ added,
      (insertVirtualNode
        (unfoldMesh 0 (-12) (Real.arccos (11 / 61)) (Real.arccos (10 / Real.sqrt 244))
          (Real.arccos (10 / Real.sqrt 244)) (Real.arccos (-99 / 101))
          (Real.arccos (10 / Real.sqrt 101)) (Real.arccos (10 / Real.sqrt 101))) 1
        (unfoldTriangle Real.arccos Real.pi
          (fun p q => Real.sqrt ((p.x - q.x) ^ 2 + (p.z - q.z) ^ 2)) 0 1 3
          { nodeAt 2 0 1 0 with owners := [1] } { nodeAt 0 (-10) 0 0 with owners := [0, 1] }
          { nodeAt 1 10 0 0 with owners := [0, 1] }
          { nodeAt 3 0 (-12) 0 with y := 0, owners := [0] })).virtualNodes =
        (unfoldMesh 0 (-12) (Real.arccos (11 / 61)) (Real.arccos (10 / Real.sqrt 244))
          (Real.arccos (10 / Real.sqrt 244)) (Real.arccos (-99 / 101))
          (Real.arccos (10 / Real.sqrt 101)) (Real.arccos (10 / Real.sqrt 101))).virtualNodes ++
          added ∧
      ∀ e ∈ added, ∃ (tri : triangleElemAngle ℝ) (n : Nat) (nv nA nB : Node ℝ),
        (unfoldMesh 0 (-12) (Real.arccos (11 / 61)) (Real.arccos (10 / Real.sqrt 244))
          (Real.arccos (10 / Real.sqrt 244)) (Real.arccos (-99 / 101))
          (Real.arccos (10 / Real.sqrt 101))
          (Real.arccos (10 / Real.sqrt 101))).triangles[e.1]? = some tri ∧
        n < 3 ∧ tri.a.get n > Real.pi / 2 ∧
        (unfoldMesh 0 (-12) (Real.arccos (11 / 61)) (Real.arccos (10 / Real.sqrt 244))
          (Real.arccos (10 / Real.sqrt 244)) (Real.arccos (-99 / 101))
          (Real.arccos (10 / Real.sqrt 101))
          (Real.arccos (10 / Real.sqrt 101))).nodes[tri.i.get n]? = some nv ∧
        (unfoldMesh 0 (-12) (Real.arccos (11 / 61)) (Real.arccos (10 / Real.sqrt 244))
          (Real.arccos (10 / Real.sqrt 244)) (Real.arccos (-99 / 101))
          (Real.arccos (10 / Real.sqrt 101))
          (Real.arccos (10 / Real.sqrt 101))).nodes[e.2.node1]? = some nA ∧
        (unfoldMesh 0 (-12) (Real.arccos (11 / 61)) (Real.arccos (10 / Real.sqrt 244))
          (Real.arccos (10 / Real.sqrt 244)) (Real.arccos (-99 / 101))
          (Real.arccos (10 / Real.sqrt 101))
          (Real.arccos (10 / Real.sqrt 101))).nodes[e.2.node2]? = some nB ∧
        (e.2.e.get 0 = Real.sqrt ((nA.x - nB.x) ^ 2 + (nA.z - nB.z) ^ 2) ∨
          e.2.e.get 0 = Real.sqrt ((nB.x - nA.x) ^ 2 + (nB.z - nA.z) ^ 2)) ∧
        e.2.e.get 1 = Real.sqrt ((nv.x - nB.x) ^ 2 + (nv.z - nB.z) ^ 2) ∧
        e.2.e.get 2 = Real.sqrt ((nv.x - nA.x) ^ 2 + (nv.z - nA.z) ^ 2) := by
  obtain ⟨added, hadd, hall⟩ := processObtuse_entry_edges Real.arccos Real.pi
    (fun p q => Real.sqrt ((p.x - q.x) ^ 2 + (p.z - q.z) ^ 2)) _ _
    (unfoldMesh_processObtuse Real.arccos Real.pi _ 0 (-12) _ _ _ _ _ _
      unfoldMesh_angles.2.2.2.2.1 unfoldMesh_angles.2.2.2.2.2 unfoldMesh_angles.2.2.2.2.2
      unfoldMesh_angles.1 unfoldMesh_angles.2.1 unfoldMesh_angles.2.1)
  refine ⟨added, hadd, ?_⟩
  intro e he
  obtain ⟨tri, n, nv, nA, nB, h1, h2, h3, h4, h5, h6, h7, h8, h9, -⟩ := hall e he
  exact ⟨tri, n, nv, nA, nB, h1, h2, h3, h4, h5, h6, h7, h8, h9⟩

end RecordedEdgesWitness

/-! ## Sources that are on no node -/

section OffNode

variable {α : Type} [LinearOrderedField α]

/-- With a non-zero source radius and a number of sources other than one, the
iteration of `initBand` for a source found on no node returns the state it was
given. -/
theorem initSource_off_node (g : Grid3Ducfm α) (numTx : Nat) (p : sxyz α) (t0n : Option α)
    (s : FMState α) (hr : g.source_radius ≠ 0) (hn : numTx ≠ 1)
    (hp : findNode g s.tt.length p = none) : initSource g numTx p t0n s = .ok s := by
  unfold initSource
  rw [hp]
  simp only [seedInCell]
  rw [if_neg hr, if_neg hn]

theorem initBandLoop_off_node (g : Grid3Ducfm α) (numTx : Nat) (t0 : List α) (s : FMState α)
    (hr : g.source_radius ≠ 0) (hn : numTx ≠ 1) :
    ∀ (Tx : List (sxyz α)) (n : Nat), (∀ p ∈ Tx, findNode g s.tt.length p = none) →
      initBandLoop g numTx t0 n Tx s = .ok s := by
  intro Tx
  induction Tx with
  | nil =>
    intro n _
    rfl
  | cons p rest ih =>
    intro n hall
    simp only [initBandLoop]
    rw [initSource_off_node g numTx p _ s hr hn (hall p (List.mem_cons_self _ _))]
    simp only [Outcome.andThen]
    exact ih (n + 1) (fun q hq => hall q (List.mem_cons_of_mem _ hq))

theorem propagate_empty_band (g : Grid3Ducfm α) (fuel : Nat) (s : FMState α)
    (hb : s.narrow_band = []) : propagate g fuel s = some (.ok s) := by
  cases fuel with
  | zero => simp [propagate, hb]
  | succ k => simp [propagate, hb]

/-- C39. In `initBand` with a non-zero source radius and more than one Tx, the
iteration for a Tx found on no node returns the state it was given: no
traveltime is changed, no node is pushed and no flag is set. Consequently, when
no Tx is found on a node, `initBand` returns the state built by `raytrace`
after the reinitialisation, `propagate` returns it at once, and the whole run
ends with an empty band, no flag set, and the reinitialised traveltime at every
node. -/
theorem initBand_multi_off_node (g : Grid3Ducfm α) (Tx : List (sxyz α)) (t0 : List α)
    (nodes : List (Nat → α)) (threadNo : Nat) (hr : g.source_radius ≠ 0)
    (hn : 1 < Tx.length) :
    (∀ (p : sxyz α) (t0n : Option α) (s : FMState α), findNode g s.tt.length p = none →
      initSource g Tx.length p t0n s = .ok s) ∧
    ((∀ p ∈ Tx, findNode g nodes.length p = none) →
      initBand g Tx t0 (freshState (reinit g nodes threadNo) threadNo) =
        .ok (freshState (reinit g nodes threadNo) threadNo) ∧
      (∀ fuel, propagate g fuel (freshState (reinit g nodes threadNo) threadNo) =
        some (.ok (freshState (reinit g nodes threadNo) threadNo))) ∧
      march g Tx t0 nodes threadNo = .ok (freshState (reinit g nodes threadNo) threadNo) ∧
      (freshState (reinit g nodes threadNo) threadNo).narrow_band = [] ∧
      (∀ n, (freshState (reinit g nodes threadNo) threadNo).inBand n = false ∧
        (freshState (reinit g nodes threadNo) threadNo).frozen n = false) ∧
      ∀ n, n < nodes.length →
        (freshState (reinit g nodes threadNo) threadNo).tt[n]? = some g.ttReinit) := by
  have hne : Tx.length ≠ 1 := by omega
  refine ⟨fun p t0n s hp => initSource_off_node g Tx.length p t0n s hr hne hp, ?_⟩
  intro hall
  have hlen : (freshState (reinit g nodes threadNo) threadNo).tt.length = nodes.length := by
    simp [freshState, threadTT, reinit]
  have hinit : initBand g Tx t0 (freshState (reinit g nodes threadNo) threadNo) =
      .ok (freshState (reinit g nodes threadNo) threadNo) := by
    unfold initBand
    exact initBandLoop_off_node g Tx.length t0 _ hr hne Tx 0
      (fun p hp => by rw [hlen]; exact hall p hp)
  have hprop : ∀ fuel, propagate g fuel (freshState (reinit g nodes threadNo) threadNo) =
      some (.ok (freshState (reinit g nodes threadNo) threadNo)) :=
    fun fuel => propagate_empty_band g fuel _ rfl
  refine ⟨hinit, hprop, ?_, rfl, fun _ => ⟨rfl, rfl⟩, ?_⟩
  · unfold march
    rw [hinit]
    simp only [Outcome.andThen]
    rw [hprop]
  · intro n hlt
    simp [freshState, threadTT, reinit, hlt]

end OffNode

section OffNodeExamples

/-- The two sources of the example are on no node of the tetrahedron. -/
theorem sources_off_node :
    ∀ p ∈ [srcA, srcB], findNode radiusMesh fourNodes.length p = none := by
  intro p hp
  simp only [List.mem_cons, List.mem_singleton, List.not_mem_nil, or_false] at hp
  rcases hp with rfl | rfl <;>
    simp [findNode, radiusMesh, tetMesh, fourNodes, tetNode, srcA, srcB, List.range,
      List.range.loop]

theorem initBand_multi_off_node_witness :
    march radiusMesh [srcA, srcB] [0, 0] fourNodes 0 =
        .ok (freshState (reinit radiusMesh fourNodes 0) 0) ∧
      (freshState (reinit radiusMesh fourNodes 0) 0).narrow_band = [] ∧
      (freshState (reinit radiusMesh fourNodes 0) 0).tt = [1000, 1000, 1000, 1000] :=
  ⟨((initBand_multi_off_node radiusMesh [srcA, srcB] [0, 0] fourNodes 0
      (by norm_num [radiusMesh]) (by simp)).2 sources_off_node).2.2.1,
    rfl, by simp [freshState, threadTT, reinit, fourNodes, radiusMesh, tetMesh]⟩

set_option maxRecDepth 100000 in
set_option maxHeartbeats 4000000 in
/-- The seeding of the example tetrahedron, source radius 0, from the source
`srcA` alone and from `srcA` followed by `srcB`, both inside the cell and on no
node, with time 0: the traveltimes left at the four nodes. -/
theorem tetMesh_seed_two_sources :
    (initBand tetMesh [srcA] [0] (freshState (reinit tetMesh fourNodes 0) 0)).ok?.map
        (fun s => s.tt) = some [13, 13, 14, 14] ∧
    (initBand tetMesh [srcA, srcB] [0, 0] (freshState (reinit tetMesh fourNodes 0) 0)).ok?.map
        (fun s => (s.tt, [s.inBand 0, s.inBand 1, s.inBand 2, s.inBand 3],
          [s.frozen 0, s.frozen 1, s.frozen 2, s.frozen 3])) =
      some ([14, 14, 13, 13], [true, true, true, true], [true, true, true, true]) := by
  constructor <;>
  norm_num [initBand, initBandLoop, initSource, findNode, tetMesh, tetNode, fourNodes,
    srcA, srcB, tetDistance, seedInCell, seedCellNode,
    freshState, threadTT, seedNode, Outcome.andThen, FMState.push, FMState.markSeed,
    List.range, List.range.loop, Outcome.ok?, siftPushHeap, siftUp, CompareNodePtr, reinit,
    Outcome.forEach, Function.update]

/-- C31, at the failing input. One tetrahedron, source radius 0, two sources
inside the cell and on no node, both with time 0. After the first source the
nodes hold 13, 13, 14, 14. The second source is at distances 14, 14, 13, 13:
`initBand` returns with every node in the band and frozen, and with the
traveltimes 14, 14, 13, 13. At nodes 0 and 1 the traveltime has increased from
13 to 14; the least of the previous time and the new candidate is 13. -/
theorem initBand_in_cell_overwrites :
    ∃ s1 s2,
      initBand tetMesh [srcA] [0] (freshState (reinit tetMesh fourNodes 0) 0) = .ok s1 ∧
      s1.tt = [13, 13, 14, 14] ∧
      initBand tetMesh [srcA, srcB] [0, 0] (freshState (reinit tetMesh fourNodes 0) 0) =
        .ok s2 ∧
      s2.tt = [14, 14, 13, 13] ∧
      (∀ n, n < 4 → s2.inBand n = true ∧ s2.frozen n = true) ∧
      tetMesh.computeDtPt 0 srcB (tetMesh.getCellNo srcB) = 14 ∧
      s2.tt[0]? ≠ some (min 13 (0 + tetMesh.computeDtPt 0 srcB (tetMesh.getCellNo srcB))) := by
  obtain ⟨h1, h2⟩ := tetMesh_seed_two_sources
  obtain ⟨s1, hs1, ht1⟩ := Outcome.ok_of_map_ok? h1
  obtain ⟨s2, hs2, ht2⟩ := Outcome.ok_of_map_ok? h2
  simp only [Prod.mk.injEq, List.cons.injEq, and_true] at ht2
  obtain ⟨ht, ⟨b0, b1, b2, b3⟩, ⟨f0, f1, f2, f3⟩⟩ := ht2
  refine ⟨s1, s2, hs1, ht1, hs2, ht, ?_, ?_, ?_⟩
  · intro n hn
    interval_cases n
    · exact ⟨b0, f0⟩
    · exact ⟨b1, f1⟩
    · exact ⟨b2, f2⟩
    · exact ⟨b3, f3⟩
  · norm_num [tetMesh, tetDistance, srcA, srcB]
  · rw [ht]
    norm_num [tetMesh, tetDistance, srcA, srcB]

end OffNodeExamples

/-! ## The neighbourhood handed to the high-order gradient -/

section SmallStar

/-- On the mesh of one triangle, with the assertion of `Grad2D_ho::ls_grad`
compiled in, the gradient of cell 0 is not computed: the call aborts. -/
theorem rightTriangle_gradient_aborts : cellGradient debugTrace rightTriangle 0 0 = .aborted := by
  simp [cellGradient, getNeighborNodes, insertStar, insertOwnersNodes, insertCellNodes,
    rightTriangle, nodeAt, ls_grad, debugTrace, plainTrace, List.insert, setNodes, List.range,
    List.range.loop]

/-- C34, at the failing input. The mesh of one triangle with nodes (0,0),
(2,0), (0,2): the triangle is listed in the owner lists of its three nodes.
The set that `getNeighborNodes` builds for cell 0 holds the three nodes of the
triangle and no other, so `Grad2D_ho::ls_grad` is called with 3 nodes: with its
assertion `nodes.size() >= 5` compiled in the call aborts, and so does
`getRaypath_ho` for a receiver inside the triangle. -/
theorem getNeighborNodes_small_star :
    (∀ tri ∈ rightTriangle.triangles, ∀ k, k < 3 →
      ∃ nd, rightTriangle.nodes[tri.i.get k]? = some nd ∧ 0 ∈ nd.owners) ∧
    (∃ nnodes, getNeighborNodes rightTriangle 0 [] = some nnodes ∧ nnodes.Nodup ∧
      nnodes.length = 3 ∧ (setNodes rightTriangle nnodes).length = 3) ∧
    cellGradient debugTrace rightTriangle 0 0 = .aborted ∧
    getRaypath_ho plainOps debugTrace 32 rightTriangle [⟨0, 0⟩] ⟨1 / 2, 1 / 2⟩ [] 0 2 =
      some .aborted := by
  refine ⟨?_, ?_, rightTriangle_gradient_aborts, ?_⟩
  · intro tri htri k hk
    simp only [rightTriangle, List.mem_singleton] at htri
    subst htri
    interval_cases k <;> simp [rightTriangle, nodeAt, Arr3.get]
  · refine ⟨[2, 1, 0], ?_, by decide, rfl, ?_⟩
    · simp [getNeighborNodes, insertStar, insertOwnersNodes, insertCellNodes, rightTriangle,
        nodeAt, List.insert]
    · simp [setNodes, rightTriangle, List.range, List.range.loop]
  · have hg := rightTriangle_gradient_aborts
    have hcell : getCellNo 32 plainOps rightTriangle (⟨1 / 2, 1 / 2⟩ : sxz ℚ) = some 0 := by
      norm_num [getCellNo, getCellNoLoop, plainOps, sxzOps, insideTriangle, Grid2Dui.corners,
        rightTriangle, nodeAt, Arr3.get, insideCorners, baryA, baryB, det, cornerRel, cornerV0]
    have hstart : traceStart plainOps 32 rightTriangle (⟨1 / 2, 1 / 2⟩ : sxz ℚ) [] =
        some { r_data := [⟨1 / 2, 1 / 2⟩], curr_pt := ⟨1 / 2, 1 / 2⟩, onNode := false,
               nodeNo := none, cellNo := some 0, onEdge := false, edgeNodes := none,
               reachedTx := false } := by
      have hnone : rightTriangle.nodes.findIdx?
          (fun nd => plainOps.nodeEq nd (⟨1 / 2, 1 / 2⟩ : sxz ℚ)) = none := by
        norm_num [rightTriangle, plainOps, sxzOps, nodeAt, List.findIdx?_cons]
      simp only [traceStart, hnone, hcell, List.nil_append]
    have hplaces : txPlaces plainOps 32 rightTriangle [(⟨0, 0⟩ : sxz ℚ)] =
        some [(⟨0, 0⟩, .onNode 0)] := by
      norm_num [txPlaces, rightTriangle, plainOps, sxzOps, nodeAt, List.findIdx?_cons]
    have hany : List.any [(⟨0, 0⟩ : sxz ℚ)]
        (fun tx => debugTrace.ptEq (⟨1 / 2, 1 / 2⟩ : sxz ℚ) tx) = false := by
      norm_num [debugTrace, plainTrace]
    simp only [getRaypath_ho, hany, Bool.false_eq_true, if_false, hplaces, hstart, traceLoop,
      traceStep, stepInCell, hg]
    simp [Outcome.map, Outcome.andThen]

end SmallStar

/-! ## Gradient of a linear field on a triangle -/

section Gradient2D

variable {α : Type} [LinearOrderedField α]

/-- In the branches `dx1 == 0` and `dz2 == 0` of `Grad2D::grad`, on a triangle
whose nodes are not collinear, the result is the solution of the two
equations. -/
theorem Grad2D.grad_special_exact (n0 n1 n2 : Node α) (nt : Nat)
    (hnd : (n1.x - n0.x) * (n2.z - n0.z) - (n2.x - n0.x) * (n1.z - n0.z) ≠ 0)
    (hb : n1.x - n0.x = 0 ∨ n2.z - n0.z = 0) :
    ∃ g, Grad2D.grad n0 n1 n2 nt = some g ∧
      g.x * (n1.x - n0.x) + g.z * (n1.z - n0.z) = n0.tt nt - n1.tt nt ∧
      g.x * (n2.x - n0.x) + g.z * (n2.z - n0.z) = n0.tt nt - n2.tt nt := by
  unfold Grad2D.grad Grad2D.gradOf
  by_cases h1 : n1.x - n0.x = 0
  · have hz1 : n1.z - n0.z ≠ 0 := by
      intro h
      apply hnd
      rw [h1, h]
      ring
    have hx2 : n2.x - n0.x ≠ 0 := by
      intro h
      apply hnd
      rw [h1, h]
      ring
    rw [if_pos h1, if_neg (by rintro (h | h); exact hz1 h; exact hx2 h)]
    refine ⟨_, rfl, ?_, ?_⟩
    · simp only
      rw [h1]
      field_simp
    · simp only
      field_simp
      ring
  · have h2 : n2.z - n0.z = 0 := by
      rcases hb with h | h
      · exact absurd h h1
      · exact h
    have hz1 : n1.z - n0.z ≠ 0 := by
      intro h
      apply hnd
      rw [h2, h]
      ring
    have hx2 : n2.x - n0.x ≠ 0 := by
      intro h
      apply hnd
      rw [h2, h]
      ring
    rw [if_neg h1, if_pos h2, if_neg (by rintro (h | h); exact hx2 h; exact hz1 h)]
    refine ⟨_, rfl, ?_, ?_⟩
    · simp only
      field_simp
      ring
    · simp only
      rw [h2]
      field_simp

/-- In the third branch of `Grad2D::grad` the first equation holds, and the
second holds exactly when `(dx1*dt2 - dx2*dt1) * dx2 * dz1` is zero: the
quotient for `g.z` is taken by `dx1*dz2` where the solution of the system has
`dx1*dz2 - dx2*dz1`. -/
theorem Grad2D.grad_general (n0 n1 n2 : Node α) (nt : Nat)
    (h1 : n1.x - n0.x ≠ 0) (h2 : n2.z - n0.z ≠ 0) :
    ∃ g, Grad2D.grad n0 n1 n2 nt = some g ∧
      g.x * (n1.x - n0.x) + g.z * (n1.z - n0.z) = n0.tt nt - n1.tt nt ∧
      (g.x * (n2.x - n0.x) + g.z * (n2.z - n0.z) = n0.tt nt - n2.tt nt ↔
        ((n1.x - n0.x) * (n0.tt nt - n2.tt nt) - (n2.x - n0.x) * (n0.tt nt - n1.tt nt)) *
          ((n2.x - n0.x) * (n1.z - n0.z)) = 0) := by
  unfold Grad2D.grad Grad2D.gradOf
  rw [if_neg h1, if_neg h2]
  refine ⟨_, rfl, ?_, ?_⟩
  · simp only
    field_simp
    ring
  · simp only
    have h12 : (n1.x - n0.x) * (n2.z - n0.z) ≠ 0 := mul_ne_zero h1 h2
    have key : ((n0.tt nt - n1.tt nt) - (n1.z - n0.z) *
          (((n1.x - n0.x) * (n0.tt nt - n2.tt nt) - (n2.x - n0.x) * (n0.tt nt - n1.tt nt)) /
            ((n1.x - n0.x) * (n2.z - n0.z)))) / (n1.x - n0.x) * (n2.x - n0.x) +
        ((n1.x - n0.x) * (n0.tt nt - n2.tt nt) - (n2.x - n0.x) * (n0.tt nt - n1.tt nt)) /
            ((n1.x - n0.x) * (n2.z - n0.z)) * (n2.z - n0.z) - (n0.tt nt - n2.tt nt) =
        -(((n1.x - n0.x) * (n0.tt nt - n2.tt nt) - (n2.x - n0.x) * (n0.tt nt - n1.tt nt)) *
          ((n2.x - n0.x) * (n1.z - n0.z))) / ((n1.x - n0.x) * ((n1.x - n0.x) * (n2.z - n0.z))) := by
      field_simp
      ring
    constructor
    · intro h
      have h0 := sub_eq_zero.2 h
      rw [key, div_eq_zero_iff] at h0
      rcases h0 with h0 | h0
      · exact neg_eq_zero.1 h0
      · exact absurd h0 (mul_ne_zero h1 h12)
    · intro h
      apply sub_eq_zero.1
      rw [key, h]
      simp

/-- The residual of the system of `Grad2D::ls_grad`, written out. -/
theorem Grad2D.residual_eq (n0 n1 n2 : Node α) (nt : Nat) (t : α) (y : Fin 2 → α) :
    residual (Grad2D.lsA n0 n1 n2) y (Grad2D.lsB t n0 n1 n2 nt) =
      ((n0.x - (Grad2D.cent n0 n1 n2).x) * y 0 + (n0.z - (Grad2D.cent n0 n1 n2).z) * y 1 -
          (t - n0.tt nt)) ^ 2 +
      ((n1.x - (Grad2D.cent n0 n1 n2).x) * y 0 + (n1.z - (Grad2D.cent n0 n1 n2).z) * y 1 -
          (t - n1.tt nt)) ^ 2 +
      ((n2.x - (Grad2D.cent n0 n1 n2).x) * y 0 + (n2.z - (Grad2D.cent n0 n1 n2).z) * y 1 -
          (t - n2.tt nt)) ^ 2 := by
  simp [residual, Fin.sum_univ_three, Matrix.mulVec, Matrix.dotProduct, Fin.sum_univ_two,
    Grad2D.lsA, Grad2D.lsB]

/-- On a linear field the residual at `y` exceeds the residual at `(-p, -q)`
by the sum of the squares of the components of `A (y - (-p, -q))`: the
constant offset is orthogonal to the centred columns. -/
theorem Grad2D.residual_linear (n0 n1 n2 : Node α) (nt : Nat) (p q r t : α)
    (h0 : n0.tt nt = p * n0.x + q * n0.z + r) (h1 : n1.tt nt = p * n1.x + q * n1.z + r)
    (h2 : n2.tt nt = p * n2.x + q * n2.z + r) (y : Fin 2 → α) :
    residual (Grad2D.lsA n0 n1 n2) y (Grad2D.lsB t n0 n1 n2 nt) =
      residual (Grad2D.lsA n0 n1 n2) ![-p, -q] (Grad2D.lsB t n0 n1 n2 nt) +
      (((n0.x - (Grad2D.cent n0 n1 n2).x) * (y 0 + p) +
          (n0.z - (Grad2D.cent n0 n1 n2).z) * (y 1 + q)) ^ 2 +
        ((n1.x - (Grad2D.cent n0 n1 n2).x) * (y 0 + p) +
          (n1.z - (Grad2D.cent n0 n1 n2).z) * (y 1 + q)) ^ 2 +
        ((n2.x - (Grad2D.cent n0 n1 n2).x) * (y 0 + p) +
          (n2.z - (Grad2D.cent n0 n1 n2).z) * (y 1 + q)) ^ 2) := by
  rw [Grad2D.residual_eq, Grad2D.residual_eq, h0, h1, h2]
  simp [Grad2D.cent]
  ring

/-- On a linear field `(-p, -q)` is a least-squares solution of the system of
`Grad2D::ls_grad`, whatever the time `t` at the centroid. -/
theorem Grad2D.leastSquares_linear (n0 n1 n2 : Node α) (nt : Nat) (p q r t : α)
    (h0 : n0.tt nt = p * n0.x + q * n0.z + r) (h1 : n1.tt nt = p * n1.x + q * n1.z + r)
    (h2 : n2.tt nt = p * n2.x + q * n2.z + r) :
    LeastSquares (Grad2D.lsA n0 n1 n2) (Grad2D.lsB t n0 n1 n2 nt) ![-p, -q] := by
  intro y
  rw [Grad2D.residual_linear n0 n1 n2 nt p q r t h0 h1 h2 y]
  have := add_nonneg (add_nonneg
    (sq_nonneg ((n0.x - (Grad2D.cent n0 n1 n2).x) * (y 0 + p) +
      (n0.z - (Grad2D.cent n0 n1 n2).z) * (y 1 + q)))
    (sq_nonneg ((n1.x - (Grad2D.cent n0 n1 n2).x) * (y 0 + p) +
      (n1.z - (Grad2D.cent n0 n1 n2).z) * (y 1 + q))))
    (sq_nonneg ((n2.x - (Grad2D.cent n0 n1 n2).x) * (y 0 + p) +
      (n2.z - (Grad2D.cent n0 n1 n2).z) * (y 1 + q)))
  linarith

/-- On a linear field over a triangle whose nodes are not collinear, every
least-squares solution of the system of `Grad2D::ls_grad` is `(-p, -q)`,
whatever the time `t` at the centroid. -/
theorem Grad2D.leastSquares_unique (n0 n1 n2 : Node α) (nt : Nat) (p q r t : α)
    (hnd : (n1.x - n0.x) * (n2.z - n0.z) - (n2.x - n0.x) * (n1.z - n0.z) ≠ 0)
    (h0 : n0.tt nt = p * n0.x + q * n0.z + r) (h1 : n1.tt nt = p * n1.x + q * n1.z + r)
    (h2 : n2.tt nt = p * n2.x + q * n2.z + r) (x : Fin 2 → α)
    (hx : LeastSquares (Grad2D.lsA n0 n1 n2) (Grad2D.lsB t n0 n1 n2 nt) x) :
    x 0 = -p ∧ x 1 = -q := by
  have hle := hx ![-p, -q]
  rw [Grad2D.residual_linear n0 n1 n2 nt p q r t h0 h1 h2 x] at hle
  set e0 := (n0.x - (Grad2D.cent n0 n1 n2).x) * (x 0 + p) +
    (n0.z - (Grad2D.cent n0 n1 n2).z) * (x 1 + q) with he0
  set e1 := (n1.x - (Grad2D.cent n0 n1 n2).x) * (x 0 + p) +
    (n1.z - (Grad2D.cent n0 n1 n2).z) * (x 1 + q) with he1
  set e2 := (n2.x - (Grad2D.cent n0 n1 n2).x) * (x 0 + p) +
    (n2.z - (Grad2D.cent n0 n1 n2).z) * (x 1 + q) with he2
  have s0 := sq_nonneg e0
  have s1 := sq_nonneg e1
  have s2 := sq_nonneg e2
  have z0 : e0 = 0 := pow_eq_zero_iff (two_ne_zero) |>.1 (le_antisymm (by linarith) s0)
  have z1 : e1 = 0 := pow_eq_zero_iff (two_ne_zero) |>.1 (le_antisymm (by linarith) s1)
  have z2 : e2 = 0 := pow_eq_zero_iff (two_ne_zero) |>.1 (le_antisymm (by linarith) s2)
  have d1 : (n1.x - n0.x) * (x 0 + p) + (n1.z - n0.z) * (x 1 + q) = 0 := by
    have : e1 - e0 = 0 := by rw [z0, z1]; ring
    rw [he0, he1] at this
    linear_combination this
  have d2 : (n2.x - n0.x) * (x 0 + p) + (n2.z - n0.z) * (x 1 + q) = 0 := by
    have : e2 - e0 = 0 := by rw [z0, z2]; ring
    rw [he0, he2] at this
    linear_combination this
  have u0 : ((n1.x - n0.x) * (n2.z - n0.z) - (n2.x - n0.x) * (n1.z - n0.z)) * (x 0 + p) = 0 := by
    linear_combination (n2.z - n0.z) * d1 - (n1.z - n0.z) * d2
  have u1 : ((n1.x - n0.x) * (n2.z - n0.z) - (n2.x - n0.x) * (n1.z - n0.z)) * (x 1 + q) = 0 := by
    linear_combination (n1.x - n0.x) * d2 - (n2.x - n0.x) * d1
  have v0 := (mul_eq_zero.1 u0).resolve_left hnd
  have v1 := (mul_eq_zero.1 u1).resolve_left hnd
  exact ⟨by linear_combination v0, by linear_combination v1⟩

/-- No node of a triangle whose nodes are not collinear is at its centroid. -/
theorem Grad2D.dist_sq_pos (n0 n1 n2 : Node α)
    (hnd : (n1.x - n0.x) * (n2.z - n0.z) - (n2.x - n0.x) * (n1.z - n0.z) ≠ 0) :
    0 < (n0.x - (Grad2D.cent n0 n1 n2).x) * (n0.x - (Grad2D.cent n0 n1 n2).x) +
        (n0.z - (Grad2D.cent n0 n1 n2).z) * (n0.z - (Grad2D.cent n0 n1 n2).z) ∧
    0 < (n1.x - (Grad2D.cent n0 n1 n2).x) * (n1.x - (Grad2D.cent n0 n1 n2).x) +
        (n1.z - (Grad2D.cent n0 n1 n2).z) * (n1.z - (Grad2D.cent n0 n1 n2).z) ∧
    0 < (n2.x - (Grad2D.cent n0 n1 n2).x) * (n2.x - (Grad2D.cent n0 n1 n2).x) +
        (n2.z - (Grad2D.cent n0 n1 n2).z) * (n2.z - (Grad2D.cent n0 n1 n2).z) := by
  have aux : ∀ a b : α, ¬ (a = 0 ∧ b = 0) → 0 < a * a + b * b := by
    intro a b hab
    rcases lt_or_eq_of_le (add_nonneg (mul_self_nonneg a) (mul_self_nonneg b)) with h | h
    · exact h
    · exfalso
      apply hab
      have ha : a * a = 0 := by linarith [mul_self_nonneg a, mul_self_nonneg b]
      have hb : b * b = 0 := by linarith [mul_self_nonneg a, mul_self_nonneg b]
      exact ⟨mul_self_eq_zero.1 ha, mul_self_eq_zero.1 hb⟩
  refine ⟨aux _ _ ?_, aux _ _ ?_, aux _ _ ?_⟩
  · rintro ⟨hA, hB⟩
    apply hnd
    simp only [Grad2D.cent] at hA hB
    linear_combination (-3 * (n2.z - n0.z)) * hA + (3 * (n2.x - n0.x)) * hB
  · rintro ⟨hA, hB⟩
    apply hnd
    simp only [Grad2D.cent] at hA hB
    linear_combination (3 * (n1.z - n0.z)) * hA - (3 * (n1.x - n0.x)) * hB
  · rintro ⟨hA, hB⟩
    apply hnd
    simp only [Grad2D.cent] at hA hB
    linear_combination (-3 * (n2.z - n0.z)) * hA + (3 * (n2.x - n0.x)) * hB

/-- The time at the centroid of a triangle whose nodes are not collinear is
finite, for a square root that is positive on positive numbers. -/
theorem Grad2D.centTime_some (sqrt : α → α) (n0 n1 n2 : Node α) (nt : Nat)
    (hsqrt : ∀ v, 0 < v → 0 < sqrt v)
    (hnd : (n1.x - n0.x) * (n2.z - n0.z) - (n2.x - n0.x) * (n1.z - n0.z) ≠ 0) :
    ∃ t, Grad2D.centTime sqrt n0 n1 n2 nt = some t := by
  obtain ⟨p0, p1, p2⟩ := Grad2D.dist_sq_pos n0 n1 n2 hnd
  have q0 : 0 < Grad2D.dist sqrt (Grad2D.cent n0 n1 n2) n0 := hsqrt _ p0
  have q1 : 0 < Grad2D.dist sqrt (Grad2D.cent n0 n1 n2) n1 := hsqrt _ p1
  have q2 : 0 < Grad2D.dist sqrt (Grad2D.cent n0 n1 n2) n2 := hsqrt _ p2
  have w0 : 0 < 1 / Grad2D.dist sqrt (Grad2D.cent n0 n1 n2) n0 := one_div_pos.2 q0
  have w1 : 0 < 1 / Grad2D.dist sqrt (Grad2D.cent n0 n1 n2) n1 := one_div_pos.2 q1
  have w2 : 0 < 1 / Grad2D.dist sqrt (Grad2D.cent n0 n1 n2) n2 := one_div_pos.2 q2
  unfold Grad2D.centTime
  rw [if_neg]
  · exact ⟨_, rfl⟩
  · rintro (h | h | h | h)
    · exact absurd h (ne_of_gt q0)
    · exact absurd h (ne_of_gt q1)
    · exact absurd h (ne_of_gt q2)
    · linarith

/-- C40. `Grad2D::ls_grad` is exact on linear fields. For a triangle whose
nodes are not collinear and traveltimes `T = p*x + q*z + r` at its nodes, with
a square root that is positive on positive numbers and a solver that returns a
least-squares solution of the system of the call, the function returns
`(-p, -q)`; and for every value `t` of the time at the centroid, every
least-squares solution of the system built with `t` is `(-p, -q)`. -/
theorem Grad2D_ls_grad_linear_exact (sqrt : α → α)
    (solve : Matrix (Fin 3) (Fin 2) α → (Fin 3 → α) → (Fin 2 → α))
    (n0 n1 n2 : Node α) (nt : Nat) (p q r : α)
    (hsqrt : ∀ v, 0 < v → 0 < sqrt v)
    (hnd : (n1.x - n0.x) * (n2.z - n0.z) - (n2.x - n0.x) * (n1.z - n0.z) ≠ 0)
    (h0 : n0.tt nt = p * n0.x + q * n0.z + r) (h1 : n1.tt nt = p * n1.x + q * n1.z + r)
    (h2 : n2.tt nt = p * n2.x + q * n2.z + r)
    (hsolve : ∀ t, Grad2D.centTime sqrt n0 n1 n2 nt = some t →
      LeastSquares (Grad2D.lsA n0 n1 n2) (Grad2D.lsB t n0 n1 n2 nt)
        (solve (Grad2D.lsA n0 n1 n2) (Grad2D.lsB t n0 n1 n2 nt))) :
    Grad2D.ls_grad sqrt solve n0 n1 n2 nt = some ⟨-p, -q⟩ ∧
    ∀ (t : α) (x : Fin 2 → α),
      LeastSquares (Grad2D.lsA n0 n1 n2) (Grad2D.lsB t n0 n1 n2 nt) x → x 0 = -p ∧ x 1 = -q := by
  refine ⟨?_, fun t x hx => Grad2D.leastSquares_unique n0 n1 n2 nt p q r t hnd h0 h1 h2 x hx⟩
  obtain ⟨t, ht⟩ := Grad2D.centTime_some sqrt n0 n1 n2 nt hsqrt hnd
  obtain ⟨e0, e1⟩ := Grad2D.leastSquares_unique n0 n1 n2 nt p q r t hnd h0 h1 h2 _ (hsolve t ht)
  unfold Grad2D.ls_grad
  rw [ht]
  simp only [e0, e1]

end Gradient2D

section Gradient2DExamples

theorem Grad2D_ls_grad_linear_exact_witness :
    Grad2D.ls_grad (fun v => v) (fun _ _ => ![-1, -2]) (nodeAt 0 0 0 3) (nodeAt 1 3 0 6)
      (nodeAt 2 0 3 (9 : ℚ)) 0 = some ⟨-1, -2⟩ :=
  (Grad2D_ls_grad_linear_exact (fun v => v) (fun _ _ => ![-1, -2]) (nodeAt 0 0 0 3)
    (nodeAt 1 3 0 6) (nodeAt 2 0 3 (9 : ℚ)) 0 1 2 3 (fun _ h => h)
    (by norm_num [nodeAt]) (by norm_num [nodeAt]) (by norm_num [nodeAt]) (by norm_num [nodeAt])
    (fun t _ => Grad2D.leastSquares_linear _ _ _ 0 1 2 3 t (by norm_num [nodeAt])
      (by norm_num [nodeAt]) (by norm_num [nodeAt]))).1

/-- C32, at the failing input. The triangle with nodes (0,0), (1,1), (1,2)
and the traveltimes 0, 1, 2 of the field `T = z`: the nodes are not collinear,
`dx1 = 1` and `dz2 = 2` are not zero, so the third branch of `Grad2D::grad` is
taken. It returns `(-1/2, -1/2)`, which satisfies the equation of `n1` but not
the equation of `n2` (`-3/2` against `T(n0) - T(n2) = -2`); the solution of the
system is `(0, -1)`. -/
theorem Grad2D_grad_general_branch :
    ((nodeAt 1 1 1 (1 : ℚ)).x - (nodeAt 0 0 0 (0 : ℚ)).x) *
        ((nodeAt 2 1 2 (2 : ℚ)).z - (nodeAt 0 0 0 (0 : ℚ)).z) -
      ((nodeAt 2 1 2 (2 : ℚ)).x - (nodeAt 0 0 0 (0 : ℚ)).x) *
        ((nodeAt 1 1 1 (1 : ℚ)).z - (nodeAt 0 0 0 (0 : ℚ)).z) ≠ 0 ∧
    Grad2D.grad (nodeAt 0 0 0 0) (nodeAt 1 1 1 1) (nodeAt 2 1 2 (2 : ℚ)) 0 =
      some ⟨-1 / 2, -1 / 2⟩ ∧
    (-1 / 2 : ℚ) * (1 - 0) + (-1 / 2) * (1 - 0) = 0 - 1 ∧
    (-1 / 2 : ℚ) * (1 - 0) + (-1 / 2) * (2 - 0) ≠ 0 - 2 ∧
    ((0 : ℚ) * (1 - 0) + (-1) * (1 - 0) = 0 - 1 ∧ (0 : ℚ) * (1 - 0) + (-1) * (2 - 0) = 0 - 2) := by
  refine ⟨by norm_num [nodeAt], ?_, by norm_num, by norm_num, by norm_num, by norm_num⟩
  norm_num [Grad2D.grad, Grad2D.gradOf, nodeAt]

end Gradient2DExamples

/-! ## Gradient on a tetrahedron -/

section Gradient3D

variable {α : Type} [LinearOrderedField α]

theorem Grad3D.det_ABM_A (n0 n1 n2 n3 : Node α) :
    (Grad3D.ABM_A n0 n1 n2 n3).det = tetVolume6 n0 n1 n2 n3 := by
  rw [Matrix.det_fin_three]
  simp [Grad3D.ABM_A, tetVolume6]
  ring

theorem Grad3D.isUnit_det_ABM_A (n0 n1 n2 n3 : Node α) (hnd : tetVolume6 n0 n1 n2 n3 ≠ 0) :
    IsUnit (Grad3D.ABM_A n0 n1 n2 n3).det := by
  rw [Grad3D.det_ABM_A]
  exact isUnit_iff_ne_zero.2 hnd

/-- The system of `Grad3D::ABM_grad` on a tetrahedron of non-zero volume has
at most one solution. -/
theorem Grad3D.ABM_A_injective (n0 n1 n2 n3 : Node α) (hnd : tetVolume6 n0 n1 n2 n3 ≠ 0)
    (y z : Fin 3 → α)
    (h : (Grad3D.ABM_A n0 n1 n2 n3).mulVec y = (Grad3D.ABM_A n0 n1 n2 n3).mulVec z) : y = z := by
  have hu := Grad3D.isUnit_det_ABM_A n0 n1 n2 n3 hnd
  have e : ∀ v : Fin 3 → α, (Grad3D.ABM_A n0 n1 n2 n3)⁻¹.mulVec
      ((Grad3D.ABM_A n0 n1 n2 n3).mulVec v) = v := by
    intro v
    rw [Matrix.mulVec_mulVec, Matrix.nonsing_inv_mul _ hu, Matrix.one_mulVec]
  rw [← e y, ← e z, h]

/-- The equations of the system of `Grad3D::ABM_grad`, written out. -/
theorem Grad3D.ABM_system_iff (n0 n1 n2 n3 : Node α) (nt : Nat) (y : Fin 3 → α) :
    (Grad3D.ABM_A n0 n1 n2 n3).mulVec y = Grad3D.ABM_b n0 n1 n2 n3 nt ↔
      (y 0 * (n1.x - n0.x) + y 1 * (n1.y - n0.y) + y 2 * (n1.z - n0.z) =
          n0.tt nt - n1.tt nt ∧
        y 0 * (n2.x - n0.x) + y 1 * (n2.y - n0.y) + y 2 * (n2.z - n0.z) =
          n0.tt nt - n2.tt nt ∧
        y 0 * (n3.x - n0.x) + y 1 * (n3.y - n0.y) + y 2 * (n3.z - n0.z) =
          n0.tt nt - n3.tt nt) := by
  constructor
  · intro h
    have e0 := congrFun h 0
    have e1 := congrFun h 1
    have e2 := congrFun h 2
    simp [Grad3D.ABM_A, Grad3D.ABM_b, Matrix.mulVec, Matrix.dotProduct,
      Fin.sum_univ_three] at e0 e1 e2
    exact ⟨by linear_combination e0, by linear_combination e1, by linear_combination e2⟩
  · rintro ⟨e0, e1, e2⟩
    funext i
    fin_cases i
    · simp [Grad3D.ABM_A, Grad3D.ABM_b, Matrix.mulVec, Matrix.dotProduct, Fin.sum_univ_three]
      linear_combination e0
    · simp [Grad3D.ABM_A, Grad3D.ABM_b, Matrix.mulVec, Matrix.dotProduct, Fin.sum_univ_three]
      linear_combination e1
    · simp [Grad3D.ABM_A, Grad3D.ABM_b, Matrix.mulVec, Matrix.dotProduct, Fin.sum_univ_three]
      linear_combination e2

/-- The equations of the system of the four-node `Grad3D::ls_grad`, written
out. -/
theorem Grad3D.ls_system_iff (n0 n1 n2 n3 : Node α) (nt : Nat) (y : Fin 4 → α) :
    (Grad3D.lsA n0 n1 n2 n3).mulVec y = Grad3D.lsB n0 n1 n2 n3 nt ↔
      (y 0 * n0.x + y 1 * n0.y + y 2 * n0.z + y 3 = n0.tt nt ∧
        y 0 * n1.x + y 1 * n1.y + y 2 * n1.z + y 3 = n1.tt nt ∧
        y 0 * n2.x + y 1 * n2.y + y 2 * n2.z + y 3 = n2.tt nt ∧
        y 0 * n3.x + y 1 * n3.y + y 2 * n3.z + y 3 = n3.tt nt) := by
  constructor
  · intro h
    have e0 := congrFun h 0
    have e1 := congrFun h 1
    have e2 := congrFun h 2
    have e3 := congrFun h 3
    simp [Grad3D.lsA, Grad3D.lsB, Matrix.mulVec, Matrix.dotProduct,
      Fin.sum_univ_four] at e0 e1 e2 e3
    exact ⟨by linear_combination e0, by linear_combination e1, by linear_combination e2,
      by linear_combination e3⟩
  · rintro ⟨e0, e1, e2, e3⟩
    funext i
    fin_cases i
    · simp [Grad3D.lsA, Grad3D.lsB, Matrix.mulVec, Matrix.dotProduct, Fin.sum_univ_four]
      linear_combination e0
    · simp [Grad3D.lsA, Grad3D.lsB, Matrix.mulVec, Matrix.dotProduct, Fin.sum_univ_four]
      linear_combination e1
    · simp [Grad3D.lsA, Grad3D.lsB, Matrix.mulVec, Matrix.dotProduct, Fin.sum_univ_four]
      linear_combination e2
    · simp [Grad3D.lsA, Grad3D.lsB, Matrix.mulVec, Matrix.dotProduct, Fin.sum_univ_four]
      linear_combination e3

/-- The matrix of the four-node plane fit on a tetrahedron of non-zero volume
has an inverse. -/
theorem Grad3D.isUnit_det_lsA (n0 n1 n2 n3 : Node α) (hnd : tetVolume6 n0 n1 n2 n3 ≠ 0) :
    IsUnit (Grad3D.lsA n0 n1 n2 n3).det := by
  rw [← Matrix.isUnit_iff_isUnit_det, ← Matrix.mulVec_injective_iff_isUnit]
  intro u v huv
  have hw : (Grad3D.lsA n0 n1 n2 n3).mulVec (u - v) = 0 := by
    rw [Matrix.mulVec_sub, huv, sub_self]
  have r0 := congrFun hw 0
  have r1 := congrFun hw 1
  have r2 := congrFun hw 2
  have r3 := congrFun hw 3
  simp [Grad3D.lsA, Matrix.mulVec, Matrix.dotProduct, Fin.sum_univ_four] at r0 r1 r2 r3
  have h3 : (Grad3D.ABM_A n0 n1 n2 n3).mulVec ![u 0 - v 0, u 1 - v 1, u 2 - v 2] =
      (Grad3D.ABM_A n0 n1 n2 n3).mulVec ![0, 0, 0] := by
    funext i
    fin_cases i
    · simp [Grad3D.ABM_A, Matrix.mulVec, Matrix.dotProduct, Fin.sum_univ_three]
      linear_combination r1 - r0
    · simp [Grad3D.ABM_A, Matrix.mulVec, Matrix.dotProduct, Fin.sum_univ_three]
      linear_combination r2 - r0
    · simp [Grad3D.ABM_A, Matrix.mulVec, Matrix.dotProduct, Fin.sum_univ_three]
      linear_combination r3 - r0
  have hz := Grad3D.ABM_A_injective n0 n1 n2 n3 hnd _ _ h3
  have z0 := congrFun hz 0
  have z1 := congrFun hz 1
  have z2 := congrFun hz 2
  simp at z0 z1 z2
  have z3 : u 3 - v 3 = 0 := by
    rw [z0, z1, z2] at r0
    linear_combination r0
  funext i
  fin_cases i
  · exact sub_eq_zero.1 z0
  · exact sub_eq_zero.1 z1
  · exact sub_eq_zero.1 z2
  · exact sub_eq_zero.1 z3

/-- C33. `Grad3D::ABM_grad` on a tetrahedron of non-zero volume, with an
`inverse()` that returns the inverse of an invertible matrix. The returned `g`
satisfies `g . (n_i - n0) = T(n0) - T(n_i)` for `i = 1, 2, 3`; there is a linear
function `a*x + b*y + c*z + d` that takes the traveltimes at the four nodes,
and for every such function `g = (-a, -b, -c)`, the negated gradient of the
interpolant; and the four-node plane fit `Grad3D::ls_grad(n0, n1, n2, n3)`
returns the same vector. -/
theorem ABM_grad_solves_system (inverse3 : Matrix (Fin 3) (Fin 3) α → Matrix (Fin 3) (Fin 3) α)
    (inverse4 : Matrix (Fin 4) (Fin 4) α → Matrix (Fin 4) (Fin 4) α)
    (n0 n1 n2 n3 : Node α) (nt : Nat) (hnd : tetVolume6 n0 n1 n2 n3 ≠ 0)
    (h3 : InverseAt inverse3 (Grad3D.ABM_A n0 n1 n2 n3))
    (h4 : InverseAt inverse4 (Grad3D.lsA n0 n1 n2 n3)) :
    ((Grad3D.ABM_grad inverse3 n0 n1 n2 n3 nt).x * (n1.x - n0.x) +
        (Grad3D.ABM_grad inverse3 n0 n1 n2 n3 nt).y * (n1.y - n0.y) +
        (Grad3D.ABM_grad inverse3 n0 n1 n2 n3 nt).z * (n1.z - n0.z) = n0.tt nt - n1.tt nt ∧
      (Grad3D.ABM_grad inverse3 n0 n1 n2 n3 nt).x * (n2.x - n0.x) +
        (Grad3D.ABM_grad inverse3 n0 n1 n2 n3 nt).y * (n2.y - n0.y) +
        (Grad3D.ABM_grad inverse3 n0 n1 n2 n3 nt).z * (n2.z - n0.z) = n0.tt nt - n2.tt nt ∧
      (Grad3D.ABM_grad inverse3 n0 n1 n2 n3 nt).x * (n3.x - n0.x) +
        (Grad3D.ABM_grad inverse3 n0 n1 n2 n3 nt).y * (n3.y - n0.y) +
        (Grad3D.ABM_grad inverse3 n0 n1 n2 n3 nt).z * (n3.z - n0.z) = n0.tt nt - n3.tt nt) ∧
    (∃ a b c d : α, a * n0.x + b * n0.y + c * n0.z + d = n0.tt nt ∧
      a * n1.x + b * n1.y + c * n1.z + d = n1.tt nt ∧
      a * n2.x + b * n2.y + c * n2.z + d = n2.tt nt ∧
      a * n3.x + b * n3.y + c * n3.z + d = n3.tt nt) ∧
    (∀ a b c d : α, a * n0.x + b * n0.y + c * n0.z + d = n0.tt nt →
      a * n1.x + b * n1.y + c * n1.z + d = n1.tt nt →
      a * n2.x + b * n2.y + c * n2.z + d = n2.tt nt →
      a * n3.x + b * n3.y + c * n3.z + d = n3.tt nt →
      Grad3D.ABM_grad inverse3 n0 n1 n2 n3 nt = ⟨-a, -b, -c⟩) ∧
    Grad3D.ls_grad inverse4 n0 n1 n2 n3 nt = Grad3D.ABM_grad inverse3 n0 n1 n2 n3 nt := by
  have hu3 := Grad3D.isUnit_det_ABM_A n0 n1 n2 n3 hnd
  have hu4 := Grad3D.isUnit_det_lsA n0 n1 n2 n3 hnd
  have hi3 : inverse3 (Grad3D.ABM_A n0 n1 n2 n3) = (Grad3D.ABM_A n0 n1 n2 n3)⁻¹ :=
    h3 _ (Matrix.mul_nonsing_inv _ hu3)
  have hi4 : inverse4 (Grad3D.lsA n0 n1 n2 n3) = (Grad3D.lsA n0 n1 n2 n3)⁻¹ :=
    h4 _ (Matrix.mul_nonsing_inv _ hu4)
  have hs3 : (Grad3D.ABM_A n0 n1 n2 n3).mulVec
      ((inverse3 (Grad3D.ABM_A n0 n1 n2 n3)).mulVec (Grad3D.ABM_b n0 n1 n2 n3 nt)) =
      Grad3D.ABM_b n0 n1 n2 n3 nt := by
    rw [hi3, Matrix.mulVec_mulVec, Matrix.mul_nonsing_inv _ hu3, Matrix.one_mulVec]
  have hs4 : (Grad3D.lsA n0 n1 n2 n3).mulVec
      ((inverse4 (Grad3D.lsA n0 n1 n2 n3)).mulVec (Grad3D.lsB n0 n1 n2 n3 nt)) =
      Grad3D.lsB n0 n1 n2 n3 nt := by
    rw [hi4, Matrix.mulVec_mulVec, Matrix.mul_nonsing_inv _ hu4, Matrix.one_mulVec]
  have hplane : ∀ a b c d : α, a * n0.x + b * n0.y + c * n0.z + d = n0.tt nt →
      a * n1.x + b * n1.y + c * n1.z + d = n1.tt nt →
      a * n2.x + b * n2.y + c * n2.z + d = n2.tt nt →
      a * n3.x + b * n3.y + c * n3.z + d = n3.tt nt →
      Grad3D.ABM_grad inverse3 n0 n1 n2 n3 nt = ⟨-a, -b, -c⟩ := by
    intro a b c d e0 e1 e2 e3
    have hy : (Grad3D.ABM_A n0 n1 n2 n3).mulVec ![-a, -b, -c] = Grad3D.ABM_b n0 n1 n2 n3 nt := by
      rw [Grad3D.ABM_system_iff]
      simp only [Matrix.cons_val_zero, Matrix.cons_val_one, Matrix.head_cons,
        Matrix.cons_val_two, Matrix.tail_cons]
      exact ⟨by linear_combination e0 - e1, by linear_combination e0 - e2,
        by linear_combination e0 - e3⟩
    have hxy := Grad3D.ABM_A_injective n0 n1 n2 n3 hnd _ _ (hs3.trans hy.symm)
    unfold Grad3D.ABM_grad
    rw [hxy]
    simp
  obtain ⟨q0, q1, q2, q3⟩ := (Grad3D.ls_system_iff n0 n1 n2 n3 nt _).1 hs4
  refine ⟨(Grad3D.ABM_system_iff n0 n1 n2 n3 nt _).1 hs3, ⟨_, _, _, _, q0, q1, q2, q3⟩, hplane,
    ?_⟩
  rw [hplane _ _ _ _ q0 q1 q2 q3]
  rfl

end Gradient3D

section Gradient3DExamples

theorem ABM_grad_solves_system_witness :
    Grad3D.ABM_grad (fun A => A⁻¹) (nodeAt3 0 0 0 1) (nodeAt3 1 0 0 2) (nodeAt3 0 1 0 3)
        (nodeAt3 0 0 1 (4 : ℚ)) 0 = ⟨-1, -2, -3⟩ ∧
      Grad3D.ls_grad (fun A => A⁻¹) (nodeAt3 0 0 0 1) (nodeAt3 1 0 0 2) (nodeAt3 0 1 0 3)
        (nodeAt3 0 0 1 (4 : ℚ)) 0 =
      Grad3D.ABM_grad (fun A => A⁻¹) (nodeAt3 0 0 0 1) (nodeAt3 1 0 0 2) (nodeAt3 0 1 0 3)
        (nodeAt3 0 0 1 (4 : ℚ)) 0 :=
  ⟨(ABM_grad_solves_system (fun A => A⁻¹) (fun A => A⁻¹) (nodeAt3 0 0 0 1) (nodeAt3 1 0 0 2)
      (nodeAt3 0 1 0 3) (nodeAt3 0 0 1 (4 : ℚ)) 0 (by norm_num [tetVolume6, nodeAt3])
      (fun _ h => Matrix.inv_eq_right_inv h) (fun _ h => Matrix.inv_eq_right_inv h)).2.2.1
      1 2 3 1 (by norm_num [nodeAt3]) (by norm_num [nodeAt3]) (by norm_num [nodeAt3])
      (by norm_num [nodeAt3]),
   (ABM_grad_solves_system (fun A => A⁻¹) (fun A => A⁻¹) (nodeAt3 0 0 0 1) (nodeAt3 1 0 0 2)
      (nodeAt3 0 1 0 3) (nodeAt3 0 0 1 (4 : ℚ)) 0 (by norm_num [tetVolume6, nodeAt3])
      (fun _ h => Matrix.inv_eq_right_inv h) (fun _ h => Matrix.inv_eq_right_inv h)).2.2.2⟩

end Gradient3DExamples

/-! ## The time at a user-supplied anchor -/

section AnchorTime

variable {α : Type} [LinearOrderedField α]

/-- The first loop of `ls_grad(nodes, nt, nod)` adds to `t` and to `den` the
contributions of the nodes at non-zero distance and counts the others. -/
theorem anchorLoop_eq (sqrt : α → α) (nt : Nat) (nod : sxyz α) :
    ∀ (nodes : List (Node α)) (st : α × α × Nat),
      anchorLoop sqrt nt nod nodes st =
        (st.1 + ((nodes.filter (fun n => decide (anchorDist sqrt nod n ≠ 0))).map
            (fun n => 1 / anchorDist sqrt nod n * n.tt nt)).sum,
          st.2.1 + ((nodes.filter (fun n => decide (anchorDist sqrt nod n ≠ 0))).map
            (fun n => 1 / anchorDist sqrt nod n)).sum,
          st.2.2 + (nodes.filter (fun n => decide (anchorDist sqrt nod n = 0))).length) := by
  intro nodes
  induction nodes with
  | nil =>
    intro st
    simp [anchorLoop]
  | cons n rest ih =>
    intro st
    simp only [anchorLoop]
    by_cases hd : anchorDist sqrt nod n = 0
    · rw [if_pos hd, ih]
      simp [List.filter_cons, hd, add_assoc]
      omega
    · rw [if_neg hd, ih]
      simp [List.filter_cons, hd, add_assoc]

/-- The sum of the weights of a non-empty list of nodes at positive distance
is positive. -/
theorem weights_pos (d : Node α → α) :
    ∀ (l : List (Node α)), l ≠ [] → (∀ n ∈ l, 0 < d n) →
      0 < (l.map (fun n => 1 / d n)).sum := by
  intro l
  induction l with
  | nil => intro h; exact absurd rfl h
  | cons n rest ih =>
    intro _ hpos
    have hn : 0 < 1 / d n := one_div_pos.2 (hpos n (List.mem_cons_self _ _))
    simp only [List.map_cons, List.sum_cons]
    by_cases hr : rest = []
    · subst hr
      simpa using hn
    · have := ih hr (fun m hm => hpos m (List.mem_cons_of_mem _ hm))
      linarith

/-- C35 (amended). The time at a user-supplied anchor in
`Grad3D::ls_grad(nodes, nt, nod)` and `Grad3D_ho::ls_grad(nodes, nt, nod)`. For
a square root that is not negative on non-negative numbers and a set with a
node at non-zero distance from the anchor, the time `t` after the first loop is
the inverse-distance interpolation of the traveltimes over the nodes of the set
at non-zero distance; a node at distance zero is left out of it. Both functions
then return, when their assertion on the number of nodes holds or is compiled
out, the first three components of the solution of the system whose right-hand
side is `t - T` at the nodes at non-zero distance. -/
theorem anchorTime_skips_coincident (sqrt : α → α) (solve : List (List α) → List α → List α)
    (ndebug : Bool) (nodes : List (Node α)) (nt : Nat) (nod : sxyz α)
    (hsqrt : ∀ v, 0 ≤ v → 0 ≤ sqrt v)
    (hex : ∃ n ∈ nodes, anchorDist sqrt nod n ≠ 0) :
    anchorTime sqrt nodes nt nod =
      some (inverseDistanceTime (anchorDist sqrt nod)
        (nodes.filter (fun n => decide (anchorDist sqrt nod n ≠ 0))) nt) ∧
    ((4 ≤ nodes.length ∨ ndebug = true) →
      Grad3D.ls_grad_nod sqrt solve ndebug nodes nt nod =
        .ok ⟨(solve (Grad3D.anchorRows sqrt nodes nod)
              (anchorRhs sqrt (inverseDistanceTime (anchorDist sqrt nod)
                (nodes.filter (fun n => decide (anchorDist sqrt nod n ≠ 0))) nt)
                nodes nt nod)).getD 0 0,
          (solve (Grad3D.anchorRows sqrt nodes nod)
              (anchorRhs sqrt (inverseDistanceTime (anchorDist sqrt nod)
                (nodes.filter (fun n => decide (anchorDist sqrt nod n ≠ 0))) nt)
                nodes nt nod)).getD 1 0,
          (solve (Grad3D.anchorRows sqrt nodes nod)
              (anchorRhs sqrt (inverseDistanceTime (anchorDist sqrt nod)
                (nodes.filter (fun n => decide (anchorDist sqrt nod n ≠ 0))) nt)
                nodes nt nod)).getD 2 0⟩) ∧
    ((9 ≤ nodes.length ∨ ndebug = true) →
      Grad3D_ho.ls_grad_nod sqrt solve ndebug nodes nt nod =
        .ok ⟨(solve (Grad3D_ho.anchorRows sqrt nodes nod)
              (anchorRhs sqrt (inverseDistanceTime (anchorDist sqrt nod)
                (nodes.filter (fun n => decide (anchorDist sqrt nod n ≠ 0))) nt)
                nodes nt nod)).getD 0 0,
          (solve (Grad3D_ho.anchorRows sqrt nodes nod)
              (anchorRhs sqrt (inverseDistanceTime (anchorDist sqrt nod)
                (nodes.filter (fun n => decide (anchorDist sqrt nod n ≠ 0))) nt)
                nodes nt nod)).getD 1 0,
          (solve (Grad3D_ho.anchorRows sqrt nodes nod)
              (anchorRhs sqrt (inverseDistanceTime (anchorDist sqrt nod)
                (nodes.filter (fun n => decide (anchorDist sqrt nod n ≠ 0))) nt)
                nodes nt nod)).getD 2 0⟩) := by
  have hden : 0 < ((nodes.filter (fun n => decide (anchorDist sqrt nod n ≠ 0))).map
      (fun n => 1 / anchorDist sqrt nod n)).sum := by
    apply weights_pos
    · obtain ⟨n, hn, hd⟩ := hex
      intro hnil
      have : n ∈ nodes.filter (fun n => decide (anchorDist sqrt nod n ≠ 0)) :=
        List.mem_filter.2 ⟨hn, by simpa using hd⟩
      rw [hnil] at this
      exact absurd this (List.not_mem_nil _)
    · intro n hn
      have hd : anchorDist sqrt nod n ≠ 0 := by simpa using (List.mem_filter.1 hn).2
      have h0 : 0 ≤ anchorDist sqrt nod n :=
        hsqrt _ (add_nonneg (add_nonneg (mul_self_nonneg _) (mul_self_nonneg _))
          (mul_self_nonneg _))
      exact lt_of_le_of_ne h0 (Ne.symm hd)
  have ht : anchorTime sqrt nodes nt nod =
      some (inverseDistanceTime (anchorDist sqrt nod)
        (nodes.filter (fun n => decide (anchorDist sqrt nod n ≠ 0))) nt) := by
    unfold anchorTime
    rw [anchorLoop_eq]
    simp only [zero_add]
    rw [if_neg (ne_of_gt hden)]
    rfl
  refine ⟨ht, ?_, ?_⟩
  · intro hsize
    unfold Grad3D.ls_grad_nod
    rw [if_neg, ht]
    rintro ⟨h1, h2⟩
    rcases hsize with h | h
    · omega
    · rw [h] at h2
      cases h2
  · intro hsize
    unfold Grad3D_ho.ls_grad_nod
    rw [if_neg, ht]
    rintro ⟨h1, h2⟩
    rcases hsize with h | h
    · omega
    · rw [h] at h2
      cases h2

end AnchorTime

section AnchorTimeExamples

/-- C35, counterexample. Four nodes and the anchor (0,0,0): the node (0,0,0),
on the anchor, has traveltime 5, and the nodes (1,0,0), (0,1,0), (0,0,1), at
distance 1, have traveltime 1 (the square root is exact on the squared
distances 0 and 1). The time at the anchor is 1, not the traveltime 5 of the
node on the anchor, and that node has no row in the system: the right-hand
side is `1 - 1` at the three other nodes. -/
theorem anchorTime_counterexample :
    (∃ n ∈ anchorNodes, anchorDist (fun v => v) ⟨0, 0, 0⟩ n = 0 ∧ n.tt 0 = 5) ∧
    anchorTime (fun v => v) anchorNodes 0 ⟨0, 0, 0⟩ = some 1 ∧
    anchorTime (fun v => v) anchorNodes 0 ⟨0, 0, 0⟩ ≠ some 5 ∧
    Grad3D.anchorRows (fun v => v) anchorNodes ⟨0, 0, 0⟩ = [[1, 0, 0], [0, 1, 0], [0, 0, 1]] ∧
    anchorRhs (fun v => v) 1 anchorNodes 0 ⟨0, 0, 0⟩ = [0, 0, 0] := by
  refine ⟨⟨nodeAt3 0 0 0 5, by simp [anchorNodes], by norm_num [anchorDist, nodeAt3],
    by simp [nodeAt3]⟩, ?_, ?_, ?_, ?_⟩
  · norm_num [anchorTime, anchorLoop, anchorNodes, anchorDist, nodeAt3]
  · norm_num [anchorTime, anchorLoop, anchorNodes, anchorDist, nodeAt3]
  · norm_num [Grad3D.anchorRows, anchorNodes, anchorDist, nodeAt3, List.filter_cons]
  · norm_num [anchorRhs, anchorNodes, anchorDist, nodeAt3, List.filter_cons]

theorem anchorTime_skips_coincident_witness :
    anchorTime (fun v => v) anchorNodes 0 ⟨0, 0, 0⟩ =
      some (inverseDistanceTime (anchorDist (fun v => v) ⟨0, 0, 0⟩)
        (anchorNodes.filter (fun n => decide (anchorDist (fun v => v) ⟨0, 0, 0⟩ n ≠ 0))) 0) :=
  (anchorTime_skips_coincident (fun v => v) (fun _ _ => []) false anchorNodes 0 ⟨0, 0, 0⟩
    (fun _ h => h)
    ⟨nodeAt3 1 0 0 1, by simp [anchorNodes], by norm_num [anchorDist, nodeAt3]⟩).1

end AnchorTimeExamples

/-! ## Source fidelity and in-cell seeding -/

section FidelityExamples

set_option maxRecDepth 100000 in
set_option maxHeartbeats 4000000 in
/-- A source on node 0 with time 1 followed by the source `srcA`, inside the
cell and on no node, with time 0: the run returns with the traveltimes 13, 13,
14, 14 at the four nodes. -/
theorem tetMesh_run_node_then_cell :
    (march tetMesh [tetNode 0, srcA] [1, 0] fourNodes 0).ok?.map (fun s => s.tt) =
      some [13, 13, 14, 14] := by
  norm_num [march, initBand, initBandLoop, initSource, findNode, tetMesh, tetNode, fourNodes,
    srcA, srcB, tetDistance, seedInCell, seedCellNode,
    freshState, threadTT, seedOnNode, seedNode, seedCellNeighbors, relaxSeed, dropCount,
    Outcome.andThen, FMState.push, FMState.markSeed, FMState.markBand, List.range,
    List.range.loop, Outcome.ok?, siftPushHeap, siftUp, CompareNodePtr, reinit, propagate,
    propagateStep, FMState.bound, FMState.farCount, popSource, updateCell, updateNeighbor,
    Outcome.forEach, siftPopHeap, adjustHeap, siftDown, Function.update]

/-- C5, at the failing input. One tetrahedron, source radius 0, the sources
`Tx = [node 0, srcA]` with times `[1, 0]`: `Tx[0]` is found on node 0, no other
source is on a node, and `srcA` lies inside the cell at distance 13 from node 0.
`initBand` followed by `propagate` returns with the traveltime 13 at node 0, not
`t0[0] = 1`: the seeding of the cell of `srcA` has stored `0 + 13` over the
time of the source, where the least of the two is 1. -/
theorem source_fidelity_in_cell_overwrite :
    ∃ s, march tetMesh [tetNode 0, srcA] [1, 0] fourNodes 0 = .ok s ∧
      findNode tetMesh fourNodes.length (tetNode 0) = some 0 ∧
      findNode tetMesh fourNodes.length srcA = none ∧
      ([1, 0] : List ℚ)[0]? = some 1 ∧
      0 + tetMesh.computeDtPt 0 srcA (tetMesh.getCellNo srcA) = 13 ∧
      s.tt[0]? = some 13 ∧ s.tt[0]? ≠ some 1 ∧
      s.tt[0]? ≠ some (min 1 (0 + tetMesh.computeDtPt 0 srcA (tetMesh.getCellNo srcA))) := by
  have hrun := tetMesh_run_node_then_cell
  obtain ⟨s, hs, htt⟩ := Outcome.ok_of_map_ok? hrun
  refine ⟨s, hs, ?_, ?_, rfl, ?_, ?_, ?_, ?_⟩
  · simp [findNode, tetMesh, fourNodes, List.range, List.range.loop]
  · simp [findNode, tetMesh, fourNodes, tetNode, srcA, List.range, List.range.loop]
  · norm_num [tetMesh, tetDistance, srcA]
  · rw [htt]
    rfl
  · rw [htt]
    norm_num
  · rw [htt]
    norm_num [tetMesh, tetDistance, srcA]

end FidelityExamples

/-! ## An obtuse element without an entry in the registry -/

section MissingEntry

variable {α : Type} [LinearOrderedField α]

/-- The support of an update is read from the triangles and from the registry
only. -/
theorem support_congr (pi : α) (g g1 : Grid2Dui α) (gridIndexC triangleNo : Nat)
    (ht : g1.triangles = g.triangles) (hv : g1.virtualNodes = g.virtualNodes) :
    support pi g1 gridIndexC triangleNo = support pi g gridIndexC triangleNo := by
  unfold support
  rw [ht, hv]

omit [LinearOrderedField α] in
/-- A loop whose body keeps an invariant `I`, establishes `Q x` when it runs on
`x` and never destroys a `Q y`: after a normal return `Q x` holds for every `x`
of the list. -/
theorem Outcome.forEach_ok_each {σ β : Type} (I : σ → Prop) (Q : β → σ → Prop)
    (f : β → σ → Outcome σ)
    (hI : ∀ x s s1, I s → f x s = .ok s1 → I s1)
    (hdo : ∀ x s s1, I s → f x s = .ok s1 → Q x s1)
    (hmono : ∀ x y s s1, I s → f y s = .ok s1 → Q x s → Q x s1) :
    ∀ (xs : List β) (s s1 : σ), I s → Outcome.forEach f xs s = .ok s1 →
      I s1 ∧ (∀ x, Q x s → Q x s1) ∧ ∀ x ∈ xs, Q x s1 := by
  intro xs
  induction xs with
  | nil =>
    intro s s1 hs h
    simp only [Outcome.forEach, Outcome.ok.injEq] at h
    subst h
    exact ⟨hs, fun _ hq => hq, fun x hx => absurd hx (List.not_mem_nil _)⟩
  | cons y rest ih =>
    intro s s1 hs h
    simp only [Outcome.forEach] at h
    cases hy : f y s with
    | ok s2 =>
      rw [hy] at h
      simp only [Outcome.andThen] at h
      obtain ⟨h1, h2, h3⟩ := ih s2 s1 (hI y s s2 hs hy) h
      refine ⟨h1, fun x hq => h2 x (hmono x y s s2 hs hy hq), ?_⟩
      intro x hx
      rcases List.mem_cons.1 hx with rfl | hx
      · exact h2 x (hdo x s s2 hs hy)
      · exact h3 x hx
    | thrown s2 => rw [hy] at h; simp [Outcome.andThen] at h
    | aborted => rw [hy] at h; simp [Outcome.andThen] at h
    | undefined => rw [hy] at h; simp [Outcome.andThen] at h

omit [LinearOrderedField α] in
theorem lookup_ne_none_of_mem {β : Type} (k : Nat) (v : β) :
    ∀ l : List (Nat × β), (k, v) ∈ l → l.lookup k ≠ none := by
  intro l
  induction l with
  | nil => intro h; exact absurd h (List.not_mem_nil _)
  | cons e rest ih =>
    intro h
    obtain ⟨k1, v1⟩ := e
    by_cases hk : k = k1
    · subst hk
      simp [List.lookup]
    · have hne : (k == k1) = false := by simpa using hk
      rcases List.mem_cons.1 h with h | h
      · cases h
        exact absurd rfl hk
      · simp only [List.lookup, hne]
        exact ih h

/-- One vertex of the obtuse-angle pass leaves nodes and triangles as they
were and appends to the registry. -/
theorem processVertex_grows (acos : α → α) (pi : α) (dist : Node α → Node α → α)
    (s s1 : Grid2Dui α) (ntri n : Nat) (hn : n < 3)
    (h : processVertex acos pi dist ntri n s = .ok s1) :
    s1.nodes = s.nodes ∧ s1.triangles = s.triangles ∧
      ∃ l, s1.virtualNodes = s.virtualNodes ++ l := by
  obtain ⟨h1, h2, added, h3, -⟩ := processVertex_entries acos pi dist s s s1 ntri n hn
    ⟨rfl, rfl, [], by simp, fun e he => absurd he (List.not_mem_nil _)⟩ h
  exact ⟨h1, h2, added, h3⟩

/-- An obtuse vertex of a triangle that is listed by its nodes gets an entry. -/
theorem processVertex_records (acos : α → α) (pi : α) (dist : Node α → Node α → α)
    (s s1 : Grid2Dui α) (ntri n : Nat) (tri : triangleElemAngle α)
    (htri : s.triangles[ntri]? = some tri) (hobt : tri.a.get n > pi / 2)
    (hown : ∀ k, k < 3 → ∃ nd, s.nodes[tri.i.get k]? = some nd ∧ ntri ∈ nd.owners)
    (h : processVertex acos pi dist ntri n s = .ok s1) :
    ∃ vn, (ntri, vn) ∈ s1.virtualNodes := by
  obtain ⟨n1, hn1, ho1⟩ := hown ((n + 1) % 3) (Nat.mod_lt _ (by norm_num))
  obtain ⟨n2, hn2, ho2⟩ := hown ((n + 2) % 3) (Nat.mod_lt _ (by norm_num))
  simp only [processVertex, htri] at h
  rw [if_pos hobt] at h
  rcases correctVertex_never_skips acos pi dist s tri ntri n n1 n2 hn1 hn2 ho1 ho2 with
    hu | ⟨vn, hv⟩
  · rw [hu] at h
    cases h
  · rw [hv] at h
    simp only [Outcome.ok.injEq] at h
    subst h
    exact ⟨vn, by simp [insertVirtualNode]⟩

/-- After `processObtuse` on a mesh in which every triangle is listed in the
owner lists of its three nodes, every triangle with an obtuse stored angle has
an entry in the registry: the lookup `virtualNodes.at` of `localSolver` finds
it. -/
theorem processObtuse_records_obtuse (acos : α → α) (pi : α) (dist : Node α → Node α → α)
    (g g1 : Grid2Dui α)
    (hown : ∀ (ntri : Nat) (tri : triangleElemAngle α), g.triangles[ntri]? = some tri →
      ∀ k, k < 3 → ∃ nd : Node α, g.nodes[tri.i.get k]? = some nd ∧ ntri ∈ nd.owners)
    (h : processObtuse acos pi dist g = .ok g1) :
    ∀ (ntri : Nat) (tri : triangleElemAngle α) (n : Nat), g.triangles[ntri]? = some tri →
      n < 3 → tri.a.get n > pi / 2 → g1.virtualNodes.lookup ntri ≠ none := by
  have hinner : ∀ (ntri : Nat) (s s1 : Grid2Dui α),
      (s.nodes = g.nodes ∧ s.triangles = g.triangles) →
      Outcome.forEach (processVertex acos pi dist ntri) [0, 1, 2] s = .ok s1 →
      (s1.nodes = g.nodes ∧ s1.triangles = g.triangles) ∧
      (∃ l, s1.virtualNodes = s.virtualNodes ++ l) ∧
      ∀ tri n, g.triangles[ntri]? = some tri → n < 3 → tri.a.get n > pi / 2 →
        ∃ vn, (ntri, vn) ∈ s1.virtualNodes := by
    intro ntri s s1 hs hrun
    have hmem3 : ∀ x ∈ [0, 1, 2], x < 3 := by
      intro x hx
      simp only [List.mem_cons, List.mem_singleton, List.not_mem_nil, or_false] at hx
      omega
    have hgrow : s1.nodes = s.nodes ∧ s1.triangles = s.triangles ∧
        ∃ l, s1.virtualNodes = s.virtualNodes ++ l := by
      refine Outcome.forEach_ok_induction
        (fun t => t.nodes = s.nodes ∧ t.triangles = s.triangles ∧
          ∃ l, t.virtualNodes = s.virtualNodes ++ l)
        (processVertex acos pi dist ntri) [0, 1, 2] ?_ s s1 ⟨rfl, rfl, [], by simp⟩ hrun
      intro x hx t t1 ⟨a1, a2, l, a3⟩ ht
      obtain ⟨b1, b2, l2, b3⟩ := processVertex_grows acos pi dist t t1 ntri x (hmem3 x hx) ht
      exact ⟨b1.trans a1, b2.trans a2, l ++ l2, by rw [b3, a3, List.append_assoc]⟩
    obtain ⟨-, -, heach⟩ := Outcome.forEach_ok_each
      (fun t : Grid2Dui α => t.nodes = g.nodes ∧ t.triangles = g.triangles)
      (fun (n : Nat) (t : Grid2Dui α) => n < 3 → ∀ tri, g.triangles[ntri]? = some tri →
        tri.a.get n > pi / 2 → ∃ vn, (ntri, vn) ∈ t.virtualNodes)
      (processVertex acos pi dist ntri)
      (by
        intro x t t1 ⟨a1, a2⟩ ht
        by_cases hx : x < 3
        · obtain ⟨b1, b2, -⟩ := processVertex_grows acos pi dist t t1 ntri x hx ht
          exact ⟨b1.trans a1, b2.trans a2⟩
        · simp only [processVertex] at ht
          cases htt : t.triangles[ntri]? with
          | none => rw [htt] at ht; cases ht
          | some tri =>
            rw [htt] at ht
            simp only at ht
            have hget : tri.a.get x = tri.a.get 2 := by
              have : ∃ m, x = m + 3 := ⟨x - 3, by omega⟩
              obtain ⟨m, rfl⟩ := this
              rfl
            by_cases hob : tri.a.get x > pi / 2
            · rw [if_pos hob] at ht
              unfold correctVertex at ht
              revert ht
              split
              · split
                · intro ht
                  simp only [Outcome.ok.injEq] at ht
                  subst ht
                  exact ⟨a1, a2⟩
                · split
                  · intro ht; cases ht
                  · split
                    · intro ht
                      simp only [Outcome.ok.injEq] at ht
                      subst ht
                      exact ⟨a1, a2⟩
                    · intro ht; cases ht
              · intro ht; cases ht
            · rw [if_neg hob] at ht
              simp only [Outcome.ok.injEq] at ht
              subst ht
              exact ⟨a1, a2⟩)
      (by
        intro x t t1 ⟨a1, a2⟩ ht _ tri htri hobt
        exact processVertex_records acos pi dist t t1 ntri x tri (by rw [a2]; exact htri) hobt
          (fun k hk => by rw [a1]; exact hown ntri tri htri k hk) ht)
      (by
        intro x y t t1 ⟨a1, a2⟩ ht hq hx tri htri hobt
        obtain ⟨vn, hvn⟩ := hq hx tri htri hobt
        by_cases hy : y < 3
        · obtain ⟨-, -, l, hl⟩ := processVertex_grows acos pi dist t t1 ntri y hy ht
          exact ⟨vn, by rw [hl]; exact List.mem_append_left _ hvn⟩
        · simp only [processVertex] at ht
          cases htt : t.triangles[ntri]? with
          | none => rw [htt] at ht; cases ht
          | some tri2 =>
            rw [htt] at ht
            simp only at ht
            by_cases hob : tri2.a.get y > pi / 2
            · rw [if_pos hob] at ht
              unfold correctVertex at ht
              revert ht
              split
              · split
                · intro ht
                  simp only [Outcome.ok.injEq] at ht
                  subst ht
                  exact ⟨vn, hvn⟩
                · split
                  · intro ht; cases ht
                  · split
                    · intro ht
                      simp only [Outcome.ok.injEq] at ht
                      subst ht
                      exact ⟨vn, by simp [insertVirtualNode, hvn]⟩
                    · intro ht; cases ht
              · intro ht; cases ht
            · rw [if_neg hob] at ht
              simp only [Outcome.ok.injEq] at ht
              subst ht
              exact ⟨vn, hvn⟩)
      [0, 1, 2] s s1 hs hrun
    refine ⟨⟨hgrow.1.trans hs.1, hgrow.2.1.trans hs.2⟩, hgrow.2.2, ?_⟩
    intro tri n htri hn hobt
    have hnmem : n ∈ [0, 1, 2] := by
      simp only [List.mem_cons, List.mem_singleton, List.not_mem_nil, or_false]
      omega
    exact heach n hnmem hn tri htri hobt
  unfold processObtuse at h
  obtain ⟨-, -, heach⟩ := Outcome.forEach_ok_each
    (fun t : Grid2Dui α => t.nodes = g.nodes ∧ t.triangles = g.triangles)
    (fun (ntri : Nat) (t : Grid2Dui α) => ∀ tri n, g.triangles[ntri]? = some tri → n < 3 →
      tri.a.get n > pi / 2 → ∃ vn, (ntri, vn) ∈ t.virtualNodes)
    (fun ntri g1 => Outcome.forEach (processVertex acos pi dist ntri) [0, 1, 2] g1)
    (fun ntri t t1 ht hrun => (hinner ntri t t1 ht hrun).1)
    (fun ntri t t1 ht hrun => (hinner ntri t t1 ht hrun).2.2)
    (by
      intro x y t t1 ht hrun hq tri n htri hn hobt
      obtain ⟨vn, hvn⟩ := hq tri n htri hn hobt
      obtain ⟨l, hl⟩ := (hinner y t t1 ht hrun).2.1
      exact ⟨vn, by rw [hl]; exact List.mem_append_left _ hvn⟩)
    (List.range g.triangles.length) g g1 ⟨rfl, rfl⟩ h
  intro ntri tri n htri hn hobt
  have hlt : ntri < g.triangles.length := (List.getElem?_eq_some_iff.1 htri).1
  obtain ⟨vn, hvn⟩ := heach ntri (List.mem_range.2 hlt) tri n htri hn hobt
  exact lookup_ne_none_of_mem ntri vn _ hvn

end MissingEntry

section MissingEntryExamples

end MissingEntryExamples

end ttcr
